import Mathlib

/-!
# Shared-memory module manager of sysrepo (`src/shm_mod.c`)

A shallow embedding of the mod-info builder (`sr_modinfo_add_mod_with_deps`,
`sr_shmmod_collect_edit`), of the lock coordinator (`sr_shmmod_lock`,
`sr_shmmod_unlock`, `sr_shmmod_multilock`, `sr_shmmod_multirelock`,
`sr_shmmod_multiunlock`), of the diff of an edit, validation and storing
(`sr_shmmod_create_diff`, `sr_modinfo_add_instid_deps`, `sr_shmmod_validate`,
`sr_shmmod_store`) and of the subscription tables
(`sr_shmmod_subscription`), with a model of the RPC sender that the test
`test_multi_fail` exercises, followed by the properties proved about them.

Conventions of the embedding:
* a pointer to a module record (`sr_mod_t *`) is the record together with its
  offset `off` in the shared segment; pointer equality is equality of `off`;
* a module name is a number (its offset in the segment); looking a module up by
  its name string or by its name offset is the same lookup;
* C `int` flags (`wr`, `applying_changes`, `upgrade`) are `Bool`;
* allocation is assumed to succeed (the `SR_ERR_NOMEM` returns are not modelled);
* loop counters are natural numbers (the source uses `uint16_t`/`uint32_t`; the
  embedding is exact while a mod-info has fewer than 65536 entries).
-/

namespace Sysrepo

/-! ## Data model -/

/-- Error codes of the library (`sr_error_t`); only their identity matters. -/
inductive sr_error_t where
  | SR_ERR_OK
  | SR_ERR_INVAL_ARG
  | SR_ERR_NOMEM
  | SR_ERR_NOT_FOUND
  | SR_ERR_INTERNAL
  | SR_ERR_TIME_OUT
  | SR_ERR_VALIDATION_FAILED
  | SR_ERR_CALLBACK_FAILED
  | SR_ERR_BAD_ELEMENT
  deriving DecidableEq, Repr

open sr_error_t

/-- Modelled from the spec: the DEP bit of a mod-info entry state (common.h is absent);
the state is a bitset of REQ, INV_DEP, DEP, LOCK and CHANGED, and the code orders the
three types numerically as DEP < INV_DEP < REQ. -/
def MOD_INFO_DEP : Nat := 0x01

/-- Modelled from the spec: the INV_DEP bit of a mod-info entry state (common.h is absent). -/
def MOD_INFO_INV_DEP : Nat := 0x02

/-- Modelled from the spec: the REQ bit of a mod-info entry state (common.h is absent). -/
def MOD_INFO_REQ : Nat := 0x04

/-- Modelled from the spec: the mask of the three type bits (common.h is absent). -/
def MOD_INFO_TYPE_MASK : Nat := 0x07

/-- Modelled from the spec: the LOCK bit of a mod-info entry state (common.h is absent). -/
def MOD_INFO_LOCK : Nat := 0x08

/-- Modelled from the spec: the CHANGED bit of a mod-info entry state (common.h is absent). -/
def MOD_INFO_CHANGED : Nat := 0x10

/-- Modelled from the spec: the tag of an instance-identifier dependency edge
(the enumeration of edge tags is declared in a header that is absent); every
other tag is a schema reference. -/
def SR_DEP_INSTID : Nat := 1

/-- Modelled from the spec: the tag of a direct schema reference edge. -/
def SR_DEP_REF : Nat := 0

/-- A dependency edge stored in the shared segment (`sr_mod_dep_t`). -/
structure sr_mod_dep_t where
  type : Nat
  module : Nat
  xpath : Nat
  deriving DecidableEq, Repr

/-- A module record of the shared segment (`sr_mod_t`): `off` is the offset of the
record (the value of a pointer to it), `name` the offset of its name, `deps` the
dependency array (`deps`, `dep_count`). -/
structure sr_mod_t where
  off : Nat
  name : Nat
  deps : List sr_mod_dep_t
  deriving DecidableEq, Repr

/-- The part of a connection (`sr_conn_ctx_t`) the module manager reads: the module
records of the main shared segment in list order, and the names of the modules the
schema context knows. -/
structure sr_conn_ctx_t where
  shm : List sr_mod_t
  ly_ctx : List Nat
  deriving DecidableEq, Repr

/-- A data node (`struct lyd_node`) of an edit, of a data tree or of a diff; `module` is
the name of the schema module that `lyd_node_module` returns for it and `value` is, for
a leaf, the string `sr_ly_leaf_value_str` returns (strings are numbers here). A pointer to
the first of a chain of sibling nodes is the list of the siblings, and `NULL` is the
empty list. -/
structure lyd_node where
  module : Nat
  value : Nat := 0
  deriving DecidableEq, Repr

/-- An entry of a mod-info (`struct sr_mod_info_mod_s`): the pointer to the module
record, the state bits, the schema module and the data tree of the module
(`mod_data`, `NULL` in an entry that was just added). -/
structure sr_mod_info_mod_s where
  shm_mod : Nat
  state : Nat
  ly_mod : Nat
  mod_data : List lyd_node := []
  deriving DecidableEq, Repr

/-- A mod-info (`struct sr_mod_info_s`): `mod_count` is the length of `mods`; `diff` is
the merged diff of the transaction and `dflt_change` its default-change flag. -/
structure sr_mod_info_s where
  ds : Nat
  conn : sr_conn_ctx_t
  mods : List sr_mod_info_mod_s
  diff : List lyd_node := []
  dflt_change : Bool := false
  deriving DecidableEq, Repr

/-! ## External collaborators -/

/-- Modelled from the spec: sr_shmmain_find_module (defined in shm_main.c, absent):
a linear lookup of the module record with the given name in the module index. -/
def sr_shmmain_find_module (shm : List sr_mod_t) (name : Nat) : Option sr_mod_t :=
  shm.find? (fun m => m.name == name)

/-- Modelled from the spec: ly_ctx_get_module of the schema library: the schema
module with the given name when the context has it implemented. -/
def ly_ctx_get_module (ly_ctx : List Nat) (name : Nat) : Option Nat :=
  if name ∈ ly_ctx then some name else none

/-! ## Mod-info builder -/

/-- The search loop at the head of `sr_modinfo_add_mod_with_deps`: index and entry of
the first entry whose `shm_mod` is the given pointer. -/
def sr_modinfo_find : List sr_mod_info_mod_s → Nat → Option (Nat × sr_mod_info_mod_s)
  | [], _ => none
  | e :: rest, shm_mod =>
    if e.shm_mod = shm_mod then some (0, e)
    else (sr_modinfo_find rest shm_mod).map (fun p => (p.1 + 1, p.2))

/-- The read `mod_info->mods[cur_i].state`. -/
def sr_modinfo_state_at (mods : List sr_mod_info_mod_s) (cur_i : Nat) : Nat :=
  match mods[cur_i]? with
  | some e => e.state
  | none => 0

/-- The slot that `sr_realloc` appends; its content is indeterminate in C and is
overwritten at once unless the entry found had no type bit at all. -/
def sr_modinfo_uninit : sr_mod_info_mod_s := { shm_mod := 0, state := 0, ly_mod := 0 }

/-- The loop over the dependency array of `shm_mod` (source lines 105-123), with the
recursive call abstracted as `call`. -/
def sr_modinfo_add_deps
    (call : sr_mod_t → Nat → Nat → List sr_mod_info_mod_s →
      Option (sr_error_t × List sr_mod_info_mod_s))
    (conn : sr_conn_ctx_t) :
    List sr_mod_dep_t → List sr_mod_info_mod_s → Option (sr_error_t × List sr_mod_info_mod_s)
  | [], mods => some (SR_ERR_OK, mods)
  | d :: rest, mods =>
    if d.type = SR_DEP_INSTID then sr_modinfo_add_deps call conn rest mods
    else
      match sr_shmmain_find_module conn.shm d.module with
      | none => some (SR_ERR_INTERNAL, mods)
      | some dep_mod =>
        match ly_ctx_get_module conn.ly_ctx dep_mod.name with
        | none => some (SR_ERR_INTERNAL, mods)
        | some ly_mod =>
          match call dep_mod ly_mod MOD_INFO_DEP mods with
          | none => none
          | some (ret, mods1) =>
            if ret ≠ SR_ERR_OK then some (ret, mods1)
            else sr_modinfo_add_deps call conn rest mods1

/-- The inner loop of the inverse-dependency scan (source lines 136-147): the edges of
one module `dep_mod` of the index, compared with the name of `shm_mod`. -/
def sr_modinfo_add_inv_deps_mod
    (call : sr_mod_t → Nat → Nat → List sr_mod_info_mod_s →
      Option (sr_error_t × List sr_mod_info_mod_s))
    (conn : sr_conn_ctx_t) (shm_mod dep_mod : sr_mod_t) :
    List sr_mod_dep_t → List sr_mod_info_mod_s → Option (sr_error_t × List sr_mod_info_mod_s)
  | [], mods => some (SR_ERR_OK, mods)
  | d :: rest, mods =>
    if d.module = shm_mod.name then
      match ly_ctx_get_module conn.ly_ctx dep_mod.name with
      | none => some (SR_ERR_INTERNAL, mods)
      | some ly_mod =>
        match call dep_mod ly_mod MOD_INFO_INV_DEP mods with
        | none => none
        | some (ret, mods1) =>
          if ret ≠ SR_ERR_OK then some (ret, mods1)
          else sr_modinfo_add_inv_deps_mod call conn shm_mod dep_mod rest mods1
    else sr_modinfo_add_inv_deps_mod call conn shm_mod dep_mod rest mods

/-- The outer loop of the inverse-dependency scan (source lines 133-148): every module
of the index in `sr_shmmain_getnext` order. -/
def sr_modinfo_add_inv_deps
    (call : sr_mod_t → Nat → Nat → List sr_mod_info_mod_s →
      Option (sr_error_t × List sr_mod_info_mod_s))
    (conn : sr_conn_ctx_t) (shm_mod : sr_mod_t) :
    List sr_mod_t → List sr_mod_info_mod_s → Option (sr_error_t × List sr_mod_info_mod_s)
  | [], mods => some (SR_ERR_OK, mods)
  | dep_mod :: rest, mods =>
    match sr_modinfo_add_inv_deps_mod call conn shm_mod dep_mod dep_mod.deps mods with
    | none => none
    | some (ret, mods1) =>
      if ret ≠ SR_ERR_OK then some (ret, mods1)
      else sr_modinfo_add_inv_deps call conn shm_mod rest mods1

/-- The step "add it" of `sr_modinfo_add_mod_with_deps` (source lines 80-95): when the
module had no type yet, the vector grows by one slot and the slot `cur_i` is filled. -/
def sr_modinfo_add_new (shm_mod : sr_mod_t) (ly_mod mod_type prev_mod_type cur_i : Nat)
    (mods : List sr_mod_info_mod_s) : List sr_mod_info_mod_s :=
  if prev_mod_type < MOD_INFO_DEP then
    (mods ++ [sr_modinfo_uninit]).set cur_i
      { shm_mod := shm_mod.off, state := mod_type, ly_mod := ly_mod }
  else mods

/-- The rest of `sr_modinfo_add_mod_with_deps` (source lines 97-151): the dependencies and
the inverse dependencies of the entry at `cur_i`, with the recursive call abstracted as
`call`. -/
def sr_modinfo_add_closure
    (call : sr_mod_t → Nat → Nat → List sr_mod_info_mod_s →
      Option (sr_error_t × List sr_mod_info_mod_s))
    (conn : sr_conn_ctx_t) (shm_mod : sr_mod_t) (prev_mod_type cur_i : Nat)
    (mods : List sr_mod_info_mod_s) : Option (sr_error_t × List sr_mod_info_mod_s) :=
  if sr_modinfo_state_at mods cur_i < MOD_INFO_INV_DEP then some (SR_ERR_OK, mods)
  else
    match (if prev_mod_type < MOD_INFO_INV_DEP then
        sr_modinfo_add_deps call conn shm_mod.deps mods
      else some (SR_ERR_OK, mods)) with
    | none => none
    | some (ret, mods1) =>
      if ret ≠ SR_ERR_OK then some (ret, mods1)
      else if sr_modinfo_state_at mods1 cur_i < MOD_INFO_REQ then some (SR_ERR_OK, mods1)
      else if prev_mod_type < MOD_INFO_REQ then
        sr_modinfo_add_inv_deps call conn shm_mod conn.shm mods1
      else some (SR_ERR_OK, mods1)

/-- The function `sr_modinfo_add_mod_with_deps` (source lines 54-152). The first argument
bounds the depth of the recursion; `none` means the bound was reached. The result is
the return code and the vector `mod_info->mods` at the return. The assertion on
`mod_type` is a precondition: callers pass DEP, INV_DEP or REQ. -/
def sr_modinfo_add_mod_with_deps (conn : sr_conn_ctx_t) :
    Nat → sr_mod_t → Nat → Nat → List sr_mod_info_mod_s →
      Option (sr_error_t × List sr_mod_info_mod_s)
  | 0, _, _, _, _ => none
  | fuel + 1, shm_mod, ly_mod, mod_type, mods =>
    match sr_modinfo_find mods shm_mod.off with
    | some (i, e) =>
      if (e.state &&& MOD_INFO_TYPE_MASK) < mod_type then
        sr_modinfo_add_closure (sr_modinfo_add_mod_with_deps conn fuel) conn shm_mod e.state i
          (sr_modinfo_add_new shm_mod ly_mod mod_type e.state i
            (mods.set i { e with state := mod_type }))
      else some (SR_ERR_OK, mods)
    | none =>
      sr_modinfo_add_closure (sr_modinfo_add_mod_with_deps conn fuel) conn shm_mod 0 mods.length
        (sr_modinfo_add_new shm_mod ly_mod mod_type 0 mods.length mods)

/-- The comparator `sr_modinfo_qsort_cmp` (source lines 154-169). -/
def sr_modinfo_qsort_cmp (mod1 mod2 : sr_mod_info_mod_s) : Int :=
  if mod1.shm_mod > mod2.shm_mod then 1
  else if mod1.shm_mod < mod2.shm_mod then -1
  else 0

/-- The library call `qsort` with the comparator `sr_modinfo_qsort_cmp`: a sort of the
vector in which `a` may stand before `b` when the comparator does not return a
positive number. -/
def qsort_mods (mods : List sr_mod_info_mod_s) : List sr_mod_info_mod_s :=
  mods.insertionSort (fun a b => sr_modinfo_qsort_cmp a b ≤ 0)

/-- The loop over the root nodes of the edit in `sr_shmmod_collect_edit` (source lines
183-198); `mod` is the module of the previous root. -/
def sr_shmmod_collect_edit_roots (fuel : Nat) (conn : sr_conn_ctx_t) :
    List lyd_node → Option Nat → List sr_mod_info_mod_s →
      Option (sr_error_t × List sr_mod_info_mod_s)
  | [], _, mods => some (SR_ERR_OK, mods)
  | root :: rest, mod, mods =>
    if some root.module = mod then sr_shmmod_collect_edit_roots fuel conn rest mod mods
    else
      match sr_shmmain_find_module conn.shm root.module with
      | none => some (SR_ERR_INTERNAL, mods)
      | some shm_mod =>
        match sr_modinfo_add_mod_with_deps conn fuel shm_mod root.module MOD_INFO_REQ mods with
        | none => none
        | some (ret, mods1) =>
          if ret ≠ SR_ERR_OK then some (ret, mods1)
          else sr_shmmod_collect_edit_roots fuel conn rest (some root.module) mods1

/-- The function `sr_shmmod_collect_edit` (source lines 171-204); `fuel` bounds the depth of
the recursion of `sr_modinfo_add_mod_with_deps` and `none` means the bound was reached. -/
def sr_shmmod_collect_edit (fuel : Nat) (conn : sr_conn_ctx_t) (edit : List lyd_node) (ds : Nat)
    (mod_info : sr_mod_info_s) : Option (sr_error_t × sr_mod_info_s) :=
  match sr_shmmod_collect_edit_roots fuel conn edit none mod_info.mods with
  | none => none
  | some (ret, mods1) =>
    if ret ≠ SR_ERR_OK then some (ret, { mod_info with ds := ds, conn := conn, mods := mods1 })
    else some (SR_ERR_OK, { mod_info with ds := ds, conn := conn, mods := qsort_mods mods1 })

/-! ## Predicates used to state the properties of the mod-info builder -/

/-- State of the entry for the module record at `off`, 0 when it has no entry. -/
def sr_modinfo_state_of (mods : List sr_mod_info_mod_s) (off : Nat) : Nat :=
  match sr_modinfo_find mods off with
  | some p => p.2.state
  | none => 0

/-- Every entry stands for a different module record and carries exactly one type. -/
def ModsTyped (mods : List sr_mod_info_mod_s) : Prop :=
  (mods.map (fun e => e.shm_mod)).Nodup ∧
    ∀ e ∈ mods, e.state = MOD_INFO_DEP ∨ e.state = MOD_INFO_INV_DEP ∨ e.state = MOD_INFO_REQ

/-- Entries keep their position and their module. -/
def ModsExt (mods mods1 : List sr_mod_info_mod_s) : Prop :=
  ∀ (i : Nat) (e : sr_mod_info_mod_s), mods[i]? = some e →
    ∃ e1 : sr_mod_info_mod_s, mods1[i]? = some e1 ∧ e1.shm_mod = e.shm_mod

/-- What a call that only appends DEP entries does to a typed vector. -/
structure DepStep (mods mods1 : List sr_mod_info_mod_s) : Prop where
  typed : ModsTyped mods1
  ext : ModsExt mods mods1
  change : ∀ o, sr_modinfo_state_of mods1 o = sr_modinfo_state_of mods o ∨
    (sr_modinfo_state_of mods o = 0 ∧ sr_modinfo_state_of mods1 o = MOD_INFO_DEP)

/-- Distinct module records of the index lie at distinct offsets. -/
def ShmDistinct (shm : List sr_mod_t) : Prop :=
  ∀ a ∈ shm, ∀ b ∈ shm, a.off = b.off → a = b

/-- Every index module whose entry is INV_DEP or REQ has the targets of its
non-instance-identifier edges in the vector. -/
def DepsClosed (conn : sr_conn_ctx_t) (mods : List sr_mod_info_mod_s) : Prop :=
  ∀ M ∈ conn.shm, MOD_INFO_INV_DEP ≤ sr_modinfo_state_of mods M.off →
    ∀ d ∈ M.deps, d.type ≠ SR_DEP_INSTID →
      ∀ T, sr_shmmain_find_module conn.shm d.module = some T →
        MOD_INFO_DEP ≤ sr_modinfo_state_of mods T.off

/-- Every index module whose entry is REQ has the modules with an edge to it in the
vector as INV_DEP or REQ. -/
def InvClosed (conn : sr_conn_ctx_t) (mods : List sr_mod_info_mod_s) : Prop :=
  ∀ M ∈ conn.shm, sr_modinfo_state_of mods M.off = MOD_INFO_REQ →
    ∀ D ∈ conn.shm, (∃ d ∈ D.deps, d.module = M.name) →
      MOD_INFO_INV_DEP ≤ sr_modinfo_state_of mods D.off

/-- What a call with type INV_DEP does to a typed vector. -/
structure InvStep (conn : sr_conn_ctx_t) (mods mods1 : List sr_mod_info_mod_s) : Prop where
  typed : ModsTyped mods1
  ext : ModsExt mods mods1
  mono : ∀ o, sr_modinfo_state_of mods o ≤ sr_modinfo_state_of mods1 o
  req_same : ∀ o, sr_modinfo_state_of mods1 o = MOD_INFO_REQ →
    sr_modinfo_state_of mods o = MOD_INFO_REQ
  closed : ShmDistinct conn.shm → DepsClosed conn mods → DepsClosed conn mods1

/-- Dependency through a non-instance-identifier edge: `a` has such an edge that
`sr_shmmain_find_module` resolves to `b`. -/
def schema_dep (conn : sr_conn_ctx_t) (a b : sr_mod_t) : Prop :=
  ∃ d ∈ a.deps, d.type ≠ SR_DEP_INSTID ∧ sr_shmmain_find_module conn.shm d.module = some b

/-! ## The calls of the mod-info builder

To count the recursive calls of `sr_modinfo_add_mod_with_deps`, the functions of the builder
are given a second time with a log: the instrumented functions run the same statements
and return, with the result, the list of the calls that did not return at the check
"already there", each as the offset of the module record and the type that was asked
for, in the order in which the calls were entered.
-/

/-- What a call of `sr_modinfo_add_mod_with_deps` with the type `t` does to a typed vector,
whatever it returns: the entries keep their position and their module, no type is
lowered, and no type is raised above `t`. -/
structure GStep (t : Nat) (mods mods1 : List sr_mod_info_mod_s) : Prop where
  typed : ModsTyped mods1
  ext : ModsExt mods mods1
  mono : ∀ o, sr_modinfo_state_of mods o ≤ sr_modinfo_state_of mods1 o
  bound : ∀ o, sr_modinfo_state_of mods1 o ≤ max (sr_modinfo_state_of mods o) t

/-- The rank of a type in the order DEP < INV_DEP < REQ; a module without an entry has
the rank 0. -/
def type_rank (state : Nat) : Nat := if MOD_INFO_REQ ≤ state then 3 else state

/-- The number of logged calls on the module record at `off`. -/
def calls_on (off : Nat) (log : List (Nat × Nat)) : Nat :=
  (log.filter (fun c => c.1 == off)).length

/-- The loop `sr_modinfo_add_deps` with the log of the calls. -/
def sr_modinfo_add_deps_log
    (call : sr_mod_t → Nat → Nat → List sr_mod_info_mod_s →
      Option (sr_error_t × List sr_mod_info_mod_s × List (Nat × Nat)))
    (conn : sr_conn_ctx_t) :
    List sr_mod_dep_t → List sr_mod_info_mod_s →
      Option (sr_error_t × List sr_mod_info_mod_s × List (Nat × Nat))
  | [], mods => some (SR_ERR_OK, mods, [])
  | d :: rest, mods =>
    if d.type = SR_DEP_INSTID then sr_modinfo_add_deps_log call conn rest mods
    else
      match sr_shmmain_find_module conn.shm d.module with
      | none => some (SR_ERR_INTERNAL, mods, [])
      | some dep_mod =>
        match ly_ctx_get_module conn.ly_ctx dep_mod.name with
        | none => some (SR_ERR_INTERNAL, mods, [])
        | some ly_mod =>
          match call dep_mod ly_mod MOD_INFO_DEP mods with
          | none => none
          | some (ret, mods1, log) =>
            if ret ≠ SR_ERR_OK then some (ret, mods1, log)
            else (sr_modinfo_add_deps_log call conn rest mods1).map
              (fun r => (r.1, r.2.1, log ++ r.2.2))

/-- The loop `sr_modinfo_add_inv_deps_mod` with the log of the calls. -/
def sr_modinfo_add_inv_deps_mod_log
    (call : sr_mod_t → Nat → Nat → List sr_mod_info_mod_s →
      Option (sr_error_t × List sr_mod_info_mod_s × List (Nat × Nat)))
    (conn : sr_conn_ctx_t) (shm_mod dep_mod : sr_mod_t) :
    List sr_mod_dep_t → List sr_mod_info_mod_s →
      Option (sr_error_t × List sr_mod_info_mod_s × List (Nat × Nat))
  | [], mods => some (SR_ERR_OK, mods, [])
  | d :: rest, mods =>
    if d.module = shm_mod.name then
      match ly_ctx_get_module conn.ly_ctx dep_mod.name with
      | none => some (SR_ERR_INTERNAL, mods, [])
      | some ly_mod =>
        match call dep_mod ly_mod MOD_INFO_INV_DEP mods with
        | none => none
        | some (ret, mods1, log) =>
          if ret ≠ SR_ERR_OK then some (ret, mods1, log)
          else (sr_modinfo_add_inv_deps_mod_log call conn shm_mod dep_mod rest mods1).map
            (fun r => (r.1, r.2.1, log ++ r.2.2))
    else sr_modinfo_add_inv_deps_mod_log call conn shm_mod dep_mod rest mods

/-- The loop `sr_modinfo_add_inv_deps` with the log of the calls. -/
def sr_modinfo_add_inv_deps_log
    (call : sr_mod_t → Nat → Nat → List sr_mod_info_mod_s →
      Option (sr_error_t × List sr_mod_info_mod_s × List (Nat × Nat)))
    (conn : sr_conn_ctx_t) (shm_mod : sr_mod_t) :
    List sr_mod_t → List sr_mod_info_mod_s →
      Option (sr_error_t × List sr_mod_info_mod_s × List (Nat × Nat))
  | [], mods => some (SR_ERR_OK, mods, [])
  | dep_mod :: rest, mods =>
    match sr_modinfo_add_inv_deps_mod_log call conn shm_mod dep_mod dep_mod.deps mods with
    | none => none
    | some (ret, mods1, log) =>
      if ret ≠ SR_ERR_OK then some (ret, mods1, log)
      else (sr_modinfo_add_inv_deps_log call conn shm_mod rest mods1).map
        (fun r => (r.1, r.2.1, log ++ r.2.2))

/-- The statements `sr_modinfo_add_closure` with the log of the calls. -/
def sr_modinfo_add_closure_log
    (call : sr_mod_t → Nat → Nat → List sr_mod_info_mod_s →
      Option (sr_error_t × List sr_mod_info_mod_s × List (Nat × Nat)))
    (conn : sr_conn_ctx_t) (shm_mod : sr_mod_t) (prev_mod_type cur_i : Nat)
    (mods : List sr_mod_info_mod_s) :
    Option (sr_error_t × List sr_mod_info_mod_s × List (Nat × Nat)) :=
  if sr_modinfo_state_at mods cur_i < MOD_INFO_INV_DEP then some (SR_ERR_OK, mods, [])
  else
    match (if prev_mod_type < MOD_INFO_INV_DEP then
        sr_modinfo_add_deps_log call conn shm_mod.deps mods
      else some (SR_ERR_OK, mods, [])) with
    | none => none
    | some (ret, mods1, log) =>
      if ret ≠ SR_ERR_OK then some (ret, mods1, log)
      else if sr_modinfo_state_at mods1 cur_i < MOD_INFO_REQ then some (SR_ERR_OK, mods1, log)
      else if prev_mod_type < MOD_INFO_REQ then
        (sr_modinfo_add_inv_deps_log call conn shm_mod conn.shm mods1).map
          (fun r => (r.1, r.2.1, log ++ r.2.2))
      else some (SR_ERR_OK, mods1, log)

/-- The function `sr_modinfo_add_mod_with_deps` with the log of the calls: a call that
passes the check "already there" is logged when it is entered. -/
def sr_modinfo_add_mod_with_deps_log (conn : sr_conn_ctx_t) :
    Nat → sr_mod_t → Nat → Nat → List sr_mod_info_mod_s →
      Option (sr_error_t × List sr_mod_info_mod_s × List (Nat × Nat))
  | 0, _, _, _, _ => none
  | fuel + 1, shm_mod, ly_mod, mod_type, mods =>
    match sr_modinfo_find mods shm_mod.off with
    | some (i, e) =>
      if (e.state &&& MOD_INFO_TYPE_MASK) < mod_type then
        (sr_modinfo_add_closure_log (sr_modinfo_add_mod_with_deps_log conn fuel) conn shm_mod
          e.state i
          (sr_modinfo_add_new shm_mod ly_mod mod_type e.state i
            (mods.set i { e with state := mod_type }))).map
          (fun r => (r.1, r.2.1, (shm_mod.off, mod_type) :: r.2.2))
      else some (SR_ERR_OK, mods, [])
    | none =>
      (sr_modinfo_add_closure_log (sr_modinfo_add_mod_with_deps_log conn fuel) conn shm_mod
        0 mods.length
        (sr_modinfo_add_new shm_mod ly_mod mod_type 0 mods.length mods)).map
        (fun r => (r.1, r.2.1, (shm_mod.off, mod_type) :: r.2.2))

/-- The result of an instrumented function without its log. -/
def drop_log (r : Option (sr_error_t × List sr_mod_info_mod_s × List (Nat × Nat))) :
    Option (sr_error_t × List sr_mod_info_mod_s) :=
  r.map (fun x => (x.1, x.2.1))

/-- The logged calls are paid for by raised types: for every module record, the number of
logged calls on it is at most the number of ranks its type has gained. -/
def CallsBounded (mods : List sr_mod_info_mod_s) (log : List (Nat × Nat))
    (mods1 : List sr_mod_info_mod_s) : Prop :=
  ∀ o, calls_on o log + type_rank (sr_modinfo_state_of mods o)
    ≤ type_rank (sr_modinfo_state_of mods1 o)

/-! ## The content of a collected mod-info

The type that the property of `sr_shmmod_collect_edit` gives every module of the index, in
the words of the property, and the invariant of the builder that every entry has a
reason to be in the vector.
-/

/-- The set P: the modules of the root nodes of the edit. -/
def edit_modules (conn : sr_conn_ctx_t) (edit : List lyd_node) : List sr_mod_t :=
  edit.filterMap (fun root => sr_shmmain_find_module conn.shm root.module)

/-- The module `D` has a dependency edge, of any tag, whose target is the module `M`. -/
def refers_to (D M : sr_mod_t) : Bool := D.deps.any (fun d => d.module == M.name)

/-- The module `S` has an edge that is no instance-identifier and whose target is `T`. -/
def has_schema_dep (conn : sr_conn_ctx_t) (S T : sr_mod_t) : Bool :=
  S.deps.any (fun d => d.type != SR_DEP_INSTID && sr_shmmain_find_module conn.shm d.module == some T)

/-- The module is in P or has an edge to a module of P: the property gives it the type REQ
or INV_DEP. -/
def collected_high (conn : sr_conn_ctx_t) (edit : List lyd_node) (S : sr_mod_t) : Bool :=
  decide (S ∈ edit_modules conn edit) || (edit_modules conn edit).any (fun R => refers_to S R)

/-- The type the property gives the module `M` of the index: REQ for a module of P,
INV_DEP for a module outside P with an edge to a module of P, DEP for a remaining
module that is the target of a non-instance-identifier edge of a module with one of
these two types, and 0 for a module that is not to be in the mod-info. -/
def expected_type (conn : sr_conn_ctx_t) (edit : List lyd_node) (M : sr_mod_t) : Nat :=
  if M ∈ edit_modules conn edit then MOD_INFO_REQ
  else if (edit_modules conn edit).any (fun R => refers_to M R) then MOD_INFO_INV_DEP
  else if conn.shm.any (fun S => collected_high conn edit S && has_schema_dep conn S M) then
    MOD_INFO_DEP
  else 0

/-- The entry at the offset `o` has a reason: it stands for a module of the index; if it is
REQ the module was asked for (`P`), if it is INV_DEP the module has an edge to a module
whose entry is REQ, and if it is DEP the module is the target of a
non-instance-identifier edge of a module whose entry is INV_DEP or REQ. -/
def JustAt (conn : sr_conn_ctx_t) (P : sr_mod_t → Prop) (mods : List sr_mod_info_mod_s)
    (o : Nat) : Prop :=
  ∃ M ∈ conn.shm, M.off = o ∧
    (sr_modinfo_state_of mods o = MOD_INFO_REQ → P M) ∧
    (sr_modinfo_state_of mods o = MOD_INFO_INV_DEP →
      ∃ R ∈ conn.shm, sr_modinfo_state_of mods R.off = MOD_INFO_REQ ∧
        ∃ d ∈ M.deps, d.module = R.name) ∧
    (sr_modinfo_state_of mods o = MOD_INFO_DEP →
      ∃ S ∈ conn.shm, MOD_INFO_INV_DEP ≤ sr_modinfo_state_of mods S.off ∧ schema_dep conn S M)

/-- Every entry of the vector has a reason. -/
def Justified (conn : sr_conn_ctx_t) (P : sr_mod_t → Prop) (mods : List sr_mod_info_mod_s) :
    Prop :=
  ∀ o, 0 < sr_modinfo_state_of mods o → JustAt conn P mods o

/-- The call of `sr_modinfo_add_mod_with_deps` for the module `X` with the type `t` has a reason
in the vector `mods`. -/
def CallJustified (conn : sr_conn_ctx_t) (P : sr_mod_t → Prop) (mods : List sr_mod_info_mod_s)
    (X : sr_mod_t) (t : Nat) : Prop :=
  X ∈ conn.shm ∧
    (t = MOD_INFO_REQ → P X) ∧
    (t = MOD_INFO_INV_DEP →
      ∃ R ∈ conn.shm, sr_modinfo_state_of mods R.off = MOD_INFO_REQ ∧
        ∃ d ∈ X.deps, d.module = R.name) ∧
    (t = MOD_INFO_DEP →
      ∃ S ∈ conn.shm, MOD_INFO_INV_DEP ≤ sr_modinfo_state_of mods S.off ∧ schema_dep conn S X)

/-! ## Lock coordinator

The module locks and the `applying_changes` flags live in the shared segment and are
shared with other processes. The embedding threads a `LockWorld` through the calls:
the flags, the locks this transaction holds, and a log of what the transaction did.
What the other processes do is an input: the `n`-th call of `sr_shmmod_lock` gets
the response `env n`, which fixes the outcome of the timed lock and the flag writes
other processes made up to the moment the call returns.
-/

/-- The errno value the timed lock functions return when the deadline passes. -/
def ETIMEDOUT : Nat := 110

/-- One step in the log of the transaction. -/
inductive LockEv where
  | lock (shm_mod ds : Nat) (wr : Bool) (ret : sr_error_t)
  | unlock (shm_mod ds : Nat)
  | set_applying (shm_mod ds : Nat) (v : Bool)
  | msleep
  | log_errint
  deriving DecidableEq, Repr

/-- What the rest of the system does during one call of `sr_shmmod_lock`: whether
`clock_gettime` succeeds, the value the timed lock function returns, and the writes
`(module, datastore, value)` other processes make to `applying_changes` flags before
the call returns. -/
structure LockResp where
  clock_ok : Bool
  ret : Nat
  writes : List (Nat × Nat × Bool)
  deriving DecidableEq, Repr

/-- A call of `sr_shmmod_lock` as the transaction saw it: the lock asked for and the
locks `(module, datastore, write)` the transaction held at that moment. -/
structure LockReq where
  shm_mod : Nat
  ds : Nat
  wr : Bool
  held : List (Nat × Nat × Bool)
  deriving DecidableEq, Repr

/-- The state the lock coordinator works on: `applying_changes m ds` is the flag
`sub_info[ds].applying_changes` of the module record at `m`; `held` lists the locks
`(module, datastore, write)` this transaction holds, the latest first; `calls` counts the
calls of `sr_shmmod_lock`; `trace` and `requests` log what the transaction did. -/
structure LockWorld where
  applying_changes : Nat → Nat → Bool
  held : List (Nat × Nat × Bool)
  calls : Nat
  trace : List LockEv
  requests : List LockReq

/-- The flags after the writes of other processes, applied in order. -/
def env_writes : List (Nat × Nat × Bool) → (Nat → Nat → Bool) → Nat → Nat → Bool
  | [], f => f
  | (m, ds, v) :: rest, f =>
    env_writes rest (fun m1 ds1 => if m1 = m ∧ ds1 = ds then v else f m1 ds1)

/-- The return code of `sr_shmmod_lock` (source lines 20-40) for a response of the system. -/
def lock_result (r : LockResp) : sr_error_t :=
  if r.clock_ok = false then SR_ERR_INTERNAL
  else if r.ret = 0 then SR_ERR_OK
  else if r.ret = ETIMEDOUT then SR_ERR_TIME_OUT
  else SR_ERR_INTERNAL

/-- The function `sr_shmmod_lock` (source lines 14-41). -/
def sr_shmmod_lock (env : Nat → LockResp) (shm_mod ds : Nat) (wr : Bool) (w : LockWorld) :
    sr_error_t × LockWorld :=
  let r := env w.calls
  let ret := lock_result r
  (ret,
    { applying_changes := env_writes r.writes w.applying_changes
      held := if ret = SR_ERR_OK then (shm_mod, ds, wr) :: w.held else w.held
      calls := w.calls + 1
      trace := w.trace ++ [LockEv.lock shm_mod ds wr ret]
      requests := w.requests ++ [{ shm_mod := shm_mod, ds := ds, wr := wr, held := w.held }] })

/-- The locks held after `pthread_rwlock_unlock` on the lock of `(shm_mod, ds)`: the latest
lock held on it is released; nothing changes when none is held. -/
def release_lock (shm_mod ds : Nat) : List (Nat × Nat × Bool) → List (Nat × Nat × Bool)
  | [] => []
  | h :: rest =>
    if h.1 = shm_mod ∧ h.2.1 = ds then rest else h :: release_lock shm_mod ds rest

/-- The function `sr_shmmod_unlock` (source lines 43-52). -/
def sr_shmmod_unlock (shm_mod ds : Nat) (w : LockWorld) : LockWorld :=
  { w with held := release_lock shm_mod ds w.held
           trace := w.trace ++ [LockEv.unlock shm_mod ds] }

/-- A write of the flag `shm_mod->sub_info[ds].applying_changes`. -/
def set_applying_changes (shm_mod ds : Nat) (v : Bool) (w : LockWorld) : LockWorld :=
  { w with applying_changes :=
             fun m1 ds1 => if m1 = shm_mod ∧ ds1 = ds then v else w.applying_changes m1 ds1
           trace := w.trace ++ [LockEv.set_applying shm_mod ds v] }

/-- The call `sr_msleep(SR_SUB_COMMIT_STEP_TIMEOUT)`. -/
def sr_msleep (w : LockWorld) : LockWorld :=
  { w with trace := w.trace ++ [LockEv.msleep] }

/-- The macro `SR_LOG_ERRINT`. -/
def sr_log_errint (w : LockWorld) : LockWorld :=
  { w with trace := w.trace ++ [LockEv.log_errint] }

/-- The loop `while (steps)` of `sr_shmmod_multilock` (source lines 293-307). The result is
the code to return (SR_ERR_OK when the loop was left by `break` or by `steps` reaching 0),
the value of `steps` after the loop, and the world. -/
def sr_shmmod_multilock_steps (env : Nat → LockResp) (shm_mod ds : Nat)
    (mod_wr applying_changes : Bool) : Nat → LockWorld → sr_error_t × Nat × LockWorld
  | 0, w => (SR_ERR_OK, 0, w)
  | steps + 1, w =>
    match sr_shmmod_lock env shm_mod ds mod_wr w with
    | (ret, w1) =>
      if ret ≠ SR_ERR_OK then (ret, steps + 1, w1)
      else if !applying_changes || !(w1.applying_changes shm_mod ds) then
        (SR_ERR_OK, steps + 1, w1)
      else
        sr_shmmod_multilock_steps env shm_mod ds mod_wr applying_changes steps
          (sr_msleep (sr_shmmod_unlock shm_mod ds w1))

/-- The mode `mod_wr` that `sr_shmmod_multilock` computes for an entry (source line 291). -/
def multilock_mod_wr (wr applying_changes : Bool) (m : sr_mod_info_mod_s) : Bool :=
  (wr || applying_changes) && (m.state &&& MOD_INFO_REQ != 0)

/-- The body of the loop over the entries in `sr_shmmod_multilock` (source lines 290-324)
for the entry `m`. `step_count` is the constant SR_SUB_COMMIT_STEP_COUNT, which is
declared in a header that is absent. -/
def sr_shmmod_multilock_mod (env : Nat → LockResp) (step_count ds : Nat)
    (wr applying_changes : Bool) (m : sr_mod_info_mod_s) (w : LockWorld) :
    sr_error_t × sr_mod_info_mod_s × LockWorld :=
  let mod_wr := multilock_mod_wr wr applying_changes m
  match sr_shmmod_multilock_steps env m.shm_mod ds mod_wr applying_changes step_count w with
  | (ret, steps, w1) =>
    if ret ≠ SR_ERR_OK then (ret, m, w1)
    else if steps = 0 then (SR_ERR_TIME_OUT, m, w1)
    else if applying_changes && mod_wr then
      match sr_shmmod_lock env m.shm_mod ds false
          (sr_shmmod_unlock m.shm_mod ds (set_applying_changes m.shm_mod ds true w1)) with
      | (ret1, w2) =>
        if ret1 ≠ SR_ERR_OK then (ret1, m, w2)
        else (SR_ERR_OK, { m with state := m.state ||| MOD_INFO_LOCK }, w2)
    else (SR_ERR_OK, { m with state := m.state ||| MOD_INFO_LOCK }, w1)

/-- The loop over the entries in `sr_shmmod_multilock` (source lines 289-325). -/
def sr_shmmod_multilock_mods (env : Nat → LockResp) (step_count ds : Nat)
    (wr applying_changes : Bool) :
    List sr_mod_info_mod_s → LockWorld → sr_error_t × List sr_mod_info_mod_s × LockWorld
  | [], w => (SR_ERR_OK, [], w)
  | m :: rest, w =>
    match sr_shmmod_multilock_mod env step_count ds wr applying_changes m w with
    | (ret, m1, w1) =>
      if ret ≠ SR_ERR_OK then (ret, m1 :: rest, w1)
      else
        match sr_shmmod_multilock_mods env step_count ds wr applying_changes rest w1 with
        | (ret1, rest1, w2) => (ret1, m1 :: rest1, w2)

/-- The function `sr_shmmod_multilock` (source lines 281-328). The assertion
`!wr || !applying_changes` is a precondition of the callers. -/
def sr_shmmod_multilock (env : Nat → LockResp) (step_count : Nat) (mod_info : sr_mod_info_s)
    (wr applying_changes : Bool) (w : LockWorld) : sr_error_t × sr_mod_info_s × LockWorld :=
  match sr_shmmod_multilock_mods env step_count mod_info.ds wr applying_changes mod_info.mods w with
  | (ret, mods1, w1) => (ret, { mod_info with mods := mods1 }, w1)

/-- The loop over the entries in `sr_shmmod_multirelock` (source lines 336-350). -/
def sr_shmmod_multirelock_mods (env : Nat → LockResp) (ds : Nat) (upgrade : Bool) :
    List sr_mod_info_mod_s → LockWorld → sr_error_t × List sr_mod_info_mod_s × LockWorld
  | [], w => (SR_ERR_OK, [], w)
  | m :: rest, w =>
    if m.state &&& (MOD_INFO_REQ ||| MOD_INFO_LOCK) = (MOD_INFO_REQ ||| MOD_INFO_LOCK) then
      if w.applying_changes m.shm_mod ds = false then
        (SR_ERR_INTERNAL, m :: rest, sr_log_errint w)
      else
        let m1 := { m with state := m.state ^^^ (m.state &&& MOD_INFO_LOCK) }
        match sr_shmmod_lock env m.shm_mod ds upgrade (sr_shmmod_unlock m.shm_mod ds w) with
        | (ret, w1) =>
          if ret ≠ SR_ERR_OK then (ret, m1 :: rest, w1)
          else
            match sr_shmmod_multirelock_mods env ds upgrade rest w1 with
            | (ret1, rest1, w2) =>
              (ret1, { m1 with state := m1.state ||| MOD_INFO_LOCK } :: rest1, w2)
    else
      match sr_shmmod_multirelock_mods env ds upgrade rest w with
      | (ret1, rest1, w2) => (ret1, m :: rest1, w2)

/-- The function `sr_shmmod_multirelock` (source lines 330-353). The statement
`state &= ~MOD_INFO_LOCK` clears the LOCK bit. -/
def sr_shmmod_multirelock (env : Nat → LockResp) (mod_info : sr_mod_info_s) (upgrade : Bool)
    (w : LockWorld) : sr_error_t × sr_mod_info_s × LockWorld :=
  match sr_shmmod_multirelock_mods env mod_info.ds upgrade mod_info.mods w with
  | (ret, mods1, w1) => (ret, { mod_info with mods := mods1 }, w1)

/-- The loop over the entries in `sr_shmmod_multiunlock` (source lines 360-370). -/
def sr_shmmod_multiunlock_mods (ds : Nat) (applying_changes : Bool) :
    List sr_mod_info_mod_s → LockWorld → LockWorld
  | [], w => w
  | m :: rest, w =>
    if m.state &&& MOD_INFO_LOCK ≠ 0 then
      let w1 :=
        if m.state &&& MOD_INFO_REQ ≠ 0 ∧ applying_changes = true then
          set_applying_changes m.shm_mod ds false
            (if w.applying_changes m.shm_mod ds = false then sr_log_errint w else w)
        else w
      sr_shmmod_multiunlock_mods ds applying_changes rest (sr_shmmod_unlock m.shm_mod ds w1)
    else sr_shmmod_multiunlock_mods ds applying_changes rest w

/-- The function `sr_shmmod_multiunlock` (source lines 355-371); the mod-info is not
changed. -/
def sr_shmmod_multiunlock (mod_info : sr_mod_info_s) (applying_changes : Bool)
    (w : LockWorld) : LockWorld :=
  sr_shmmod_multiunlock_mods mod_info.ds applying_changes mod_info.mods w

/-- The world in which no lock is held, no flag is set and nothing has happened. -/
def LockWorld.init : LockWorld :=
  { applying_changes := fun _ _ => false, held := [], calls := 0, trace := [], requests := [] }

/-- The response of a quiet system: the lock is granted and no flag is written. -/
def LockResp.granted : LockResp := { clock_ok := true, ret := 0, writes := [] }

/-- The flags after the writes other processes make during `n` calls of `sr_shmmod_lock`,
the first of which is call number `c`. -/
def env_flags (env : Nat → LockResp) : Nat → Nat → (Nat → Nat → Bool) → Nat → Nat → Bool
  | _, 0, f => f
  | c, n + 1, f => env_flags env (c + 1) n (env_writes (env c).writes f)

/-- The log of one unsuccessful round of the loop `while (steps)`: the lock is obtained,
the flag is found set, the lock is released and the transaction sleeps. -/
def retry_events (shm_mod ds : Nat) (wr : Bool) : List LockEv :=
  [LockEv.lock shm_mod ds wr SR_ERR_OK, LockEv.unlock shm_mod ds, LockEv.msleep]

/-- The log of `k` unsuccessful rounds. -/
def retry_trace (shm_mod ds : Nat) (wr : Bool) : Nat → List LockEv
  | 0 => []
  | k + 1 => retry_events shm_mod ds wr ++ retry_trace shm_mod ds wr k


/-- The world after `k` unsuccessful rounds of the loop `while (steps)` on the lock of
`(shm_mod, ds)`, started in `w`. -/
def retried_world (env : Nat → LockResp) (shm_mod ds : Nat) (wr : Bool) (k : Nat)
    (w : LockWorld) : LockWorld :=
  { applying_changes := env_flags env w.calls k w.applying_changes
    held := w.held
    calls := w.calls + k
    trace := w.trace ++ retry_trace shm_mod ds wr k
    requests := w.requests ++
      List.replicate k { shm_mod := shm_mod, ds := ds, wr := wr, held := w.held } }

/-- The mode in which `sr_shmmod_multilock` leaves the lock of an entry it locked: the mode
`mod_wr`, downgraded to a read lock when changes are being applied. -/
def multilock_final_wr (wr applying_changes : Bool) (m : sr_mod_info_mod_s) : Bool :=
  multilock_mod_wr wr applying_changes m && !applying_changes

/-- The entry with the LOCK bit set (`state |= MOD_INFO_LOCK`). -/
def set_lock_bit (m : sr_mod_info_mod_s) : sr_mod_info_mod_s :=
  { m with state := m.state ||| MOD_INFO_LOCK }

/-- The calls of `sr_shmmod_lock` that `sr_shmmod_multilock` makes when started in `w`, in
order. -/
def multilock_requests (env : Nat → LockResp) (step_count : Nat) (mod_info : sr_mod_info_s)
    (wr applying_changes : Bool) (w : LockWorld) : List LockReq :=
  (sr_shmmod_multilock env step_count mod_info wr applying_changes w).2.2.requests.drop
    w.requests.length

/-- In the list `offs` of requested modules a request on `a` stands before a request on `b`. -/
def requested_before (a b : Nat) (offs : List Nat) : Prop :=
  ∃ p q r, offs = p ++ a :: (q ++ b :: r)

/-- The requests `rs` follow the order of the vector `mods`: the offsets requested never
decrease, and the requests are on `mods[i₁]`, `mods[i₂]`, ... for indices that never
decrease. -/
def RequestsInVectorOrder (mods : List sr_mod_info_mod_s) (rs : List LockReq) : Prop :=
  (rs.map (fun q => q.shm_mod)).Pairwise (fun a b => a ≤ b) ∧
  ∃ idxs : List Nat, idxs.Pairwise (fun i j => i ≤ j) ∧ (∀ i ∈ idxs, i < mods.length) ∧
    rs.map (fun q => some q.shm_mod) = idxs.map (fun i => (mods[i]?).map (fun m => m.shm_mod))

/-- Another process wrote the flag `applying_changes` of `(shm_mod, ds)` during one of the
calls number `a ≤ n < b` of `sr_shmmod_lock`. -/
def EnvWrote (env : Nat → LockResp) (a b shm_mod ds : Nat) : Prop :=
  ∃ n, a ≤ n ∧ n < b ∧ ∃ v, (shm_mod, ds, v) ∈ (env n).writes

/-- The log of `sr_shmmod_multilock(mod_info, 0, 1)` for one entry that it locks after `k`
unsuccessful rounds: for an entry with MOD_INFO_REQ the write lock is taken, the flag is
set, the write lock is released and the read lock is taken; for any other entry the read
lock is taken and no flag is written. -/
def applying_segment (ds : Nat) (m : sr_mod_info_mod_s) (k : Nat) : List LockEv :=
  if m.state &&& MOD_INFO_REQ ≠ 0 then
    retry_trace m.shm_mod ds true k ++
      [LockEv.lock m.shm_mod ds true SR_ERR_OK, LockEv.set_applying m.shm_mod ds true,
       LockEv.unlock m.shm_mod ds, LockEv.lock m.shm_mod ds false SR_ERR_OK]
  else
    retry_trace m.shm_mod ds false k ++ [LockEv.lock m.shm_mod ds false SR_ERR_OK]

/-- The log of `sr_shmmod_multilock(mod_info, 0, 1)` when it locks every entry, the `i`-th
one after `ks[i]` unsuccessful rounds. -/
def applying_trace (ds : Nat) : List sr_mod_info_mod_s → List Nat → List LockEv
  | m :: ms, k :: ks => applying_segment ds m k ++ applying_trace ds ms ks
  | _, _ => []

/-- The number of successful acquisitions of the lock of `(shm_mod, ds)` in a log. -/
def acquired_count (shm_mod ds : Nat) (tr : List LockEv) : Nat :=
  tr.countP (fun ev =>
    match ev with
    | LockEv.lock o d _ ret => decide (o = shm_mod ∧ d = ds ∧ ret = SR_ERR_OK)
    | _ => false)

/-- The number of releases of the lock of `(shm_mod, ds)` in a log. -/
def released_count (shm_mod ds : Nat) (tr : List LockEv) : Nat :=
  tr.countP (fun ev =>
    match ev with
    | LockEv.unlock o d => decide (o = shm_mod ∧ d = ds)
    | _ => false)

/-! ## Relocking: what a successful `sr_shmmod_multirelock` does -/

/-- The test of `sr_shmmod_multirelock` on an entry (source line 337): the state has both
MOD_INFO_REQ and MOD_INFO_LOCK. -/
def relock_touched (m : sr_mod_info_mod_s) : Bool :=
  m.state &&& (MOD_INFO_REQ ||| MOD_INFO_LOCK) == (MOD_INFO_REQ ||| MOD_INFO_LOCK)

/-- The log of a successful `sr_shmmod_multirelock`: for every entry with MOD_INFO_REQ and
MOD_INFO_LOCK, in the order of the vector, the lock is released and then obtained in the
mode `upgrade`. -/
def relock_trace (ds : Nat) (upgrade : Bool) : List sr_mod_info_mod_s → List LockEv
  | [] => []
  | m :: rest =>
    if relock_touched m then
      [LockEv.unlock m.shm_mod ds, LockEv.lock m.shm_mod ds upgrade SR_ERR_OK]
        ++ relock_trace ds upgrade rest
    else relock_trace ds upgrade rest

/-- The locks held after a successful `sr_shmmod_multirelock`: for every entry with
MOD_INFO_REQ and MOD_INFO_LOCK, in the order of the vector, the latest lock held on the
module is replaced by one in the mode `upgrade`. -/
def relock_held (ds : Nat) (upgrade : Bool) :
    List sr_mod_info_mod_s → List (Nat × Nat × Bool) → List (Nat × Nat × Bool)
  | [], held => held
  | m :: rest, held =>
    if relock_touched m then
      relock_held ds upgrade rest ((m.shm_mod, ds, upgrade) :: release_lock m.shm_mod ds held)
    else relock_held ds upgrade rest held

/-- The locks of a list of held locks that are on the module `shm_mod` in datastore `ds`. -/
def held_on (shm_mod ds : Nat) (held : List (Nat × Nat × Bool)) : List (Nat × Nat × Bool) :=
  held.filter (fun h => decide (h.1 = shm_mod ∧ h.2.1 = ds))

/-- The LOCK bits of the entries agree with the locks the transaction holds: on the module
of an entry with MOD_INFO_LOCK, in the datastore of the mod-info, it holds exactly one
lock, and on the module of an entry without it none. -/
@[reducible] def LockBitsMatch (ds : Nat) (mods : List sr_mod_info_mod_s)
    (held : List (Nat × Nat × Bool)) : Prop :=
  ∀ m ∈ mods,
    (m.state &&& MOD_INFO_LOCK ≠ 0 → (held_on m.shm_mod ds held).length = 1) ∧
    (m.state &&& MOD_INFO_LOCK = 0 → held_on m.shm_mod ds held = [])

/-! ## Validation and storing (`sr_shmmod_validate`, `sr_shmmod_store`)

The schema library and the helpers of `common.c` are not part of the sources. What they
return is an input of the embedding: the record `ly_lib` bundles the functions that
validation calls. A data tree is the list of its top-level nodes; linking a tree to the
forest `first_root` (`sr_ly_link`) appends its nodes.
-/

/-- The calls that leave `shm_mod.c` during validation: `lyd_find_path` (`none` is the
`NULL` result), `sr_get_first_ns` (the module name in front of a value), `lyd_parse_path`
on the data file of a module and a datastore (`none` when `ly_errno` is set),
`lyd_validate_modules` (its return value, the forest after validation and the
validation diff) and `sr_ly_diff_merge` (its return code, the merged diff and the
default-change flag). -/
structure ly_lib where
  lyd_find_path : List lyd_node → Nat → Option (List lyd_node)
  sr_get_first_ns : Nat → Nat
  lyd_parse_path : Nat → Nat → Option (List lyd_node)
  lyd_validate_modules : List lyd_node → List Nat → Nat → Bool → Nat × List lyd_node × List lyd_node
  sr_ly_diff_merge : List lyd_node → List lyd_node → Bool → sr_error_t × List lyd_node × Bool

/-- One call of `lyd_validate_modules` as `sr_shmmod_validate` made it: the forest, the
array `valid_mods`, the count passed with it, whether LYD_OPT_VAL_DIFF was set, and the
value the library returned. -/
structure ly_validate_call where
  roots : List lyd_node
  valid_mods : List Nat
  valid_mod_count : Nat
  val_diff : Bool
  ret : Nat
  deriving DecidableEq, Repr

/-- The module record a pointer `sr_mod_t *` of a mod-info entry points to. The builder
stores pointers it got from the index; for an offset at which the index has no record
the result is a record without dependencies. -/
def sr_mod_at (shm : List sr_mod_t) (off : Nat) : sr_mod_t :=
  match shm.find? (fun m => m.off == off) with
  | some m => m
  | none => { off := off, name := 0, deps := [] }

/-- The library call `ly_set_add(set, node, 0)`: the element is added unless the set
has it. -/
def ly_set_add (set : List Nat) (x : Nat) : List Nat :=
  if x ∈ set then set else set ++ [x]

/-- The function `sr_ly_module_data_get` (source lines 373-391). -/
def sr_ly_module_data_get (lib : ly_lib) (mod_name ds : Nat) : sr_error_t × List lyd_node :=
  match lib.lyd_parse_path mod_name ds with
  | none => (SR_ERR_INTERNAL, [])
  | some data => (SR_ERR_OK, data)

/-- The loop over the matched nodes in `sr_modinfo_add_instid_deps` (source lines 576-590). -/
def sr_modinfo_add_instid_values (lib : ly_lib) (sr_shm : List sr_mod_t) :
    List lyd_node → List Nat → sr_error_t × List Nat
  | [], dep_set => (SR_ERR_OK, dep_set)
  | node :: rest, dep_set =>
    match sr_shmmain_find_module sr_shm (lib.sr_get_first_ns node.value) with
    | none => (SR_ERR_INTERNAL, dep_set)
    | some dep_mod => sr_modinfo_add_instid_values lib sr_shm rest (ly_set_add dep_set dep_mod.name)

/-- The loop over the dependency array in `sr_modinfo_add_instid_deps` (source lines
564-601). -/
def sr_modinfo_add_instid_deps_loop (lib : ly_lib) (sr_shm : List sr_mod_t)
    (mod_data : List lyd_node) : List sr_mod_dep_t → List Nat → sr_error_t × List Nat
  | [], dep_set => (SR_ERR_OK, dep_set)
  | d :: rest, dep_set =>
    if d.type = SR_DEP_INSTID then
      match (if mod_data ≠ [] then lib.lyd_find_path mod_data d.xpath else some []) with
      | none => (SR_ERR_INTERNAL, dep_set)
      | some set =>
        if set ≠ [] then
          match sr_modinfo_add_instid_values lib sr_shm set dep_set with
          | (ret, dep_set1) =>
            if ret ≠ SR_ERR_OK then (ret, dep_set1)
            else sr_modinfo_add_instid_deps_loop lib sr_shm mod_data rest dep_set1
        else if d.module ≠ 0 then
          sr_modinfo_add_instid_deps_loop lib sr_shm mod_data rest (ly_set_add dep_set d.module)
        else sr_modinfo_add_instid_deps_loop lib sr_shm mod_data rest dep_set
    else sr_modinfo_add_instid_deps_loop lib sr_shm mod_data rest dep_set

/-- The function `sr_modinfo_add_instid_deps` (source lines 552-608): the return code and
the set `dep_set` at the return. -/
def sr_modinfo_add_instid_deps (lib : ly_lib) (sr_shm : List sr_mod_t) (shm_mod : sr_mod_t)
    (mod_data : List lyd_node) (dep_set : List Nat) : sr_error_t × List Nat :=
  sr_modinfo_add_instid_deps_loop lib sr_shm mod_data shm_mod.deps dep_set

/-- The local variables of `sr_shmmod_validate` that the first loop builds. -/
structure validate_locals where
  first_root : List lyd_node
  dep_set : List Nat
  valid_mod_count : Nat
  deriving DecidableEq, Repr

/-- The first loop of `sr_shmmod_validate` (source lines 625-673): the return code, the
entries and the local variables when the loop is left. The `default` label of the
`switch` runs `SR_CHECK_INT_GOTO(0, ...)`, whose condition is never true. -/
def sr_shmmod_validate_connect (lib : ly_lib) (conn : sr_conn_ctx_t) (ds : Nat) :
    List sr_mod_info_mod_s → validate_locals →
      sr_error_t × List sr_mod_info_mod_s × validate_locals
  | [], l => (SR_ERR_OK, [], l)
  | mod :: rest, l =>
    if mod.state &&& MOD_INFO_TYPE_MASK = MOD_INFO_REQ then
      match sr_modinfo_add_instid_deps lib conn.shm (sr_mod_at conn.shm mod.shm_mod)
          mod.mod_data l.dep_set with
      | (ret, dep_set1) =>
        if ret ≠ SR_ERR_OK then
          (ret, mod :: rest,
            { l with dep_set := dep_set1, valid_mod_count := l.valid_mod_count + 1 })
        else if mod.mod_data = [] then
          match sr_shmmod_validate_connect lib conn ds rest
              { l with dep_set := dep_set1, valid_mod_count := l.valid_mod_count + 1 } with
          | (ret1, rest1, l1) => (ret1, mod :: rest1, l1)
        else
          match sr_shmmod_validate_connect lib conn ds rest
              { first_root := l.first_root ++ mod.mod_data, dep_set := dep_set1,
                valid_mod_count := l.valid_mod_count + 1 } with
          | (ret1, rest1, l1) => (ret1, { mod with mod_data := [] } :: rest1, l1)
    else if mod.state &&& MOD_INFO_TYPE_MASK = MOD_INFO_INV_DEP
        ∨ mod.state &&& MOD_INFO_TYPE_MASK = MOD_INFO_DEP then
      let count1 :=
        if mod.state &&& MOD_INFO_TYPE_MASK = MOD_INFO_INV_DEP then l.valid_mod_count + 1
        else l.valid_mod_count
      match sr_ly_module_data_get lib mod.ly_mod ds with
      | (ret, data) =>
        if ret ≠ SR_ERR_OK then
          (ret, { mod with mod_data := data } :: rest, { l with valid_mod_count := count1 })
        else
          match sr_shmmod_validate_connect lib conn ds rest
              { l with first_root := l.first_root ++ data, valid_mod_count := count1 } with
          | (ret1, rest1, l1) => (ret1, { mod with mod_data := [] } :: rest1, l1)
    else
      match sr_shmmod_validate_connect lib conn ds rest l with
      | (ret1, rest1, l1) => (ret1, mod :: rest1, l1)

/-- The second loop of `sr_shmmod_validate` (source lines 676-703): the data of the
modules of `dep_set` that the mod-info does not have are read and linked to the forest. -/
def sr_shmmod_validate_deps (lib : ly_lib) (conn : sr_conn_ctx_t) (ds : Nat)
    (mods : List sr_mod_info_mod_s) : List Nat → List lyd_node → sr_error_t × List lyd_node
  | [], first_root => (SR_ERR_OK, first_root)
  | g :: rest, first_root =>
    if mods.any (fun m => (sr_mod_at conn.shm m.shm_mod).name == g) then
      sr_shmmod_validate_deps lib conn ds mods rest first_root
    else
      match sr_ly_module_data_get lib g ds with
      | (ret, mod_data) =>
        if ret ≠ SR_ERR_OK then (ret, first_root)
        else sr_shmmod_validate_deps lib conn ds mods rest (first_root ++ mod_data)

/-- The third loop of `sr_shmmod_validate` (source lines 708-720): the array `valid_mods`;
its length is the final value of `j`. -/
def sr_shmmod_validate_valid_mods : List sr_mod_info_mod_s → List Nat
  | [] => []
  | mod :: rest =>
    if mod.state &&& MOD_INFO_TYPE_MASK = MOD_INFO_REQ
        ∨ mod.state &&& MOD_INFO_TYPE_MASK = MOD_INFO_INV_DEP then
      mod.ly_mod :: sr_shmmod_validate_valid_mods rest
    else sr_shmmod_validate_valid_mods rest

/-- The loop "additional modules can be modified" of `sr_shmmod_validate` (source lines
743-753) for one entry. -/
def sr_shmmod_validate_changed (diff : List lyd_node) (mod : sr_mod_info_mod_s) :
    sr_mod_info_mod_s :=
  if mod.state &&& MOD_INFO_INV_DEP ≠ 0 ∧ diff.any (fun iter => iter.module == mod.ly_mod) then
    { mod with state := mod.state ||| MOD_INFO_CHANGED }
  else mod

/-- The loop at the label `cleanup` of `sr_shmmod_validate` (source lines 760-775): the
forest is split into the data of the entries again; what is left of the forest is the
data of the additional dependency modules, which is freed. -/
def sr_shmmod_validate_split :
    List sr_mod_info_mod_s → List lyd_node → List sr_mod_info_mod_s
  | [], _ => []
  | mod :: rest, [] => mod :: sr_shmmod_validate_split rest []
  | mod :: rest, n :: tl =>
    if n.module ≠ mod.ly_mod then mod :: sr_shmmod_validate_split rest (n :: tl)
    else
      { mod with mod_data := n :: tl.takeWhile (fun iter => iter.module == mod.ly_mod) }
        :: sr_shmmod_validate_split rest (tl.dropWhile (fun iter => iter.module == mod.ly_mod))

/-- The result of the first loop of `sr_shmmod_validate`, started with an empty forest,
an empty `dep_set` and `valid_mod_count = 0`. -/
def sr_shmmod_validate_loop1 (lib : ly_lib) (mod_info : sr_mod_info_s) :
    sr_error_t × List sr_mod_info_mod_s × validate_locals :=
  sr_shmmod_validate_connect lib mod_info.conn mod_info.ds mod_info.mods
    { first_root := [], dep_set := [], valid_mod_count := 0 }

/-- The result of the second loop of `sr_shmmod_validate`, run after the first. -/
def sr_shmmod_validate_loop2 (lib : ly_lib) (mod_info : sr_mod_info_s) :
    sr_error_t × List lyd_node :=
  sr_shmmod_validate_deps lib mod_info.conn mod_info.ds (sr_shmmod_validate_loop1 lib mod_info).2.1
    (sr_shmmod_validate_loop1 lib mod_info).2.2.dep_set
    (sr_shmmod_validate_loop1 lib mod_info).2.2.first_root

/-- The call `lyd_validate_modules(&first_root, valid_mods, valid_mod_count, flags, ...)` of
`sr_shmmod_validate` (source lines 724-730) and what it returns. -/
def sr_shmmod_validate_call (lib : ly_lib) (mod_info : sr_mod_info_s) (finish_diff : Bool) :
    Nat × List lyd_node × List lyd_node :=
  lib.lyd_validate_modules (sr_shmmod_validate_loop2 lib mod_info).2
    (sr_shmmod_validate_valid_mods (sr_shmmod_validate_loop1 lib mod_info).2.1)
    (sr_shmmod_validate_loop1 lib mod_info).2.2.valid_mod_count finish_diff

/-- The record of that call. -/
def sr_shmmod_validate_log (lib : ly_lib) (mod_info : sr_mod_info_s) (finish_diff : Bool) :
    ly_validate_call :=
  { roots := (sr_shmmod_validate_loop2 lib mod_info).2
    valid_mods := sr_shmmod_validate_valid_mods (sr_shmmod_validate_loop1 lib mod_info).2.1
    valid_mod_count := (sr_shmmod_validate_loop1 lib mod_info).2.2.valid_mod_count
    val_diff := finish_diff
    ret := (sr_shmmod_validate_call lib mod_info finish_diff).1 }

/-- The call `sr_ly_diff_merge(&mod_info->diff, ..., diff, &mod_info->dflt_change)` of
`sr_shmmod_validate` (source line 738) and what it returns. -/
def sr_shmmod_validate_merge (lib : ly_lib) (mod_info : sr_mod_info_s) (finish_diff : Bool) :
    sr_error_t × List lyd_node × Bool :=
  lib.sr_ly_diff_merge mod_info.diff (sr_shmmod_validate_call lib mod_info finish_diff).2.2
    mod_info.dflt_change

/-- The function `sr_shmmod_validate` (source lines 610-788): the return code, the mod-info
at the return and the calls of `lyd_validate_modules` it made. Every `goto cleanup` and
the end of the function run the loop that splits the forest. The assertion
`j == valid_mod_count` is not checked here; it is a property of the two loops. -/
def sr_shmmod_validate (lib : ly_lib) (mod_info : sr_mod_info_s) (finish_diff : Bool) :
    sr_error_t × sr_mod_info_s × List ly_validate_call :=
  if (sr_shmmod_validate_loop1 lib mod_info).1 ≠ SR_ERR_OK then
    ((sr_shmmod_validate_loop1 lib mod_info).1,
      { mod_info with
          mods := sr_shmmod_validate_split (sr_shmmod_validate_loop1 lib mod_info).2.1
            (sr_shmmod_validate_loop1 lib mod_info).2.2.first_root }, [])
  else if (sr_shmmod_validate_loop2 lib mod_info).1 ≠ SR_ERR_OK then
    ((sr_shmmod_validate_loop2 lib mod_info).1,
      { mod_info with
          mods := sr_shmmod_validate_split (sr_shmmod_validate_loop1 lib mod_info).2.1
            (sr_shmmod_validate_loop2 lib mod_info).2 }, [])
  else if (sr_shmmod_validate_call lib mod_info finish_diff).1 ≠ 0 then
    (SR_ERR_VALIDATION_FAILED,
      { mod_info with
          mods := sr_shmmod_validate_split (sr_shmmod_validate_loop1 lib mod_info).2.1
            (sr_shmmod_validate_call lib mod_info finish_diff).2.1 },
      [sr_shmmod_validate_log lib mod_info finish_diff])
  else if finish_diff then
    if (sr_shmmod_validate_merge lib mod_info finish_diff).1 ≠ SR_ERR_OK then
      ((sr_shmmod_validate_merge lib mod_info finish_diff).1,
        { mod_info with
            mods := sr_shmmod_validate_split (sr_shmmod_validate_loop1 lib mod_info).2.1
              (sr_shmmod_validate_call lib mod_info finish_diff).2.1
            diff := (sr_shmmod_validate_merge lib mod_info finish_diff).2.1
            dflt_change := (sr_shmmod_validate_merge lib mod_info finish_diff).2.2 },
        [sr_shmmod_validate_log lib mod_info finish_diff])
    else
      (SR_ERR_OK,
        { mod_info with
            mods := sr_shmmod_validate_split
              ((sr_shmmod_validate_loop1 lib mod_info).2.1.map
                (sr_shmmod_validate_changed (sr_shmmod_validate_merge lib mod_info finish_diff).2.1))
              (sr_shmmod_validate_call lib mod_info finish_diff).2.1
            diff := (sr_shmmod_validate_merge lib mod_info finish_diff).2.1
            dflt_change := (sr_shmmod_validate_merge lib mod_info finish_diff).2.2 },
        [sr_shmmod_validate_log lib mod_info finish_diff])
  else
    (SR_ERR_OK,
      { mod_info with
          mods := sr_shmmod_validate_split (sr_shmmod_validate_loop1 lib mod_info).2.1
            (sr_shmmod_validate_call lib mod_info finish_diff).2.1 },
      [sr_shmmod_validate_log lib mod_info finish_diff])

/-- The test of the third loop of `sr_shmmod_validate` on an entry: its type is REQ or
INV_DEP. -/
def validated_type (m : sr_mod_info_mod_s) : Bool :=
  decide (m.state &&& MOD_INFO_TYPE_MASK = MOD_INFO_REQ
    ∨ m.state &&& MOD_INFO_TYPE_MASK = MOD_INFO_INV_DEP)

/-- The locals after the `case MOD_INFO_REQ` statements that precede the linking. -/
def connect_req_locals (lib : ly_lib) (conn : sr_conn_ctx_t) (m : sr_mod_info_mod_s)
    (l : validate_locals) : validate_locals :=
  { l with
      dep_set := (sr_modinfo_add_instid_deps lib conn.shm (sr_mod_at conn.shm m.shm_mod)
        m.mod_data l.dep_set).2
      valid_mod_count := l.valid_mod_count + 1 }

/-- The value of `valid_mod_count` after the `switch` labels of an entry of type INV_DEP
or DEP. -/
def connect_dep_count (m : sr_mod_info_mod_s) (l : validate_locals) : Nat :=
  if m.state &&& MOD_INFO_TYPE_MASK = MOD_INFO_INV_DEP then l.valid_mod_count + 1
  else l.valid_mod_count

/-! ## Persisted data (`sr_ly_module_data_set`, `sr_shmmod_store`)

The data files of the repository are a function from a module name and a datastore to
what `lyd_parse_path` reads from the file (`none` when it cannot be parsed). What the file
system does during the `n`-th call of `lyd_print_path` is an input, `penv n`.
-/

/-- What the file system does during one call of `lyd_print_path`: the value the call
returns (0 on success) and, for a call that fails, what the file holds afterwards. -/
structure PrintResp where
  ret : Nat
  left : Option (List lyd_node)
  deriving DecidableEq, Repr

/-- One call of `sr_ly_module_data_set` as `sr_shmmod_store` made it, with its return code. -/
structure data_set_call where
  ds : Nat
  mod_name : Nat
  data : List lyd_node
  ret : sr_error_t
  deriving DecidableEq, Repr

/-- The data files, the number of calls of `lyd_print_path` made so far and the log of the
calls of `sr_ly_module_data_set`. -/
structure DataFiles where
  files : Nat → Nat → Option (List lyd_node)
  calls : Nat
  log : List data_set_call

/-- The data files after the file of `(mod_name, ds)` got the content `c`. -/
def file_write (mod_name ds : Nat) (c : Option (List lyd_node))
    (files : Nat → Nat → Option (List lyd_node)) : Nat → Nat → Option (List lyd_node) :=
  fun n d => if n = mod_name ∧ d = ds then c else files n d

/-- The function `sr_ly_module_data_set` (source lines 393-410). -/
def sr_ly_module_data_set (penv : Nat → PrintResp) (ds mod_name : Nat) (data : List lyd_node)
    (d : DataFiles) : sr_error_t × DataFiles :=
  if (penv d.calls).ret ≠ 0 then
    (SR_ERR_INTERNAL,
      { files := file_write mod_name ds (penv d.calls).left d.files
        calls := d.calls + 1
        log := d.log ++ [{ ds := ds, mod_name := mod_name, data := data, ret := SR_ERR_INTERNAL }] })
  else
    (SR_ERR_OK,
      { files := file_write mod_name ds (some data) d.files
        calls := d.calls + 1
        log := d.log ++ [{ ds := ds, mod_name := mod_name, data := data, ret := SR_ERR_OK }] })

/-- The loop of `sr_shmmod_store` (source lines 797-805). -/
def sr_shmmod_store_mods (penv : Nat → PrintResp) (ds : Nat) :
    List sr_mod_info_mod_s → DataFiles → sr_error_t × DataFiles
  | [], d => (SR_ERR_OK, d)
  | mod :: rest, d =>
    if mod.state &&& MOD_INFO_CHANGED ≠ 0 then
      match sr_ly_module_data_set penv ds mod.ly_mod mod.mod_data d with
      | (ret, d1) =>
        if ret ≠ SR_ERR_OK then (ret, d1)
        else sr_shmmod_store_mods penv ds rest d1
    else sr_shmmod_store_mods penv ds rest d

/-- The function `sr_shmmod_store` (source lines 790-808). -/
def sr_shmmod_store (penv : Nat → PrintResp) (mod_info : sr_mod_info_s) (d : DataFiles) :
    sr_error_t × DataFiles :=
  sr_shmmod_store_mods penv mod_info.ds mod_info.mods d

/-- The entries of a mod-info vector whose state has MOD_INFO_CHANGED, in vector order. -/
def changed_mods (mods : List sr_mod_info_mod_s) : List sr_mod_info_mod_s :=
  mods.filter (fun m => decide (m.state &&& MOD_INFO_CHANGED ≠ 0))

/-- The call of `sr_ly_module_data_set` that stores the data of the entry `m`. -/
def store_call (ds : Nat) (ret : sr_error_t) (m : sr_mod_info_mod_s) : data_set_call :=
  { ds := ds, mod_name := m.ly_mod, data := m.mod_data, ret := ret }

/-- The data files after the data of the entries `ms` were written in order. -/
def files_after (ds : Nat) :
    List sr_mod_info_mod_s → (Nat → Nat → Option (List lyd_node)) →
      Nat → Nat → Option (List lyd_node)
  | [], files => files
  | m :: rest, files => files_after ds rest (file_write m.ly_mod ds (some m.mod_data) files)

/-! ## Subscription tables (`sr_shmmod_subscription`)

The function works on the main shared segment through offsets. The embedding keeps the
part of the segment it touches in a `MainShm`: the size of the segment, the fields
`sub_info[ds].subs` and `sub_info[ds].sub_count` of the module records (keyed by the offset
of the record and the datastore), and the subscription records, keyed by the offset at
which a record starts. A write that overlaps a record without replacing it whole leaves
that record with an indeterminate value, `junk`. The counter `sub_count` and the loop
index are natural numbers (the embedding is exact while a table has fewer than 65535
records); `new_shm_size` and `old_shm_size` are `uint32_t` and wrap at `2 ^ 32`.
-/

/-- A subscription record (`sr_mod_sub_t`). -/
structure sr_mod_sub_t where
  priority : Nat
  opts : Int
  deriving DecidableEq, Repr

/-- Modelled from the spec: the size `sizeof(sr_mod_sub_t)` of a subscription record (the
type is declared in a header that is absent): a 32-bit priority and a 32-bit option
set, packed contiguously. -/
def SUB_SIZE : Nat := 8

/-- The part of the main shared segment that `sr_shmmod_subscription` reads and writes. -/
structure MainShm where
  shm_size : Nat
  subs : Nat → Nat → Nat
  sub_count : Nat → Nat → Nat
  mem : Nat → sr_mod_sub_t

/-- A field of the module record at `off` for the datastore `ds` gets the value `v`. -/
def sub_info_set (f : Nat → Nat → Nat) (off ds v : Nat) : Nat → Nat → Nat :=
  fun o d => if o = off ∧ d = ds then v else f o d

/-- The records after a record is written at the offset `a`. -/
def shm_write_sub (junk : Nat → sr_mod_sub_t) (a : Nat) (v : sr_mod_sub_t)
    (mem : Nat → sr_mod_sub_t) : Nat → sr_mod_sub_t :=
  fun b =>
    if b = a then v
    else if b < a + SUB_SIZE ∧ a < b + SUB_SIZE then junk b
    else mem b

/-- The records after `memcpy(shm + dst, shm + src, n * sizeof(sr_mod_sub_t))`; the source is
read before anything is written (the regions do not overlap when the call is defined). -/
def shm_memcpy_subs (junk : Nat → sr_mod_sub_t) (dst src n : Nat)
    (mem : Nat → sr_mod_sub_t) : Nat → sr_mod_sub_t :=
  fun b =>
    if dst ≤ b ∧ b < dst + n * SUB_SIZE then
      if (b - dst) % SUB_SIZE = 0 then mem (src + (b - dst)) else junk b
    else if b < dst ∧ dst < b + SUB_SIZE ∧ 0 < n then junk b
    else mem b

/-- Modelled from the spec: sr_shmmain_remap (defined in shm_main.c, absent), the only
mutator of the segment size: it resizes the backing object and maps it again; offsets
and the content below the old and the new size survive. Whether the system can do it
is an input, the return code `ret`. -/
def sr_shmmain_remap (ret : sr_error_t) (new_shm_size : Nat) (shm : MainShm) :
    sr_error_t × MainShm :=
  if ret ≠ SR_ERR_OK then (ret, shm) else (SR_ERR_OK, { shm with shm_size := new_shm_size })

/-- The loop that finds the subscription in `sr_shmmod_subscription` (source lines 861-865):
the first index below `sub_count` whose record has the priority and the options. -/
def sr_shmmod_subscription_find (shm : MainShm) (off ds priority : Nat) (subscr_opts : Int) :
    Option Nat :=
  (List.range (shm.sub_count off ds)).find? (fun i =>
    decide ((shm.mem (shm.subs off ds + i * SUB_SIZE)).priority = priority
      ∧ (shm.mem (shm.subs off ds + i * SUB_SIZE)).opts = subscr_opts))

/-- The branch `add` of `sr_shmmod_subscription` (source lines 829-857) for the module
record at `off`. -/
def sr_shmmod_subscription_add (junk : Nat → sr_mod_sub_t) (remap_ret : sr_error_t)
    (shm : MainShm) (off ds priority : Nat) (subscr_opts : Int) : sr_error_t × MainShm :=
  let at_end : Bool :=
    decide (shm.subs off ds + shm.sub_count off ds * SUB_SIZE = shm.shm_size)
  let new_shm_size :=
    if at_end then (shm.shm_size + SUB_SIZE) % 2 ^ 32
    else (shm.shm_size + (shm.sub_count off ds + 1) * SUB_SIZE) % 2 ^ 32
  let old_shm_size := if at_end then 0 else shm.shm_size % 2 ^ 32
  match sr_shmmain_remap remap_ret new_shm_size shm with
  | (ret, shm1) =>
    if ret ≠ SR_ERR_OK then (ret, shm1)
    else
      let shm2 : MainShm :=
        if old_shm_size ≠ 0 then
          { shm1 with
              mem := shm_memcpy_subs junk old_shm_size (shm1.subs off ds) (shm1.sub_count off ds)
                shm1.mem
              subs := sub_info_set shm1.subs off ds old_shm_size }
        else shm1
      (SR_ERR_OK,
        { shm2 with
            sub_count := sub_info_set shm2.sub_count off ds (shm2.sub_count off ds + 1)
            mem := shm_write_sub junk (shm2.subs off ds + shm2.sub_count off ds * SUB_SIZE)
              { priority := priority, opts := subscr_opts } shm2.mem })

/-- The end of the branch that removes a subscription (source lines 884-888). -/
def sr_shmmod_subscription_dec (shm : MainShm) (off ds : Nat) : MainShm :=
  { shm with
      sub_count := sub_info_set shm.sub_count off ds (shm.sub_count off ds - 1)
      subs := if shm.sub_count off ds - 1 = 0 then sub_info_set shm.subs off ds 0 else shm.subs }

/-- The branch of `sr_shmmod_subscription` that removes a subscription (source lines
859-888) for the module record at `off`. -/
def sr_shmmod_subscription_del (junk : Nat → sr_mod_sub_t) (remap_ret : sr_error_t)
    (shm : MainShm) (off ds priority : Nat) (subscr_opts : Int) : sr_error_t × MainShm :=
  match sr_shmmod_subscription_find shm off ds priority subscr_opts with
  | none => (SR_ERR_INTERNAL, shm)
  | some i =>
    let shm1 : MainShm :=
      if i < shm.sub_count off ds - 1 then
        { shm with
            mem := shm_memcpy_subs junk (shm.subs off ds + i * SUB_SIZE)
              (shm.subs off ds + (shm.sub_count off ds - 1) * SUB_SIZE) 1 shm.mem }
      else shm
    if shm1.subs off ds + shm1.sub_count off ds * SUB_SIZE = shm1.shm_size then
      match sr_shmmain_remap remap_ret ((shm1.shm_size - SUB_SIZE) % 2 ^ 32) shm1 with
      | (ret, shm2) =>
        if ret ≠ SR_ERR_OK then (ret, shm2)
        else (SR_ERR_OK, sr_shmmod_subscription_dec shm2 off ds)
    else (SR_ERR_OK, sr_shmmod_subscription_dec shm1 off ds)

/-- The function `sr_shmmod_subscription` (source lines 810-892). The assertion on `ds` is a
precondition of the callers. -/
def sr_shmmod_subscription (junk : Nat → sr_mod_sub_t) (remap_ret : sr_error_t)
    (conn : sr_conn_ctx_t) (shm : MainShm) (mod_name ds priority : Nat) (subscr_opts : Int)
    (add : Bool) : sr_error_t × MainShm :=
  match sr_shmmain_find_module conn.shm mod_name with
  | none => (SR_ERR_INTERNAL, shm)
  | some shm_mod =>
    if add then sr_shmmod_subscription_add junk remap_ret shm shm_mod.off ds priority subscr_opts
    else sr_shmmod_subscription_del junk remap_ret shm shm_mod.off ds priority subscr_opts

/-- The subscription table of the module record at `off` for the datastore `ds`: its
`sub_count` records, read from the head offset on. -/
def sub_table (shm : MainShm) (off ds : Nat) : List sr_mod_sub_t :=
  (List.range (shm.sub_count off ds)).map (fun k => shm.mem (shm.subs off ds + k * SUB_SIZE))

/-- The table of `(off, ds)` ends exactly at the end of the segment. -/
@[reducible] def table_at_end (shm : MainShm) (off ds : Nat) : Prop :=
  shm.subs off ds + shm.sub_count off ds * SUB_SIZE = shm.shm_size

/-- Every subscription table is empty or lies inside the segment, and the tables of
distinct (module, datastore) pairs do not overlap. -/
def SubTablesOk (shm : MainShm) : Prop :=
  (∀ o d, shm.sub_count o d = 0 ∨
    (shm.subs o d < shm.shm_size ∧ shm.subs o d + shm.sub_count o d * SUB_SIZE ≤ shm.shm_size)) ∧
  (∀ o1 d1 o2 d2, (o1, d1) ≠ (o2, d2) →
    shm.sub_count o1 d1 = 0 ∨ shm.sub_count o2 d2 = 0 ∨
    shm.subs o1 d1 + shm.sub_count o1 d1 * SUB_SIZE ≤ shm.subs o2 d2 ∨
    shm.subs o2 d2 + shm.sub_count o2 d2 * SUB_SIZE ≤ shm.subs o1 d1)

/-- The records after the slot `i` was overwritten with the last record, when `i` is not the
last slot. -/
def del_mem (junk : Nat → sr_mod_sub_t) (shm : MainShm) (off ds i : Nat) : Nat → sr_mod_sub_t :=
  if i < shm.sub_count off ds - 1 then
    shm_memcpy_subs junk (shm.subs off ds + i * SUB_SIZE)
      (shm.subs off ds + (shm.sub_count off ds - 1) * SUB_SIZE) 1 shm.mem
  else shm.mem

/-- The size that the branch `add` of `sr_shmmod_subscription` computes for the segment, before
it is stored in the 32 bits of `new_shm_size`: one record more when the table ends at the
end of the segment, and room for the whole table with the new record otherwise. -/
def sub_add_size (shm : MainShm) (off ds : Nat) : Nat :=
  if shm.subs off ds + shm.sub_count off ds * SUB_SIZE = shm.shm_size then
    shm.shm_size + SUB_SIZE
  else shm.shm_size + (shm.sub_count off ds + 1) * SUB_SIZE
/-! ## The contributions of the edges to the dependency set, in the words of the property -/

/-- The nodes that the XPath of an instance-identifier edge matches in the data of the
module, as the property of `sr_modinfo_add_instid_deps` words it: none when the module
has no data. -/
def instid_matches (lib : ly_lib) (mod_data : List lyd_node) (d : sr_mod_dep_t) : List lyd_node :=
  if mod_data = [] then [] else (lib.lyd_find_path mod_data d.xpath).getD []

/-- The modules that one edge contributes to the dependency set, in the words of the
property: an edge that is no instance-identifier contributes nothing; an
instance-identifier without a matched node contributes its recorded target when that
is not zero; one with matched nodes contributes the module named by the first namespace
of every matched value. -/
def instid_edge_adds (lib : ly_lib) (mod_data : List lyd_node) (d : sr_mod_dep_t) : List Nat :=
  if d.type = SR_DEP_INSTID then
    if instid_matches lib mod_data d = [] then (if d.module ≠ 0 then [d.module] else [])
    else (instid_matches lib mod_data d).map (fun n => lib.sr_get_first_ns n.value)
  else []

/-! ## RPC delivery (`sr_rpc_send_tree`)

The sender is not part of the sources; only its test `test_multi_fail` is. The sender is
modelled from the specification, and the callbacks of the test are embedded from the test
file to run the model on them.
-/

/-- The events an RPC subscriber is called with. -/
inductive sr_event_t where
  | SR_EV_RPC
  | SR_EV_ABORT
  deriving DecidableEq, Repr

open sr_event_t

/-- A subscriber of an RPC: its priority and its callback, which sees the event and the
state `σ` that the callbacks share, and returns a code and the new state. -/
structure rpc_subscriber (σ : Type) where
  priority : Nat
  callback : sr_event_t → σ → sr_error_t × σ

/-- One invocation of a callback: the priority of the subscriber, the event and the code
the callback returned. -/
structure rpc_call where
  priority : Nat
  event : sr_event_t
  ret : sr_error_t
  deriving DecidableEq, Repr

/-- Modelled from the spec: the order of delivery, "subscription delivery respects priority
(higher first)": the subscribers sorted by descending priority. -/
def rpc_order {σ : Type} (subs : List (rpc_subscriber σ)) : List (rpc_subscriber σ) :=
  subs.insertionSort (fun a b => a.priority ≥ b.priority)

/-- Modelled from the spec: the abort branch, which "re-delivers event tag ABORT to the
subscribers that already saw" the event, by priority like every delivery (higher first;
the assertions of `test_multi_fail` on `cb_called` fix this order); the codes the callbacks
return are ignored. -/
def rpc_abort {σ : Type} : List (rpc_subscriber σ) → σ → List rpc_call → σ × List rpc_call
  | [], st, log => (st, log)
  | s :: rest, st, log =>
    rpc_abort rest (s.callback SR_EV_ABORT st).2
      (log ++ [{ priority := s.priority, event := SR_EV_ABORT,
                 ret := (s.callback SR_EV_ABORT st).1 }])

/-- Modelled from the spec: the delivery loop of the sender: the event is delivered in
order; "any subscriber failure short-circuits" into the abort branch for the subscribers
`seen` that were called before, and the send fails with `callback_failed`. -/
def rpc_deliver {σ : Type} :
    List (rpc_subscriber σ) → List (rpc_subscriber σ) → σ → List rpc_call →
      sr_error_t × σ × List rpc_call
  | [], _, st, log => (SR_ERR_OK, st, log)
  | s :: rest, seen, st, log =>
    if (s.callback SR_EV_RPC st).1 ≠ SR_ERR_OK then
      (SR_ERR_CALLBACK_FAILED,
        rpc_abort seen (s.callback SR_EV_RPC st).2
          (log ++ [{ priority := s.priority, event := SR_EV_RPC,
                     ret := (s.callback SR_EV_RPC st).1 }]))
    else
      rpc_deliver rest (seen ++ [s]) (s.callback SR_EV_RPC st).2
        (log ++ [{ priority := s.priority, event := SR_EV_RPC, ret := SR_ERR_OK }])

/-- Modelled from the spec: sr_rpc_send_tree (defined in sysrepo.c, absent) as far as the
callbacks see it: the return code, the state the callbacks share and the invocations
in order. -/
def sr_rpc_send_tree {σ : Type} (subs : List (rpc_subscriber σ)) (st : σ) :
    sr_error_t × σ × List rpc_call :=
  rpc_deliver (rpc_order subs) [] st []

/-- The invocation of the subscriber `s` with the event `ev`, without the code. -/
def rpc_seen {σ : Type} (ev : sr_event_t) (s : rpc_subscriber σ) : Nat × sr_event_t :=
  (s.priority, ev)

/-- The invocation of the subscriber `s` with the RPC event when its callback succeeds. -/
def rpc_ok_call {σ : Type} (s : rpc_subscriber σ) : rpc_call :=
  { priority := s.priority, event := SR_EV_RPC, ret := SR_ERR_OK }

/-! ### The callbacks of `test_multi_fail` (`tests/test_rpc_action.c`) -/

/-- The state the callbacks of `test_multi_fail` share: the counter `cb_called` of the test
state, the static counters `call_no` of the three callbacks, and whether every assertion
made so far held. -/
structure multi_fail_state where
  cb_called : Nat
  call_no0 : Nat
  call_no1 : Nat
  call_no2 : Nat
  asserts : Bool
  deriving DecidableEq, Repr

/-- The callback `rpc_multi_fail0_cb` (test source lines 761-799). -/
def rpc_multi_fail0_cb (event : sr_event_t) (st : multi_fail_state) :
    sr_error_t × multi_fail_state :=
  let st1 := { st with cb_called := st.cb_called + 1 }
  if st1.call_no0 = 1 then
    (SR_ERR_NOMEM,
      { st1 with call_no0 := 2
                 asserts := st1.asserts && decide (event = SR_EV_RPC) && decide (st1.cb_called = 3) })
  else if st1.call_no0 = 2 then
    (SR_ERR_OK,
      { st1 with call_no0 := 3
                 asserts := st1.asserts && decide (event = SR_EV_RPC) && decide (st1.cb_called = 3) })
  else (SR_ERR_OK, { st1 with asserts := false })

/-- The callback `rpc_multi_fail1_cb` (test source lines 801-850). -/
def rpc_multi_fail1_cb (event : sr_event_t) (st : multi_fail_state) :
    sr_error_t × multi_fail_state :=
  let st1 := { st with cb_called := st.cb_called + 1 }
  if st1.call_no1 = 1 then
    if event = SR_EV_RPC then
      (SR_ERR_OK, { st1 with asserts := st1.asserts && decide (st1.cb_called = 2) })
    else
      (SR_ERR_OK,
        { st1 with call_no1 := 2
                   asserts := st1.asserts && decide (event = SR_EV_ABORT)
                     && decide (st1.cb_called = 5) })
  else if st1.call_no1 = 2 then
    (SR_ERR_NOT_FOUND,
      { st1 with call_no1 := 3
                 asserts := st1.asserts && decide (event = SR_EV_RPC) && decide (st1.cb_called = 2) })
  else if st1.call_no1 = 3 then
    (SR_ERR_OK,
      { st1 with call_no1 := 4
                 asserts := st1.asserts && decide (event = SR_EV_RPC) && decide (st1.cb_called = 2) })
  else (SR_ERR_OK, { st1 with asserts := false })

/-- The callback `rpc_multi_fail2_cb` (test source lines 852-910). -/
def rpc_multi_fail2_cb (event : sr_event_t) (st : multi_fail_state) :
    sr_error_t × multi_fail_state :=
  let st1 := { st with cb_called := st.cb_called + 1 }
  if st1.call_no2 = 1 then
    if event = SR_EV_RPC then
      (SR_ERR_OK, { st1 with asserts := st1.asserts && decide (st1.cb_called = 1) })
    else
      (SR_ERR_OK,
        { st1 with call_no2 := 2
                   asserts := st1.asserts && decide (event = SR_EV_ABORT)
                     && decide (st1.cb_called = 4) })
  else if st1.call_no2 = 2 then
    if event = SR_EV_RPC then
      (SR_ERR_OK, { st1 with asserts := st1.asserts && decide (st1.cb_called = 1) })
    else
      (SR_ERR_OK,
        { st1 with call_no2 := 3
                   asserts := st1.asserts && decide (event = SR_EV_ABORT)
                     && decide (st1.cb_called = 3) })
  else if st1.call_no2 = 3 then
    (SR_ERR_BAD_ELEMENT,
      { st1 with call_no2 := 4
                 asserts := st1.asserts && decide (event = SR_EV_RPC) && decide (st1.cb_called = 1) })
  else if st1.call_no2 = 4 then
    (SR_ERR_OK,
      { st1 with call_no2 := 5
                 asserts := st1.asserts && decide (event = SR_EV_RPC) && decide (st1.cb_called = 1) })
  else (SR_ERR_OK, { st1 with asserts := false })

/-- The subscriptions of `test_multi_fail` (test source lines 920-925), in the order in
which the test makes them: priorities 0, 1 and 2. -/
def multi_fail_subs : List (rpc_subscriber multi_fail_state) :=
  [{ priority := 0, callback := rpc_multi_fail0_cb },
   { priority := 1, callback := rpc_multi_fail1_cb },
   { priority := 2, callback := rpc_multi_fail2_cb }]

/-- The state of the callbacks when the test starts. -/
def multi_fail_init : multi_fail_state :=
  { cb_called := 0, call_no0 := 1, call_no1 := 1, call_no2 := 1, asserts := true }

/-- One `sr_rpc_send_tree` of `test_multi_fail`: the test sets `cb_called = 0` and sends. -/
def multi_fail_send (st : multi_fail_state) : sr_error_t × multi_fail_state × List rpc_call :=
  sr_rpc_send_tree multi_fail_subs { st with cb_called := 0 }

/-! ## The diff of an edit (`sr_shmmod_create_diff`)

The function `sr_ly_edit_mod_apply` of `common.c` is not part of the sources. What it
returns is an input of the embedding: for the edit, the entry and the current data of
its module, the return code, the data after the edit was applied and the diff of the
module (`[]` is the `NULL` diff of an edit that changes nothing).
-/

/-- The loop of `sr_shmmod_create_diff` (source lines 512-543): the return code, the entries
and `mod_info->diff` when the loop is left. -/
def sr_shmmod_create_diff_mods (lib : ly_lib)
    (sr_ly_edit_mod_apply : List lyd_node → sr_mod_info_mod_s → List lyd_node →
      sr_error_t × List lyd_node × List lyd_node)
    (edit : List lyd_node) (ds : Nat) :
    List sr_mod_info_mod_s → List lyd_node →
      sr_error_t × List sr_mod_info_mod_s × List lyd_node
  | [], mi_diff => (SR_ERR_OK, [], mi_diff)
  | mod :: rest, mi_diff =>
    if mod.state &&& MOD_INFO_REQ ≠ 0 then
      match sr_ly_module_data_get lib mod.ly_mod ds with
      | (ret, data) =>
        if ret ≠ SR_ERR_OK then (ret, { mod with mod_data := data } :: rest, mi_diff)
        else
          match sr_ly_edit_mod_apply edit { mod with mod_data := data } data with
          | (ret1, data1, diff) =>
            if ret1 ≠ SR_ERR_OK then (ret1, { mod with mod_data := data1 } :: rest, mi_diff)
            else if diff ≠ [] then
              match sr_shmmod_create_diff_mods lib sr_ly_edit_mod_apply edit ds rest
                  (mi_diff ++ diff) with
              | (ret2, rest1, mi_diff1) =>
                (ret2, { mod with mod_data := data1, state := mod.state ||| MOD_INFO_CHANGED }
                  :: rest1, mi_diff1)
            else
              match sr_shmmod_create_diff_mods lib sr_ly_edit_mod_apply edit ds rest mi_diff with
              | (ret2, rest1, mi_diff1) => (ret2, { mod with mod_data := data1 } :: rest1, mi_diff1)
    else
      match sr_shmmod_create_diff_mods lib sr_ly_edit_mod_apply edit ds rest mi_diff with
      | (ret2, rest1, mi_diff1) => (ret2, mod :: rest1, mi_diff1)

/-- The function `sr_shmmod_create_diff` (source lines 504-550). -/
def sr_shmmod_create_diff (lib : ly_lib)
    (sr_ly_edit_mod_apply : List lyd_node → sr_mod_info_mod_s → List lyd_node →
      sr_error_t × List lyd_node × List lyd_node)
    (edit : List lyd_node) (mod_info : sr_mod_info_s) : sr_error_t × sr_mod_info_s :=
  match sr_shmmod_create_diff_mods lib sr_ly_edit_mod_apply edit mod_info.ds mod_info.mods
      mod_info.diff with
  | (ret, mods1, diff1) => (ret, { mod_info with mods := mods1, diff := diff1 })

/-! ## A concrete module index, used to evaluate the functions -/

/-- Example module `m` (name 1) with a schema reference to module `a`. -/
def ex_mod_m : sr_mod_t :=
  { off := 300, name := 1, deps := [{ type := SR_DEP_REF, module := 2, xpath := 0 }] }

/-- Example module `a` (name 2) with a schema reference to module `b`. -/
def ex_mod_a : sr_mod_t :=
  { off := 200, name := 2, deps := [{ type := SR_DEP_REF, module := 3, xpath := 0 }] }

/-- Example module `b` (name 3) without dependencies. -/
def ex_mod_b : sr_mod_t := { off := 100, name := 3, deps := [] }

/-- Example module `r` (name 4) with an instance-identifier edge whose target is `m`. -/
def ex_mod_r : sr_mod_t :=
  { off := 400, name := 4, deps := [{ type := SR_DEP_INSTID, module := 1, xpath := 7 }] }

/-- Example connection: the index holds `m`, `a`, `b`, `r` and the schema context knows them. -/
def ex_conn : sr_conn_ctx_t :=
  { shm := [ex_mod_m, ex_mod_a, ex_mod_b, ex_mod_r], ly_ctx := [1, 2, 3, 4] }

/-- Example edit: two root nodes of module `m`. -/
def ex_edit : List lyd_node := [{ module := 1 }, { module := 1 }]

/-- A fresh mod-info. -/
def ex_mod_info : sr_mod_info_s := { ds := 0, conn := ex_conn, mods := [] }

/-- The mod-info `sr_shmmod_collect_edit` builds for `ex_edit`. -/
def ex_collected : sr_mod_info_s :=
  { ds := 1, conn := ex_conn,
    mods := [{ shm_mod := 200, state := MOD_INFO_DEP, ly_mod := 2 },
      { shm_mod := 300, state := MOD_INFO_REQ, ly_mod := 1 },
      { shm_mod := 400, state := MOD_INFO_INV_DEP, ly_mod := 4 }] }

/-- A system in which every lock is granted at once and no other process writes a flag. -/
def ex_env : Nat → LockResp := fun _ => LockResp.granted

/-- A second sorted mod-info over the example index, sharing `m` and `r` with
`ex_collected`. -/
def ex_collected2 : sr_mod_info_s :=
  { ds := 1, conn := ex_conn,
    mods := [{ shm_mod := 300, state := MOD_INFO_INV_DEP, ly_mod := 1 },
      { shm_mod := 400, state := MOD_INFO_REQ, ly_mod := 4 }] }

/-- A system in which the second call of `sr_shmmod_lock` runs into its deadline and every
other call is granted. -/
def ex_env_timeout : Nat → LockResp := fun n =>
  if n = 1 then { clock_ok := true, ret := ETIMEDOUT, writes := [] } else LockResp.granted

/-- The result of `sr_shmmod_multilock(ex_collected, 0, 1)` in a quiet system. -/
def ex_locked : sr_error_t × sr_mod_info_s × LockWorld :=
  sr_shmmod_multilock ex_env 10 ex_collected false true LockWorld.init

/-- The first entry of `ex_collected`, of type DEP. -/
def ex_entry_a : sr_mod_info_mod_s := { shm_mod := 200, state := MOD_INFO_DEP, ly_mod := 2 }

/-- The second entry of `ex_collected`, of type REQ. -/
def ex_entry_m : sr_mod_info_mod_s := { shm_mod := 300, state := MOD_INFO_REQ, ly_mod := 1 }

/-- The third entry of `ex_collected`, of type INV_DEP. -/
def ex_entry_r : sr_mod_info_mod_s := { shm_mod := 400, state := MOD_INFO_INV_DEP, ly_mod := 4 }

/-- The result of the loop of `sr_shmmod_multilock` on the entries before `ex_entry_m`. -/
def ex_locked_a : sr_error_t × List sr_mod_info_mod_s × LockWorld :=
  sr_shmmod_multilock_mods ex_env 10 1 false true [ex_entry_a] LockWorld.init

/-- A world in which another transaction has set the flag of the module at offset 300 for
datastore 1. -/
def ex_world_busy : LockWorld :=
  { applying_changes := fun m ds => decide (m = 300 ∧ ds = 1), held := [], calls := 0,
    trace := [], requests := [] }

/-- The result of the loop of `sr_shmmod_multilock` on the entries before `ex_entry_m`,
started in `ex_world_busy`. -/
def ex_busy_a : sr_error_t × List sr_mod_info_mod_s × LockWorld :=
  sr_shmmod_multilock_mods ex_env 3 1 false true [ex_entry_a] ex_world_busy

/-! ## Further example inputs -/

/-- The example mod-info after `sr_shmmod_multilock(ex_collected, 0, 1)`: every entry has
MOD_INFO_LOCK. -/
def ex_locked_info : sr_mod_info_s :=
  { ds := 1, conn := ex_conn,
    mods := [{ shm_mod := 200, state := MOD_INFO_DEP ||| MOD_INFO_LOCK, ly_mod := 2 },
      { shm_mod := 300, state := MOD_INFO_REQ ||| MOD_INFO_LOCK, ly_mod := 1 },
      { shm_mod := 400, state := MOD_INFO_INV_DEP ||| MOD_INFO_LOCK, ly_mod := 4 }] }

/-- The entry of type REQ of `ex_locked_info`. -/
def ex_locked_entry_m : sr_mod_info_mod_s :=
  { shm_mod := 300, state := MOD_INFO_REQ ||| MOD_INFO_LOCK, ly_mod := 1 }

/-- The world after `sr_shmmod_multiunlock(ex_collected, 1)` releases the locks of `ex_locked`. -/
def ex_unlocked : LockWorld := sr_shmmod_multiunlock ex_locked.2.1 true ex_locked.2.2


/-- A schema library that finds no instance-identifier, reads one node of data for every
module, accepts every forest and merges diffs by appending them. -/
def ex_lib : ly_lib :=
  { lyd_find_path := fun _ _ => some []
    sr_get_first_ns := fun v => v
    lyd_parse_path := fun name _ => some [{ module := name }]
    lyd_validate_modules := fun roots _ _ _ => (0, roots, [])
    sr_ly_diff_merge := fun diff val_diff dflt => (SR_ERR_OK, diff ++ val_diff, dflt) }

/-- The same library, except that validation rejects every forest. -/
def ex_lib_invalid : ly_lib :=
  { ex_lib with lyd_validate_modules := fun roots _ _ _ => (1, roots, []) }

/-- The example mod-info after the edit was applied: the REQ entry has new data and
MOD_INFO_CHANGED, and the diff holds one node of its module. -/
def ex_edited : sr_mod_info_s :=
  { ds := 1, conn := ex_conn,
    mods := [{ shm_mod := 200, state := MOD_INFO_DEP, ly_mod := 2 },
      { shm_mod := 300, state := MOD_INFO_REQ ||| MOD_INFO_CHANGED, ly_mod := 1,
        mod_data := [{ module := 1, value := 5 }] },
      { shm_mod := 400, state := MOD_INFO_INV_DEP, ly_mod := 4 }],
    diff := [{ module := 1, value := 5 }] }

/-- A mod-info with two entries that have MOD_INFO_CHANGED and one that has not. -/
def ex_changed : sr_mod_info_s :=
  { ds := 1, conn := ex_conn,
    mods := [
      { shm_mod := 200, state := MOD_INFO_DEP, ly_mod := 2, mod_data := [{ module := 2 }] },
      { shm_mod := 300, state := MOD_INFO_REQ ||| MOD_INFO_CHANGED, ly_mod := 1,
        mod_data := [{ module := 1, value := 5 }] },
      { shm_mod := 400, state := MOD_INFO_INV_DEP ||| MOD_INFO_CHANGED, ly_mod := 4,
        mod_data := [{ module := 4, value := 6 }] }] }

/-- Data files that all hold an empty tree; nothing was written yet. -/
def ex_files : DataFiles := { files := fun _ _ => some [], calls := 0, log := [] }

/-- A file system on which every write succeeds. -/
def ex_penv : Nat → PrintResp := fun _ => { ret := 0, left := none }

/-- A file system on which the second write fails and leaves an unreadable file. -/
def ex_penv_fail : Nat → PrintResp := fun n =>
  if n = 1 then { ret := 1, left := none } else { ret := 0, left := none }

/-- A segment of 1016 bytes in which the module at offset 300 has two subscriptions for
datastore 1 at the very end of the segment (offsets 1000 and 1008) and the module at
offset 200 has two before them (offsets 984 and 992). -/
def ex_shm : MainShm :=
  { shm_size := 1016
    subs := fun o d => if o = 300 ∧ d = 1 then 1000 else if o = 200 ∧ d = 1 then 984 else 0
    sub_count := fun o d => if o = 300 ∧ d = 1 then 2 else if o = 200 ∧ d = 1 then 2 else 0
    mem := fun a =>
      if a = 1000 then { priority := 5, opts := 0 }
      else if a = 1008 then { priority := 7, opts := 1 }
      else if a = 984 then { priority := 1, opts := 0 }
      else if a = 992 then { priority := 2, opts := 0 }
      else { priority := 0, opts := 0 } }

/-- The value of a record that a write has partly overwritten, in the examples. -/
def ex_junk : Nat → sr_mod_sub_t := fun _ => { priority := 0, opts := 0 }

/-! ## Example inputs for the later properties -/

/-- A schema library like `ex_lib` whose validation adds a change to the module 4: the
validation diff holds one node of that module. -/
def ex_lib_val_diff : ly_lib :=
  { ex_lib with
      lyd_validate_modules := fun roots _ _ _ => (0, roots, [{ module := 4, value := 9 }]) }

/-- A schema library like `ex_lib` in which every XPath matches all the nodes of the
data it is evaluated on. -/
def ex_lib_instid : ly_lib := { ex_lib with lyd_find_path := fun data _ => some data }

/-- Example module `s` (name 5) with two instance-identifier edges, one with the recorded
target `m` and one without a recorded target, and a schema reference to `a`. -/
def ex_mod_s : sr_mod_t :=
  { off := 500, name := 5,
    deps := [{ type := SR_DEP_INSTID, module := 1, xpath := 7 },
      { type := SR_DEP_REF, module := 2, xpath := 0 },
      { type := SR_DEP_INSTID, module := 0, xpath := 8 }] }

/-- A system in which the third call of `sr_shmmod_lock` runs into its deadline and every
other call is granted. -/
def ex_env_relock_fail : Nat → LockResp := fun n =>
  if n = 2 then { clock_ok := true, ret := ETIMEDOUT, writes := [] } else LockResp.granted

/-- The result of `sr_shmmod_multilock(ex_collected, 0, 1)` when the read lock of the REQ
entry is not obtained after its write lock was released. -/
def ex_relock_failed : sr_error_t × sr_mod_info_s × LockWorld :=
  sr_shmmod_multilock ex_env_relock_fail 10 ex_collected false true LockWorld.init

/-- Example edit: a root node of module `m` that sets the value 5 and a root node of
module `r` that changes nothing. -/
def ex_edit2 : List lyd_node := [{ module := 1, value := 5 }, { module := 4 }]

/-- Applying the example edit: the data of module `m` becomes the node of the edit, with
that node as its diff; the data of every other module stays as it is, without a diff. -/
def ex_edit_apply (edit : List lyd_node) (mod : sr_mod_info_mod_s) (data : List lyd_node) :
    sr_error_t × List lyd_node × List lyd_node :=
  if mod.ly_mod = 1 then
    (SR_ERR_OK, edit.filter (fun n => n.module == 1), edit.filter (fun n => n.module == 1))
  else (SR_ERR_OK, data, [])

/-- A schema library like `ex_lib` whose validation changes the data of the module 4 (as
the automatic deletion of a `when` node or a new default does): the nodes of that
module get the value 9 and the validation diff holds the change. -/
def ex_lib_autodel : ly_lib :=
  { ex_lib with
      lyd_validate_modules := fun roots _ _ _ =>
        (0, roots.map (fun n => if n.module = 4 then { n with value := 9 } else n),
          [{ module := 4, value := 9 }]) }

/-- The mod-info that `sr_shmmod_collect_edit` builds for `ex_edit2`: the modules `m` and `r`
are REQ and the module `a` is DEP. -/
def ex_collected_two : sr_mod_info_s :=
  { ds := 1, conn := ex_conn,
    mods := [{ shm_mod := 200, state := MOD_INFO_DEP, ly_mod := 2 },
      { shm_mod := 300, state := MOD_INFO_REQ, ly_mod := 1 },
      { shm_mod := 400, state := MOD_INFO_REQ, ly_mod := 4 }] }

/-- The mod-info after `sr_shmmod_create_diff` and `sr_shmmod_validate(mod_info, 1)` on the
example. -/
def ex_validated_two : sr_mod_info_s :=
  (sr_shmmod_validate ex_lib_autodel
    (sr_shmmod_create_diff ex_lib ex_edit_apply ex_edit2 ex_collected_two).2 true).2.1

/-- Example module `c` (name 6) with a schema reference to itself and one to module `e`. -/
def ex_mod_c : sr_mod_t :=
  { off := 600, name := 6,
    deps := [{ type := SR_DEP_REF, module := 6, xpath := 0 },
      { type := SR_DEP_REF, module := 7, xpath := 0 }] }

/-- Example module `e` (name 7) with a schema reference back to module `c`. -/
def ex_mod_e : sr_mod_t :=
  { off := 700, name := 7, deps := [{ type := SR_DEP_REF, module := 6, xpath := 0 }] }

/-- An index with a self-reference and a cycle of two modules. -/
def ex_conn_cyclic : sr_conn_ctx_t := { shm := [ex_mod_c, ex_mod_e], ly_ctx := [6, 7] }

/-- A vector in which the module `b` of the example index is present as DEP. -/
def ex_mods_dep : List sr_mod_info_mod_s := [{ shm_mod := 100, state := MOD_INFO_DEP, ly_mod := 3 }]

/-- The vector after the module `b` was added to `ex_mods_dep` as REQ: its entry is REQ and
the module `a`, which refers to it, is INV_DEP. -/
def ex_mods_raised : List sr_mod_info_mod_s :=
  [{ shm_mod := 100, state := MOD_INFO_REQ, ly_mod := 3 },
    { shm_mod := 200, state := MOD_INFO_INV_DEP, ly_mod := 2 }]

/-- A segment of `2 ^ 32 - 8` bytes in which the module at offset 300 has two subscriptions
for datastore 1 at the very end of the segment; one record more does not fit the 32
bits of `new_shm_size`. -/
def ex_shm_wrap : MainShm :=
  { shm_size := 4294967288
    subs := fun o d => if o = 300 ∧ d = 1 then 4294967272 else 0
    sub_count := fun o d => if o = 300 ∧ d = 1 then 2 else 0
    mem := fun a =>
      if a = 4294967272 then { priority := 5, opts := 0 }
      else if a = 4294967280 then { priority := 7, opts := 1 }
      else { priority := 0, opts := 0 } }

/-! ## Properties of the mod-info builder -/

theorem find_eq_none {mods : List sr_mod_info_mod_s} {off : Nat} :
    sr_modinfo_find mods off = none ↔ ∀ e ∈ mods, e.shm_mod ≠ off := by
  induction mods with
  | nil => simp [sr_modinfo_find]
  | cons a rest ih =>
    by_cases h : a.shm_mod = off
    · simp [sr_modinfo_find, h]
    · simp [sr_modinfo_find, h, ih]

theorem find_some_spec {mods : List sr_mod_info_mod_s} {off i : Nat} {e : sr_mod_info_mod_s}
    (h : sr_modinfo_find mods off = some (i, e)) : mods[i]? = some e ∧ e.shm_mod = off := by
  induction mods generalizing i with
  | nil => simp [sr_modinfo_find] at h
  | cons a rest ih =>
    by_cases ha : a.shm_mod = off
    · simp [sr_modinfo_find, ha] at h
      obtain ⟨rfl, rfl⟩ := h
      simp [ha]
    · simp only [sr_modinfo_find, ha, if_false, Option.map_eq_some'] at h
      obtain ⟨⟨j, e1⟩, hj, heq⟩ := h
      simp only [Prod.mk.injEq] at heq
      obtain ⟨rfl, rfl⟩ := heq
      have := ih hj
      simpa using this

theorem find_of_nodup {mods : List sr_mod_info_mod_s} {i : Nat} {e : sr_mod_info_mod_s}
    (hnd : (mods.map (fun e => e.shm_mod)).Nodup) (h : mods[i]? = some e) :
    sr_modinfo_find mods e.shm_mod = some (i, e) := by
  induction mods generalizing i with
  | nil => simp at h
  | cons a rest ih =>
    cases i with
    | zero =>
      simp at h
      subst h
      simp [sr_modinfo_find]
    | succ j =>
      simp at h
      have hmem : e ∈ rest := List.mem_iff_getElem?.mpr ⟨j, h⟩
      simp only [List.map_cons, List.nodup_cons, List.mem_map, not_exists, not_and] at hnd
      have hne : a.shm_mod ≠ e.shm_mod := fun heq => hnd.1 e hmem heq.symm
      simp [sr_modinfo_find, hne, ih hnd.2 h]

theorem state_at_eq_state_of {mods : List sr_mod_info_mod_s} {i : Nat} {e : sr_mod_info_mod_s}
    (hnd : (mods.map (fun e => e.shm_mod)).Nodup) (h : mods[i]? = some e) :
    sr_modinfo_state_at mods i = sr_modinfo_state_of mods e.shm_mod := by
  simp [sr_modinfo_state_at, sr_modinfo_state_of, h, find_of_nodup hnd h]

theorem state_of_mem {mods : List sr_mod_info_mod_s} {e : sr_mod_info_mod_s}
    (hnd : (mods.map (fun e => e.shm_mod)).Nodup) (h : e ∈ mods) :
    sr_modinfo_state_of mods e.shm_mod = e.state := by
  obtain ⟨i, hi⟩ := List.mem_iff_getElem?.mp h
  simp [sr_modinfo_state_of, find_of_nodup hnd hi]

theorem state_of_pos {mods : List sr_mod_info_mod_s} {off : Nat}
    (h : 0 < sr_modinfo_state_of mods off) :
    ∃ e ∈ mods, e.shm_mod = off ∧ e.state = sr_modinfo_state_of mods off := by
  unfold sr_modinfo_state_of at h ⊢
  cases hf : sr_modinfo_find mods off with
  | none => simp [hf] at h
  | some p =>
    obtain ⟨i, e⟩ := p
    obtain ⟨h1, h2⟩ := find_some_spec hf
    exact ⟨e, List.mem_iff_getElem?.mpr ⟨i, h1⟩, h2, rfl⟩

theorem find_append (mods : List sr_mod_info_mod_s) (n : sr_mod_info_mod_s) (off : Nat) :
    sr_modinfo_find (mods ++ [n]) off =
      match sr_modinfo_find mods off with
      | some p => some p
      | none => if n.shm_mod = off then some (mods.length, n) else none := by
  induction mods with
  | nil => by_cases h : n.shm_mod = off <;> simp [sr_modinfo_find, h]
  | cons a rest ih =>
    by_cases ha : a.shm_mod = off
    · simp [sr_modinfo_find, ha]
    · simp only [List.cons_append, sr_modinfo_find, ha, if_false, List.append_eq]
      rw [ih]
      cases hf : sr_modinfo_find rest off with
      | some p => simp
      | none => by_cases h : n.shm_mod = off <;> simp [h]

theorem state_of_append {mods : List sr_mod_info_mod_s} {n : sr_mod_info_mod_s}
    (hn : sr_modinfo_find mods n.shm_mod = none) (off : Nat) :
    sr_modinfo_state_of (mods ++ [n]) off =
      if off = n.shm_mod then n.state else sr_modinfo_state_of mods off := by
  unfold sr_modinfo_state_of
  rw [find_append]
  by_cases h : off = n.shm_mod
  · subst h; simp [hn]
  · have h' : ¬ n.shm_mod = off := fun x => h x.symm
    cases sr_modinfo_find mods off <;> simp [h, h']

theorem find_set {mods : List sr_mod_info_mod_s} {i : Nat} {e e1 : sr_mod_info_mod_s}
    (hi : mods[i]? = some e) (hk : e1.shm_mod = e.shm_mod) (off : Nat) :
    sr_modinfo_find (mods.set i e1) off =
      (sr_modinfo_find mods off).map (fun p => if p.1 = i then (i, e1) else p) := by
  induction mods generalizing i with
  | nil => simp at hi
  | cons a rest ih =>
    cases i with
    | zero =>
      simp at hi
      subst hi
      by_cases ha : a.shm_mod = off
      · simp [sr_modinfo_find, ha, hk]
      · simp only [List.set_cons_zero, sr_modinfo_find, hk, ha, if_false, Option.map_map]
        congr 1
    | succ j =>
      simp at hi
      by_cases ha : a.shm_mod = off
      · simp [sr_modinfo_find, ha]
      · simp only [List.set_cons_succ, sr_modinfo_find, ha, if_false, ih hi, Option.map_map]
        congr 1
        funext p
        by_cases hp : p.1 = j <;> simp [hp]

theorem state_of_set {mods : List sr_mod_info_mod_s} {i : Nat} {e e1 : sr_mod_info_mod_s}
    (hf : sr_modinfo_find mods e.shm_mod = some (i, e)) (hk : e1.shm_mod = e.shm_mod) (off : Nat) :
    sr_modinfo_state_of (mods.set i e1) off =
      if off = e.shm_mod then e1.state else sr_modinfo_state_of mods off := by
  have hi := (find_some_spec hf).1
  unfold sr_modinfo_state_of
  rw [find_set hi hk]
  by_cases h : off = e.shm_mod
  · subst h; simp [hf]
  · cases hf2 : sr_modinfo_find mods off with
    | none => simp [h]
    | some p =>
      obtain ⟨j, e2⟩ := p
      have h2 := find_some_spec hf2
      have hji : j ≠ i := by
        rintro rfl
        rw [hi] at h2
        have := h2.1
        simp at this
        subst this
        exact h h2.2.symm
      simp [h, hji]

theorem typed_append {mods : List sr_mod_info_mod_s} {n : sr_mod_info_mod_s}
    (h : ModsTyped mods) (hn : sr_modinfo_find mods n.shm_mod = none)
    (ht : n.state = MOD_INFO_DEP ∨ n.state = MOD_INFO_INV_DEP ∨ n.state = MOD_INFO_REQ) :
    ModsTyped (mods ++ [n]) := by
  refine ⟨?_, ?_⟩
  · rw [List.map_append, List.nodup_append]
    refine ⟨h.1, by simp, ?_⟩
    intro a ha hb
    simp only [List.map_cons, List.map_nil, List.mem_singleton] at hb
    obtain ⟨e, he, rfl⟩ := List.mem_map.mp ha
    exact find_eq_none.mp hn e he hb
  · intro e he
    rcases List.mem_append.mp he with he | he
    · exact h.2 e he
    · simp only [List.mem_singleton] at he
      subst he
      exact ht

theorem typed_set {mods : List sr_mod_info_mod_s} {i : Nat} {e e1 : sr_mod_info_mod_s}
    (h : ModsTyped mods) (hi : mods[i]? = some e) (hk : e1.shm_mod = e.shm_mod)
    (ht : e1.state = MOD_INFO_DEP ∨ e1.state = MOD_INFO_INV_DEP ∨ e1.state = MOD_INFO_REQ) :
    ModsTyped (mods.set i e1) := by
  obtain ⟨hlt, hget⟩ := List.getElem?_eq_some.mp hi
  refine ⟨?_, ?_⟩
  · rw [List.map_set]
    have : (mods.map (fun e => e.shm_mod)).set i e1.shm_mod = mods.map (fun e => e.shm_mod) := by
      apply List.ext_getElem?
      intro j
      rw [List.getElem?_set]
      by_cases hij : i = j
      · subst hij
        simp [hlt, hk, hget]
      · simp [hij]
    rw [this]
    exact h.1
  · intro x hx
    rcases List.mem_or_eq_of_mem_set hx with hx | hx
    · exact h.2 x hx
    · subst hx
      exact ht

theorem ext_refl (mods : List sr_mod_info_mod_s) : ModsExt mods mods :=
  fun _ e h => ⟨e, h, rfl⟩

theorem ext_trans {a b c : List sr_mod_info_mod_s} (h1 : ModsExt a b) (h2 : ModsExt b c) :
    ModsExt a c := by
  intro i e he
  obtain ⟨e1, h11, h12⟩ := h1 i e he
  obtain ⟨e2, h21, h22⟩ := h2 i e1 h11
  exact ⟨e2, h21, h22.trans h12⟩

theorem ext_append (mods l : List sr_mod_info_mod_s) : ModsExt mods (mods ++ l) := by
  intro i e he
  obtain ⟨hlt, _⟩ := List.getElem?_eq_some.mp he
  exact ⟨e, by rw [List.getElem?_append_left hlt]; exact he, rfl⟩

theorem ext_set {mods : List sr_mod_info_mod_s} {i : Nat} {e e1 : sr_mod_info_mod_s}
    (hi : mods[i]? = some e) (hk : e1.shm_mod = e.shm_mod) : ModsExt mods (mods.set i e1) := by
  intro j x hx
  obtain ⟨hlt, _⟩ := List.getElem?_eq_some.mp hi
  rw [List.getElem?_set]
  by_cases hij : i = j
  · subst hij
    rw [hi] at hx
    simp only [Option.some.injEq] at hx
    subst hx
    exact ⟨e1, by simp [hlt], hk⟩
  · exact ⟨x, by simp [hij, hx], rfl⟩

theorem set_append_uninit (mods : List sr_mod_info_mod_s) (n : sr_mod_info_mod_s) :
    (mods ++ [sr_modinfo_uninit]).set mods.length n = mods ++ [n] := by
  rw [List.set_append_right _ _ (le_refl _)]
  simp

theorem state_at_append_new (mods : List sr_mod_info_mod_s) (n : sr_mod_info_mod_s) :
    sr_modinfo_state_at (mods ++ [n]) mods.length = n.state := by
  simp [sr_modinfo_state_at]

theorem depstep_refl {mods : List sr_mod_info_mod_s} (h : ModsTyped mods) : DepStep mods mods :=
  ⟨h, ext_refl _, fun _ => Or.inl rfl⟩

theorem depstep_trans {a b c : List sr_mod_info_mod_s} (h1 : DepStep a b) (h2 : DepStep b c) :
    DepStep a c := by
  refine ⟨h2.typed, ext_trans h1.ext h2.ext, ?_⟩
  intro o
  rcases h1.change o with e1 | ⟨e1, e1'⟩ <;> rcases h2.change o with e2 | ⟨e2, e2'⟩
  · left; rw [e2, e1]
  · right; exact ⟨by rw [← e1]; exact e2, e2'⟩
  · right; exact ⟨e1, by rw [e2]; exact e1'⟩
  · right; exact ⟨e1, e2'⟩

theorem state_of_typed {mods : List sr_mod_info_mod_s} (h : ModsTyped mods) (o : Nat) :
    sr_modinfo_state_of mods o = 0 ∨ sr_modinfo_state_of mods o = MOD_INFO_DEP ∨
      sr_modinfo_state_of mods o = MOD_INFO_INV_DEP ∨ sr_modinfo_state_of mods o = MOD_INFO_REQ := by
  by_cases h0 : sr_modinfo_state_of mods o = 0
  · exact Or.inl h0
  · obtain ⟨e, he, _, hs⟩ := state_of_pos (Nat.pos_of_ne_zero h0)
    rw [← hs]
    exact Or.inr (h.2 e he)

theorem add_unfold (conn : sr_conn_ctx_t) (fuel : Nat) (X : sr_mod_t) (ly t : Nat)
    (mods : List sr_mod_info_mod_s) (h : ModsTyped mods)
    (ht : t = MOD_INFO_DEP ∨ t = MOD_INFO_INV_DEP ∨ t = MOD_INFO_REQ) :
    (t ≤ sr_modinfo_state_of mods X.off ∧
      sr_modinfo_add_mod_with_deps conn (fuel + 1) X ly t mods = some (SR_ERR_OK, mods)) ∨
    (sr_modinfo_state_of mods X.off < t ∧ ∃ cur_i mods1,
      sr_modinfo_add_mod_with_deps conn (fuel + 1) X ly t mods =
        sr_modinfo_add_closure (sr_modinfo_add_mod_with_deps conn fuel) conn X
          (sr_modinfo_state_of mods X.off) cur_i mods1 ∧
      ModsTyped mods1 ∧ ModsExt mods mods1 ∧
      (∀ o, sr_modinfo_state_of mods1 o = if o = X.off then t else sr_modinfo_state_of mods o) ∧
      ∃ e1 : sr_mod_info_mod_s, mods1[cur_i]? = some e1 ∧ e1.shm_mod = X.off) := by
  simp only [sr_modinfo_add_mod_with_deps]
  cases hf : sr_modinfo_find mods X.off with
  | some p =>
    obtain ⟨i, e⟩ := p
    obtain ⟨hi, hk⟩ := find_some_spec hf
    have hmem : e ∈ mods := List.mem_iff_getElem?.mpr ⟨i, hi⟩
    have hst : sr_modinfo_state_of mods X.off = e.state := by
      simp [sr_modinfo_state_of, hf]
    have hmask : e.state &&& MOD_INFO_TYPE_MASK = e.state := by
      rcases h.2 e hmem with h1 | h1 | h1 <;> rw [h1] <;> decide
    have hpos : ¬ e.state < MOD_INFO_DEP := by
      rcases h.2 e hmem with h1 | h1 | h1 <;> rw [h1] <;> decide
    simp only [hmask, hst]
    by_cases hlt : e.state < t
    · right
      have hf' : sr_modinfo_find mods e.shm_mod = some (i, e) := by rw [hk]; exact hf
      refine ⟨hlt, i, mods.set i { e with state := t }, ?_, typed_set h hi rfl ht, ext_set hi rfl,
        ?_, ?_⟩
      · simp [hlt, sr_modinfo_add_new, hpos]
      · intro o
        have := @state_of_set mods i e { e with state := t } hf' rfl o
        rw [this, hk]
      · obtain ⟨hl, _⟩ := List.getElem?_eq_some.mp hi
        exact ⟨{ e with state := t }, by simp [List.getElem?_set, hl], hk⟩
    · left
      exact ⟨Nat.le_of_not_lt hlt, by simp [hlt]⟩
  | none =>
    right
    have hst : sr_modinfo_state_of mods X.off = 0 := by simp [sr_modinfo_state_of, hf]
    have hn : sr_modinfo_find mods
        ({ shm_mod := X.off, state := t, ly_mod := ly } : sr_mod_info_mod_s).shm_mod = none := hf
    have htpos : 0 < t := by
      rcases ht with h1 | h1 | h1 <;> rw [h1] <;> decide
    refine ⟨by rw [hst]; exact htpos, mods.length,
      mods ++ [{ shm_mod := X.off, state := t, ly_mod := ly }], ?_, typed_append h hn ht,
      ext_append _ _, ?_, ?_⟩
    · simp [hst, sr_modinfo_add_new, show (0 < MOD_INFO_DEP) from by decide, set_append_uninit]
    · intro o
      rw [state_of_append hn]
    · exact ⟨{ shm_mod := X.off, state := t, ly_mod := ly }, by simp, rfl⟩

theorem add_dep_spec (conn : sr_conn_ctx_t) (fuel : Nat) (T : sr_mod_t) (ly : Nat)
    (mods mods1 : List sr_mod_info_mod_s) (ret : sr_error_t) (h : ModsTyped mods)
    (hr : sr_modinfo_add_mod_with_deps conn fuel T ly MOD_INFO_DEP mods = some (ret, mods1)) :
    ret = SR_ERR_OK ∧ DepStep mods mods1 ∧ MOD_INFO_DEP ≤ sr_modinfo_state_of mods1 T.off := by
  cases fuel with
  | zero => simp [sr_modinfo_add_mod_with_deps] at hr
  | succ fuel =>
    rcases add_unfold conn fuel T ly MOD_INFO_DEP mods h (Or.inl rfl) with
      ⟨hle, heq⟩ | ⟨hlt, cur_i, m1, heq, hty, hext, hst, e1, he1, hk1⟩
    · rw [heq] at hr
      simp only [Option.some.injEq, Prod.mk.injEq] at hr
      obtain ⟨rfl, rfl⟩ := hr
      exact ⟨rfl, depstep_refl h, hle⟩
    · have hcur : sr_modinfo_state_at m1 cur_i = MOD_INFO_DEP := by
        rw [state_at_eq_state_of hty.1 he1, hk1, hst]; simp
      rw [heq] at hr
      simp only [sr_modinfo_add_closure, hcur, show MOD_INFO_DEP < MOD_INFO_INV_DEP from by decide,
        if_true, Option.some.injEq, Prod.mk.injEq] at hr
      obtain ⟨rfl, rfl⟩ := hr
      have h0 : sr_modinfo_state_of mods T.off = 0 := by
        have : sr_modinfo_state_of mods T.off < 1 := hlt
        omega
      refine ⟨rfl, ⟨hty, hext, ?_⟩, ?_⟩
      · intro o
        rw [hst]
        by_cases ho : o = T.off
        · subst ho; right; simp [h0]
        · left; simp [ho]
      · rw [hst]; simp

theorem depstep_mono {mods mods1 : List sr_mod_info_mod_s} (h : DepStep mods mods1) (o : Nat) :
    sr_modinfo_state_of mods o ≤ sr_modinfo_state_of mods1 o := by
  rcases h.change o with e | ⟨e, _⟩
  · rw [e]
  · rw [e]; exact Nat.zero_le _

theorem depstep_same_of_ge {mods mods1 : List sr_mod_info_mod_s} (h : DepStep mods mods1) (o : Nat)
    (h2 : MOD_INFO_INV_DEP ≤ sr_modinfo_state_of mods1 o) :
    sr_modinfo_state_of mods1 o = sr_modinfo_state_of mods o := by
  rcases h.change o with e | ⟨_, e⟩
  · exact e
  · rw [e] at h2; exact absurd h2 (by decide)

theorem depstep_same_of_pos {mods mods1 : List sr_mod_info_mod_s} (h : DepStep mods mods1) (o : Nat)
    (h2 : 0 < sr_modinfo_state_of mods o) :
    sr_modinfo_state_of mods1 o = sr_modinfo_state_of mods o := by
  rcases h.change o with e | ⟨e, _⟩
  · exact e
  · rw [e] at h2; exact absurd h2 (by decide)

theorem add_deps_spec
    (call : sr_mod_t → Nat → Nat → List sr_mod_info_mod_s →
      Option (sr_error_t × List sr_mod_info_mod_s))
    (conn : sr_conn_ctx_t)
    (hcall : ∀ T ly mods ret mods1, ModsTyped mods →
      call T ly MOD_INFO_DEP mods = some (ret, mods1) →
      ret = SR_ERR_OK ∧ DepStep mods mods1 ∧ MOD_INFO_DEP ≤ sr_modinfo_state_of mods1 T.off)
    (deps : List sr_mod_dep_t) (mods mods1 : List sr_mod_info_mod_s) (h : ModsTyped mods)
    (hr : sr_modinfo_add_deps call conn deps mods = some (SR_ERR_OK, mods1)) :
    DepStep mods mods1 ∧ ∀ d ∈ deps, d.type ≠ SR_DEP_INSTID →
      ∀ T, sr_shmmain_find_module conn.shm d.module = some T →
        MOD_INFO_DEP ≤ sr_modinfo_state_of mods1 T.off := by
  induction deps generalizing mods with
  | nil =>
    simp only [sr_modinfo_add_deps, Option.some.injEq, Prod.mk.injEq, true_and] at hr
    subst hr
    exact ⟨depstep_refl h, by simp⟩
  | cons d rest ih =>
    simp only [sr_modinfo_add_deps] at hr
    by_cases hd : d.type = SR_DEP_INSTID
    · simp only [hd, if_true] at hr
      obtain ⟨h1, h2⟩ := ih mods h hr
      refine ⟨h1, ?_⟩
      intro d' hd' hne
      rcases List.mem_cons.mp hd' with rfl | hmem
      · exact absurd hd hne
      · exact h2 d' hmem hne
    · simp only [hd, if_false] at hr
      cases hfm : sr_shmmain_find_module conn.shm d.module with
      | none => simp [hfm] at hr
      | some T =>
        simp only [hfm] at hr
        cases hly : ly_ctx_get_module conn.ly_ctx T.name with
        | none => simp [hly] at hr
        | some ly =>
          simp only [hly] at hr
          cases hc : call T ly MOD_INFO_DEP mods with
          | none => simp [hc] at hr
          | some r =>
            obtain ⟨ret, m1⟩ := r
            obtain ⟨hret, hstep, hpost⟩ := hcall T ly mods ret m1 h hc
            subst hret
            simp only [hc, ne_eq, not_true_eq_false, if_false] at hr
            obtain ⟨h1, h2⟩ := ih m1 hstep.typed hr
            refine ⟨depstep_trans hstep h1, ?_⟩
            intro d' hd' hne T' hT'
            rcases List.mem_cons.mp hd' with rfl | hmem
            · rw [hfm] at hT'
              simp only [Option.some.injEq] at hT'
              subst hT'
              exact le_trans hpost (depstep_mono h1 _)
            · exact h2 d' hmem hne T' hT'

theorem invstep_refl {conn : sr_conn_ctx_t} {mods : List sr_mod_info_mod_s} (h : ModsTyped mods) :
    InvStep conn mods mods :=
  ⟨h, ext_refl _, fun _ => le_refl _, fun _ h => h, fun _ h => h⟩

theorem invstep_trans {conn : sr_conn_ctx_t} {a b c : List sr_mod_info_mod_s}
    (h1 : InvStep conn a b) (h2 : InvStep conn b c) : InvStep conn a c :=
  ⟨h2.typed, ext_trans h1.ext h2.ext, fun o => le_trans (h1.mono o) (h2.mono o),
    fun o h => h1.req_same o (h2.req_same o h), fun hd h => h2.closed hd (h1.closed hd h)⟩

theorem state_at_of_ext {m1 m2 : List sr_mod_info_mod_s} {i : Nat} {e1 : sr_mod_info_mod_s}
    (hext : ModsExt m1 m2) (hty : ModsTyped m2) (he : m1[i]? = some e1) :
    sr_modinfo_state_at m2 i = sr_modinfo_state_of m2 e1.shm_mod := by
  obtain ⟨e2, he2, hk⟩ := hext i e1 he
  rw [state_at_eq_state_of hty.1 he2, hk]

theorem add_inv_spec (conn : sr_conn_ctx_t) (fuel : Nat)
    (D : sr_mod_t) (hD : D ∈ conn.shm) (ly : Nat)
    (mods mods1 : List sr_mod_info_mod_s) (h : ModsTyped mods)
    (hr : sr_modinfo_add_mod_with_deps conn fuel D ly MOD_INFO_INV_DEP mods
      = some (SR_ERR_OK, mods1)) :
    InvStep conn mods mods1 ∧ MOD_INFO_INV_DEP ≤ sr_modinfo_state_of mods1 D.off := by
  cases fuel with
  | zero => simp [sr_modinfo_add_mod_with_deps] at hr
  | succ fuel =>
    rcases add_unfold conn fuel D ly MOD_INFO_INV_DEP mods h (Or.inr (Or.inl rfl)) with
      ⟨hle, heq⟩ | ⟨hlt, cur_i, m1, heq, hty, hext, hst, e1, he1, hk1⟩
    · rw [heq] at hr
      simp only [Option.some.injEq, Prod.mk.injEq, true_and] at hr
      subst hr
      exact ⟨invstep_refl h, hle⟩
    · have hcur : sr_modinfo_state_at m1 cur_i = MOD_INFO_INV_DEP := by
        rw [state_at_eq_state_of hty.1 he1, hk1, hst]; simp
      rw [heq] at hr
      simp only [sr_modinfo_add_closure, hcur, lt_irrefl, if_false, hlt, if_true] at hr
      cases hl : sr_modinfo_add_deps (sr_modinfo_add_mod_with_deps conn fuel) conn D.deps m1 with
      | none => simp [hl] at hr
      | some r =>
        obtain ⟨ret, m2⟩ := r
        simp only [hl] at hr
        by_cases hret : ret = SR_ERR_OK
        · subst hret
          obtain ⟨hstep, htg⟩ := add_deps_spec _ conn
            (fun T ly mods ret mods1 hm hc => add_dep_spec conn fuel T ly mods mods1 ret hm hc)
            D.deps m1 m2 hty hl
          have hD2 : sr_modinfo_state_of m2 D.off = MOD_INFO_INV_DEP := by
            rw [depstep_same_of_pos hstep D.off (by rw [hst]; simp; decide), hst]; simp
          have hcur2 : sr_modinfo_state_at m2 cur_i = MOD_INFO_INV_DEP := by
            rw [state_at_of_ext hstep.ext hstep.typed he1, hk1, hD2]
          simp only [ne_eq, not_true_eq_false, if_false, hcur2,
            show MOD_INFO_INV_DEP < MOD_INFO_REQ from by decide, if_true,
            Option.some.injEq, Prod.mk.injEq, true_and] at hr
          subst hr
          have hmono1 : ∀ o, sr_modinfo_state_of mods o ≤ sr_modinfo_state_of m1 o := by
            intro o
            rw [hst]
            by_cases ho : o = D.off
            · subst ho; simp; exact Nat.le_of_lt hlt
            · simp [ho]
          refine ⟨⟨hstep.typed, ext_trans hext hstep.ext,
            fun o => le_trans (hmono1 o) (depstep_mono hstep o), ?_, ?_⟩, by rw [hD2]⟩
          · intro o ho
            have h4 : sr_modinfo_state_of m1 o = MOD_INFO_REQ := by
              rw [← depstep_same_of_ge hstep o (by rw [ho]; decide), ho]
            rw [hst] at h4
            by_cases hoD : o = D.off
            · simp [hoD] at h4; exact absurd h4 (by decide)
            · simpa [hoD] using h4
          · intro hd hK N hN hN2 d hdm hne T hT
            have hsame := depstep_same_of_ge hstep N.off hN2
            by_cases hND : N.off = D.off
            · have : N = D := hd N hN D hD hND
              subst this
              exact htg d hdm hne T hT
            · have h1N : sr_modinfo_state_of m1 N.off = sr_modinfo_state_of mods N.off := by
                rw [hst]; simp [hND]
              have := hK N hN (by rw [← h1N, ← hsame]; exact hN2) d hdm hne T hT
              exact le_trans this (le_trans (hmono1 _) (depstep_mono hstep _))
        · simp [hret] at hr

theorem add_inv_deps_mod_spec
    (call : sr_mod_t → Nat → Nat → List sr_mod_info_mod_s →
      Option (sr_error_t × List sr_mod_info_mod_s))
    (conn : sr_conn_ctx_t) (M D : sr_mod_t)
    (hcall : ∀ ly mods mods1, ModsTyped mods →
      call D ly MOD_INFO_INV_DEP mods = some (SR_ERR_OK, mods1) →
      InvStep conn mods mods1 ∧ MOD_INFO_INV_DEP ≤ sr_modinfo_state_of mods1 D.off)
    (deps : List sr_mod_dep_t) (mods mods1 : List sr_mod_info_mod_s) (h : ModsTyped mods)
    (hr : sr_modinfo_add_inv_deps_mod call conn M D deps mods = some (SR_ERR_OK, mods1)) :
    InvStep conn mods mods1 ∧
      ((∃ d ∈ deps, d.module = M.name) → MOD_INFO_INV_DEP ≤ sr_modinfo_state_of mods1 D.off) := by
  induction deps generalizing mods with
  | nil =>
    simp only [sr_modinfo_add_inv_deps_mod, Option.some.injEq, Prod.mk.injEq, true_and] at hr
    subst hr
    exact ⟨invstep_refl h, by simp⟩
  | cons d rest ih =>
    simp only [sr_modinfo_add_inv_deps_mod] at hr
    by_cases hdm : d.module = M.name
    · simp only [hdm, if_true] at hr
      cases hly : ly_ctx_get_module conn.ly_ctx D.name with
      | none => simp [hly] at hr
      | some ly =>
        simp only [hly] at hr
        cases hc : call D ly MOD_INFO_INV_DEP mods with
        | none => simp [hc] at hr
        | some r =>
          obtain ⟨ret, m1⟩ := r
          simp only [hc] at hr
          by_cases hret : ret = SR_ERR_OK
          · subst hret
            simp only [ne_eq, not_true_eq_false, if_false] at hr
            obtain ⟨hstep, hpost⟩ := hcall ly mods m1 h hc
            obtain ⟨h1, _⟩ := ih m1 hstep.typed hr
            exact ⟨invstep_trans hstep h1, fun _ => le_trans hpost (h1.mono _)⟩
          · simp [hret] at hr
    · simp only [hdm, if_false] at hr
      obtain ⟨h1, h2⟩ := ih mods h hr
      refine ⟨h1, ?_⟩
      rintro ⟨d', hd', hd'm⟩
      rcases List.mem_cons.mp hd' with rfl | hmem
      · exact absurd hd'm hdm
      · exact h2 ⟨d', hmem, hd'm⟩

theorem add_inv_deps_spec
    (call : sr_mod_t → Nat → Nat → List sr_mod_info_mod_s →
      Option (sr_error_t × List sr_mod_info_mod_s))
    (conn : sr_conn_ctx_t) (M : sr_mod_t) (l : List sr_mod_t)
    (hcall : ∀ D ∈ l, ∀ ly mods mods1, ModsTyped mods →
      call D ly MOD_INFO_INV_DEP mods = some (SR_ERR_OK, mods1) →
      InvStep conn mods mods1 ∧ MOD_INFO_INV_DEP ≤ sr_modinfo_state_of mods1 D.off)
    (mods mods1 : List sr_mod_info_mod_s) (h : ModsTyped mods)
    (hr : sr_modinfo_add_inv_deps call conn M l mods = some (SR_ERR_OK, mods1)) :
    InvStep conn mods mods1 ∧
      ∀ D ∈ l, (∃ d ∈ D.deps, d.module = M.name) →
        MOD_INFO_INV_DEP ≤ sr_modinfo_state_of mods1 D.off := by
  induction l generalizing mods with
  | nil =>
    simp only [sr_modinfo_add_inv_deps, Option.some.injEq, Prod.mk.injEq, true_and] at hr
    subst hr
    exact ⟨invstep_refl h, by simp⟩
  | cons D rest ih =>
    simp only [sr_modinfo_add_inv_deps] at hr
    cases hc : sr_modinfo_add_inv_deps_mod call conn M D D.deps mods with
    | none => simp [hc] at hr
    | some r =>
      obtain ⟨ret, m1⟩ := r
      simp only [hc] at hr
      by_cases hret : ret = SR_ERR_OK
      · subst hret
        simp only [ne_eq, not_true_eq_false, if_false] at hr
        obtain ⟨hstep, hpost⟩ := add_inv_deps_mod_spec call conn M D
          (hcall D (List.mem_cons_self _ _)) D.deps mods m1 h hc
        obtain ⟨h1, h2⟩ := ih (fun D' hD' => hcall D' (List.mem_cons_of_mem _ hD')) m1
          hstep.typed hr
        refine ⟨invstep_trans hstep h1, ?_⟩
        intro D' hD' hex
        rcases List.mem_cons.mp hD' with rfl | hmem
        · exact le_trans (hpost hex) (h1.mono _)
        · exact h2 D' hmem hex
      · simp [hret] at hr

theorem add_req_spec (conn : sr_conn_ctx_t) (fuel : Nat)
    (M : sr_mod_t) (hM : M ∈ conn.shm) (ly : Nat)
    (mods mods1 : List sr_mod_info_mod_s) (h : ModsTyped mods)
    (hr : sr_modinfo_add_mod_with_deps conn fuel M ly MOD_INFO_REQ mods
      = some (SR_ERR_OK, mods1)) :
    ModsTyped mods1 ∧ (ShmDistinct conn.shm → DepsClosed conn mods → InvClosed conn mods →
      DepsClosed conn mods1 ∧ InvClosed conn mods1) := by
  cases fuel with
  | zero => simp [sr_modinfo_add_mod_with_deps] at hr
  | succ fuel =>
    rcases add_unfold conn fuel M ly MOD_INFO_REQ mods h (Or.inr (Or.inr rfl)) with
      ⟨hle, heq⟩ | ⟨hlt, cur_i, m1, heq, hty, hext, hst, e1, he1, hk1⟩
    · rw [heq] at hr
      simp only [Option.some.injEq, Prod.mk.injEq, true_and] at hr
      subst hr
      exact ⟨h, fun _ hK hJ => ⟨hK, hJ⟩⟩
    · have hcur : sr_modinfo_state_at m1 cur_i = MOD_INFO_REQ := by
        rw [state_at_eq_state_of hty.1 he1, hk1, hst]; simp
      have hmono1 : ∀ o, sr_modinfo_state_of mods o ≤ sr_modinfo_state_of m1 o := by
        intro o
        rw [hst]
        by_cases ho : o = M.off
        · subst ho; simp; exact Nat.le_of_lt hlt
        · simp [ho]
      have hM1 : sr_modinfo_state_of m1 M.off = MOD_INFO_REQ := by rw [hst]; simp
      rw [heq] at hr
      simp only [sr_modinfo_add_closure, hcur, show ¬ MOD_INFO_REQ < MOD_INFO_INV_DEP from by decide,
        if_false, hlt, if_true] at hr
      -- the dependency loop, or its skipping for an entry that was INV_DEP
      have hdeps : ∃ m2, (if sr_modinfo_state_of mods M.off < MOD_INFO_INV_DEP then
            sr_modinfo_add_deps (sr_modinfo_add_mod_with_deps conn fuel) conn M.deps m1
          else some (SR_ERR_OK, m1)) = some (SR_ERR_OK, m2) ∧ DepStep m1 m2 ∧
          (DepsClosed conn mods → ∀ d ∈ M.deps, d.type ≠ SR_DEP_INSTID →
            ∀ T, sr_shmmain_find_module conn.shm d.module = some T →
              MOD_INFO_DEP ≤ sr_modinfo_state_of m2 T.off) ∧
          sr_modinfo_add_inv_deps (sr_modinfo_add_mod_with_deps conn fuel) conn M conn.shm m2
            = some (SR_ERR_OK, mods1) := by
        by_cases hp : sr_modinfo_state_of mods M.off < MOD_INFO_INV_DEP
        · simp only [hp, if_true] at hr ⊢
          cases hl : sr_modinfo_add_deps (sr_modinfo_add_mod_with_deps conn fuel) conn M.deps m1 with
          | none => simp [hl] at hr
          | some r =>
            obtain ⟨ret, m2⟩ := r
            simp only [hl] at hr
            by_cases hret : ret = SR_ERR_OK
            · subst hret
              obtain ⟨hstep, htg⟩ := add_deps_spec _ conn
                (fun T ly mods ret mods1 hm hc => add_dep_spec conn fuel T ly mods mods1 ret hm hc)
                M.deps m1 m2 hty hl
              have hM2 : sr_modinfo_state_of m2 M.off = MOD_INFO_REQ := by
                rw [depstep_same_of_pos hstep M.off (by rw [hM1]; decide), hM1]
              have hcur2 : sr_modinfo_state_at m2 cur_i = MOD_INFO_REQ := by
                rw [state_at_of_ext hstep.ext hstep.typed he1, hk1, hM2]
              simp only [ne_eq, not_true_eq_false, if_false, hcur2, lt_irrefl] at hr
              exact ⟨m2, rfl, hstep, fun _ => htg, hr⟩
            · simp [hret] at hr
        · simp only [hp, if_false] at hr ⊢
          simp only [ne_eq, not_true_eq_false, if_false, hcur, lt_irrefl] at hr
          refine ⟨m1, rfl, depstep_refl hty, ?_, hr⟩
          intro hK d hdm hne T hT
          exact le_trans (hK M hM (Nat.le_of_not_lt hp) d hdm hne T hT) (hmono1 _)
      obtain ⟨m2, _, hstep, htg, hinv⟩ := hdeps
      obtain ⟨hstep3, hpost⟩ := add_inv_deps_spec _ conn M conn.shm
        (fun D hD ly mods mods1 hm hc => add_inv_spec conn fuel D hD ly mods mods1 hm hc)
        m2 mods1 hstep.typed hinv
      refine ⟨hstep3.typed, ?_⟩
      intro hd hK hJ
      have htg := htg hK
      have hK2 : DepsClosed conn m2 := by
        intro N hN hN2 d hdm hne T hT
        have hsame := depstep_same_of_ge hstep N.off hN2
        by_cases hNM : N.off = M.off
        · have : N = M := hd N hN M hM hNM
          subst this
          exact htg d hdm hne T hT
        · have h1N : sr_modinfo_state_of m1 N.off = sr_modinfo_state_of mods N.off := by
            rw [hst]; simp [hNM]
          have := hK N hN (by rw [← h1N, ← hsame]; exact hN2) d hdm hne T hT
          exact le_trans this (le_trans (hmono1 _) (depstep_mono hstep _))
      refine ⟨hstep3.closed hd hK2, ?_⟩
      intro N hN hN4 D hD hex
      have h2 := hstep3.req_same N.off hN4
      have h1 : sr_modinfo_state_of m1 N.off = MOD_INFO_REQ := by
        rw [← depstep_same_of_ge hstep N.off (by rw [h2]; decide), h2]
      by_cases hNM : N.off = M.off
      · have : N = M := hd N hN M hM hNM
        subst this
        exact hpost D hD hex
      · have h0 : sr_modinfo_state_of mods N.off = MOD_INFO_REQ := by
          rw [hst] at h1; simpa [hNM] using h1
        exact le_trans (hJ N hN h0 D hD hex)
          (le_trans (hmono1 _) (le_trans (depstep_mono hstep _) (hstep3.mono _)))

theorem find_module_mem {shm : List sr_mod_t} {name : Nat} {T : sr_mod_t}
    (h : sr_shmmain_find_module shm name = some T) : T ∈ shm :=
  List.mem_of_find?_eq_some h

theorem collect_edit_roots_spec (conn : sr_conn_ctx_t) (fuel : Nat)
    (edit : List lyd_node) (mod : Option Nat) (mods mods1 : List sr_mod_info_mod_s)
    (h : ModsTyped mods)
    (hr : sr_shmmod_collect_edit_roots fuel conn edit mod mods = some (SR_ERR_OK, mods1)) :
    ModsTyped mods1 ∧ (ShmDistinct conn.shm → DepsClosed conn mods → InvClosed conn mods →
      DepsClosed conn mods1 ∧ InvClosed conn mods1) := by
  induction edit generalizing mod mods with
  | nil =>
    simp only [sr_shmmod_collect_edit_roots, Option.some.injEq, Prod.mk.injEq, true_and] at hr
    subst hr
    exact ⟨h, fun _ hK hJ => ⟨hK, hJ⟩⟩
  | cons root rest ih =>
    simp only [sr_shmmod_collect_edit_roots] at hr
    by_cases hsame : some root.module = mod
    · simp only [hsame, if_true] at hr
      exact ih mod mods h hr
    · simp only [hsame, if_false] at hr
      cases hfm : sr_shmmain_find_module conn.shm root.module with
      | none => simp [hfm] at hr
      | some M =>
        simp only [hfm] at hr
        cases hc : sr_modinfo_add_mod_with_deps conn fuel M root.module MOD_INFO_REQ mods with
        | none => simp [hc] at hr
        | some r =>
          obtain ⟨ret, m1⟩ := r
          simp only [hc] at hr
          by_cases hret : ret = SR_ERR_OK
          · subst hret
            simp only [ne_eq, not_true_eq_false, if_false] at hr
            obtain ⟨h1, hKJ1⟩ := add_req_spec conn fuel M (find_module_mem hfm)
              root.module mods m1 h hc
            obtain ⟨h2, hKJ2⟩ := ih _ m1 h1 hr
            refine ⟨h2, fun hd hK hJ => ?_⟩
            obtain ⟨hK1, hJ1⟩ := hKJ1 hd hK hJ
            exact hKJ2 hd hK1 hJ1
          · simp [hret] at hr

theorem typed_nil : ModsTyped [] := ⟨by simp, by simp⟩

theorem qsort_cmp_le_iff (a b : sr_mod_info_mod_s) :
    sr_modinfo_qsort_cmp a b ≤ 0 ↔ a.shm_mod ≤ b.shm_mod := by
  unfold sr_modinfo_qsort_cmp
  split_ifs with h1 h2 <;> omega

theorem qsort_mods_perm (mods : List sr_mod_info_mod_s) : (qsort_mods mods).Perm mods :=
  List.perm_insertionSort _ _

theorem qsort_mods_sorted (mods : List sr_mod_info_mod_s) :
    (qsort_mods mods).Pairwise (fun a b => a.shm_mod ≤ b.shm_mod) := by
  haveI : IsTotal sr_mod_info_mod_s (fun a b => sr_modinfo_qsort_cmp a b ≤ 0) :=
    ⟨fun a b => by
      simp only [qsort_cmp_le_iff]
      exact Nat.le_total _ _⟩
  haveI : IsTrans sr_mod_info_mod_s (fun a b => sr_modinfo_qsort_cmp a b ≤ 0) :=
    ⟨fun a b c => by
      simp only [qsort_cmp_le_iff]
      exact Nat.le_trans⟩
  have hs := List.sorted_insertionSort (fun a b => sr_modinfo_qsort_cmp a b ≤ 0) mods
  exact List.Pairwise.imp (fun {a b} hab => (qsort_cmp_le_iff a b).mp hab) hs

theorem collect_edit_unfold {fuel : Nat} {conn : sr_conn_ctx_t} {edit : List lyd_node} {ds : Nat}
    {mod_info mod_info1 : sr_mod_info_s}
    (h : sr_shmmod_collect_edit fuel conn edit ds mod_info = some (SR_ERR_OK, mod_info1)) :
    ∃ mods1, sr_shmmod_collect_edit_roots fuel conn edit none mod_info.mods
        = some (SR_ERR_OK, mods1) ∧
      mod_info1 = { mod_info with ds := ds, conn := conn, mods := qsort_mods mods1 } := by
  unfold sr_shmmod_collect_edit at h
  cases hc : sr_shmmod_collect_edit_roots fuel conn edit none mod_info.mods with
  | none => simp [hc] at h
  | some r =>
    obtain ⟨ret, m1⟩ := r
    simp only [hc] at h
    by_cases hret : ret = SR_ERR_OK
    · subst hret
      simp only [ne_eq, not_true_eq_false, if_false, Option.some.injEq, Prod.mk.injEq,
        true_and] at h
      exact ⟨m1, rfl, h.symm⟩
    · simp [hret] at h

theorem typed_type {mods : List sr_mod_info_mod_s} (h : ModsTyped mods) {e : sr_mod_info_mod_s}
    (he : e ∈ mods) : e.state &&& MOD_INFO_TYPE_MASK = e.state := by
  rcases h.2 e he with h1 | h1 | h1 <;> rw [h1] <;> decide

theorem collect_edit_typed {fuel : Nat} {conn : sr_conn_ctx_t} {edit : List lyd_node} {ds : Nat}
    {mod_info mod_info1 : sr_mod_info_s} (h0 : mod_info.mods = [])
    (h : sr_shmmod_collect_edit fuel conn edit ds mod_info = some (SR_ERR_OK, mod_info1)) :
    ∃ mods1, mod_info1 = { mod_info with ds := ds, conn := conn, mods := qsort_mods mods1 } ∧
      ModsTyped mods1 ∧
      (ShmDistinct conn.shm → DepsClosed conn mods1 ∧ InvClosed conn mods1) := by
  obtain ⟨mods1, hroots, heq⟩ := collect_edit_unfold h
  rw [h0] at hroots
  obtain ⟨hty, hKJ⟩ := collect_edit_roots_spec conn fuel edit none [] mods1 typed_nil hroots
  refine ⟨mods1, heq, hty, fun hd => hKJ hd ?_ ?_⟩
  · intro M _ hM
    simp [sr_modinfo_state_of, sr_modinfo_find] at hM
    exact absurd hM (by decide)
  · intro M _ hM
    simp [sr_modinfo_state_of, sr_modinfo_find] at hM
    exact absurd hM.symm (by decide)

/-- C1: when `sr_shmmod_collect_edit` returns SR_ERR_OK on a fresh mod-info, the vector is in
strictly ascending order of module record offset, and no module record appears twice. -/
theorem collect_edit_strictly_sorted (fuel : Nat) (conn : sr_conn_ctx_t) (edit : List lyd_node)
    (ds : Nat) (mod_info mod_info1 : sr_mod_info_s) (h0 : mod_info.mods = [])
    (h : sr_shmmod_collect_edit fuel conn edit ds mod_info = some (SR_ERR_OK, mod_info1)) :
    (∀ (i j : Nat) (a b : sr_mod_info_mod_s), i < j → mod_info1.mods[i]? = some a →
      mod_info1.mods[j]? = some b → a.shm_mod < b.shm_mod) ∧
    (mod_info1.mods.map (fun e => e.shm_mod)).Nodup := by
  obtain ⟨mods1, rfl, hty, _⟩ := collect_edit_typed h0 h
  have hnd : ((qsort_mods mods1).map (fun e => e.shm_mod)).Nodup :=
    ((qsort_mods_perm mods1).map _).nodup_iff.mpr hty.1
  refine ⟨?_, hnd⟩
  have hle := qsort_mods_sorted mods1
  have hne : (qsort_mods mods1).Pairwise (fun a b => a.shm_mod ≠ b.shm_mod) :=
    List.pairwise_map.mp hnd
  have hlt : (qsort_mods mods1).Pairwise (fun a b => a.shm_mod < b.shm_mod) :=
    (hle.and hne).imp (fun {a b} hab => lt_of_le_of_ne hab.1 hab.2)
  intro i j a b hij ha hb
  obtain ⟨hi, rfl⟩ := List.getElem?_eq_some.mp ha
  obtain ⟨hj, rfl⟩ := List.getElem?_eq_some.mp hb
  exact List.pairwise_iff_getElem.mp hlt i j hi hj hij

/-- Witness of C1 on the example index. -/
theorem collect_edit_strictly_sorted_witness :
    ex_mod_info.mods = [] ∧
    sr_shmmod_collect_edit 3 ex_conn ex_edit 1 ex_mod_info = some (SR_ERR_OK, ex_collected) ∧
    ((∀ (i j : Nat) (a b : sr_mod_info_mod_s), i < j → ex_collected.mods[i]? = some a →
      ex_collected.mods[j]? = some b → a.shm_mod < b.shm_mod) ∧
    (ex_collected.mods.map (fun e => e.shm_mod)).Nodup) :=
  ⟨rfl, by decide,
    collect_edit_strictly_sorted 3 ex_conn ex_edit 1 ex_mod_info ex_collected rfl (by decide)⟩

/-- C2 as stated fails: in the example index `m` is REQ and `b` is reachable from `m` by the
chain of schema references `m → a → b`, but `sr_shmmod_collect_edit` returns SR_ERR_OK with no
entry for `b`. -/
theorem collect_edit_transitive_deps_counterexample :
    sr_shmmod_collect_edit 3 ex_conn ex_edit 1 ex_mod_info = some (SR_ERR_OK, ex_collected) ∧
    (∃ e ∈ ex_collected.mods, e.shm_mod = ex_mod_m.off ∧
      e.state &&& MOD_INFO_TYPE_MASK = MOD_INFO_REQ) ∧
    Relation.TransGen (schema_dep ex_conn) ex_mod_m ex_mod_b ∧
    ¬ ∃ e ∈ ex_collected.mods, e.shm_mod = ex_mod_b.off := by
  refine ⟨by decide, by decide, ?_, by decide⟩
  refine @Relation.TransGen.tail _ _ _ ex_mod_a _ (Relation.TransGen.single ?_) ?_
  · exact ⟨{ type := SR_DEP_REF, module := 2, xpath := 0 }, by decide, by decide, by decide⟩
  · exact ⟨{ type := SR_DEP_REF, module := 3, xpath := 0 }, by decide, by decide, by decide⟩

/-- C2 (amended): when `sr_shmmod_collect_edit` returns SR_ERR_OK on a fresh mod-info, for every
entry of type REQ the target of each non-instance-identifier edge of that module itself (a
chain of exactly one edge) is present in the mod-info with type DEP, INV_DEP or REQ. -/
theorem collect_edit_direct_deps (fuel : Nat) (conn : sr_conn_ctx_t) (edit : List lyd_node)
    (ds : Nat) (mod_info mod_info1 : sr_mod_info_s) (hd : ShmDistinct conn.shm)
    (h0 : mod_info.mods = [])
    (h : sr_shmmod_collect_edit fuel conn edit ds mod_info = some (SR_ERR_OK, mod_info1)) :
    ∀ e ∈ mod_info1.mods, e.state &&& MOD_INFO_TYPE_MASK = MOD_INFO_REQ →
      ∀ M ∈ conn.shm, M.off = e.shm_mod →
        ∀ d ∈ M.deps, d.type ≠ SR_DEP_INSTID →
          ∀ T, sr_shmmain_find_module conn.shm d.module = some T →
            ∃ e1 ∈ mod_info1.mods, e1.shm_mod = T.off ∧
              (e1.state &&& MOD_INFO_TYPE_MASK = MOD_INFO_DEP ∨
                e1.state &&& MOD_INFO_TYPE_MASK = MOD_INFO_INV_DEP ∨
                e1.state &&& MOD_INFO_TYPE_MASK = MOD_INFO_REQ) := by
  obtain ⟨mods1, rfl, hty, hKJ⟩ := collect_edit_typed h0 h
  obtain ⟨hK, _⟩ := hKJ hd
  have hperm := qsort_mods_perm mods1
  intro e he hreq M hM hoff d hdm hne T hT
  have he1 : e ∈ mods1 := hperm.mem_iff.mp he
  rw [typed_type hty he1] at hreq
  have hst : sr_modinfo_state_of mods1 M.off = MOD_INFO_REQ := by
    rw [hoff, state_of_mem hty.1 he1, hreq]
  have hT1 := hK M hM (by rw [hst]; decide) d hdm hne T hT
  obtain ⟨e1, he1m, hk, _⟩ := state_of_pos (lt_of_lt_of_le (by decide) hT1)
  refine ⟨e1, hperm.mem_iff.mpr he1m, hk, ?_⟩
  rw [typed_type hty he1m]
  exact hty.2 e1 he1m

/-- Witness of the amended C2 on the example index. -/
theorem collect_edit_direct_deps_witness :
    ShmDistinct ex_conn.shm ∧ ex_mod_info.mods = [] ∧
    sr_shmmod_collect_edit 3 ex_conn ex_edit 1 ex_mod_info = some (SR_ERR_OK, ex_collected) ∧
    (∀ e ∈ ex_collected.mods, e.state &&& MOD_INFO_TYPE_MASK = MOD_INFO_REQ →
      ∀ M ∈ ex_conn.shm, M.off = e.shm_mod →
        ∀ d ∈ M.deps, d.type ≠ SR_DEP_INSTID →
          ∀ T, sr_shmmain_find_module ex_conn.shm d.module = some T →
            ∃ e1 ∈ ex_collected.mods, e1.shm_mod = T.off ∧
              (e1.state &&& MOD_INFO_TYPE_MASK = MOD_INFO_DEP ∨
                e1.state &&& MOD_INFO_TYPE_MASK = MOD_INFO_INV_DEP ∨
                e1.state &&& MOD_INFO_TYPE_MASK = MOD_INFO_REQ)) :=
  ⟨by unfold ShmDistinct; decide, rfl, by decide,
    collect_edit_direct_deps 3 ex_conn ex_edit 1 ex_mod_info ex_collected
      (by unfold ShmDistinct; decide) rfl (by decide)⟩

/-- C3: when `sr_shmmod_collect_edit` returns SR_ERR_OK on a fresh mod-info, for every entry of
type REQ every module of the index that has at least one dependency edge (of any tag) whose
target is that module is present in the mod-info with type INV_DEP or REQ. -/
theorem collect_edit_inverse_deps (fuel : Nat) (conn : sr_conn_ctx_t) (edit : List lyd_node)
    (ds : Nat) (mod_info mod_info1 : sr_mod_info_s) (hd : ShmDistinct conn.shm)
    (h0 : mod_info.mods = [])
    (h : sr_shmmod_collect_edit fuel conn edit ds mod_info = some (SR_ERR_OK, mod_info1)) :
    ∀ e ∈ mod_info1.mods, e.state &&& MOD_INFO_TYPE_MASK = MOD_INFO_REQ →
      ∀ M ∈ conn.shm, M.off = e.shm_mod →
        ∀ D ∈ conn.shm, (∃ d ∈ D.deps, d.module = M.name) →
          ∃ e1 ∈ mod_info1.mods, e1.shm_mod = D.off ∧
            (e1.state &&& MOD_INFO_TYPE_MASK = MOD_INFO_INV_DEP ∨
              e1.state &&& MOD_INFO_TYPE_MASK = MOD_INFO_REQ) := by
  obtain ⟨mods1, rfl, hty, hKJ⟩ := collect_edit_typed h0 h
  obtain ⟨_, hJ⟩ := hKJ hd
  have hperm := qsort_mods_perm mods1
  intro e he hreq M hM hoff D hD hex
  have he1 : e ∈ mods1 := hperm.mem_iff.mp he
  rw [typed_type hty he1] at hreq
  have hst : sr_modinfo_state_of mods1 M.off = MOD_INFO_REQ := by
    rw [hoff, state_of_mem hty.1 he1, hreq]
  have hD1 := hJ M hM hst D hD hex
  obtain ⟨e1, he1m, hk, hs⟩ := state_of_pos (lt_of_lt_of_le (by decide) hD1)
  refine ⟨e1, hperm.mem_iff.mpr he1m, hk, ?_⟩
  rw [typed_type hty he1m]
  rw [← hs] at hD1
  rcases hty.2 e1 he1m with h1 | h1 | h1
  · rw [h1] at hD1; exact absurd hD1 (by decide)
  · exact Or.inl h1
  · exact Or.inr h1

/-- Witness of C3 on the example index. -/
theorem collect_edit_inverse_deps_witness :
    ShmDistinct ex_conn.shm ∧ ex_mod_info.mods = [] ∧
    sr_shmmod_collect_edit 3 ex_conn ex_edit 1 ex_mod_info = some (SR_ERR_OK, ex_collected) ∧
    (∀ e ∈ ex_collected.mods, e.state &&& MOD_INFO_TYPE_MASK = MOD_INFO_REQ →
      ∀ M ∈ ex_conn.shm, M.off = e.shm_mod →
        ∀ D ∈ ex_conn.shm, (∃ d ∈ D.deps, d.module = M.name) →
          ∃ e1 ∈ ex_collected.mods, e1.shm_mod = D.off ∧
            (e1.state &&& MOD_INFO_TYPE_MASK = MOD_INFO_INV_DEP ∨
              e1.state &&& MOD_INFO_TYPE_MASK = MOD_INFO_REQ)) :=
  ⟨by unfold ShmDistinct; decide, rfl, by decide,
    collect_edit_inverse_deps 3 ex_conn ex_edit 1 ex_mod_info ex_collected
      (by unfold ShmDistinct; decide) rfl (by decide)⟩

/-! ### The bound on the recursion depth is reached by no call of depth three -/

theorem add_dep_total (conn : sr_conn_ctx_t) (fuel : Nat) (T : sr_mod_t) (ly : Nat)
    (mods : List sr_mod_info_mod_s) (h : ModsTyped mods) :
    ∃ r, sr_modinfo_add_mod_with_deps conn (fuel + 1) T ly MOD_INFO_DEP mods = some r := by
  rcases add_unfold conn fuel T ly MOD_INFO_DEP mods h (Or.inl rfl) with
    ⟨_, heq⟩ | ⟨_, cur_i, m1, heq, hty, _, hst, e1, he1, hk1⟩
  · exact ⟨_, heq⟩
  · have hcur : sr_modinfo_state_at m1 cur_i = MOD_INFO_DEP := by
      rw [state_at_eq_state_of hty.1 he1, hk1, hst]; simp
    rw [heq]
    simp only [sr_modinfo_add_closure, hcur, show MOD_INFO_DEP < MOD_INFO_INV_DEP from by decide,
      if_true]
    exact ⟨_, rfl⟩

theorem add_deps_total
    (call : sr_mod_t → Nat → Nat → List sr_mod_info_mod_s →
      Option (sr_error_t × List sr_mod_info_mod_s))
    (conn : sr_conn_ctx_t)
    (hcall : ∀ T ly mods ret mods1, ModsTyped mods →
      call T ly MOD_INFO_DEP mods = some (ret, mods1) →
      ret = SR_ERR_OK ∧ DepStep mods mods1 ∧ MOD_INFO_DEP ≤ sr_modinfo_state_of mods1 T.off)
    (htot : ∀ T ly mods, ModsTyped mods → ∃ r, call T ly MOD_INFO_DEP mods = some r)
    (deps : List sr_mod_dep_t) (mods : List sr_mod_info_mod_s) (h : ModsTyped mods) :
    ∃ r, sr_modinfo_add_deps call conn deps mods = some r := by
  induction deps generalizing mods with
  | nil => exact ⟨_, rfl⟩
  | cons d rest ih =>
    simp only [sr_modinfo_add_deps]
    by_cases hd : d.type = SR_DEP_INSTID
    · simp only [hd, if_true]
      exact ih mods h
    · simp only [hd, if_false]
      cases hfm : sr_shmmain_find_module conn.shm d.module with
      | none => exact ⟨_, rfl⟩
      | some T =>
        dsimp only
        cases hly : ly_ctx_get_module conn.ly_ctx T.name with
        | none => exact ⟨_, rfl⟩
        | some ly =>
          dsimp only
          obtain ⟨⟨ret, m1⟩, hc⟩ := htot T ly mods h
          obtain ⟨hret, hstep, _⟩ := hcall T ly mods ret m1 h hc
          subst hret
          simp only [hc, ne_eq, not_true_eq_false, if_false]
          exact ih m1 hstep.typed

theorem add_inv_total (conn : sr_conn_ctx_t) (fuel : Nat) (D : sr_mod_t) (ly : Nat)
    (mods : List sr_mod_info_mod_s) (h : ModsTyped mods) :
    ∃ r, sr_modinfo_add_mod_with_deps conn (fuel + 2) D ly MOD_INFO_INV_DEP mods = some r := by
  rcases add_unfold conn (fuel + 1) D ly MOD_INFO_INV_DEP mods h (Or.inr (Or.inl rfl)) with
    ⟨_, heq⟩ | ⟨hlt, cur_i, m1, heq, hty, _, hst, e1, he1, hk1⟩
  · exact ⟨_, heq⟩
  · have hcur : sr_modinfo_state_at m1 cur_i = MOD_INFO_INV_DEP := by
      rw [state_at_eq_state_of hty.1 he1, hk1, hst]; simp
    rw [heq]
    simp only [sr_modinfo_add_closure, hcur, lt_irrefl, if_false, hlt, if_true]
    obtain ⟨⟨ret, m2⟩, hl⟩ := add_deps_total _ conn
      (fun T ly mods ret mods1 hm hc => add_dep_spec conn (fuel + 1) T ly mods mods1 ret hm hc)
      (fun T ly mods hm => add_dep_total conn fuel T ly mods hm) D.deps m1 hty
    simp only [hl]
    by_cases hret : ret = SR_ERR_OK
    · subst hret
      obtain ⟨hstep, _⟩ := add_deps_spec _ conn
        (fun T ly mods ret mods1 hm hc => add_dep_spec conn (fuel + 1) T ly mods mods1 ret hm hc)
        D.deps m1 m2 hty hl
      have hD2 : sr_modinfo_state_of m2 D.off = MOD_INFO_INV_DEP := by
        rw [depstep_same_of_pos hstep D.off (by rw [hst]; simp; decide), hst]; simp
      have hcur2 : sr_modinfo_state_at m2 cur_i = MOD_INFO_INV_DEP := by
        rw [state_at_of_ext hstep.ext hstep.typed he1, hk1, hD2]
      simp only [ne_eq, not_true_eq_false, if_false, hcur2,
        show MOD_INFO_INV_DEP < MOD_INFO_REQ from by decide, if_true]
      exact ⟨_, rfl⟩
    · simp only [ne_eq, hret, not_false_eq_true, if_true]
      exact ⟨_, rfl⟩

theorem add_inv_deps_mod_total
    (call : sr_mod_t → Nat → Nat → List sr_mod_info_mod_s →
      Option (sr_error_t × List sr_mod_info_mod_s))
    (conn : sr_conn_ctx_t) (M D : sr_mod_t)
    (hcall : ∀ ly mods mods1, ModsTyped mods →
      call D ly MOD_INFO_INV_DEP mods = some (SR_ERR_OK, mods1) →
      InvStep conn mods mods1 ∧ MOD_INFO_INV_DEP ≤ sr_modinfo_state_of mods1 D.off)
    (htot : ∀ ly mods, ModsTyped mods → ∃ r, call D ly MOD_INFO_INV_DEP mods = some r)
    (deps : List sr_mod_dep_t) (mods : List sr_mod_info_mod_s) (h : ModsTyped mods) :
    ∃ r, sr_modinfo_add_inv_deps_mod call conn M D deps mods = some r := by
  induction deps generalizing mods with
  | nil => exact ⟨_, rfl⟩
  | cons d rest ih =>
    simp only [sr_modinfo_add_inv_deps_mod]
    by_cases hdm : d.module = M.name
    · simp only [hdm, if_true]
      cases hly : ly_ctx_get_module conn.ly_ctx D.name with
      | none => exact ⟨_, rfl⟩
      | some ly =>
        dsimp only
        obtain ⟨⟨ret, m1⟩, hc⟩ := htot ly mods h
        simp only [hc]
        by_cases hret : ret = SR_ERR_OK
        · subst hret
          simp only [ne_eq, not_true_eq_false, if_false]
          exact ih m1 (hcall ly mods m1 h hc).1.typed
        · simp only [ne_eq, hret, not_false_eq_true, if_true]
          exact ⟨_, rfl⟩
    · simp only [hdm, if_false]
      exact ih mods h

theorem add_inv_deps_total
    (call : sr_mod_t → Nat → Nat → List sr_mod_info_mod_s →
      Option (sr_error_t × List sr_mod_info_mod_s))
    (conn : sr_conn_ctx_t) (M : sr_mod_t) (l : List sr_mod_t)
    (hcall : ∀ D ∈ l, ∀ ly mods mods1, ModsTyped mods →
      call D ly MOD_INFO_INV_DEP mods = some (SR_ERR_OK, mods1) →
      InvStep conn mods mods1 ∧ MOD_INFO_INV_DEP ≤ sr_modinfo_state_of mods1 D.off)
    (htot : ∀ D ly mods, ModsTyped mods → ∃ r, call D ly MOD_INFO_INV_DEP mods = some r)
    (mods : List sr_mod_info_mod_s) (h : ModsTyped mods) :
    ∃ r, sr_modinfo_add_inv_deps call conn M l mods = some r := by
  induction l generalizing mods with
  | nil => exact ⟨_, rfl⟩
  | cons D rest ih =>
    simp only [sr_modinfo_add_inv_deps]
    obtain ⟨⟨ret, m1⟩, hc⟩ := add_inv_deps_mod_total call conn M D
      (hcall D (List.mem_cons_self _ _)) (htot D) D.deps mods h
    simp only [hc]
    by_cases hret : ret = SR_ERR_OK
    · subst hret
      simp only [ne_eq, not_true_eq_false, if_false]
      obtain ⟨hstep, _⟩ := add_inv_deps_mod_spec call conn M D
        (hcall D (List.mem_cons_self _ _)) D.deps mods m1 h hc
      exact ih (fun D1 hD1 => hcall D1 (List.mem_cons_of_mem _ hD1)) m1 hstep.typed
    · simp only [ne_eq, hret, not_false_eq_true, if_true]
      exact ⟨_, rfl⟩

theorem add_req_total (conn : sr_conn_ctx_t) (fuel : Nat) (M : sr_mod_t) (ly : Nat)
    (mods : List sr_mod_info_mod_s) (h : ModsTyped mods) :
    ∃ r, sr_modinfo_add_mod_with_deps conn (fuel + 3) M ly MOD_INFO_REQ mods = some r := by
  rcases add_unfold conn (fuel + 2) M ly MOD_INFO_REQ mods h (Or.inr (Or.inr rfl)) with
    ⟨_, heq⟩ | ⟨hlt, cur_i, m1, heq, hty, _, hst, e1, he1, hk1⟩
  · exact ⟨_, heq⟩
  · have hcur : sr_modinfo_state_at m1 cur_i = MOD_INFO_REQ := by
      rw [state_at_eq_state_of hty.1 he1, hk1, hst]; simp
    have hM1 : sr_modinfo_state_of m1 M.off = MOD_INFO_REQ := by rw [hst]; simp
    have hinv : ∀ m2, ModsTyped m2 →
        ∃ r, sr_modinfo_add_inv_deps (sr_modinfo_add_mod_with_deps conn (fuel + 2)) conn M
          conn.shm m2 = some r :=
      fun m2 hm2 => add_inv_deps_total _ conn M conn.shm
        (fun D hD ly mods mods1 hm hc => add_inv_spec conn (fuel + 2) D hD ly mods mods1 hm hc)
        (fun D ly mods hm => add_inv_total conn fuel D ly mods hm) m2 hm2
    rw [heq]
    simp only [sr_modinfo_add_closure, hcur, show ¬ MOD_INFO_REQ < MOD_INFO_INV_DEP from by decide,
      if_false, hlt, if_true]
    by_cases hp : sr_modinfo_state_of mods M.off < MOD_INFO_INV_DEP
    · simp only [hp, if_true]
      obtain ⟨⟨ret, m2⟩, hl⟩ := add_deps_total _ conn
        (fun T ly mods ret mods1 hm hc => add_dep_spec conn (fuel + 2) T ly mods mods1 ret hm hc)
        (fun T ly mods hm => add_dep_total conn (fuel + 1) T ly mods hm) M.deps m1 hty
      simp only [hl]
      by_cases hret : ret = SR_ERR_OK
      · subst hret
        obtain ⟨hstep, _⟩ := add_deps_spec _ conn
          (fun T ly mods ret mods1 hm hc =>
            add_dep_spec conn (fuel + 2) T ly mods mods1 ret hm hc) M.deps m1 m2 hty hl
        have hM2 : sr_modinfo_state_of m2 M.off = MOD_INFO_REQ := by
          rw [depstep_same_of_pos hstep M.off (by rw [hM1]; decide), hM1]
        have hcur2 : sr_modinfo_state_at m2 cur_i = MOD_INFO_REQ := by
          rw [state_at_of_ext hstep.ext hstep.typed he1, hk1, hM2]
        simp only [ne_eq, not_true_eq_false, if_false, hcur2, lt_irrefl]
        exact hinv m2 hstep.typed
      · simp only [ne_eq, hret, not_false_eq_true, if_true]
        exact ⟨_, rfl⟩
    · simp only [hp, if_false, ne_eq, not_true_eq_false, hcur, lt_irrefl]
      exact hinv m1 hty

theorem collect_edit_roots_total (conn : sr_conn_ctx_t) (fuel : Nat) (edit : List lyd_node)
    (mod : Option Nat) (mods : List sr_mod_info_mod_s) (h : ModsTyped mods) :
    ∃ r, sr_shmmod_collect_edit_roots (fuel + 3) conn edit mod mods = some r := by
  induction edit generalizing mod mods with
  | nil => exact ⟨_, rfl⟩
  | cons root rest ih =>
    simp only [sr_shmmod_collect_edit_roots]
    by_cases hsame : some root.module = mod
    · simp only [hsame, if_true]
      exact ih mod mods h
    · simp only [hsame, if_false]
      cases hfm : sr_shmmain_find_module conn.shm root.module with
      | none => exact ⟨_, rfl⟩
      | some M =>
        dsimp only
        obtain ⟨⟨ret, m1⟩, hc⟩ := add_req_total conn fuel M root.module mods h
        simp only [hc]
        by_cases hret : ret = SR_ERR_OK
        · subst hret
          simp only [ne_eq, not_true_eq_false, if_false]
          exact ih _ m1 (add_req_spec conn (fuel + 3) M (find_module_mem hfm) root.module
            mods m1 h hc).1
        · simp only [ne_eq, hret, not_false_eq_true, if_true]
          exact ⟨_, rfl⟩

/-- With a bound of at least three on the recursion depth `sr_shmmod_collect_edit` returns
on every module index and every edit, when started on a fresh mod-info. -/
theorem collect_edit_total (conn : sr_conn_ctx_t) (fuel : Nat) (edit : List lyd_node) (ds : Nat)
    (mod_info : sr_mod_info_s) (h0 : mod_info.mods = []) :
    ∃ r, sr_shmmod_collect_edit (fuel + 3) conn edit ds mod_info = some r := by
  unfold sr_shmmod_collect_edit
  rw [h0]
  obtain ⟨⟨ret, m1⟩, hc⟩ := collect_edit_roots_total conn fuel edit none [] typed_nil
  simp only [hc]
  by_cases hret : ret = SR_ERR_OK
  · simp [hret]
  · simp [hret]

/-! ## Properties of the lock coordinator -/

theorem retried_world_zero (env : Nat → LockResp) (o d : Nat) (wr : Bool) (w : LockWorld) :
    retried_world env o d wr 0 w = w := by
  cases w
  simp [retried_world, env_flags, retry_trace]

theorem retried_world_succ (env : Nat → LockResp) (o d : Nat) (wr : Bool) (k : Nat)
    (w : LockWorld) (hret : lock_result (env w.calls) = SR_ERR_OK) :
    retried_world env o d wr k
        (sr_msleep (sr_shmmod_unlock o d (sr_shmmod_lock env o d wr w).2))
      = retried_world env o d wr (k + 1) w := by
  simp only [retried_world, sr_msleep, sr_shmmod_unlock, sr_shmmod_lock, hret, if_true,
    release_lock, and_self, env_flags, retry_trace, retry_events, List.replicate_succ,
    LockWorld.mk.injEq, List.append_assoc, List.singleton_append, List.cons_append,
    List.nil_append, true_and]
  exact ⟨by omega, trivial⟩

theorem multilock_steps_shape (env : Nat → LockResp) (o d : Nat) (wr appl : Bool) :
    ∀ (n : Nat) (w : LockWorld), ∃ k, k ≤ n ∧
      (∀ j, j < k → lock_result (env (w.calls + j)) = SR_ERR_OK ∧ appl = true ∧
        env_flags env w.calls (j + 1) w.applying_changes o d = true) ∧
      ((k = n ∧ sr_shmmod_multilock_steps env o d wr appl n w
          = (SR_ERR_OK, 0, retried_world env o d wr k w)) ∨
       (k < n ∧
          (lock_result (env (w.calls + k)) = SR_ERR_OK →
            appl = false ∨ env_flags env w.calls (k + 1) w.applying_changes o d = false) ∧
          sr_shmmod_multilock_steps env o d wr appl n w
            = (lock_result (env (w.calls + k)), n - k,
                (sr_shmmod_lock env o d wr (retried_world env o d wr k w)).2))) := by
  intro n
  induction n with
  | zero =>
    intro w
    refine ⟨0, le_refl _, fun j hj => absurd hj (Nat.not_lt_zero _), Or.inl ⟨rfl, ?_⟩⟩
    rw [retried_world_zero]
    rfl
  | succ n ih =>
    intro w
    by_cases hret : lock_result (env w.calls) = SR_ERR_OK
    · by_cases hbrk : (!appl || !(env_writes (env w.calls).writes w.applying_changes o d)) = true
      · refine ⟨0, Nat.zero_le _, fun j hj => absurd hj (Nat.not_lt_zero _), Or.inr ?_⟩
        have hbrk' : appl = false ∨
            env_writes (env w.calls).writes w.applying_changes o d = false := by
          simpa using hbrk
        refine ⟨Nat.succ_pos _, fun _ => hbrk', ?_⟩
        rw [retried_world_zero]
        simp only [sr_shmmod_multilock_steps, sr_shmmod_lock, hret, ne_eq, not_true_eq_false,
          if_false, hbrk, if_true, Nat.add_zero, Nat.sub_zero]
      · have hflag : appl = true ∧
            env_writes (env w.calls).writes w.applying_changes o d = true := by
          simpa using hbrk
        obtain ⟨k, hk, hall, hcase⟩ := ih (sr_msleep (sr_shmmod_unlock o d
          (sr_shmmod_lock env o d wr w).2))
        have hstep : sr_shmmod_multilock_steps env o d wr appl (n + 1) w =
            sr_shmmod_multilock_steps env o d wr appl n (sr_msleep (sr_shmmod_unlock o d
              (sr_shmmod_lock env o d wr w).2)) := by
          have hb : (!appl || !(env_writes (env w.calls).writes w.applying_changes o d)) = false := by
            simpa using hbrk
          simp only [sr_shmmod_multilock_steps, sr_shmmod_lock, hret, ne_eq, not_true_eq_false,
            if_false, hb, Bool.false_eq_true]
        have hc : (sr_msleep (sr_shmmod_unlock o d (sr_shmmod_lock env o d wr w).2)).calls
            = w.calls + 1 := rfl
        have ha : (sr_msleep (sr_shmmod_unlock o d
            (sr_shmmod_lock env o d wr w).2)).applying_changes
            = env_writes (env w.calls).writes w.applying_changes := rfl
        rw [retried_world_succ env o d wr k w hret, hc, ha] at hcase
        rw [hc, ha] at hall
        have hidx : ∀ j, w.calls + 1 + j = w.calls + (j + 1) := fun j => by omega
        refine ⟨k + 1, Nat.succ_le_succ hk, ?_, ?_⟩
        · intro j hj
          cases j with
          | zero => exact ⟨hret, hflag.1, by simpa [env_flags] using hflag.2⟩
          | succ j =>
            have := hall j (Nat.lt_of_succ_lt_succ hj)
            rw [hidx] at this
            exact this
        · rw [hstep]
          rcases hcase with ⟨h1, h2⟩ | ⟨h1, h2, h3⟩
          · left
            exact ⟨by omega, h2⟩
          · right
            rw [hidx] at h2 h3
            refine ⟨by omega, h2, ?_⟩
            rw [h3]
            have : n - k = n + 1 - (k + 1) := by omega
            rw [this]
    · refine ⟨0, Nat.zero_le _, fun j hj => absurd hj (Nat.not_lt_zero _), Or.inr ?_⟩
      refine ⟨Nat.succ_pos _, fun h => absurd h hret, ?_⟩
      rw [retried_world_zero]
      simp only [sr_shmmod_multilock_steps, sr_shmmod_lock, hret, ne_eq, not_false_eq_true,
        if_true, Nat.add_zero, Nat.sub_zero]

theorem multilock_mod_shape (env : Nat → LockResp) (sc d : Nat) (wr appl : Bool)
    (m : sr_mod_info_mod_s) (w : LockWorld) :
    ∃ k, k ≤ sc ∧
      (∀ j, j < k → lock_result (env (w.calls + j)) = SR_ERR_OK ∧ appl = true ∧
        env_flags env w.calls (j + 1) w.applying_changes m.shm_mod d = true) ∧
      ((k = sc ∧ sr_shmmod_multilock_mod env sc d wr appl m w
          = (SR_ERR_TIME_OUT, m,
              retried_world env m.shm_mod d (multilock_mod_wr wr appl m) k w)) ∨
       (k < sc ∧ lock_result (env (w.calls + k)) ≠ SR_ERR_OK ∧
          sr_shmmod_multilock_mod env sc d wr appl m w
            = (lock_result (env (w.calls + k)), m,
                (sr_shmmod_lock env m.shm_mod d (multilock_mod_wr wr appl m)
                  (retried_world env m.shm_mod d (multilock_mod_wr wr appl m) k w)).2)) ∨
       (k < sc ∧ lock_result (env (w.calls + k)) = SR_ERR_OK ∧
          (appl = false ∨ env_flags env w.calls (k + 1) w.applying_changes m.shm_mod d = false) ∧
          (appl && multilock_mod_wr wr appl m) = false ∧
          sr_shmmod_multilock_mod env sc d wr appl m w
            = (SR_ERR_OK, { m with state := m.state ||| MOD_INFO_LOCK },
                (sr_shmmod_lock env m.shm_mod d (multilock_mod_wr wr appl m)
                  (retried_world env m.shm_mod d (multilock_mod_wr wr appl m) k w)).2)) ∨
       (k < sc ∧ lock_result (env (w.calls + k)) = SR_ERR_OK ∧
          env_flags env w.calls (k + 1) w.applying_changes m.shm_mod d = false ∧
          appl = true ∧ multilock_mod_wr wr appl m = true ∧
          lock_result (env (w.calls + k + 1)) ≠ SR_ERR_OK ∧
          sr_shmmod_multilock_mod env sc d wr appl m w
            = (lock_result (env (w.calls + k + 1)), m,
                (sr_shmmod_lock env m.shm_mod d false
                  (sr_shmmod_unlock m.shm_mod d (set_applying_changes m.shm_mod d true
                    (sr_shmmod_lock env m.shm_mod d true
                      (retried_world env m.shm_mod d true k w)).2))).2)) ∨
       (k < sc ∧ lock_result (env (w.calls + k)) = SR_ERR_OK ∧
          env_flags env w.calls (k + 1) w.applying_changes m.shm_mod d = false ∧
          appl = true ∧ multilock_mod_wr wr appl m = true ∧
          lock_result (env (w.calls + k + 1)) = SR_ERR_OK ∧
          sr_shmmod_multilock_mod env sc d wr appl m w
            = (SR_ERR_OK, { m with state := m.state ||| MOD_INFO_LOCK },
                (sr_shmmod_lock env m.shm_mod d false
                  (sr_shmmod_unlock m.shm_mod d (set_applying_changes m.shm_mod d true
                    (sr_shmmod_lock env m.shm_mod d true
                      (retried_world env m.shm_mod d true k w)).2))).2))) := by
  obtain ⟨k, hk, hall, hcase⟩ :=
    multilock_steps_shape env m.shm_mod d (multilock_mod_wr wr appl m) appl sc w
  refine ⟨k, hk, hall, ?_⟩
  rcases hcase with ⟨h1, h2⟩ | ⟨h1, h2, h3⟩
  · left
    refine ⟨h1, ?_⟩
    simp only [sr_shmmod_multilock_mod, h2, ne_eq, not_true_eq_false, if_false, if_true]
  · right
    by_cases hret : lock_result (env (w.calls + k)) = SR_ERR_OK
    · right
      have hpos : ¬ (sc - k = 0) := by omega
      by_cases hrl : (appl && multilock_mod_wr wr appl m) = true
      · right
        have hrl' : appl = true ∧ multilock_mod_wr wr appl m = true := by simpa using hrl
        have hfl : env_flags env w.calls (k + 1) w.applying_changes m.shm_mod d = false := by
          rcases h2 hret with h | h
          · rw [hrl'.1] at h; exact absurd h (by decide)
          · exact h
        have hcalls : (sr_shmmod_unlock m.shm_mod d (set_applying_changes m.shm_mod d true
            (sr_shmmod_lock env m.shm_mod d true
              (retried_world env m.shm_mod d true k w)).2)).calls = w.calls + k + 1 := rfl
        have hres : ∀ x : LockWorld, x.calls = w.calls + k + 1 →
            (sr_shmmod_lock env m.shm_mod d false x).1 = lock_result (env (w.calls + k + 1)) := by
          intro x hx
          simp [sr_shmmod_lock, hx]
        have hw := hrl'.2
        have happl := hrl'.1
        subst happl
        rw [hw] at h3
        by_cases hret1 : lock_result (env (w.calls + k + 1)) = SR_ERR_OK
        · right
          refine ⟨h1, hret, hfl, rfl, hw, hret1, ?_⟩
          simp only [sr_shmmod_multilock_mod, hw, h3, hret, ne_eq, not_true_eq_false, if_false,
            hpos, Bool.and_self, if_true]
          have := hres _ hcalls
          rw [hret1] at this
          rw [show sr_shmmod_lock env m.shm_mod d false
              (sr_shmmod_unlock m.shm_mod d (set_applying_changes m.shm_mod d true
                (sr_shmmod_lock env m.shm_mod d true
                  (retried_world env m.shm_mod d true k w)).2))
            = ((sr_shmmod_lock env m.shm_mod d false
              (sr_shmmod_unlock m.shm_mod d (set_applying_changes m.shm_mod d true
                (sr_shmmod_lock env m.shm_mod d true
                  (retried_world env m.shm_mod d true k w)).2))).1,
              (sr_shmmod_lock env m.shm_mod d false
              (sr_shmmod_unlock m.shm_mod d (set_applying_changes m.shm_mod d true
                (sr_shmmod_lock env m.shm_mod d true
                  (retried_world env m.shm_mod d true k w)).2))).2) from rfl]
          simp only [this, ne_eq, not_true_eq_false, if_false]
        · left
          refine ⟨h1, hret, hfl, rfl, hw, hret1, ?_⟩
          simp only [sr_shmmod_multilock_mod, hw, h3, hret, ne_eq, not_true_eq_false, if_false,
            hpos, Bool.and_self, if_true]
          have := hres _ hcalls
          rw [show sr_shmmod_lock env m.shm_mod d false
              (sr_shmmod_unlock m.shm_mod d (set_applying_changes m.shm_mod d true
                (sr_shmmod_lock env m.shm_mod d true
                  (retried_world env m.shm_mod d true k w)).2))
            = ((sr_shmmod_lock env m.shm_mod d false
              (sr_shmmod_unlock m.shm_mod d (set_applying_changes m.shm_mod d true
                (sr_shmmod_lock env m.shm_mod d true
                  (retried_world env m.shm_mod d true k w)).2))).1,
              (sr_shmmod_lock env m.shm_mod d false
              (sr_shmmod_unlock m.shm_mod d (set_applying_changes m.shm_mod d true
                (sr_shmmod_lock env m.shm_mod d true
                  (retried_world env m.shm_mod d true k w)).2))).2) from rfl]
          simp only [this, ne_eq, hret1, not_false_eq_true, if_true]
      · left
        have hrl' : (appl && multilock_mod_wr wr appl m) = false := by simpa using hrl
        refine ⟨h1, hret, h2 hret, hrl', ?_⟩
        simp only [sr_shmmod_multilock_mod, h3, hret, ne_eq, not_true_eq_false, if_false, hpos,
          hrl', Bool.false_eq_true]
    · left
      refine ⟨h1, hret, ?_⟩
      simp only [sr_shmmod_multilock_mod, h3, ne_eq, hret, not_false_eq_true, if_true]

theorem multilock_mod_facts (env : Nat → LockResp) (sc d : Nat) (wr appl : Bool)
    (m : sr_mod_info_mod_s) (w : LockWorld) :
    w.calls ≤ (sr_shmmod_multilock_mod env sc d wr appl m w).2.2.calls ∧
    (∃ rs, (sr_shmmod_multilock_mod env sc d wr appl m w).2.2.requests = w.requests ++ rs ∧
      ∀ q ∈ rs, q.shm_mod = m.shm_mod ∧ q.ds = d ∧ q.held = w.held ∧
        (q.wr = true → multilock_mod_wr wr appl m = true)) ∧
    ((sr_shmmod_multilock_mod env sc d wr appl m w).1 = SR_ERR_OK →
      (sr_shmmod_multilock_mod env sc d wr appl m w).2.1 = set_lock_bit m ∧
      (sr_shmmod_multilock_mod env sc d wr appl m w).2.2.held
        = (m.shm_mod, d, multilock_final_wr wr appl m) :: w.held) ∧
    ((sr_shmmod_multilock_mod env sc d wr appl m w).1 ≠ SR_ERR_OK →
      (sr_shmmod_multilock_mod env sc d wr appl m w).2.1 = m ∧
      (sr_shmmod_multilock_mod env sc d wr appl m w).2.2.held = w.held) := by
  obtain ⟨k, _, _, hcase⟩ := multilock_mod_shape env sc d wr appl m w
  rcases hcase with ⟨_, h⟩ | ⟨_, hne, h⟩ | ⟨_, hok, _, hrl, h⟩ | ⟨_, hok, _, ha, hw, hne, h⟩ |
    ⟨_, hok, _, ha, hw, hok1, h⟩
  · rw [h]
    refine ⟨by simp [retried_world], ⟨_, rfl, ?_⟩, by simp, by simp [retried_world]⟩
    intro q hq
    obtain ⟨_, rfl⟩ := List.mem_replicate.mp hq
    simp
  · rw [h]
    refine ⟨by simp [sr_shmmod_lock, retried_world]; omega,
      ⟨List.replicate k (LockReq.mk m.shm_mod d (multilock_mod_wr wr appl m) w.held) ++
        [LockReq.mk m.shm_mod d (multilock_mod_wr wr appl m) w.held], ?_, ?_⟩, ?_, ?_⟩
    · simp only [sr_shmmod_lock, retried_world, List.append_assoc]
    · intro q hq
      rcases List.mem_append.mp hq with hq | hq
      · obtain ⟨_, rfl⟩ := List.mem_replicate.mp hq
        simp
      · simp only [List.mem_singleton] at hq
        subst hq
        simp
    · intro hc
      exact absurd hc hne
    · intro _
      have : (retried_world env m.shm_mod d (multilock_mod_wr wr appl m) k w).calls
          = w.calls + k := rfl
      simp [sr_shmmod_lock, this, hne, retried_world]
  · rw [h]
    refine ⟨by simp [sr_shmmod_lock, retried_world]; omega,
      ⟨List.replicate k (LockReq.mk m.shm_mod d (multilock_mod_wr wr appl m) w.held) ++
        [LockReq.mk m.shm_mod d (multilock_mod_wr wr appl m) w.held], ?_, ?_⟩, ?_, ?_⟩
    · simp only [sr_shmmod_lock, retried_world, List.append_assoc]
    · intro q hq
      rcases List.mem_append.mp hq with hq | hq
      · obtain ⟨_, rfl⟩ := List.mem_replicate.mp hq
        simp
      · simp only [List.mem_singleton] at hq
        subst hq
        simp
    · intro _
      have : (retried_world env m.shm_mod d (multilock_mod_wr wr appl m) k w).calls
          = w.calls + k := rfl
      have hfw : multilock_final_wr wr appl m = multilock_mod_wr wr appl m := by
        unfold multilock_final_wr
        cases appl <;> simp at hrl ⊢
        exact hrl
      simp [sr_shmmod_lock, this, hok, retried_world, set_lock_bit, hfw]
    · intro hc
      exact absurd rfl hc
  · rw [h]
    have hc1 : (retried_world env m.shm_mod d true k w).calls = w.calls + k := rfl
    refine ⟨by simp [sr_shmmod_lock, sr_shmmod_unlock, set_applying_changes, retried_world]; omega,
      ⟨List.replicate k (LockReq.mk m.shm_mod d true w.held) ++
        [LockReq.mk m.shm_mod d true w.held, LockReq.mk m.shm_mod d false w.held],
        ?_, ?_⟩, ?_, ?_⟩
    · simp [sr_shmmod_lock, sr_shmmod_unlock, set_applying_changes, retried_world,
        List.append_assoc, hc1, hok, release_lock]
    · intro q hq
      rcases List.mem_append.mp hq with hq | hq
      · obtain ⟨_, rfl⟩ := List.mem_replicate.mp hq
        simp [hw]
      · simp only [List.mem_append, List.mem_singleton, List.mem_cons, List.not_mem_nil,
          or_false] at hq
        rcases hq with rfl | rfl
        · simp [hw]
        · simp
    · intro hc
      exact absurd hc hne
    · intro _
      simp [sr_shmmod_lock, sr_shmmod_unlock, set_applying_changes, hc1, hok, hne,
        retried_world, release_lock]
  · rw [h]
    have hc1 : (retried_world env m.shm_mod d true k w).calls = w.calls + k := rfl
    refine ⟨by simp [sr_shmmod_lock, sr_shmmod_unlock, set_applying_changes, retried_world]; omega,
      ⟨List.replicate k (LockReq.mk m.shm_mod d true w.held) ++
        [LockReq.mk m.shm_mod d true w.held, LockReq.mk m.shm_mod d false w.held],
        ?_, ?_⟩, ?_, ?_⟩
    · simp [sr_shmmod_lock, sr_shmmod_unlock, set_applying_changes, retried_world,
        List.append_assoc, hc1, hok, release_lock]
    · intro q hq
      rcases List.mem_append.mp hq with hq | hq
      · obtain ⟨_, rfl⟩ := List.mem_replicate.mp hq
        simp [hw]
      · simp only [List.mem_append, List.mem_singleton, List.mem_cons, List.not_mem_nil,
          or_false] at hq
        rcases hq with rfl | rfl
        · simp [hw]
        · simp
    · intro _
      have hfw : multilock_final_wr wr appl m = false := by
        simp [multilock_final_wr, ha]
      simp [sr_shmmod_lock, sr_shmmod_unlock, set_applying_changes, hc1, hok, hok1,
        retried_world, release_lock, set_lock_bit, hfw]
    · intro hc
      exact absurd rfl hc

theorem multilock_mods_cons_ok (env : Nat → LockResp) (sc d : Nat) (wr appl : Bool)
    (m : sr_mod_info_mod_s) (rest : List sr_mod_info_mod_s) (w : LockWorld)
    (h : (sr_shmmod_multilock_mod env sc d wr appl m w).1 = SR_ERR_OK) :
    sr_shmmod_multilock_mods env sc d wr appl (m :: rest) w =
      ((sr_shmmod_multilock_mods env sc d wr appl rest
          (sr_shmmod_multilock_mod env sc d wr appl m w).2.2).1,
        (sr_shmmod_multilock_mod env sc d wr appl m w).2.1 ::
          (sr_shmmod_multilock_mods env sc d wr appl rest
            (sr_shmmod_multilock_mod env sc d wr appl m w).2.2).2.1,
        (sr_shmmod_multilock_mods env sc d wr appl rest
          (sr_shmmod_multilock_mod env sc d wr appl m w).2.2).2.2) := by
  simp only [sr_shmmod_multilock_mods, h, ne_eq, not_true_eq_false, if_false]

theorem multilock_mods_cons_err (env : Nat → LockResp) (sc d : Nat) (wr appl : Bool)
    (m : sr_mod_info_mod_s) (rest : List sr_mod_info_mod_s) (w : LockWorld)
    (h : (sr_shmmod_multilock_mod env sc d wr appl m w).1 ≠ SR_ERR_OK) :
    sr_shmmod_multilock_mods env sc d wr appl (m :: rest) w =
      ((sr_shmmod_multilock_mod env sc d wr appl m w).1,
        (sr_shmmod_multilock_mod env sc d wr appl m w).2.1 :: rest,
        (sr_shmmod_multilock_mod env sc d wr appl m w).2.2) := by
  simp only [sr_shmmod_multilock_mods, ne_eq, h, not_false_eq_true, if_true]

theorem multilock_mods_append (env : Nat → LockResp) (sc d : Nat) (wr appl : Bool)
    (pre rest : List sr_mod_info_mod_s) (w : LockWorld) :
    sr_shmmod_multilock_mods env sc d wr appl (pre ++ rest) w =
      if (sr_shmmod_multilock_mods env sc d wr appl pre w).1 ≠ SR_ERR_OK then
        ((sr_shmmod_multilock_mods env sc d wr appl pre w).1,
          (sr_shmmod_multilock_mods env sc d wr appl pre w).2.1 ++ rest,
          (sr_shmmod_multilock_mods env sc d wr appl pre w).2.2)
      else
        ((sr_shmmod_multilock_mods env sc d wr appl rest
            (sr_shmmod_multilock_mods env sc d wr appl pre w).2.2).1,
          (sr_shmmod_multilock_mods env sc d wr appl pre w).2.1 ++
            (sr_shmmod_multilock_mods env sc d wr appl rest
              (sr_shmmod_multilock_mods env sc d wr appl pre w).2.2).2.1,
          (sr_shmmod_multilock_mods env sc d wr appl rest
            (sr_shmmod_multilock_mods env sc d wr appl pre w).2.2).2.2) := by
  induction pre generalizing w with
  | nil => simp [sr_shmmod_multilock_mods]
  | cons m pre ih =>
    by_cases h : (sr_shmmod_multilock_mod env sc d wr appl m w).1 = SR_ERR_OK
    · rw [List.cons_append, multilock_mods_cons_ok env sc d wr appl m (pre ++ rest) w h,
        multilock_mods_cons_ok env sc d wr appl m pre w h, ih]
      by_cases h2 : (sr_shmmod_multilock_mods env sc d wr appl pre
          (sr_shmmod_multilock_mod env sc d wr appl m w).2.2).1 = SR_ERR_OK
      · simp [h2]
      · simp [h2]
    · rw [List.cons_append, multilock_mods_cons_err env sc d wr appl m (pre ++ rest) w h,
        multilock_mods_cons_err env sc d wr appl m pre w h]
      simp [h]

/-- The lock `sr_shmmod_multilock` leaves on an entry it locked. -/
theorem multilock_mods_ok (env : Nat → LockResp) (sc d : Nat) (wr appl : Bool)
    (mods : List sr_mod_info_mod_s) (w : LockWorld)
    (h : (sr_shmmod_multilock_mods env sc d wr appl mods w).1 = SR_ERR_OK) :
    (sr_shmmod_multilock_mods env sc d wr appl mods w).2.1 = mods.map set_lock_bit ∧
    (sr_shmmod_multilock_mods env sc d wr appl mods w).2.2.held =
      (mods.reverse.map (fun m => (m.shm_mod, d, multilock_final_wr wr appl m))) ++ w.held := by
  induction mods generalizing w with
  | nil => simp [sr_shmmod_multilock_mods]
  | cons m rest ih =>
    by_cases hm : (sr_shmmod_multilock_mod env sc d wr appl m w).1 = SR_ERR_OK
    · rw [multilock_mods_cons_ok env sc d wr appl m rest w hm] at h ⊢
      obtain ⟨_, _, hok, _⟩ := multilock_mod_facts env sc d wr appl m w
      obtain ⟨h1, h2⟩ := hok hm
      obtain ⟨h3, h4⟩ := ih _ h
      simp only [h1, h3, h4, h2, List.map_cons, List.reverse_cons, List.map_append,
        List.map_nil, List.append_assoc, List.singleton_append, true_and]
    · rw [multilock_mods_cons_err env sc d wr appl m rest w hm] at h
      exact absurd h hm

theorem multilock_mods_err (env : Nat → LockResp) (sc d : Nat) (wr appl : Bool)
    (mods : List sr_mod_info_mod_s) (w : LockWorld)
    (h : (sr_shmmod_multilock_mods env sc d wr appl mods w).1 ≠ SR_ERR_OK) :
    ∃ pre m post, mods = pre ++ m :: post ∧
      (sr_shmmod_multilock_mods env sc d wr appl mods w).2.1
        = pre.map set_lock_bit ++ m :: post ∧
      (sr_shmmod_multilock_mods env sc d wr appl mods w).2.2.held =
        (pre.reverse.map (fun m => (m.shm_mod, d, multilock_final_wr wr appl m))) ++ w.held := by
  induction mods generalizing w with
  | nil => simp [sr_shmmod_multilock_mods] at h
  | cons m rest ih =>
    obtain ⟨_, _, hok, herr⟩ := multilock_mod_facts env sc d wr appl m w
    by_cases hm : (sr_shmmod_multilock_mod env sc d wr appl m w).1 = SR_ERR_OK
    · rw [multilock_mods_cons_ok env sc d wr appl m rest w hm] at h ⊢
      obtain ⟨h1, h2⟩ := hok hm
      obtain ⟨pre, m1, post, e1, e2, e3⟩ := ih _ h
      refine ⟨m :: pre, m1, post, by rw [e1]; rfl, ?_, ?_⟩
      · simp only [h1, e2, List.map_cons, List.cons_append]
      · simp only [e3, h2, List.reverse_cons, List.map_append, List.map_cons, List.map_nil,
          List.append_assoc, List.singleton_append]
    · rw [multilock_mods_cons_err env sc d wr appl m rest w hm]
      obtain ⟨h1, h2⟩ := herr hm
      exact ⟨[], m, rest, rfl, by simp [h1], by simp [h2]⟩

theorem map_eq_replicate_of_forall {α β : Type} (f : α → β) (c : β) (l : List α)
    (h : ∀ a ∈ l, f a = c) : l.map f = List.replicate l.length c := by
  induction l with
  | nil => rfl
  | cons a rest ih =>
    simp only [List.map_cons, List.length_cons, List.replicate_succ]
    rw [h a (List.mem_cons_self _ _), ih (fun b hb => h b (List.mem_cons_of_mem _ hb))]

theorem multilock_mods_requests_index (env : Nat → LockResp) (sc d : Nat) (wr appl : Bool)
    (mods : List sr_mod_info_mod_s) (w : LockWorld) :
    ∃ (rs : List LockReq) (idxs : List Nat),
      (sr_shmmod_multilock_mods env sc d wr appl mods w).2.2.requests = w.requests ++ rs ∧
      idxs.Pairwise (fun i j => i ≤ j) ∧ (∀ i ∈ idxs, i < mods.length) ∧
      rs.map (fun q => some q.shm_mod)
        = idxs.map (fun i => (mods[i]?).map (fun m => m.shm_mod)) := by
  induction mods generalizing w with
  | nil => exact ⟨[], [], by simp [sr_shmmod_multilock_mods], List.Pairwise.nil, by simp, rfl⟩
  | cons m rest ih =>
    obtain ⟨_, ⟨rs, hrs, hq⟩, _, _⟩ := multilock_mod_facts env sc d wr appl m w
    have hmap : rs.map (fun q => some q.shm_mod) = List.replicate rs.length (some m.shm_mod) :=
      map_eq_replicate_of_forall _ _ _ (fun q hqm => by rw [(hq q hqm).1])
    have hrep : (List.replicate rs.length 0).map
        (fun i => ((m :: rest)[i]?).map (fun m => m.shm_mod))
        = List.replicate rs.length (some m.shm_mod) := by
      simp
    by_cases hm : (sr_shmmod_multilock_mod env sc d wr appl m w).1 = SR_ERR_OK
    · rw [multilock_mods_cons_ok env sc d wr appl m rest w hm]
      obtain ⟨rs2, idxs2, h1, h2, h3, h4⟩ := ih (sr_shmmod_multilock_mod env sc d wr appl m w).2.2
      refine ⟨rs ++ rs2, List.replicate rs.length 0 ++ idxs2.map (fun i => i + 1), ?_, ?_, ?_, ?_⟩
      · simp only [h1, hrs, List.append_assoc]
      · rw [List.pairwise_append]
        refine ⟨by simp [List.pairwise_replicate], ?_, ?_⟩
        · rw [List.pairwise_map]
          exact h2.imp (fun {a b} hab => Nat.succ_le_succ hab)
        · intro a ha b _
          rw [(List.mem_replicate.mp ha).2]
          exact Nat.zero_le _
      · intro i hi
        rcases List.mem_append.mp hi with hi | hi
        · rw [(List.mem_replicate.mp hi).2]
          simp
        · obtain ⟨j, hj, rfl⟩ := List.mem_map.mp hi
          simpa using h3 j hj
      · rw [List.map_append, List.map_append, hmap, hrep, h4, List.map_map]
        congr 1
        apply List.map_congr_left
        intro i _
        simp
    · rw [multilock_mods_cons_err env sc d wr appl m rest w hm]
      refine ⟨rs, List.replicate rs.length 0, hrs, by simp [List.pairwise_replicate], ?_, ?_⟩
      · intro i hi
        rw [(List.mem_replicate.mp hi).2]
        simp
      · rw [hmap, hrep]

theorem multilock_mods_requests_sorted (env : Nat → LockResp) (sc d : Nat) (wr appl : Bool)
    (mods : List sr_mod_info_mod_s) (w : LockWorld)
    (hs : mods.Pairwise (fun a b => a.shm_mod ≤ b.shm_mod)) :
    ∃ rs, (sr_shmmod_multilock_mods env sc d wr appl mods w).2.2.requests
        = w.requests ++ rs ∧
      (rs.map (fun q => q.shm_mod)).Pairwise (fun a b => a ≤ b) ∧
      ∀ q ∈ rs, ∃ m ∈ mods, q.shm_mod = m.shm_mod := by
  induction mods generalizing w with
  | nil => exact ⟨[], by simp [sr_shmmod_multilock_mods], List.Pairwise.nil, by simp⟩
  | cons m rest ih =>
    obtain ⟨_, ⟨rs, hrs, hq⟩, _, _⟩ := multilock_mod_facts env sc d wr appl m w
    have hmap : rs.map (fun q => q.shm_mod) = List.replicate rs.length m.shm_mod :=
      map_eq_replicate_of_forall _ _ _ (fun q hqm => (hq q hqm).1)
    obtain ⟨hhead, htail⟩ := List.pairwise_cons.mp hs
    by_cases hm : (sr_shmmod_multilock_mod env sc d wr appl m w).1 = SR_ERR_OK
    · rw [multilock_mods_cons_ok env sc d wr appl m rest w hm]
      obtain ⟨rs2, h1, h2, h3⟩ := ih (sr_shmmod_multilock_mod env sc d wr appl m w).2.2 htail
      refine ⟨rs ++ rs2, by simp only [h1, hrs, List.append_assoc], ?_, ?_⟩
      · rw [List.map_append, List.pairwise_append]
        refine ⟨by rw [hmap]; simp [List.pairwise_replicate], h2, ?_⟩
        intro a ha b hb
        rw [hmap] at ha
        rw [(List.mem_replicate.mp ha).2]
        obtain ⟨q, hqm, rfl⟩ := List.mem_map.mp hb
        obtain ⟨m1, hm1, he⟩ := h3 q hqm
        rw [he]
        exact hhead m1 hm1
      · intro q hqm
        rcases List.mem_append.mp hqm with hqm | hqm
        · exact ⟨m, List.mem_cons_self _ _, (hq q hqm).1⟩
        · obtain ⟨m1, hm1, he⟩ := h3 q hqm
          exact ⟨m1, List.mem_cons_of_mem _ hm1, he⟩
    · rw [multilock_mods_cons_err env sc d wr appl m rest w hm]
      refine ⟨rs, hrs, by rw [hmap]; simp [List.pairwise_replicate], ?_⟩
      intro q hqm
      exact ⟨m, List.mem_cons_self _ _, (hq q hqm).1⟩

theorem not_requested_before_of_sorted {offs : List Nat}
    (hs : offs.Pairwise (fun a b => a ≤ b)) {a b : Nat} (hab : a < b) :
    ¬ requested_before b a offs := by
  rintro ⟨p, q, r, rfl⟩
  have h1 := (List.pairwise_append.mp hs).2.1
  have h2 := (List.pairwise_cons.mp h1).1 a (by simp)
  omega

theorem multilock_requests_eq (env : Nat → LockResp) (sc : Nat) (mi : sr_mod_info_s)
    (wr appl : Bool) (w : LockWorld) (rs : List LockReq)
    (h : (sr_shmmod_multilock_mods env sc mi.ds wr appl mi.mods w).2.2.requests
      = w.requests ++ rs) :
    multilock_requests env sc mi wr appl w = rs := by
  simp [multilock_requests, sr_shmmod_multilock, h]

theorem multilock_requests_in_vector_order (env : Nat → LockResp) (sc : Nat)
    (mi : sr_mod_info_s) (wr appl : Bool) (w : LockWorld)
    (hs : mi.mods.Pairwise (fun a b => a.shm_mod ≤ b.shm_mod)) :
    RequestsInVectorOrder mi.mods (multilock_requests env sc mi wr appl w) := by
  obtain ⟨rs, h1, h2, _⟩ := multilock_mods_requests_sorted env sc mi.ds wr appl mi.mods w hs
  obtain ⟨rs2, idxs, h3, h4, h5, h6⟩ := multilock_mods_requests_index env sc mi.ds wr appl mi.mods w
  have hrs : rs2 = rs := List.append_cancel_left (h3.symm.trans h1)
  subst hrs
  rw [multilock_requests_eq env sc mi wr appl w rs2 h1]
  exact ⟨h2, idxs, h4, h5, h6⟩

/-- C4: on mod-infos sorted by ascending module offset `sr_shmmod_multilock` requests locks
in vector order: the offsets requested never decrease and the requests are on entries of
never decreasing index; hence in the traces of two sorted mod-infos no request on a module
`N` stands before a request on a module `M` of smaller offset, so both request `M` and `N`
in the same relative order. -/
theorem multilock_canonical_lock_order (env1 env2 : Nat → LockResp) (sc : Nat)
    (mi1 mi2 : sr_mod_info_s) (wr1 appl1 wr2 appl2 : Bool) (w1 w2 : LockWorld)
    (hs1 : mi1.mods.Pairwise (fun a b => a.shm_mod ≤ b.shm_mod))
    (hs2 : mi2.mods.Pairwise (fun a b => a.shm_mod ≤ b.shm_mod)) :
    RequestsInVectorOrder mi1.mods (multilock_requests env1 sc mi1 wr1 appl1 w1) ∧
    RequestsInVectorOrder mi2.mods (multilock_requests env2 sc mi2 wr2 appl2 w2) ∧
    ∀ M N : Nat, M < N →
      ¬ requested_before N M ((multilock_requests env1 sc mi1 wr1 appl1 w1).map
          (fun q => q.shm_mod)) ∧
      ¬ requested_before N M ((multilock_requests env2 sc mi2 wr2 appl2 w2).map
          (fun q => q.shm_mod)) := by
  have h1 := multilock_requests_in_vector_order env1 sc mi1 wr1 appl1 w1 hs1
  have h2 := multilock_requests_in_vector_order env2 sc mi2 wr2 appl2 w2 hs2
  exact ⟨h1, h2, fun M N hMN =>
    ⟨not_requested_before_of_sorted h1.1 hMN, not_requested_before_of_sorted h2.1 hMN⟩⟩

/-- Witness of C4 on the example mod-infos. -/
theorem multilock_canonical_lock_order_witness :
    ex_collected.mods.Pairwise (fun a b => a.shm_mod ≤ b.shm_mod) ∧
    ex_collected2.mods.Pairwise (fun a b => a.shm_mod ≤ b.shm_mod) ∧
    (RequestsInVectorOrder ex_collected.mods
        (multilock_requests ex_env 10 ex_collected false true LockWorld.init) ∧
      RequestsInVectorOrder ex_collected2.mods
        (multilock_requests ex_env 10 ex_collected2 true false LockWorld.init) ∧
      ∀ M N : Nat, M < N →
        ¬ requested_before N M ((multilock_requests ex_env 10 ex_collected false true
            LockWorld.init).map (fun q => q.shm_mod)) ∧
        ¬ requested_before N M ((multilock_requests ex_env 10 ex_collected2 true false
            LockWorld.init).map (fun q => q.shm_mod))) :=
  ⟨by decide, by decide,
    multilock_canonical_lock_order ex_env ex_env 10 ex_collected ex_collected2 false true true
      false LockWorld.init LockWorld.init (by decide) (by decide)⟩

theorem multilock_mods_requests_held (env : Nat → LockResp) (sc d : Nat) (wr appl : Bool)
    (mods : List sr_mod_info_mod_s) (w : LockWorld)
    (hs : mods.Pairwise (fun a b => a.shm_mod ≤ b.shm_mod))
    (hw : ∀ h ∈ w.held, ∀ m ∈ mods, h.1 ≤ m.shm_mod) :
    ∃ rs, (sr_shmmod_multilock_mods env sc d wr appl mods w).2.2.requests
        = w.requests ++ rs ∧
      ∀ q ∈ rs, ∀ h ∈ q.held, h.1 ≤ q.shm_mod := by
  induction mods generalizing w with
  | nil => exact ⟨[], by simp [sr_shmmod_multilock_mods], by simp⟩
  | cons m rest ih =>
    obtain ⟨_, ⟨rs, hrs, hq⟩, hok, _⟩ := multilock_mod_facts env sc d wr appl m w
    obtain ⟨hhead, htail⟩ := List.pairwise_cons.mp hs
    have hfirst : ∀ q ∈ rs, ∀ h ∈ q.held, h.1 ≤ q.shm_mod := by
      intro q hqm h hh
      obtain ⟨e1, _, e3, _⟩ := hq q hqm
      rw [e3] at hh
      rw [e1]
      exact hw h hh m (List.mem_cons_self _ _)
    by_cases hm : (sr_shmmod_multilock_mod env sc d wr appl m w).1 = SR_ERR_OK
    · rw [multilock_mods_cons_ok env sc d wr appl m rest w hm]
      obtain ⟨_, hheld⟩ := hok hm
      obtain ⟨rs2, h1, h2⟩ := ih (sr_shmmod_multilock_mod env sc d wr appl m w).2.2 htail (by
        intro h hh m1 hm1
        rw [hheld] at hh
        rcases List.mem_cons.mp hh with rfl | hh
        · exact hhead m1 hm1
        · exact hw h hh m1 (List.mem_cons_of_mem _ hm1))
      refine ⟨rs ++ rs2, by simp only [h1, hrs, List.append_assoc], ?_⟩
      intro q hqm
      rcases List.mem_append.mp hqm with hqm | hqm
      · exact hfirst q hqm
      · exact h2 q hqm
    · rw [multilock_mods_cons_err env sc d wr appl m rest w hm]
      exact ⟨rs, hrs, hfirst⟩

/-- C5 as stated fails: on the sorted example mod-info `sr_shmmod_multilock` and then
`sr_shmmod_multirelock` both return SR_ERR_OK, and `sr_shmmod_multirelock` requests the lock
of the module at offset 300 while the transaction holds the lock of the module at offset
400. -/
theorem multirelock_lock_order_counterexample :
    ex_collected.mods.Pairwise (fun a b => a.shm_mod ≤ b.shm_mod) ∧
    (sr_shmmod_multilock ex_env 10 ex_collected false true LockWorld.init).1 = SR_ERR_OK ∧
    (sr_shmmod_multirelock ex_env
      (sr_shmmod_multilock ex_env 10 ex_collected false true LockWorld.init).2.1 true
      (sr_shmmod_multilock ex_env 10 ex_collected false true LockWorld.init).2.2).1
        = SR_ERR_OK ∧
    (∃ q ∈ (sr_shmmod_multirelock ex_env
        (sr_shmmod_multilock ex_env 10 ex_collected false true LockWorld.init).2.1 true
        (sr_shmmod_multilock ex_env 10 ex_collected false true LockWorld.init).2.2).2.2.requests,
      q.shm_mod = 300 ∧ (400, 1, false) ∈ q.held) := by
  decide

/-- C5 (amended): no lock-order inversion occurs within `sr_shmmod_multilock`: on a sorted
mod-info, started with no module lock held, whenever it requests a lock on a module the
transaction holds no lock on a module with a greater offset. -/
theorem multilock_no_lock_order_inversion (env : Nat → LockResp) (sc : Nat)
    (mi : sr_mod_info_s) (wr appl : Bool) (w : LockWorld)
    (hs : mi.mods.Pairwise (fun a b => a.shm_mod ≤ b.shm_mod)) (hw : w.held = []) :
    ∀ q ∈ multilock_requests env sc mi wr appl w, ∀ h ∈ q.held, h.1 ≤ q.shm_mod := by
  obtain ⟨rs, h1, h2⟩ := multilock_mods_requests_held env sc mi.ds wr appl mi.mods w hs
    (by rw [hw]; simp)
  rw [multilock_requests_eq env sc mi wr appl w rs h1]
  exact h2

/-- Witness of the amended C5 on the example mod-info. -/
theorem multilock_no_lock_order_inversion_witness :
    ex_collected.mods.Pairwise (fun a b => a.shm_mod ≤ b.shm_mod) ∧
    LockWorld.init.held = [] ∧
    ∀ q ∈ multilock_requests ex_env 10 ex_collected false true LockWorld.init,
      ∀ h ∈ q.held, h.1 ≤ q.shm_mod :=
  ⟨by decide, rfl,
    multilock_no_lock_order_inversion ex_env 10 ex_collected false true LockWorld.init
      (by decide) rfl⟩

/-- C6 as stated fails: on the example mod-info the lock of the first entry (offset 200) is
acquired, the write lock of the second entry times out, and `sr_shmmod_multilock` returns
SR_ERR_TIME_OUT while the transaction still holds the lock of the first entry. -/
theorem multilock_failure_counterexample :
    (sr_shmmod_multilock ex_env_timeout 10 ex_collected false true LockWorld.init).1
      = SR_ERR_TIME_OUT ∧
    (sr_shmmod_multilock ex_env_timeout 10 ex_collected false true LockWorld.init).2.2.held
      = [(200, 1, false)] ∧
    (sr_shmmod_multilock ex_env_timeout 10 ex_collected false true LockWorld.init).2.2.trace
      = [LockEv.lock 200 1 false SR_ERR_OK, LockEv.lock 300 1 true SR_ERR_TIME_OUT] := by
  decide

/-- C6 (amended): when `sr_shmmod_multilock` returns an error it has released none of the
locks it acquired for earlier entries: with `m` the entry at which it stopped, the locks
held are one lock on each entry before `m` (in the mode the call leaves it in) on top of
the locks held before the call, these entries have MOD_INFO_LOCK set, and `m` and the
entries after it are unchanged and not locked by the call. -/
theorem multilock_failure_keeps_earlier_locks (env : Nat → LockResp) (sc : Nat)
    (mi : sr_mod_info_s) (wr appl : Bool) (w : LockWorld)
    (h : (sr_shmmod_multilock env sc mi wr appl w).1 ≠ SR_ERR_OK) :
    ∃ pre m post, mi.mods = pre ++ m :: post ∧
      (sr_shmmod_multilock env sc mi wr appl w).2.1.mods = pre.map set_lock_bit ++ m :: post ∧
      (sr_shmmod_multilock env sc mi wr appl w).2.2.held =
        (pre.reverse.map (fun e => (e.shm_mod, mi.ds, multilock_final_wr wr appl e))) ++ w.held :=
  multilock_mods_err env sc mi.ds wr appl mi.mods w h

/-- Witness of the amended C6 on the example mod-info. -/
theorem multilock_failure_keeps_earlier_locks_witness :
    (sr_shmmod_multilock ex_env_timeout 10 ex_collected false true LockWorld.init).1
      ≠ SR_ERR_OK ∧
    ∃ pre m post, ex_collected.mods = pre ++ m :: post ∧
      (sr_shmmod_multilock ex_env_timeout 10 ex_collected false true LockWorld.init).2.1.mods
        = pre.map set_lock_bit ++ m :: post ∧
      (sr_shmmod_multilock ex_env_timeout 10 ex_collected false true LockWorld.init).2.2.held =
        (pre.reverse.map (fun e => (e.shm_mod, ex_collected.ds, multilock_final_wr false true e)))
          ++ LockWorld.init.held :=
  ⟨by decide,
    multilock_failure_keeps_earlier_locks ex_env_timeout 10 ex_collected false true
      LockWorld.init (by decide)⟩

theorem env_writes_frame (ws : List (Nat × Nat × Bool)) (f : Nat → Nat → Bool) (o d : Nat) :
    env_writes ws f o d = f o d ∨ ∃ v, (o, d, v) ∈ ws := by
  induction ws generalizing f with
  | nil => exact Or.inl rfl
  | cons x rest ih =>
    obtain ⟨m1, d1, v1⟩ := x
    simp only [env_writes]
    rcases ih (fun m2 ds2 => if m2 = m1 ∧ ds2 = d1 then v1 else f m2 ds2) with h | ⟨v, hv⟩
    · by_cases hk : o = m1 ∧ d = d1
      · right
        exact ⟨v1, by rw [hk.1, hk.2]; exact List.mem_cons_self _ _⟩
      · left
        rw [h]
        simp only [hk, if_false]
    · exact Or.inr ⟨v, List.mem_cons_of_mem _ hv⟩

theorem envWrote_mono {env : Nat → LockResp} {a b a1 b1 o d : Nat} (ha : a1 ≤ a) (hb : b ≤ b1)
    (h : EnvWrote env a b o d) : EnvWrote env a1 b1 o d := by
  obtain ⟨n, h1, h2, h3⟩ := h
  exact ⟨n, le_trans ha h1, lt_of_lt_of_le h2 hb, h3⟩

theorem env_flags_frame (env : Nat → LockResp) (c n : Nat) (f : Nat → Nat → Bool) (o d : Nat) :
    env_flags env c n f o d = f o d ∨ EnvWrote env c (c + n) o d := by
  induction n generalizing c f with
  | zero => exact Or.inl rfl
  | succ n ih =>
    simp only [env_flags]
    rcases ih (c + 1) (env_writes (env c).writes f) with h | h
    · rcases env_writes_frame (env c).writes f o d with h2 | h2
      · left; rw [h, h2]
      · right; exact ⟨c, le_refl _, by omega, h2⟩
    · right
      exact envWrote_mono (by omega) (by omega) h

theorem env_flags_succ_right (env : Nat → LockResp) (c n : Nat) (f : Nat → Nat → Bool) :
    env_flags env c (n + 1) f = env_writes (env (c + n)).writes (env_flags env c n f) := by
  induction n generalizing c f with
  | zero => simp [env_flags]
  | succ n ih =>
    rw [env_flags, ih (c + 1)]
    have : c + 1 + n = c + (n + 1) := by omega
    rw [this]
    rfl

theorem lock_after_retried_flags (env : Nat → LockResp) (o d : Nat) (wr wr1 : Bool) (k : Nat)
    (w : LockWorld) :
    (sr_shmmod_lock env o d wr1 (retried_world env o d wr k w)).2.applying_changes
      = env_flags env w.calls (k + 1) w.applying_changes := by
  rw [env_flags_succ_right]
  rfl

/-- What processing one entry in `sr_shmmod_multilock` does to the flags. -/
theorem multilock_mod_flags (env : Nat → LockResp) (sc d : Nat) (wr appl : Bool)
    (m : sr_mod_info_mod_s) (w : LockWorld) :
    (∀ o1 d1, EnvWrote env w.calls (sr_shmmod_multilock_mod env sc d wr appl m w).2.2.calls o1 d1 ∨
      (sr_shmmod_multilock_mod env sc d wr appl m w).2.2.applying_changes o1 d1
        = w.applying_changes o1 d1 ∨
      (o1 = m.shm_mod ∧ d1 = d ∧ appl = true ∧ multilock_mod_wr wr appl m = true ∧
        (sr_shmmod_multilock_mod env sc d wr appl m w).2.2.applying_changes o1 d1 = true)) ∧
    ((sr_shmmod_multilock_mod env sc d wr appl m w).1 = SR_ERR_OK → appl = true →
      multilock_mod_wr wr appl m = true →
      EnvWrote env w.calls (sr_shmmod_multilock_mod env sc d wr appl m w).2.2.calls m.shm_mod d ∨
      (w.applying_changes m.shm_mod d = false ∧
        (sr_shmmod_multilock_mod env sc d wr appl m w).2.2.applying_changes m.shm_mod d
          = true)) := by
  obtain ⟨k, _, _, hcase⟩ := multilock_mod_shape env sc d wr appl m w
  rcases hcase with ⟨_, h⟩ | ⟨_, hne, h⟩ | ⟨_, hok, _, hrl, h⟩ | ⟨_, hok, hfl, ha, hw, hne, h⟩ |
    ⟨_, hok, hfl, ha, hw, hok1, h⟩
  · rw [h]
    refine ⟨fun o1 d1 => ?_, fun hc => by simp at hc⟩
    rcases env_flags_frame env w.calls k w.applying_changes o1 d1 with e | e
    · exact Or.inr (Or.inl e)
    · exact Or.inl e
  · rw [h]
    refine ⟨fun o1 d1 => ?_, fun hc => absurd hc hne⟩
    simp only [lock_after_retried_flags]
    rcases env_flags_frame env w.calls (k + 1) w.applying_changes o1 d1 with e | e
    · exact Or.inr (Or.inl e)
    · exact Or.inl e
  · rw [h]
    refine ⟨fun o1 d1 => ?_, fun _ ha hw => ?_⟩
    · simp only [lock_after_retried_flags]
      rcases env_flags_frame env w.calls (k + 1) w.applying_changes o1 d1 with e | e
      · exact Or.inr (Or.inl e)
      · exact Or.inl e
    · rw [hw, ha] at hrl
      exact absurd hrl (by decide)
  · rw [h]
    refine ⟨fun o1 d1 => ?_, fun hc => absurd hc hne⟩
    have hcalls : (sr_shmmod_lock env m.shm_mod d false
        (sr_shmmod_unlock m.shm_mod d (set_applying_changes m.shm_mod d true
          (sr_shmmod_lock env m.shm_mod d true
            (retried_world env m.shm_mod d true k w)).2))).2.calls = w.calls + k + 1 + 1 := rfl
    have hac : (sr_shmmod_lock env m.shm_mod d false
        (sr_shmmod_unlock m.shm_mod d (set_applying_changes m.shm_mod d true
          (sr_shmmod_lock env m.shm_mod d true
            (retried_world env m.shm_mod d true k w)).2))).2.applying_changes
        = env_writes (env (w.calls + k + 1)).writes
            (fun m1 ds1 => if m1 = m.shm_mod ∧ ds1 = d then true
              else env_flags env w.calls (k + 1) w.applying_changes m1 ds1) := by
      rw [← lock_after_retried_flags env m.shm_mod d true true k w]
      rfl
    simp only [hcalls, hac]
    rcases env_writes_frame (env (w.calls + k + 1)).writes
      (fun m1 ds1 => if m1 = m.shm_mod ∧ ds1 = d then true
        else env_flags env w.calls (k + 1) w.applying_changes m1 ds1) o1 d1 with e | e
    · rw [e]
      by_cases hk : o1 = m.shm_mod ∧ d1 = d
      · exact Or.inr (Or.inr ⟨hk.1, hk.2, ha, hw, by simp [hk]⟩)
      · simp only [hk, if_false]
        rcases env_flags_frame env w.calls (k + 1) w.applying_changes o1 d1 with e2 | e2
        · exact Or.inr (Or.inl e2)
        · exact Or.inl (envWrote_mono (le_refl _) (by omega) e2)
    · exact Or.inl ⟨w.calls + k + 1, by omega, by omega, e⟩
  · rw [h]
    have hcalls : (sr_shmmod_lock env m.shm_mod d false
        (sr_shmmod_unlock m.shm_mod d (set_applying_changes m.shm_mod d true
          (sr_shmmod_lock env m.shm_mod d true
            (retried_world env m.shm_mod d true k w)).2))).2.calls = w.calls + k + 1 + 1 := rfl
    have hac : (sr_shmmod_lock env m.shm_mod d false
        (sr_shmmod_unlock m.shm_mod d (set_applying_changes m.shm_mod d true
          (sr_shmmod_lock env m.shm_mod d true
            (retried_world env m.shm_mod d true k w)).2))).2.applying_changes
        = env_writes (env (w.calls + k + 1)).writes
            (fun m1 ds1 => if m1 = m.shm_mod ∧ ds1 = d then true
              else env_flags env w.calls (k + 1) w.applying_changes m1 ds1) := by
      rw [← lock_after_retried_flags env m.shm_mod d true true k w]
      rfl
    simp only [hcalls, hac]
    have key : ∀ o1 d1, EnvWrote env w.calls (w.calls + k + 1 + 1) o1 d1 ∨
        env_writes (env (w.calls + k + 1)).writes
            (fun m1 ds1 => if m1 = m.shm_mod ∧ ds1 = d then true
              else env_flags env w.calls (k + 1) w.applying_changes m1 ds1) o1 d1
          = w.applying_changes o1 d1 ∨
        (o1 = m.shm_mod ∧ d1 = d ∧ appl = true ∧ multilock_mod_wr wr appl m = true ∧
          env_writes (env (w.calls + k + 1)).writes
            (fun m1 ds1 => if m1 = m.shm_mod ∧ ds1 = d then true
              else env_flags env w.calls (k + 1) w.applying_changes m1 ds1) o1 d1 = true) := by
      intro o1 d1
      rcases env_writes_frame (env (w.calls + k + 1)).writes
        (fun m1 ds1 => if m1 = m.shm_mod ∧ ds1 = d then true
          else env_flags env w.calls (k + 1) w.applying_changes m1 ds1) o1 d1 with e | e
      · rw [e]
        by_cases hk : o1 = m.shm_mod ∧ d1 = d
        · exact Or.inr (Or.inr ⟨hk.1, hk.2, ha, hw, by simp [hk]⟩)
        · simp only [hk, if_false]
          rcases env_flags_frame env w.calls (k + 1) w.applying_changes o1 d1 with e2 | e2
          · exact Or.inr (Or.inl e2)
          · exact Or.inl (envWrote_mono (le_refl _) (by omega) e2)
      · exact Or.inl ⟨w.calls + k + 1, by omega, by omega, e⟩
    refine ⟨key, fun _ _ _ => ?_⟩
    rcases key m.shm_mod d with e | e | e
    · exact Or.inl e
    · rcases env_flags_frame env w.calls (k + 1) w.applying_changes m.shm_mod d with e2 | e2
      · rw [hfl] at e2
        rcases env_writes_frame (env (w.calls + k + 1)).writes
          (fun m1 ds1 => if m1 = m.shm_mod ∧ ds1 = d then true
            else env_flags env w.calls (k + 1) w.applying_changes m1 ds1) m.shm_mod d with e3 | e3
        · right
          refine ⟨e2.symm, ?_⟩
          rw [e3]; simp
        · exact Or.inl ⟨w.calls + k + 1, by omega, by omega, e3⟩
      · exact Or.inl (envWrote_mono (le_refl _) (by omega) e2)
    · rcases env_flags_frame env w.calls (k + 1) w.applying_changes m.shm_mod d with e2 | e2
      · rw [hfl] at e2
        exact Or.inr ⟨e2.symm, e.2.2.2.2⟩
      · exact Or.inl (envWrote_mono (le_refl _) (by omega) e2)

theorem multilock_mods_calls (env : Nat → LockResp) (sc d : Nat) (wr appl : Bool)
    (mods : List sr_mod_info_mod_s) (w : LockWorld) :
    w.calls ≤ (sr_shmmod_multilock_mods env sc d wr appl mods w).2.2.calls := by
  induction mods generalizing w with
  | nil => simp [sr_shmmod_multilock_mods]
  | cons m rest ih =>
    obtain ⟨hc, _, _, _⟩ := multilock_mod_facts env sc d wr appl m w
    by_cases hm : (sr_shmmod_multilock_mod env sc d wr appl m w).1 = SR_ERR_OK
    · rw [multilock_mods_cons_ok env sc d wr appl m rest w hm]
      exact le_trans hc (ih _)
    · rw [multilock_mods_cons_err env sc d wr appl m rest w hm]
      exact hc

theorem multilock_mods_flag_keep (env : Nat → LockResp) (sc d : Nat) (wr appl : Bool)
    (mods : List sr_mod_info_mod_s) (w : LockWorld) (o d1 : Nat)
    (h : w.applying_changes o d1 = true) :
    (sr_shmmod_multilock_mods env sc d wr appl mods w).2.2.applying_changes o d1 = true ∨
      EnvWrote env w.calls (sr_shmmod_multilock_mods env sc d wr appl mods w).2.2.calls o d1 := by
  induction mods generalizing w with
  | nil => exact Or.inl (by simpa [sr_shmmod_multilock_mods] using h)
  | cons m rest ih =>
    obtain ⟨hc, _, _, _⟩ := multilock_mod_facts env sc d wr appl m w
    have hstep : (sr_shmmod_multilock_mod env sc d wr appl m w).2.2.applying_changes o d1 = true ∨
        EnvWrote env w.calls (sr_shmmod_multilock_mod env sc d wr appl m w).2.2.calls o d1 := by
      rcases (multilock_mod_flags env sc d wr appl m w).1 o d1 with e | e | e
      · exact Or.inr e
      · exact Or.inl (by rw [e, h])
      · exact Or.inl e.2.2.2.2
    by_cases hm : (sr_shmmod_multilock_mod env sc d wr appl m w).1 = SR_ERR_OK
    · rw [multilock_mods_cons_ok env sc d wr appl m rest w hm]
      rcases hstep with e | e
      · rcases ih _ e with e2 | e2
        · exact Or.inl e2
        · exact Or.inr (envWrote_mono hc (le_refl _) e2)
      · exact Or.inr (envWrote_mono (le_refl _) (multilock_mods_calls env sc d wr appl rest _) e)
    · rw [multilock_mods_cons_err env sc d wr appl m rest w hm]
      exact hstep

theorem multilock_mods_flag_set (env : Nat → LockResp) (sc d : Nat) (wr : Bool)
    (mods : List sr_mod_info_mod_s) (w : LockWorld)
    (h : (sr_shmmod_multilock_mods env sc d wr true mods w).1 = SR_ERR_OK) :
    ∀ m ∈ mods, multilock_mod_wr wr true m = true →
      (sr_shmmod_multilock_mods env sc d wr true mods w).2.2.applying_changes m.shm_mod d = true ∨
      EnvWrote env w.calls (sr_shmmod_multilock_mods env sc d wr true mods w).2.2.calls
        m.shm_mod d := by
  induction mods generalizing w with
  | nil => simp
  | cons m0 rest ih =>
    obtain ⟨hc, _, _, _⟩ := multilock_mod_facts env sc d wr true m0 w
    by_cases hm : (sr_shmmod_multilock_mod env sc d wr true m0 w).1 = SR_ERR_OK
    · rw [multilock_mods_cons_ok env sc d wr true m0 rest w hm] at h ⊢
      intro m hmem hwr
      rcases List.mem_cons.mp hmem with rfl | hmem
      · rcases (multilock_mod_flags env sc d wr true m w).2 hm rfl hwr with e | ⟨_, e⟩
        · exact Or.inr (envWrote_mono (le_refl _) (multilock_mods_calls env sc d wr true rest _) e)
        · rcases multilock_mods_flag_keep env sc d wr true rest _ m.shm_mod d e with e2 | e2
          · exact Or.inl e2
          · exact Or.inr (envWrote_mono hc (le_refl _) e2)
      · rcases ih _ h m hmem hwr with e | e
        · exact Or.inl e
        · exact Or.inr (envWrote_mono hc (le_refl _) e)
    · rw [multilock_mods_cons_err env sc d wr true m0 rest w hm] at h
      exact absurd h hm

theorem multilock_mods_flag_frame (env : Nat → LockResp) (sc d : Nat) (wr appl : Bool)
    (mods : List sr_mod_info_mod_s) (w : LockWorld) (o d1 : Nat)
    (hno : ∀ m ∈ mods, appl = true → multilock_mod_wr wr appl m = true →
      ¬ (m.shm_mod = o ∧ d = d1)) :
    (sr_shmmod_multilock_mods env sc d wr appl mods w).2.2.applying_changes o d1
        = w.applying_changes o d1 ∨
      EnvWrote env w.calls (sr_shmmod_multilock_mods env sc d wr appl mods w).2.2.calls o d1 := by
  induction mods generalizing w with
  | nil => exact Or.inl (by simp [sr_shmmod_multilock_mods])
  | cons m rest ih =>
    obtain ⟨hc, _, _, _⟩ := multilock_mod_facts env sc d wr appl m w
    have hstep : (sr_shmmod_multilock_mod env sc d wr appl m w).2.2.applying_changes o d1
          = w.applying_changes o d1 ∨
        EnvWrote env w.calls (sr_shmmod_multilock_mod env sc d wr appl m w).2.2.calls o d1 := by
      rcases (multilock_mod_flags env sc d wr appl m w).1 o d1 with e | e | e
      · exact Or.inr e
      · exact Or.inl e
      · exact absurd ⟨e.1.symm, e.2.1.symm⟩ (hno m (List.mem_cons_self _ _) e.2.2.1 e.2.2.2.1)
    by_cases hm : (sr_shmmod_multilock_mod env sc d wr appl m w).1 = SR_ERR_OK
    · rw [multilock_mods_cons_ok env sc d wr appl m rest w hm]
      rcases ih (sr_shmmod_multilock_mod env sc d wr appl m w).2.2
        (fun m1 hm1 => hno m1 (List.mem_cons_of_mem _ hm1)) with e | e
      · rcases hstep with e2 | e2
        · exact Or.inl (by rw [e, e2])
        · exact Or.inr (envWrote_mono (le_refl _) (multilock_mods_calls env sc d wr appl rest _) e2)
      · exact Or.inr (envWrote_mono hc (le_refl _) e)
    · rw [multilock_mods_cons_err env sc d wr appl m rest w hm]
      exact hstep

theorem multilock_mods_flag_was_clear (env : Nat → LockResp) (sc d : Nat) (wr : Bool)
    (mods : List sr_mod_info_mod_s) (w : LockWorld)
    (h : (sr_shmmod_multilock_mods env sc d wr true mods w).1 = SR_ERR_OK) :
    ∀ m ∈ mods, multilock_mod_wr wr true m = true →
      w.applying_changes m.shm_mod d = false ∨
      EnvWrote env w.calls (sr_shmmod_multilock_mods env sc d wr true mods w).2.2.calls
        m.shm_mod d := by
  induction mods generalizing w with
  | nil => simp
  | cons m0 rest ih =>
    obtain ⟨hc, _, _, _⟩ := multilock_mod_facts env sc d wr true m0 w
    by_cases hm : (sr_shmmod_multilock_mod env sc d wr true m0 w).1 = SR_ERR_OK
    · rw [multilock_mods_cons_ok env sc d wr true m0 rest w hm] at h ⊢
      intro m hmem hwr
      rcases List.mem_cons.mp hmem with rfl | hmem
      · rcases (multilock_mod_flags env sc d wr true m w).2 hm rfl hwr with e | ⟨e, _⟩
        · exact Or.inr (envWrote_mono (le_refl _) (multilock_mods_calls env sc d wr true rest _) e)
        · exact Or.inl e
      · rcases ih _ h m hmem hwr with e | e
        · rcases (multilock_mod_flags env sc d wr true m0 w).1 m.shm_mod d with e2 | e2 | e2
          · exact Or.inr (envWrote_mono (le_refl _)
              (multilock_mods_calls env sc d wr true rest _) e2)
          · exact Or.inl (by rw [← e2, e])
          · rw [e] at e2
            exact absurd e2.2.2.2.2 (by decide)
        · exact Or.inr (envWrote_mono hc (le_refl _) e)
    · rw [multilock_mods_cons_err env sc d wr true m0 rest w hm] at h
      exact absurd h hm

theorem lock_bit_set (s : Nat) : (s ||| MOD_INFO_LOCK) &&& MOD_INFO_LOCK ≠ 0 := by
  have h : (s ||| MOD_INFO_LOCK) &&& MOD_INFO_LOCK = MOD_INFO_LOCK := by
    apply Nat.eq_of_testBit_eq
    intro i
    simp only [Nat.testBit_and, Nat.testBit_or]
    cases s.testBit i <;> cases Nat.testBit MOD_INFO_LOCK i <;> rfl
  rw [h]
  decide

theorem lock_bit_keeps_req (s : Nat) :
    (s ||| MOD_INFO_LOCK) &&& MOD_INFO_REQ = s &&& MOD_INFO_REQ := by
  rw [Nat.and_comm, Nat.and_or_distrib_left, Nat.and_comm MOD_INFO_REQ s,
    show MOD_INFO_REQ &&& MOD_INFO_LOCK = 0 from by decide, Nat.or_zero]

theorem multilock_mod_wr_applying (wr : Bool) (m : sr_mod_info_mod_s) :
    multilock_mod_wr wr true m = true ↔ m.state &&& MOD_INFO_REQ ≠ 0 := by
  simp [multilock_mod_wr]

theorem multilock_mod_applying_trace (env : Nat → LockResp) (sc d : Nat)
    (m : sr_mod_info_mod_s) (w : LockWorld)
    (h : (sr_shmmod_multilock_mod env sc d false true m w).1 = SR_ERR_OK) :
    ∃ k, (sr_shmmod_multilock_mod env sc d false true m w).2.2.trace
      = w.trace ++ applying_segment d m k := by
  obtain ⟨k, _, _, hcase⟩ := multilock_mod_shape env sc d false true m w
  rcases hcase with ⟨_, e⟩ | ⟨_, hne, e⟩ | ⟨_, hok, _, hrl, e⟩ | ⟨_, hok, hfl, ha, hw, hne, e⟩ |
    ⟨_, hok, hfl, ha, hw, hok1, e⟩
  · rw [e] at h; simp at h
  · rw [e] at h; exact absurd h hne
  · refine ⟨k, ?_⟩
    rw [e]
    have hw : multilock_mod_wr false true m = false := by simpa using hrl
    have hreq : ¬ (m.state &&& MOD_INFO_REQ ≠ 0) := by
      rw [← multilock_mod_wr_applying false m, hw]; decide
    have hc : (retried_world env m.shm_mod d false k w).calls = w.calls + k := rfl
    simp only [hw, sr_shmmod_lock, hc, hok, applying_segment, hreq, if_false, retried_world,
      List.append_assoc]
  · rw [e] at h; exact absurd h hne
  · refine ⟨k, ?_⟩
    rw [e]
    have hreq : m.state &&& MOD_INFO_REQ ≠ 0 := (multilock_mod_wr_applying false m).mp hw
    have hc : (retried_world env m.shm_mod d true k w).calls = w.calls + k := rfl
    have hc2 : w.calls + k + 1 = w.calls + k + 1 := rfl
    simp only [sr_shmmod_lock, sr_shmmod_unlock, set_applying_changes, hc, hok, hok1,
      applying_segment, hreq, if_true, retried_world, List.append_assoc, ne_eq,
      not_false_eq_true, List.singleton_append, List.cons_append, List.nil_append]

theorem multilock_mods_applying_trace (env : Nat → LockResp) (sc d : Nat)
    (mods : List sr_mod_info_mod_s) (w : LockWorld)
    (h : (sr_shmmod_multilock_mods env sc d false true mods w).1 = SR_ERR_OK) :
    ∃ ks : List Nat, ks.length = mods.length ∧
      (sr_shmmod_multilock_mods env sc d false true mods w).2.2.trace
        = w.trace ++ applying_trace d mods ks := by
  induction mods generalizing w with
  | nil => exact ⟨[], rfl, by simp [sr_shmmod_multilock_mods, applying_trace]⟩
  | cons m rest ih =>
    by_cases hm : (sr_shmmod_multilock_mod env sc d false true m w).1 = SR_ERR_OK
    · rw [multilock_mods_cons_ok env sc d false true m rest w hm] at h ⊢
      obtain ⟨k, hk⟩ := multilock_mod_applying_trace env sc d m w hm
      obtain ⟨ks, hl, hks⟩ := ih _ h
      refine ⟨k :: ks, by simp [hl], ?_⟩
      simp only [hks, hk, applying_trace, List.append_assoc]
    · rw [multilock_mods_cons_err env sc d false true m rest w hm] at h
      exact absurd h hm

theorem multilock_applying_changes_aux (env : Nat → LockResp) (sc : Nat) (mi : sr_mod_info_s)
    (w : LockWorld) (h : (sr_shmmod_multilock env sc mi false true w).1 = SR_ERR_OK) :
    (∀ e ∈ (sr_shmmod_multilock env sc mi false true w).2.1.mods,
      e.state &&& MOD_INFO_LOCK ≠ 0) ∧
    (sr_shmmod_multilock env sc mi false true w).2.1.mods = mi.mods.map set_lock_bit ∧
    (sr_shmmod_multilock env sc mi false true w).2.2.held
      = (mi.mods.reverse.map (fun m => (m.shm_mod, mi.ds, false))) ++ w.held ∧
    (∃ ks : List Nat, ks.length = mi.mods.length ∧
      (sr_shmmod_multilock env sc mi false true w).2.2.trace
        = w.trace ++ applying_trace mi.ds mi.mods ks) ∧
    (∀ m ∈ mi.mods, m.state &&& MOD_INFO_REQ ≠ 0 →
      (sr_shmmod_multilock env sc mi false true w).2.2.applying_changes m.shm_mod mi.ds = true ∨
      EnvWrote env w.calls (sr_shmmod_multilock env sc mi false true w).2.2.calls
        m.shm_mod mi.ds) := by
  have h' : (sr_shmmod_multilock_mods env sc mi.ds false true mi.mods w).1 = SR_ERR_OK := h
  obtain ⟨h1, h2⟩ := multilock_mods_ok env sc mi.ds false true mi.mods w h'
  have hmods : (sr_shmmod_multilock env sc mi false true w).2.1.mods
      = mi.mods.map set_lock_bit := h1
  refine ⟨?_, hmods, ?_, multilock_mods_applying_trace env sc mi.ds mi.mods w h', ?_⟩
  · intro e he
    rw [hmods] at he
    obtain ⟨m, _, rfl⟩ := List.mem_map.mp he
    exact lock_bit_set m.state
  · have : (sr_shmmod_multilock env sc mi false true w).2.2.held
        = (sr_shmmod_multilock_mods env sc mi.ds false true mi.mods w).2.2.held := rfl
    rw [this, h2]
    simp [multilock_final_wr]
  · intro m hm hreq
    exact multilock_mods_flag_set env sc mi.ds false mi.mods w h' m hm
      ((multilock_mod_wr_applying false m).mpr hreq)

theorem not_envWrote_of_quiet {env : Nat → LockResp} (hq : ∀ n, (env n).writes = [])
    (a b o d : Nat) : ¬ EnvWrote env a b o d := by
  rintro ⟨n, _, _, v, hv⟩
  rw [hq n] at hv
  exact absurd hv (List.not_mem_nil _)

/-- C7: if `sr_shmmod_multilock(mod_info, wr = 0, applying_changes = 1)` returns SR_ERR_OK
then every entry has MOD_INFO_LOCK and is held with a read lock; the log of the call
consists, entry by entry, of the unsuccessful rounds followed for an entry with MOD_INFO_REQ
by write lock, flag write, unlock and read lock, and for any other entry by the read lock
alone (no flag write); the flag of every entry with MOD_INFO_REQ is 1 at the return unless
another process wrote it during the call, and it is 1 when no other process writes flags. -/
theorem multilock_applying_changes_ok (env : Nat → LockResp) (sc : Nat) (mi : sr_mod_info_s)
    (w : LockWorld) (h : (sr_shmmod_multilock env sc mi false true w).1 = SR_ERR_OK) :
    (∀ e ∈ (sr_shmmod_multilock env sc mi false true w).2.1.mods,
      e.state &&& MOD_INFO_LOCK ≠ 0) ∧
    (sr_shmmod_multilock env sc mi false true w).2.1.mods = mi.mods.map set_lock_bit ∧
    (sr_shmmod_multilock env sc mi false true w).2.2.held
      = (mi.mods.reverse.map (fun m => (m.shm_mod, mi.ds, false))) ++ w.held ∧
    (∃ ks : List Nat, ks.length = mi.mods.length ∧
      (sr_shmmod_multilock env sc mi false true w).2.2.trace
        = w.trace ++ applying_trace mi.ds mi.mods ks) ∧
    (∀ m ∈ mi.mods, m.state &&& MOD_INFO_REQ ≠ 0 →
      (sr_shmmod_multilock env sc mi false true w).2.2.applying_changes m.shm_mod mi.ds = true ∨
      EnvWrote env w.calls (sr_shmmod_multilock env sc mi false true w).2.2.calls
        m.shm_mod mi.ds) ∧
    ((∀ n, (env n).writes = []) → ∀ m ∈ mi.mods, m.state &&& MOD_INFO_REQ ≠ 0 →
      (sr_shmmod_multilock env sc mi false true w).2.2.applying_changes m.shm_mod mi.ds
        = true) := by
  obtain ⟨h1, h2, h3, h4, h5⟩ := multilock_applying_changes_aux env sc mi w h
  refine ⟨h1, h2, h3, h4, h5, fun hq m hm hr => ?_⟩
  rcases h5 m hm hr with e | e
  · exact e
  · exact absurd e (not_envWrote_of_quiet hq _ _ _ _)

theorem head_replicate_append {α : Type} (k : Nat) (q : α) (t : List α) :
    (List.replicate k q ++ q :: t).head? = some q := by
  cases k with
  | zero => rfl
  | succ k => simp [List.replicate_succ]

/-- The requests made for one entry: the first one asks for the mode `mod_wr`, and an entry
without MOD_INFO_REQ is only asked for in read mode. -/
theorem multilock_mod_requests_mode (env : Nat → LockResp) (sc d : Nat) (wr appl : Bool)
    (m : sr_mod_info_mod_s) (w : LockWorld) :
    ∃ rs, (sr_shmmod_multilock_mod env sc d wr appl m w).2.2.requests = w.requests ++ rs ∧
      (0 < sc → rs.head? = some
        { shm_mod := m.shm_mod, ds := d, wr := multilock_mod_wr wr appl m, held := w.held }) ∧
      (∀ q ∈ rs, q.shm_mod = m.shm_mod ∧ (q.wr = true → multilock_mod_wr wr appl m = true)) := by
  obtain ⟨_, ⟨rs, hrs, hq⟩, _, _⟩ := multilock_mod_facts env sc d wr appl m w
  refine ⟨rs, hrs, ?_, fun q hqm => ⟨(hq q hqm).1, (hq q hqm).2.2.2⟩⟩
  intro hsc
  obtain ⟨k, _, _, hcase⟩ := multilock_mod_shape env sc d wr appl m w
  have hc : ∀ b, (retried_world env m.shm_mod d b k w).calls = w.calls + k := fun _ => rfl
  rcases hcase with ⟨hk, e⟩ | ⟨_, hne, e⟩ | ⟨_, hok, _, hrl, e⟩ | ⟨_, hok, hfl, ha, hw, hne, e⟩ |
    ⟨_, hok, hfl, ha, hw, hok1, e⟩
  · rw [e] at hrs
    simp only [retried_world] at hrs
    have := List.append_cancel_left hrs
    rw [← this]
    cases k with
    | zero => omega
    | succ k => simp [List.replicate_succ]
  · rw [e] at hrs
    simp only [sr_shmmod_lock, retried_world, List.append_assoc] at hrs
    have := List.append_cancel_left hrs
    rw [← this]
    exact head_replicate_append k _ []
  · rw [e] at hrs
    simp only [sr_shmmod_lock, retried_world, List.append_assoc] at hrs
    have := List.append_cancel_left hrs
    rw [← this]
    exact head_replicate_append k _ []
  · rw [e] at hrs
    simp only [sr_shmmod_lock, sr_shmmod_unlock, set_applying_changes, retried_world,
      List.append_assoc, List.singleton_append] at hrs
    have := List.append_cancel_left hrs
    rw [← this, hw]
    exact head_replicate_append k _ _
  · rw [e] at hrs
    simp only [sr_shmmod_lock, sr_shmmod_unlock, set_applying_changes, retried_world,
      List.append_assoc, List.singleton_append] at hrs
    have := List.append_cancel_left hrs
    rw [← this, hw]
    exact head_replicate_append k _ _

theorem type_dep_no_req (s : Nat)
    (h : s &&& MOD_INFO_TYPE_MASK = MOD_INFO_DEP ∨ s &&& MOD_INFO_TYPE_MASK = MOD_INFO_INV_DEP) :
    s &&& MOD_INFO_REQ = 0 := by
  have h1 : s &&& MOD_INFO_REQ = (s &&& MOD_INFO_TYPE_MASK) &&& MOD_INFO_REQ := by
    rw [Nat.and_assoc, show MOD_INFO_TYPE_MASK &&& MOD_INFO_REQ = MOD_INFO_REQ from by decide]
  rw [h1]
  rcases h with h | h <;> rw [h] <;> decide

/-- C8: for every entry `m` that `sr_shmmod_multilock` reaches (the entries `pre` before it
were locked), the first lock request made for `m` asks for the mode `mod_wr`, which is
write exactly when `wr` or `applying_changes` holds and the state of `m` has MOD_INFO_REQ;
every request made for an entry without MOD_INFO_REQ, in particular for an entry of type DEP
or INV_DEP, is a read request. -/
theorem multilock_request_mode (env : Nat → LockResp) (sc : Nat) (mi : sr_mod_info_s)
    (wr appl : Bool) (w w1 : LockWorld) (pre pre1 post : List sr_mod_info_mod_s)
    (m : sr_mod_info_mod_s) (hsc : 0 < sc) (hmods : mi.mods = pre ++ m :: post)
    (hpre : sr_shmmod_multilock_mods env sc mi.ds wr appl pre w = (SR_ERR_OK, pre1, w1)) :
    ∃ rs later,
      (sr_shmmod_multilock env sc mi wr appl w).2.2.requests = w1.requests ++ rs ++ later ∧
      (sr_shmmod_multilock_mod env sc mi.ds wr appl m w1).2.2.requests = w1.requests ++ rs ∧
      rs.head? = some
        { shm_mod := m.shm_mod, ds := mi.ds, wr := multilock_mod_wr wr appl m, held := w1.held } ∧
      (multilock_mod_wr wr appl m = true ↔
        (wr = true ∨ appl = true) ∧ m.state &&& MOD_INFO_REQ ≠ 0) ∧
      (m.state &&& MOD_INFO_REQ = 0 → ∀ q ∈ rs, q.wr = false) ∧
      (m.state &&& MOD_INFO_TYPE_MASK = MOD_INFO_DEP ∨
        m.state &&& MOD_INFO_TYPE_MASK = MOD_INFO_INV_DEP → ∀ q ∈ rs, q.wr = false) := by
  obtain ⟨rs, hrs, hhead, hall⟩ := multilock_mod_requests_mode env sc mi.ds wr appl m w1
  have hiff : multilock_mod_wr wr appl m = true ↔
      (wr = true ∨ appl = true) ∧ m.state &&& MOD_INFO_REQ ≠ 0 := by
    simp [multilock_mod_wr]
  have hread : m.state &&& MOD_INFO_REQ = 0 → ∀ q ∈ rs, q.wr = false := by
    intro h0 q hqm
    cases hq : q.wr with
    | false => rfl
    | true => exact absurd h0 (hiff.mp ((hall q hqm).2 hq)).2
  have hfull : (sr_shmmod_multilock env sc mi wr appl w).2.2
      = (sr_shmmod_multilock_mods env sc mi.ds wr appl (m :: post) w1).2.2 := by
    have : (sr_shmmod_multilock env sc mi wr appl w).2.2
        = (sr_shmmod_multilock_mods env sc mi.ds wr appl mi.mods w).2.2 := rfl
    rw [this, hmods, multilock_mods_append, hpre]
    simp
  have hlater : ∃ later, (sr_shmmod_multilock_mods env sc mi.ds wr appl (m :: post) w1).2.2.requests
      = w1.requests ++ rs ++ later := by
    by_cases hm : (sr_shmmod_multilock_mod env sc mi.ds wr appl m w1).1 = SR_ERR_OK
    · rw [multilock_mods_cons_ok env sc mi.ds wr appl m post w1 hm]
      obtain ⟨rs2, _, h3, _⟩ := multilock_mods_requests_index env sc mi.ds wr appl post
        (sr_shmmod_multilock_mod env sc mi.ds wr appl m w1).2.2
      exact ⟨rs2, by rw [h3, hrs]⟩
    · rw [multilock_mods_cons_err env sc mi.ds wr appl m post w1 hm]
      exact ⟨[], by rw [hrs]; simp⟩
  obtain ⟨later, hl⟩ := hlater
  exact ⟨rs, later, by rw [hfull, hl], hrs, hhead hsc, hiff, hread,
    fun ht => hread (type_dep_no_req m.state ht)⟩

theorem multilock_mod_exhausted (env : Nat → LockResp) (sc d : Nat) (wr : Bool)
    (m : sr_mod_info_mod_s) (w : LockWorld)
    (hobs : ∀ j, j < sc → lock_result (env (w.calls + j)) = SR_ERR_OK ∧
      env_flags env w.calls (j + 1) w.applying_changes m.shm_mod d = true) :
    sr_shmmod_multilock_mod env sc d wr true m w
      = (SR_ERR_TIME_OUT, m, retried_world env m.shm_mod d (multilock_mod_wr wr true m) sc w) := by
  obtain ⟨k, _, _, hcase⟩ := multilock_mod_shape env sc d wr true m w
  rcases hcase with ⟨hk, e⟩ | ⟨hk, hne, _⟩ | ⟨hk, _, hfl, _, _⟩ | ⟨hk, _, hfl, _, _, _, _⟩ |
    ⟨hk, _, hfl, _, _, _, _⟩
  · rw [e, hk]
  · exact absurd (hobs k hk).1 hne
  · rcases hfl with h | h
    · exact absurd h (by decide)
    · rw [(hobs k hk).2] at h
      exact absurd h (by decide)
  · rw [(hobs k hk).2] at hfl
    exact absurd hfl (by decide)
  · rw [(hobs k hk).2] at hfl
    exact absurd hfl (by decide)

/-- C9: with `applying_changes = 1`, if the entries before `m` were locked and the flag of
`m` is found set after each of SR_SUB_COMMIT_STEP_COUNT successive successful acquisitions,
`sr_shmmod_multilock` returns SR_ERR_TIME_OUT after exactly that many rounds of lock, unlock
and sleep on `m`; at the return only the locks of the earlier entries are held, `m` and the
later entries are unchanged, the transaction wrote no flag for `m`, and nothing was done
for a later entry. -/
theorem multilock_retries_exhausted (env : Nat → LockResp) (sc : Nat) (mi : sr_mod_info_s)
    (wr : Bool) (w w1 : LockWorld) (pre pre1 post : List sr_mod_info_mod_s)
    (m : sr_mod_info_mod_s) (hmods : mi.mods = pre ++ m :: post)
    (hpre : sr_shmmod_multilock_mods env sc mi.ds wr true pre w = (SR_ERR_OK, pre1, w1))
    (hobs : ∀ j, j < sc → lock_result (env (w1.calls + j)) = SR_ERR_OK ∧
      env_flags env w1.calls (j + 1) w1.applying_changes m.shm_mod mi.ds = true) :
    (sr_shmmod_multilock env sc mi wr true w).1 = SR_ERR_TIME_OUT ∧
    (sr_shmmod_multilock env sc mi wr true w).2.1.mods = pre.map set_lock_bit ++ m :: post ∧
    (sr_shmmod_multilock env sc mi wr true w).2.2.trace
      = w1.trace ++ retry_trace m.shm_mod mi.ds (multilock_mod_wr wr true m) sc ∧
    (sr_shmmod_multilock env sc mi wr true w).2.2.held
      = (pre.reverse.map (fun e => (e.shm_mod, mi.ds, multilock_final_wr wr true e))) ++ w.held ∧
    (sr_shmmod_multilock env sc mi wr true w).2.2.applying_changes
      = env_flags env w1.calls sc w1.applying_changes ∧
    (sr_shmmod_multilock env sc mi wr true w).2.2.calls = w1.calls + sc := by
  have hm := multilock_mod_exhausted env sc mi.ds wr m w1 hobs
  have hne : (sr_shmmod_multilock_mod env sc mi.ds wr true m w1).1 ≠ SR_ERR_OK := by
    rw [hm]; simp
  have hpok : (sr_shmmod_multilock_mods env sc mi.ds wr true pre w).1 = SR_ERR_OK := by
    rw [hpre]
  obtain ⟨hp1, hp2⟩ := multilock_mods_ok env sc mi.ds wr true pre w hpok
  rw [hpre] at hp1 hp2
  simp only at hp1 hp2
  have hfull : sr_shmmod_multilock env sc mi wr true w
      = (SR_ERR_TIME_OUT, { mi with mods := pre1 ++ m :: post },
          retried_world env m.shm_mod mi.ds (multilock_mod_wr wr true m) sc w1) := by
    have : sr_shmmod_multilock env sc mi wr true w
        = ((sr_shmmod_multilock_mods env sc mi.ds wr true mi.mods w).1,
            { mi with mods := (sr_shmmod_multilock_mods env sc mi.ds wr true mi.mods w).2.1 },
            (sr_shmmod_multilock_mods env sc mi.ds wr true mi.mods w).2.2) := rfl
    rw [this, hmods, multilock_mods_append, hpre]
    simp only [ne_eq, not_true_eq_false, if_false]
    rw [multilock_mods_cons_err env sc mi.ds wr true m post w1 hne, hm]
  rw [hfull]
  refine ⟨rfl, ?_, rfl, ?_, rfl, rfl⟩
  · simp only [hp1]
  · simp only [retried_world, hp2]

theorem multiunlock_mods_calls (d : Nat) (appl : Bool) (mods : List sr_mod_info_mod_s)
    (w : LockWorld) : (sr_shmmod_multiunlock_mods d appl mods w).calls = w.calls := by
  induction mods generalizing w with
  | nil => rfl
  | cons m rest ih =>
    simp only [sr_shmmod_multiunlock_mods]
    split_ifs <;> rw [ih] <;> rfl

theorem multiunlock_step_flags (d : Nat) (appl : Bool) (m : sr_mod_info_mod_s) (w : LockWorld)
    (o d1 : Nat) :
    (sr_shmmod_unlock m.shm_mod d
      (if m.state &&& MOD_INFO_REQ ≠ 0 ∧ appl = true then
        set_applying_changes m.shm_mod d false
          (if w.applying_changes m.shm_mod d = false then sr_log_errint w else w)
      else w)).applying_changes o d1 =
    if m.state &&& MOD_INFO_REQ ≠ 0 ∧ appl = true ∧ m.shm_mod = o ∧ d = d1 then false
    else w.applying_changes o d1 := by
  by_cases hr : m.state &&& MOD_INFO_REQ ≠ 0 ∧ appl = true
  · have e1 : (if m.state &&& MOD_INFO_REQ ≠ 0 ∧ appl = true then
          set_applying_changes m.shm_mod d false
            (if w.applying_changes m.shm_mod d = false then sr_log_errint w else w)
        else w) = set_applying_changes m.shm_mod d false
            (if w.applying_changes m.shm_mod d = false then sr_log_errint w else w) := if_pos hr
    rw [e1]
    have e2 : (if w.applying_changes m.shm_mod d = false then sr_log_errint w else w).applying_changes
        = w.applying_changes := by
      split_ifs <;> rfl
    have e3 : (sr_shmmod_unlock m.shm_mod d (set_applying_changes m.shm_mod d false
          (if w.applying_changes m.shm_mod d = false then sr_log_errint w else w))).applying_changes
          o d1 = if o = m.shm_mod ∧ d1 = d then false else w.applying_changes o d1 := by
      simp only [sr_shmmod_unlock, set_applying_changes, e2]
    rw [e3]
    by_cases hk : m.shm_mod = o ∧ d = d1
    · rw [if_pos ⟨hk.1.symm, hk.2.symm⟩, if_pos ⟨hr.1, hr.2, hk.1, hk.2⟩]
    · rw [if_neg (fun x => hk ⟨x.1.symm, x.2.symm⟩), if_neg (fun x => hk ⟨x.2.2.1, x.2.2.2⟩)]
  · have e1 : (if m.state &&& MOD_INFO_REQ ≠ 0 ∧ appl = true then
          set_applying_changes m.shm_mod d false
            (if w.applying_changes m.shm_mod d = false then sr_log_errint w else w)
        else w) = w := if_neg hr
    rw [e1, if_neg (fun x => hr ⟨x.1, x.2.1⟩)]
    rfl

theorem multiunlock_mods_flags (d : Nat) (appl : Bool) (mods : List sr_mod_info_mod_s)
    (w : LockWorld) (o d1 : Nat) :
    (sr_shmmod_multiunlock_mods d appl mods w).applying_changes o d1 =
      if (∃ m ∈ mods, m.state &&& MOD_INFO_LOCK ≠ 0 ∧ m.state &&& MOD_INFO_REQ ≠ 0 ∧
          appl = true ∧ m.shm_mod = o ∧ d = d1) then false
      else w.applying_changes o d1 := by
  induction mods generalizing w with
  | nil => simp [sr_shmmod_multiunlock_mods]
  | cons m rest ih =>
    have hex : (∃ m1 ∈ m :: rest, m1.state &&& MOD_INFO_LOCK ≠ 0 ∧
          m1.state &&& MOD_INFO_REQ ≠ 0 ∧ appl = true ∧ m1.shm_mod = o ∧ d = d1) ↔
        ((m.state &&& MOD_INFO_LOCK ≠ 0 ∧ m.state &&& MOD_INFO_REQ ≠ 0 ∧ appl = true ∧
          m.shm_mod = o ∧ d = d1) ∨
        (∃ m1 ∈ rest, m1.state &&& MOD_INFO_LOCK ≠ 0 ∧
          m1.state &&& MOD_INFO_REQ ≠ 0 ∧ appl = true ∧ m1.shm_mod = o ∧ d = d1)) := by
      constructor
      · rintro ⟨m1, hm1, hp⟩
        rcases List.mem_cons.mp hm1 with rfl | hm1
        · exact Or.inl hp
        · exact Or.inr ⟨m1, hm1, hp⟩
      · rintro (hp | ⟨m1, hm1, hp⟩)
        · exact ⟨m, List.mem_cons_self _ _, hp⟩
        · exact ⟨m1, List.mem_cons_of_mem _ hm1, hp⟩
    rw [sr_shmmod_multiunlock_mods]
    by_cases hl : m.state &&& MOD_INFO_LOCK ≠ 0
    · rw [if_pos hl]
      dsimp only
      rw [ih, multiunlock_step_flags]
      by_cases hrest : ∃ m1 ∈ rest, m1.state &&& MOD_INFO_LOCK ≠ 0 ∧
          m1.state &&& MOD_INFO_REQ ≠ 0 ∧ appl = true ∧ m1.shm_mod = o ∧ d = d1
      · rw [if_pos hrest, if_pos (hex.mpr (Or.inr hrest))]
      · rw [if_neg hrest]
        by_cases hh : m.state &&& MOD_INFO_REQ ≠ 0 ∧ appl = true ∧ m.shm_mod = o ∧ d = d1
        · rw [if_pos hh, if_pos (hex.mpr (Or.inl ⟨hl, hh⟩))]
        · rw [if_neg hh, if_neg]
          rw [hex]
          rintro (hp | hp)
          · exact hh hp.2
          · exact hrest hp
    · rw [if_neg hl, ih]
      by_cases hrest : ∃ m1 ∈ rest, m1.state &&& MOD_INFO_LOCK ≠ 0 ∧
          m1.state &&& MOD_INFO_REQ ≠ 0 ∧ appl = true ∧ m1.shm_mod = o ∧ d = d1
      · rw [if_pos hrest, if_pos (hex.mpr (Or.inr hrest))]
      · rw [if_neg hrest, if_neg]
        rw [hex]
        rintro (hp | hp)
        · exact hl hp.1
        · exact hrest hp

theorem release_lock_perm (o d : Nat) (N h0 : List (Nat × Nat × Bool))
    (hmem : (o, d, false) ∈ N) (hall : ∀ x ∈ N, x.2.2 = false) :
    ∃ N1, release_lock o d (N ++ h0) = N1 ++ h0 ∧ N.Perm ((o, d, false) :: N1) := by
  induction N with
  | nil => simp at hmem
  | cons x rest ih =>
    obtain ⟨x1, x2, x3⟩ := x
    have hx3 : x3 = false := hall (x1, x2, x3) (List.mem_cons_self _ _)
    subst hx3
    by_cases hk : x1 = o ∧ x2 = d
    · obtain ⟨rfl, rfl⟩ := hk
      exact ⟨rest, by simp [release_lock], List.Perm.refl _⟩
    · have hne : (x1, x2, false) ≠ (o, d, false) := by
        intro heq
        simp only [Prod.mk.injEq, and_true] at heq
        exact hk heq
      have hmem1 : (o, d, false) ∈ rest := by
        rcases List.mem_cons.mp hmem with h | h
        · exact absurd h.symm hne
        · exact h
      obtain ⟨N1, h1, h2⟩ := ih hmem1 (fun y hy => hall y (List.mem_cons_of_mem _ hy))
      refine ⟨(x1, x2, false) :: N1, ?_, ?_⟩
      · simp only [List.cons_append, release_lock, hk, if_false, List.append_eq]
        rw [h1]
      · exact (List.Perm.cons _ h2).trans (List.Perm.swap _ _ _)

theorem multiunlock_mods_held (d : Nat) (appl : Bool) (ms : List sr_mod_info_mod_s)
    (w : LockWorld) (N h0 : List (Nat × Nat × Bool))
    (hperm : N.Perm (ms.map (fun m => (m.shm_mod, d, false))))
    (hw : w.held = N ++ h0) :
    (sr_shmmod_multiunlock_mods d appl (ms.map set_lock_bit) w).held = h0 := by
  induction ms generalizing w N with
  | nil =>
    have : N = [] := by simpa using hperm
    simp [sr_shmmod_multiunlock_mods, hw, this]
  | cons m rest ih =>
    have hl : (set_lock_bit m).state &&& MOD_INFO_LOCK ≠ 0 := lock_bit_set m.state
    have hmem : (m.shm_mod, d, false) ∈ N := hperm.mem_iff.mpr (by simp)
    have hall : ∀ x ∈ N, x.2.2 = false := by
      intro x hx
      obtain ⟨m1, _, rfl⟩ := List.mem_map.mp (hperm.mem_iff.mp hx)
      rfl
    obtain ⟨N1, hrel, hp1⟩ := release_lock_perm m.shm_mod d N h0 hmem hall
    have hperm2 : N1.Perm (rest.map (fun m => (m.shm_mod, d, false))) :=
      (hp1.symm.trans hperm).cons_inv
    rw [List.map_cons, sr_shmmod_multiunlock_mods, if_pos hl]
    dsimp only
    apply ih _ N1 hperm2
    have hsm : (set_lock_bit m).shm_mod = m.shm_mod := rfl
    rw [hsm]
    simp only [sr_shmmod_unlock]
    rw [← hrel, ← hw]
    split_ifs <;> rfl

theorem acquired_count_append (o d : Nat) (a b : List LockEv) :
    acquired_count o d (a ++ b) = acquired_count o d a + acquired_count o d b := by
  simp [acquired_count, List.countP_append]

theorem released_count_append (o d : Nat) (a b : List LockEv) :
    released_count o d (a ++ b) = released_count o d a + released_count o d b := by
  simp [released_count, List.countP_append]

theorem retry_trace_counts (o d : Nat) (wr : Bool) (k o1 d1 : Nat) :
    acquired_count o1 d1 (retry_trace o d wr k) = released_count o1 d1 (retry_trace o d wr k) := by
  induction k with
  | zero => rfl
  | succ k ih =>
    rw [retry_trace, acquired_count_append, released_count_append, ih]
    congr 1
    by_cases hk : o = o1 ∧ d = d1
    · simp [acquired_count, released_count, retry_events, List.countP_cons, hk]
    · simp [acquired_count, released_count, retry_events, List.countP_cons, hk]

theorem applying_segment_counts (d : Nat) (m : sr_mod_info_mod_s) (k o1 d1 : Nat) :
    acquired_count o1 d1 (applying_segment d m k) =
      released_count o1 d1 (applying_segment d m k) +
        (if m.shm_mod = o1 ∧ d = d1 then 1 else 0) := by
  unfold applying_segment
  by_cases hr : m.state &&& MOD_INFO_REQ ≠ 0
  · rw [if_pos hr, acquired_count_append, released_count_append, retry_trace_counts]
    by_cases hk : m.shm_mod = o1 ∧ d = d1
    · simp [acquired_count, released_count, List.countP_cons, hk]
    · simp [acquired_count, released_count, List.countP_cons, hk]
  · rw [if_neg hr, acquired_count_append, released_count_append, retry_trace_counts]
    by_cases hk : m.shm_mod = o1 ∧ d = d1
    · simp [acquired_count, released_count, List.countP_cons, hk]
    · simp [acquired_count, released_count, List.countP_cons, hk]

theorem applying_trace_counts (d : Nat) (mods : List sr_mod_info_mod_s) (ks : List Nat)
    (hl : ks.length = mods.length) (o1 d1 : Nat) :
    acquired_count o1 d1 (applying_trace d mods ks) =
      released_count o1 d1 (applying_trace d mods ks) +
        mods.countP (fun m => decide (m.shm_mod = o1 ∧ d = d1)) := by
  induction mods generalizing ks with
  | nil => cases ks <;> rfl
  | cons m rest ih =>
    cases ks with
    | nil => simp at hl
    | cons k ks =>
      have hl1 : ks.length = rest.length := by simpa using hl
      rw [applying_trace, acquired_count_append, released_count_append,
        applying_segment_counts, ih ks hl1, List.countP_cons]
      by_cases hk : m.shm_mod = o1 ∧ d = d1
      · simp [hk]; omega
      · simp [hk]; omega

theorem multiunlock_mods_trace (d : Nat) (appl : Bool) (ms : List sr_mod_info_mod_s)
    (w : LockWorld) (o1 d1 : Nat) :
    ∃ evs, (sr_shmmod_multiunlock_mods d appl (ms.map set_lock_bit) w).trace = w.trace ++ evs ∧
      acquired_count o1 d1 evs = 0 ∧
      released_count o1 d1 evs = ms.countP (fun m => decide (m.shm_mod = o1 ∧ d = d1)) := by
  induction ms generalizing w with
  | nil => exact ⟨[], by simp [sr_shmmod_multiunlock_mods], rfl, rfl⟩
  | cons m rest ih =>
    have hl : (set_lock_bit m).state &&& MOD_INFO_LOCK ≠ 0 := lock_bit_set m.state
    have hsm : (set_lock_bit m).shm_mod = m.shm_mod := rfl
    rw [List.map_cons, sr_shmmod_multiunlock_mods, if_pos hl]
    dsimp only
    obtain ⟨evs, h1, h2, h3⟩ := ih (sr_shmmod_unlock (set_lock_bit m).shm_mod d
      (if (set_lock_bit m).state &&& MOD_INFO_REQ ≠ 0 ∧ appl = true then
        set_applying_changes (set_lock_bit m).shm_mod d false
          (if w.applying_changes (set_lock_bit m).shm_mod d = false then sr_log_errint w else w)
      else w))
    have hstep : ∃ pre, (sr_shmmod_unlock (set_lock_bit m).shm_mod d
        (if (set_lock_bit m).state &&& MOD_INFO_REQ ≠ 0 ∧ appl = true then
          set_applying_changes (set_lock_bit m).shm_mod d false
            (if w.applying_changes (set_lock_bit m).shm_mod d = false then sr_log_errint w else w)
        else w)).trace = w.trace ++ (pre ++ [LockEv.unlock m.shm_mod d]) ∧
        acquired_count o1 d1 pre = 0 ∧ released_count o1 d1 pre = 0 := by
      rw [hsm]
      by_cases hr : (set_lock_bit m).state &&& MOD_INFO_REQ ≠ 0 ∧ appl = true
      · rw [if_pos hr]
        by_cases hf : w.applying_changes m.shm_mod d = false
        · rw [if_pos hf]
          exact ⟨[LockEv.log_errint, LockEv.set_applying m.shm_mod d false],
            by simp [sr_shmmod_unlock, set_applying_changes, sr_log_errint], rfl, rfl⟩
        · rw [if_neg hf]
          exact ⟨[LockEv.set_applying m.shm_mod d false],
            by simp [sr_shmmod_unlock, set_applying_changes], rfl, rfl⟩
      · rw [if_neg hr]
        exact ⟨[], by simp [sr_shmmod_unlock], rfl, rfl⟩
    obtain ⟨pre, hp1, hp2, hp3⟩ := hstep
    refine ⟨(pre ++ [LockEv.unlock m.shm_mod d]) ++ evs, ?_, ?_, ?_⟩
    · rw [h1, hp1, List.append_assoc]
    · rw [acquired_count_append, acquired_count_append, hp2, h2]
      rfl
    · rw [released_count_append, released_count_append, hp3, h3, List.countP_cons]
      by_cases hk : m.shm_mod = o1 ∧ d = d1
      · simp [released_count, hk]; omega
      · simp [released_count, hk]

theorem multilock_multiunlock_aux (env : Nat → LockResp) (sc : Nat) (mi : sr_mod_info_s)
    (w : LockWorld) (h : (sr_shmmod_multilock env sc mi false true w).1 = SR_ERR_OK) :
    (sr_shmmod_multiunlock (sr_shmmod_multilock env sc mi false true w).2.1 true
      (sr_shmmod_multilock env sc mi false true w).2.2).held = w.held ∧
    (∃ evs, (sr_shmmod_multiunlock (sr_shmmod_multilock env sc mi false true w).2.1 true
        (sr_shmmod_multilock env sc mi false true w).2.2).trace = w.trace ++ evs ∧
      ∀ o d, acquired_count o d evs = released_count o d evs) ∧
    (∀ m ∈ mi.mods, m.state &&& MOD_INFO_REQ ≠ 0 →
      (sr_shmmod_multiunlock (sr_shmmod_multilock env sc mi false true w).2.1 true
        (sr_shmmod_multilock env sc mi false true w).2.2).applying_changes m.shm_mod mi.ds
        = false) ∧
    (∀ o d, (sr_shmmod_multiunlock (sr_shmmod_multilock env sc mi false true w).2.1 true
        (sr_shmmod_multilock env sc mi false true w).2.2).applying_changes o d
        = w.applying_changes o d ∨
      EnvWrote env w.calls (sr_shmmod_multiunlock
        (sr_shmmod_multilock env sc mi false true w).2.1 true
        (sr_shmmod_multilock env sc mi false true w).2.2).calls o d) := by
  have h1 : (sr_shmmod_multilock_mods env sc mi.ds false true mi.mods w).1 = SR_ERR_OK := h
  obtain ⟨hmods, hheld⟩ := multilock_mods_ok env sc mi.ds false true mi.mods w h1
  have hun : sr_shmmod_multiunlock (sr_shmmod_multilock env sc mi false true w).2.1 true
      (sr_shmmod_multilock env sc mi false true w).2.2
      = sr_shmmod_multiunlock_mods mi.ds true (mi.mods.map set_lock_bit)
          (sr_shmmod_multilock_mods env sc mi.ds false true mi.mods w).2.2 := by
    have : sr_shmmod_multiunlock (sr_shmmod_multilock env sc mi false true w).2.1 true
        (sr_shmmod_multilock env sc mi false true w).2.2
        = sr_shmmod_multiunlock_mods mi.ds true
            (sr_shmmod_multilock_mods env sc mi.ds false true mi.mods w).2.1
            (sr_shmmod_multilock_mods env sc mi.ds false true mi.mods w).2.2 := rfl
    rw [this, hmods]
  rw [hun]
  have hreq : ∀ m : sr_mod_info_mod_s,
      (set_lock_bit m).state &&& MOD_INFO_REQ = m.state &&& MOD_INFO_REQ :=
    fun m => lock_bit_keeps_req m.state
  have hclear : ∀ o d, (∃ m1 ∈ mi.mods.map set_lock_bit, m1.state &&& MOD_INFO_LOCK ≠ 0 ∧
        m1.state &&& MOD_INFO_REQ ≠ 0 ∧ true = true ∧ m1.shm_mod = o ∧ mi.ds = d) ↔
      (∃ m ∈ mi.mods, m.state &&& MOD_INFO_REQ ≠ 0 ∧ m.shm_mod = o ∧ mi.ds = d) := by
    intro o d
    constructor
    · rintro ⟨m1, hm1, _, h3, _, h5, h6⟩
      obtain ⟨m, hm, rfl⟩ := List.mem_map.mp hm1
      rw [hreq] at h3
      exact ⟨m, hm, h3, h5, h6⟩
    · rintro ⟨m, hm, h3, h5, h6⟩
      refine ⟨set_lock_bit m, List.mem_map.mpr ⟨m, hm, rfl⟩, lock_bit_set m.state, ?_, rfl, h5, h6⟩
      rw [hreq]; exact h3
  refine ⟨?_, ?_, ?_, ?_⟩
  · apply multiunlock_mods_held mi.ds true mi.mods _
      (mi.mods.reverse.map (fun m => (m.shm_mod, mi.ds, false))) w.held
    · exact (List.reverse_perm mi.mods).map _
    · rw [hheld]
      simp [multilock_final_wr]
  · obtain ⟨ks, hks, htr⟩ := multilock_mods_applying_trace env sc mi.ds mi.mods w h1
    refine ⟨applying_trace mi.ds mi.mods ks ++ ?evs, ?_, ?_⟩
    case evs =>
      exact ((sr_shmmod_multiunlock_mods mi.ds true (mi.mods.map set_lock_bit)
        (sr_shmmod_multilock_mods env sc mi.ds false true mi.mods w).2.2).trace.drop
          (sr_shmmod_multilock_mods env sc mi.ds false true mi.mods w).2.2.trace.length)
    · obtain ⟨evs, e1, _, _⟩ := multiunlock_mods_trace mi.ds true mi.mods
        (sr_shmmod_multilock_mods env sc mi.ds false true mi.mods w).2.2 0 0
      rw [e1, List.drop_left, htr, List.append_assoc]
    · intro o d
      obtain ⟨evs, e1, e2, e3⟩ := multiunlock_mods_trace mi.ds true mi.mods
        (sr_shmmod_multilock_mods env sc mi.ds false true mi.mods w).2.2 o d
      rw [e1, List.drop_left, acquired_count_append, released_count_append, e2, e3,
        applying_trace_counts mi.ds mi.mods ks hks o d]
      omega
  · intro m hm hr
    rw [multiunlock_mods_flags, if_pos ((hclear m.shm_mod mi.ds).mpr ⟨m, hm, hr, rfl, rfl⟩)]
  · intro o d
    rw [multiunlock_mods_flags, multiunlock_mods_calls]
    by_cases hc : ∃ m ∈ mi.mods, m.state &&& MOD_INFO_REQ ≠ 0 ∧ m.shm_mod = o ∧ mi.ds = d
    · rw [if_pos ((hclear o d).mpr hc)]
      obtain ⟨m, hm, hr, rfl, rfl⟩ := hc
      rcases multilock_mods_flag_was_clear env sc mi.ds false mi.mods w h1 m hm
        ((multilock_mod_wr_applying false m).mpr hr) with e | e
      · exact Or.inl e.symm
      · exact Or.inr e
    · rw [if_neg (fun x => hc ((hclear o d).mp x))]
      apply multilock_mods_flag_frame env sc mi.ds false true mi.mods w o d
      intro m hm _ hw hk
      exact hc ⟨m, hm, (multilock_mod_wr_applying false m).mp hw, hk.1, hk.2⟩

/-- C10: if `sr_shmmod_multilock(mod_info, 0, 1)` returns SR_ERR_OK, a following
`sr_shmmod_multiunlock(mod_info, 1)` releases every lock the call acquired, so that the
transaction holds the locks it held before; in the log of the two calls the acquisitions
and the releases of every module lock are equal in number; the flag of every entry with
MOD_INFO_REQ is 0; and every flag in shared memory has the value it had before the
multilock unless another process wrote it meanwhile, so that all flags are as before when
no other process writes flags. -/
theorem multilock_multiunlock_restores (env : Nat → LockResp) (sc : Nat) (mi : sr_mod_info_s)
    (w : LockWorld) (h : (sr_shmmod_multilock env sc mi false true w).1 = SR_ERR_OK) :
    (sr_shmmod_multiunlock (sr_shmmod_multilock env sc mi false true w).2.1 true
      (sr_shmmod_multilock env sc mi false true w).2.2).held = w.held ∧
    (∃ evs, (sr_shmmod_multiunlock (sr_shmmod_multilock env sc mi false true w).2.1 true
        (sr_shmmod_multilock env sc mi false true w).2.2).trace = w.trace ++ evs ∧
      ∀ o d, acquired_count o d evs = released_count o d evs) ∧
    (∀ m ∈ mi.mods, m.state &&& MOD_INFO_REQ ≠ 0 →
      (sr_shmmod_multiunlock (sr_shmmod_multilock env sc mi false true w).2.1 true
        (sr_shmmod_multilock env sc mi false true w).2.2).applying_changes m.shm_mod mi.ds
        = false) ∧
    (∀ o d, (sr_shmmod_multiunlock (sr_shmmod_multilock env sc mi false true w).2.1 true
        (sr_shmmod_multilock env sc mi false true w).2.2).applying_changes o d
        = w.applying_changes o d ∨
      EnvWrote env w.calls (sr_shmmod_multiunlock
        (sr_shmmod_multilock env sc mi false true w).2.1 true
        (sr_shmmod_multilock env sc mi false true w).2.2).calls o d) ∧
    ((∀ n, (env n).writes = []) →
      ∀ o d, (sr_shmmod_multiunlock (sr_shmmod_multilock env sc mi false true w).2.1 true
        (sr_shmmod_multilock env sc mi false true w).2.2).applying_changes o d
        = w.applying_changes o d) := by
  obtain ⟨h1, h2, h3, h4⟩ := multilock_multiunlock_aux env sc mi w h
  refine ⟨h1, h2, h3, h4, fun hq o d => ?_⟩
  rcases h4 o d with e | e
  · exact e
  · exact absurd e (not_envWrote_of_quiet hq _ _ _ _)

/-- Witness of C7 on the example mod-info in a quiet system. -/
theorem multilock_applying_changes_ok_witness :
    ex_locked.1 = SR_ERR_OK ∧
    ((∀ e ∈ ex_locked.2.1.mods, e.state &&& MOD_INFO_LOCK ≠ 0) ∧
    ex_locked.2.1.mods = ex_collected.mods.map set_lock_bit ∧
    ex_locked.2.2.held
      = (ex_collected.mods.reverse.map (fun m => (m.shm_mod, ex_collected.ds, false)))
          ++ LockWorld.init.held ∧
    (∃ ks : List Nat, ks.length = ex_collected.mods.length ∧
      ex_locked.2.2.trace
        = LockWorld.init.trace ++ applying_trace ex_collected.ds ex_collected.mods ks) ∧
    (∀ m ∈ ex_collected.mods, m.state &&& MOD_INFO_REQ ≠ 0 →
      ex_locked.2.2.applying_changes m.shm_mod ex_collected.ds = true ∨
      EnvWrote ex_env LockWorld.init.calls ex_locked.2.2.calls m.shm_mod ex_collected.ds) ∧
    ((∀ n, (ex_env n).writes = []) → ∀ m ∈ ex_collected.mods, m.state &&& MOD_INFO_REQ ≠ 0 →
      ex_locked.2.2.applying_changes m.shm_mod ex_collected.ds = true)) :=
  ⟨by decide,
    multilock_applying_changes_ok ex_env 10 ex_collected LockWorld.init (by decide)⟩

/-- Witness of C8: the entry of type REQ of the example mod-info, reached after the first
entry was locked. -/
theorem multilock_request_mode_witness :
    0 < 10 ∧ ex_collected.mods = [ex_entry_a] ++ ex_entry_m :: [ex_entry_r] ∧
    sr_shmmod_multilock_mods ex_env 10 ex_collected.ds false true [ex_entry_a] LockWorld.init
      = (SR_ERR_OK, ex_locked_a.2.1, ex_locked_a.2.2) ∧
    ∃ rs later,
      (sr_shmmod_multilock ex_env 10 ex_collected false true LockWorld.init).2.2.requests
        = ex_locked_a.2.2.requests ++ rs ++ later ∧
      (sr_shmmod_multilock_mod ex_env 10 ex_collected.ds false true ex_entry_m
        ex_locked_a.2.2).2.2.requests = ex_locked_a.2.2.requests ++ rs ∧
      rs.head? = some
        { shm_mod := ex_entry_m.shm_mod, ds := ex_collected.ds,
          wr := multilock_mod_wr false true ex_entry_m, held := ex_locked_a.2.2.held } ∧
      (multilock_mod_wr false true ex_entry_m = true ↔
        (false = true ∨ true = true) ∧ ex_entry_m.state &&& MOD_INFO_REQ ≠ 0) ∧
      (ex_entry_m.state &&& MOD_INFO_REQ = 0 → ∀ q ∈ rs, q.wr = false) ∧
      (ex_entry_m.state &&& MOD_INFO_TYPE_MASK = MOD_INFO_DEP ∨
        ex_entry_m.state &&& MOD_INFO_TYPE_MASK = MOD_INFO_INV_DEP → ∀ q ∈ rs, q.wr = false) :=
  ⟨by decide, by decide, rfl,
    multilock_request_mode ex_env 10 ex_collected false true LockWorld.init ex_locked_a.2.2
      [ex_entry_a] ex_locked_a.2.1 [ex_entry_r] ex_entry_m (by decide) (by decide) rfl⟩

/-- Witness of C9: in `ex_world_busy` the flag of the REQ entry of the example mod-info is
set and no other process clears it, so the three rounds are used up. -/
theorem multilock_retries_exhausted_witness :
    ex_collected.mods = [ex_entry_a] ++ ex_entry_m :: [ex_entry_r] ∧
    sr_shmmod_multilock_mods ex_env 3 ex_collected.ds false true [ex_entry_a] ex_world_busy
      = (SR_ERR_OK, ex_busy_a.2.1, ex_busy_a.2.2) ∧
    (∀ j, j < 3 → lock_result (ex_env (ex_busy_a.2.2.calls + j)) = SR_ERR_OK ∧
      env_flags ex_env ex_busy_a.2.2.calls (j + 1) ex_busy_a.2.2.applying_changes
        ex_entry_m.shm_mod ex_collected.ds = true) ∧
    ((sr_shmmod_multilock ex_env 3 ex_collected false true ex_world_busy).1 = SR_ERR_TIME_OUT ∧
    (sr_shmmod_multilock ex_env 3 ex_collected false true ex_world_busy).2.1.mods
      = [ex_entry_a].map set_lock_bit ++ ex_entry_m :: [ex_entry_r] ∧
    (sr_shmmod_multilock ex_env 3 ex_collected false true ex_world_busy).2.2.trace
      = ex_busy_a.2.2.trace ++ retry_trace ex_entry_m.shm_mod ex_collected.ds
          (multilock_mod_wr false true ex_entry_m) 3 ∧
    (sr_shmmod_multilock ex_env 3 ex_collected false true ex_world_busy).2.2.held
      = ([ex_entry_a].reverse.map
          (fun e => (e.shm_mod, ex_collected.ds, multilock_final_wr false true e)))
          ++ ex_world_busy.held ∧
    (sr_shmmod_multilock ex_env 3 ex_collected false true ex_world_busy).2.2.applying_changes
      = env_flags ex_env ex_busy_a.2.2.calls 3 ex_busy_a.2.2.applying_changes ∧
    (sr_shmmod_multilock ex_env 3 ex_collected false true ex_world_busy).2.2.calls
      = ex_busy_a.2.2.calls + 3) :=
  ⟨by decide, rfl, by decide,
    multilock_retries_exhausted ex_env 3 ex_collected false ex_world_busy ex_busy_a.2.2
      [ex_entry_a] ex_busy_a.2.1 [ex_entry_r] ex_entry_m (by decide) rfl (by decide)⟩

/-- Witness of C10 on the example mod-info in a quiet system. -/
theorem multilock_multiunlock_restores_witness :
    ex_locked.1 = SR_ERR_OK ∧
    ((sr_shmmod_multiunlock ex_locked.2.1 true ex_locked.2.2).held = LockWorld.init.held ∧
    (∃ evs, (sr_shmmod_multiunlock ex_locked.2.1 true ex_locked.2.2).trace
        = LockWorld.init.trace ++ evs ∧
      ∀ o d, acquired_count o d evs = released_count o d evs) ∧
    (∀ m ∈ ex_collected.mods, m.state &&& MOD_INFO_REQ ≠ 0 →
      (sr_shmmod_multiunlock ex_locked.2.1 true ex_locked.2.2).applying_changes m.shm_mod
        ex_collected.ds = false) ∧
    (∀ o d, (sr_shmmod_multiunlock ex_locked.2.1 true ex_locked.2.2).applying_changes o d
        = LockWorld.init.applying_changes o d ∨
      EnvWrote ex_env LockWorld.init.calls
        (sr_shmmod_multiunlock ex_locked.2.1 true ex_locked.2.2).calls o d) ∧
    ((∀ n, (ex_env n).writes = []) →
      ∀ o d, (sr_shmmod_multiunlock ex_locked.2.1 true ex_locked.2.2).applying_changes o d
        = LockWorld.init.applying_changes o d)) :=
  ⟨by decide,
    multilock_multiunlock_restores ex_env 10 ex_collected LockWorld.init (by decide)⟩

/-! ## Unlocking twice and relocking (`sr_shmmod_multiunlock`, `sr_shmmod_multirelock`) -/

/-- C11: the claim that a second `sr_shmmod_multiunlock` does nothing fails on the code. On
the example mod-info, locked by `sr_shmmod_multilock(mod_info, 0, 1)` and unlocked once (no
lock is held any more), a second `sr_shmmod_multiunlock(mod_info, 1)` unlocks all three
module locks again, reports an internal error for the flag it finds cleared and writes
the flag of the REQ entry once more: the function never clears MOD_INFO_LOCK. -/
theorem multiunlock_second_call_unlocks_again :
    ex_locked.1 = SR_ERR_OK ∧
    ex_unlocked.held = [] ∧
    (sr_shmmod_multiunlock ex_locked.2.1 true ex_unlocked).trace
      = ex_unlocked.trace ++
          [LockEv.unlock 200 1, LockEv.log_errint, LockEv.set_applying 300 1 false,
           LockEv.unlock 300 1, LockEv.unlock 400 1] := by
  decide

theorem relock_state_restored (s : Nat)
    (h : s &&& (MOD_INFO_REQ ||| MOD_INFO_LOCK) = (MOD_INFO_REQ ||| MOD_INFO_LOCK)) :
    (s ^^^ (s &&& MOD_INFO_LOCK)) ||| MOD_INFO_LOCK = s := by
  have h8 : s.testBit 3 = true := by
    have := congrArg (fun x => Nat.testBit x 3) h
    simp only [Nat.testBit_and] at this
    have e : Nat.testBit (MOD_INFO_REQ ||| MOD_INFO_LOCK) 3 = true := by decide
    rw [e] at this
    simpa using this
  apply Nat.eq_of_testBit_eq
  intro i
  simp only [Nat.testBit_or, Nat.testBit_xor, Nat.testBit_and]
  have e8 : MOD_INFO_LOCK = 2 ^ 3 := by decide
  rw [e8, Nat.testBit_two_pow]
  by_cases hi : 3 = i
  · subst hi
    simp [h8]
  · simp [hi]

theorem held_on_release_other (o d o1 d1 : Nat) (held : List (Nat × Nat × Bool))
    (hne : ¬ (o1 = o ∧ d1 = d)) :
    held_on o d (release_lock o1 d1 held) = held_on o d held := by
  induction held with
  | nil => rfl
  | cons h rest ih =>
    by_cases hh : h.1 = o1 ∧ h.2.1 = d1
    · have hn : ¬ (h.1 = o ∧ h.2.1 = d) := by
        rintro ⟨a, b⟩
        exact hne ⟨hh.1.symm.trans a, hh.2.symm.trans b⟩
      simp [release_lock, hh, held_on, List.filter_cons, hn, hne]
    · simp only [release_lock, hh, if_false]
      unfold held_on at ih ⊢
      simp only [List.filter_cons, ih]

/-- One round of the loop of `sr_shmmod_multirelock` on an entry that is not relocked. -/
theorem multirelock_mods_cons_skip (env : Nat → LockResp) (ds : Nat) (upgrade : Bool)
    (m : sr_mod_info_mod_s) (rest : List sr_mod_info_mod_s) (w : LockWorld)
    (ht : relock_touched m = false) :
    sr_shmmod_multirelock_mods env ds upgrade (m :: rest) w
      = ((sr_shmmod_multirelock_mods env ds upgrade rest w).1,
         m :: (sr_shmmod_multirelock_mods env ds upgrade rest w).2.1,
         (sr_shmmod_multirelock_mods env ds upgrade rest w).2.2) := by
  have ht1 : ¬ (m.state &&& (MOD_INFO_REQ ||| MOD_INFO_LOCK) = (MOD_INFO_REQ ||| MOD_INFO_LOCK)) := by
    simpa [relock_touched] using ht
  simp only [sr_shmmod_multirelock_mods, ht1, if_false]

/-- One round of the loop of `sr_shmmod_multirelock` on an entry whose flag is not set. -/
theorem multirelock_mods_cons_noflag (env : Nat → LockResp) (ds : Nat) (upgrade : Bool)
    (m : sr_mod_info_mod_s) (rest : List sr_mod_info_mod_s) (w : LockWorld)
    (ht : relock_touched m = true) (hf : w.applying_changes m.shm_mod ds = false) :
    sr_shmmod_multirelock_mods env ds upgrade (m :: rest) w
      = (SR_ERR_INTERNAL, m :: rest, sr_log_errint w) := by
  have ht1 : m.state &&& (MOD_INFO_REQ ||| MOD_INFO_LOCK) = (MOD_INFO_REQ ||| MOD_INFO_LOCK) := by
    simpa [relock_touched] using ht
  simp only [sr_shmmod_multirelock_mods, ht1, if_true, hf]

/-- One round of the loop of `sr_shmmod_multirelock` on an entry whose lock is not obtained
again: the entry is left without MOD_INFO_LOCK. -/
theorem multirelock_mods_cons_fail (env : Nat → LockResp) (ds : Nat) (upgrade : Bool)
    (m : sr_mod_info_mod_s) (rest : List sr_mod_info_mod_s) (w : LockWorld)
    (ht : relock_touched m = true) (hf : w.applying_changes m.shm_mod ds = true)
    (hl : lock_result (env w.calls) ≠ SR_ERR_OK) :
    sr_shmmod_multirelock_mods env ds upgrade (m :: rest) w
      = (lock_result (env w.calls),
         { m with state := m.state ^^^ (m.state &&& MOD_INFO_LOCK) } :: rest,
         (sr_shmmod_lock env m.shm_mod ds upgrade (sr_shmmod_unlock m.shm_mod ds w)).2) := by
  have ht1 : m.state &&& (MOD_INFO_REQ ||| MOD_INFO_LOCK) = (MOD_INFO_REQ ||| MOD_INFO_LOCK) := by
    simpa [relock_touched] using ht
  simp only [sr_shmmod_multirelock_mods, ht1, if_true, hf, Bool.true_eq_false, if_false,
    sr_shmmod_lock, sr_shmmod_unlock, hl, ne_eq, not_false_eq_true]

/-- One round of the loop of `sr_shmmod_multirelock` on an entry that is relocked. -/
theorem multirelock_mods_cons_ok (env : Nat → LockResp) (ds : Nat) (upgrade : Bool)
    (m : sr_mod_info_mod_s) (rest : List sr_mod_info_mod_s) (w : LockWorld)
    (ht : relock_touched m = true) (hf : w.applying_changes m.shm_mod ds = true)
    (hl : lock_result (env w.calls) = SR_ERR_OK) :
    sr_shmmod_multirelock_mods env ds upgrade (m :: rest) w
      = ((sr_shmmod_multirelock_mods env ds upgrade rest
            (sr_shmmod_lock env m.shm_mod ds upgrade (sr_shmmod_unlock m.shm_mod ds w)).2).1,
         m :: (sr_shmmod_multirelock_mods env ds upgrade rest
            (sr_shmmod_lock env m.shm_mod ds upgrade (sr_shmmod_unlock m.shm_mod ds w)).2).2.1,
         (sr_shmmod_multirelock_mods env ds upgrade rest
            (sr_shmmod_lock env m.shm_mod ds upgrade (sr_shmmod_unlock m.shm_mod ds w)).2).2.2) := by
  have ht1 : m.state &&& (MOD_INFO_REQ ||| MOD_INFO_LOCK) = (MOD_INFO_REQ ||| MOD_INFO_LOCK) := by
    simpa [relock_touched] using ht
  have hm : ({ m with state := (m.state ^^^ (m.state &&& MOD_INFO_LOCK)) ||| MOD_INFO_LOCK }
      : sr_mod_info_mod_s) = m := by
    rw [relock_state_restored m.state ht1]
  simp only [sr_shmmod_multirelock_mods, ht1, if_true, hf, Bool.true_eq_false, if_false,
    sr_shmmod_lock, sr_shmmod_unlock, hl, ne_eq, not_true_eq_false, hm]

/-- A relocked entry of a successful `sr_shmmod_multirelock` had its flag set and its lock
request was granted. -/
theorem multirelock_mods_cons_inv (env : Nat → LockResp) (ds : Nat) (upgrade : Bool)
    (m : sr_mod_info_mod_s) (rest : List sr_mod_info_mod_s) (w : LockWorld)
    (ht : relock_touched m = true)
    (h : (sr_shmmod_multirelock_mods env ds upgrade (m :: rest) w).1 = SR_ERR_OK) :
    w.applying_changes m.shm_mod ds = true ∧ lock_result (env w.calls) = SR_ERR_OK := by
  cases hf : w.applying_changes m.shm_mod ds with
  | false =>
    rw [multirelock_mods_cons_noflag env ds upgrade m rest w ht hf] at h
    simp at h
  | true =>
    refine ⟨rfl, ?_⟩
    by_contra hl
    rw [multirelock_mods_cons_fail env ds upgrade m rest w ht hf hl] at h
    exact hl h

theorem multirelock_mods_ok (env : Nat → LockResp) (ds : Nat) (upgrade : Bool)
    (mods : List sr_mod_info_mod_s) :
    ∀ w : LockWorld, (sr_shmmod_multirelock_mods env ds upgrade mods w).1 = SR_ERR_OK →
      (sr_shmmod_multirelock_mods env ds upgrade mods w).2.1 = mods ∧
      (sr_shmmod_multirelock_mods env ds upgrade mods w).2.2.trace
        = w.trace ++ relock_trace ds upgrade mods ∧
      (sr_shmmod_multirelock_mods env ds upgrade mods w).2.2.held
        = relock_held ds upgrade mods w.held ∧
      (sr_shmmod_multirelock_mods env ds upgrade mods w).2.2.calls
        = w.calls + (mods.filter relock_touched).length ∧
      (sr_shmmod_multirelock_mods env ds upgrade mods w).2.2.applying_changes
        = env_flags env w.calls (mods.filter relock_touched).length w.applying_changes := by
  induction mods with
  | nil => intro w _; simp [sr_shmmod_multirelock_mods, relock_trace, relock_held, env_flags]
  | cons m rest ih =>
    intro w h
    cases ht : relock_touched m with
    | true =>
      obtain ⟨hf, hl⟩ := multirelock_mods_cons_inv env ds upgrade m rest w ht h
      rw [multirelock_mods_cons_ok env ds upgrade m rest w ht hf hl] at h ⊢
      obtain ⟨i1, i2, i3, i4, i5⟩ := ih _ h
      refine ⟨by rw [i1], ?_, ?_, ?_, ?_⟩
      · rw [i2]
        simp [sr_shmmod_lock, sr_shmmod_unlock, hl, relock_trace, ht]
      · rw [i3]
        simp [sr_shmmod_lock, sr_shmmod_unlock, hl, relock_held, ht]
      · rw [i4]
        simp [sr_shmmod_lock, sr_shmmod_unlock, List.filter_cons, ht]
        omega
      · rw [i5]
        simp [sr_shmmod_lock, sr_shmmod_unlock, List.filter_cons, ht, env_flags]
    | false =>
      rw [multirelock_mods_cons_skip env ds upgrade m rest w ht] at h ⊢
      obtain ⟨i1, i2, i3, i4, i5⟩ := ih _ h
      refine ⟨by rw [i1], ?_, ?_, ?_, ?_⟩
      · rw [i2]; simp [relock_trace, ht]
      · rw [i3]; simp [relock_held, ht]
      · rw [i4]; simp [List.filter_cons, ht]
      · rw [i5]; simp [List.filter_cons, ht]

/-- The loop of `sr_shmmod_multirelock` stops with an internal error at the first entry
it would relock whose flag is not set; the lock of that entry is not released. -/
theorem multirelock_mods_internal (env : Nat → LockResp) (ds : Nat) (upgrade : Bool)
    (m : sr_mod_info_mod_s) (post : List sr_mod_info_mod_s) (ht : relock_touched m = true)
    (pre : List sr_mod_info_mod_s) :
    ∀ w : LockWorld, (sr_shmmod_multirelock_mods env ds upgrade pre w).1 = SR_ERR_OK →
      (sr_shmmod_multirelock_mods env ds upgrade pre w).2.2.applying_changes m.shm_mod ds = false →
      sr_shmmod_multirelock_mods env ds upgrade (pre ++ m :: post) w
        = (SR_ERR_INTERNAL, pre ++ m :: post,
            sr_log_errint (sr_shmmod_multirelock_mods env ds upgrade pre w).2.2) := by
  induction pre with
  | nil =>
    intro w _ hf
    simp only [sr_shmmod_multirelock_mods] at hf
    simp only [List.nil_append, sr_shmmod_multirelock_mods]
    exact multirelock_mods_cons_noflag env ds upgrade m post w ht hf
  | cons p pre ih =>
    intro w h hf
    cases hp : relock_touched p with
    | true =>
      obtain ⟨hpf, hl⟩ := multirelock_mods_cons_inv env ds upgrade p pre w hp h
      rw [multirelock_mods_cons_ok env ds upgrade p pre w hp hpf hl] at h hf
      rw [List.cons_append, multirelock_mods_cons_ok env ds upgrade p _ w hp hpf hl,
        multirelock_mods_cons_ok env ds upgrade p pre w hp hpf hl, ih _ h hf]
    | false =>
      rw [multirelock_mods_cons_skip env ds upgrade p pre w hp] at h hf
      rw [List.cons_append, multirelock_mods_cons_skip env ds upgrade p _ w hp,
        multirelock_mods_cons_skip env ds upgrade p pre w hp, ih _ h hf]

theorem relock_held_frame (ds : Nat) (upgrade : Bool) (o d : Nat)
    (mods : List sr_mod_info_mod_s) :
    ∀ held : List (Nat × Nat × Bool),
      (∀ m ∈ mods, relock_touched m = true → ¬ (m.shm_mod = o ∧ ds = d)) →
      held_on o d (relock_held ds upgrade mods held) = held_on o d held := by
  induction mods with
  | nil => intro held _; rfl
  | cons m rest ih =>
    intro held hno
    cases ht : relock_touched m with
    | true =>
      have hne := hno m (List.mem_cons_self _ _) ht
      simp only [relock_held, ht, if_true]
      rw [ih _ (fun x hx => hno x (List.mem_cons_of_mem _ hx))]
      have hne1 : ¬ (m.shm_mod = o ∧ ds = d) := hne
      rw [← held_on_release_other o d m.shm_mod ds held hne1]
      simp [held_on, List.filter_cons, hne1]
    | false =>
      simp only [relock_held, ht, Bool.false_eq_true, if_false]
      exact ih _ (fun x hx => hno x (List.mem_cons_of_mem _ hx))

theorem relock_trace_no_flag_write (ds : Nat) (upgrade : Bool) (mods : List sr_mod_info_mod_s) :
    ∀ ev ∈ relock_trace ds upgrade mods, ∀ o d v, ev ≠ LockEv.set_applying o d v := by
  induction mods with
  | nil => intro ev h; simp [relock_trace] at h
  | cons m rest ih =>
    intro ev h o d v
    cases ht : relock_touched m with
    | true =>
      simp only [relock_trace, ht, if_true, List.mem_append, List.mem_cons,
        List.mem_singleton, List.not_mem_nil, or_false] at h
      rcases h with (h | h) | h
      · rw [h]; simp
      · rw [h]; simp
      · exact ih ev h o d v
    | false =>
      simp only [relock_trace, ht, Bool.false_eq_true, if_false] at h
      exact ih ev h o d v

/-- C12: `sr_shmmod_multirelock(mod_info, upgrade)` works on the entries whose state has both
MOD_INFO_REQ and MOD_INFO_LOCK only. When it returns SR_ERR_OK the mod-info (every state
bit included) is as before; the log of the call is, for each such entry in vector order,
one release of its lock followed by one acquisition in the mode `upgrade` (write when
`upgrade` is set, read otherwise) and holds no flag write; the flags are the flags before
the call with the writes of other processes applied; the locks held are the ones held
before with the latest lock on each such module replaced, so the locks on every other
module are unchanged. When the entries before such an entry `m` are relocked and the flag
of `m` is then not set, the call returns SR_ERR_INTERNAL with the mod-info unchanged and the
lock of `m` not released (the error is logged and nothing else is done). -/
theorem multirelock_touches_req_lock_only (env : Nat → LockResp) (mi : sr_mod_info_s)
    (upgrade : Bool) (w : LockWorld) :
    ((sr_shmmod_multirelock env mi upgrade w).1 = SR_ERR_OK →
      (sr_shmmod_multirelock env mi upgrade w).2.1 = mi ∧
      (sr_shmmod_multirelock env mi upgrade w).2.2.trace
        = w.trace ++ relock_trace mi.ds upgrade mi.mods ∧
      (∀ ev ∈ relock_trace mi.ds upgrade mi.mods, ∀ o d v, ev ≠ LockEv.set_applying o d v) ∧
      (sr_shmmod_multirelock env mi upgrade w).2.2.applying_changes
        = env_flags env w.calls (mi.mods.filter relock_touched).length w.applying_changes ∧
      (sr_shmmod_multirelock env mi upgrade w).2.2.held
        = relock_held mi.ds upgrade mi.mods w.held ∧
      (∀ o d, (∀ m ∈ mi.mods, relock_touched m = true → ¬ (m.shm_mod = o ∧ mi.ds = d)) →
        held_on o d (sr_shmmod_multirelock env mi upgrade w).2.2.held = held_on o d w.held)) ∧
    (∀ pre m post, mi.mods = pre ++ m :: post → relock_touched m = true →
      (sr_shmmod_multirelock_mods env mi.ds upgrade pre w).1 = SR_ERR_OK →
      (sr_shmmod_multirelock_mods env mi.ds upgrade pre w).2.2.applying_changes m.shm_mod mi.ds
        = false →
      sr_shmmod_multirelock env mi upgrade w
        = (SR_ERR_INTERNAL, mi,
            sr_log_errint (sr_shmmod_multirelock_mods env mi.ds upgrade pre w).2.2)) := by
  constructor
  · intro h
    have h1 : (sr_shmmod_multirelock_mods env mi.ds upgrade mi.mods w).1 = SR_ERR_OK := h
    obtain ⟨i1, i2, i3, i4, i5⟩ := multirelock_mods_ok env mi.ds upgrade mi.mods w h1
    have hheld : (sr_shmmod_multirelock env mi upgrade w).2.2.held
        = relock_held mi.ds upgrade mi.mods w.held := i3
    refine ⟨?_, i2, relock_trace_no_flag_write mi.ds upgrade mi.mods, i5, hheld, ?_⟩
    · show ({ mi with mods := (sr_shmmod_multirelock_mods env mi.ds upgrade mi.mods w).2.1 }
          : sr_mod_info_s) = mi
      rw [i1]
    · intro o d hno
      rw [hheld]
      exact relock_held_frame mi.ds upgrade o d mi.mods w.held hno
  · intro pre m post hm ht hok hf
    show (_, ({ mi with mods := _ } : sr_mod_info_s), _) = _
    rw [hm, multirelock_mods_internal env mi.ds upgrade m post ht pre w hok hf]
    simp only [← hm]

/-- Witness of C12: the example mod-info after the multilock is relocked for writing in a
quiet system; the same mod-info in a world in which the flag of its REQ entry is not set
makes the call return SR_ERR_INTERNAL. -/
theorem multirelock_touches_req_lock_only_witness :
    ((sr_shmmod_multirelock ex_env ex_locked_info true ex_locked.2.2).1 = SR_ERR_OK ∧
      (sr_shmmod_multirelock ex_env ex_locked_info true ex_locked.2.2).2.2.trace
        = ex_locked.2.2.trace ++ [LockEv.unlock 300 1, LockEv.lock 300 1 true SR_ERR_OK] ∧
      (sr_shmmod_multirelock ex_env ex_locked_info true ex_locked.2.2).2.2.held
        = [(300, 1, true), (400, 1, false), (200, 1, false)]) ∧
    (ex_locked_info.mods = [{ shm_mod := 200, state := MOD_INFO_DEP ||| MOD_INFO_LOCK, ly_mod := 2 }]
        ++ ex_locked_entry_m ::
          [{ shm_mod := 400, state := MOD_INFO_INV_DEP ||| MOD_INFO_LOCK, ly_mod := 4 }] ∧
      relock_touched ex_locked_entry_m = true ∧
      sr_shmmod_multirelock ex_env ex_locked_info true LockWorld.init
        = (SR_ERR_INTERNAL, ex_locked_info, sr_log_errint LockWorld.init)) :=
  ⟨⟨by decide,
      ((multirelock_touches_req_lock_only ex_env ex_locked_info true ex_locked.2.2).1
        (by decide)).2.1,
      ((multirelock_touches_req_lock_only ex_env ex_locked_info true ex_locked.2.2).1
        (by decide)).2.2.2.2.1⟩,
    by decide, by decide,
    (multirelock_touches_req_lock_only ex_env ex_locked_info true LockWorld.init).2
      [{ shm_mod := 200, state := MOD_INFO_DEP ||| MOD_INFO_LOCK, ly_mod := 2 }]
      ex_locked_entry_m
      [{ shm_mod := 400, state := MOD_INFO_INV_DEP ||| MOD_INFO_LOCK, ly_mod := 4 }]
      (by decide) (by decide) (by decide) (by decide)⟩

/-! ## Validation (`sr_shmmod_validate`) -/

theorem valid_mods_eq_filter (mods : List sr_mod_info_mod_s) :
    sr_shmmod_validate_valid_mods mods = (mods.filter validated_type).map (fun m => m.ly_mod) := by
  induction mods with
  | nil => rfl
  | cons m rest ih =>
    by_cases h : m.state &&& MOD_INFO_TYPE_MASK = MOD_INFO_REQ
        ∨ m.state &&& MOD_INFO_TYPE_MASK = MOD_INFO_INV_DEP
    · have hv : validated_type m = true := by simp [validated_type, h]
      simp only [sr_shmmod_validate_valid_mods, h, if_true, List.filter_cons, hv, List.map_cons, ih]
    · have hv : validated_type m = false := by simp [validated_type, h]
      simp only [sr_shmmod_validate_valid_mods, h, if_false, List.filter_cons, hv, ih]
      simp

theorem validate_connect_req_fail (lib : ly_lib) (conn : sr_conn_ctx_t) (ds : Nat)
    (m : sr_mod_info_mod_s) (rest : List sr_mod_info_mod_s) (l : validate_locals)
    (hreq : m.state &&& MOD_INFO_TYPE_MASK = MOD_INFO_REQ)
    (hret : (sr_modinfo_add_instid_deps lib conn.shm (sr_mod_at conn.shm m.shm_mod)
      m.mod_data l.dep_set).1 ≠ SR_ERR_OK) :
    sr_shmmod_validate_connect lib conn ds (m :: rest) l
      = ((sr_modinfo_add_instid_deps lib conn.shm (sr_mod_at conn.shm m.shm_mod)
          m.mod_data l.dep_set).1, m :: rest, connect_req_locals lib conn m l) := by
  simp only [sr_shmmod_validate_connect, hreq, if_true, hret, ne_eq, not_false_eq_true,
    connect_req_locals]

theorem validate_connect_req_nodata (lib : ly_lib) (conn : sr_conn_ctx_t) (ds : Nat)
    (m : sr_mod_info_mod_s) (rest : List sr_mod_info_mod_s) (l : validate_locals)
    (hreq : m.state &&& MOD_INFO_TYPE_MASK = MOD_INFO_REQ)
    (hret : (sr_modinfo_add_instid_deps lib conn.shm (sr_mod_at conn.shm m.shm_mod)
      m.mod_data l.dep_set).1 = SR_ERR_OK) (hd : m.mod_data = []) :
    sr_shmmod_validate_connect lib conn ds (m :: rest) l
      = ((sr_shmmod_validate_connect lib conn ds rest (connect_req_locals lib conn m l)).1,
         m :: (sr_shmmod_validate_connect lib conn ds rest (connect_req_locals lib conn m l)).2.1,
         (sr_shmmod_validate_connect lib conn ds rest (connect_req_locals lib conn m l)).2.2) := by
  simp only [sr_shmmod_validate_connect, hreq, if_true, hret, ne_eq, not_true_eq_false,
    if_false, connect_req_locals]
  rw [if_pos hd]

theorem validate_connect_req_data (lib : ly_lib) (conn : sr_conn_ctx_t) (ds : Nat)
    (m : sr_mod_info_mod_s) (rest : List sr_mod_info_mod_s) (l : validate_locals)
    (hreq : m.state &&& MOD_INFO_TYPE_MASK = MOD_INFO_REQ)
    (hret : (sr_modinfo_add_instid_deps lib conn.shm (sr_mod_at conn.shm m.shm_mod)
      m.mod_data l.dep_set).1 = SR_ERR_OK) (hd : m.mod_data ≠ []) :
    sr_shmmod_validate_connect lib conn ds (m :: rest) l
      = ((sr_shmmod_validate_connect lib conn ds rest
            { connect_req_locals lib conn m l with first_root := l.first_root ++ m.mod_data }).1,
         { m with mod_data := [] } :: (sr_shmmod_validate_connect lib conn ds rest
            { connect_req_locals lib conn m l with first_root := l.first_root ++ m.mod_data }).2.1,
         (sr_shmmod_validate_connect lib conn ds rest
            { connect_req_locals lib conn m l with first_root := l.first_root ++ m.mod_data }).2.2) := by
  simp only [sr_shmmod_validate_connect, hreq, if_true, hret, ne_eq, not_true_eq_false,
    if_false, connect_req_locals]
  rw [if_neg hd]

theorem validate_connect_dep_fail (lib : ly_lib) (conn : sr_conn_ctx_t) (ds : Nat)
    (m : sr_mod_info_mod_s) (rest : List sr_mod_info_mod_s) (l : validate_locals)
    (hreq : ¬ m.state &&& MOD_INFO_TYPE_MASK = MOD_INFO_REQ)
    (hdep : m.state &&& MOD_INFO_TYPE_MASK = MOD_INFO_INV_DEP
      ∨ m.state &&& MOD_INFO_TYPE_MASK = MOD_INFO_DEP)
    (hret : (sr_ly_module_data_get lib m.ly_mod ds).1 ≠ SR_ERR_OK) :
    sr_shmmod_validate_connect lib conn ds (m :: rest) l
      = ((sr_ly_module_data_get lib m.ly_mod ds).1,
         { m with mod_data := (sr_ly_module_data_get lib m.ly_mod ds).2 } :: rest,
         { l with valid_mod_count := connect_dep_count m l }) := by
  simp only [sr_shmmod_validate_connect, hreq, if_false, hdep, if_true, hret, ne_eq,
    not_false_eq_true, connect_dep_count]

theorem validate_connect_dep_ok (lib : ly_lib) (conn : sr_conn_ctx_t) (ds : Nat)
    (m : sr_mod_info_mod_s) (rest : List sr_mod_info_mod_s) (l : validate_locals)
    (hreq : ¬ m.state &&& MOD_INFO_TYPE_MASK = MOD_INFO_REQ)
    (hdep : m.state &&& MOD_INFO_TYPE_MASK = MOD_INFO_INV_DEP
      ∨ m.state &&& MOD_INFO_TYPE_MASK = MOD_INFO_DEP)
    (hret : (sr_ly_module_data_get lib m.ly_mod ds).1 = SR_ERR_OK) :
    sr_shmmod_validate_connect lib conn ds (m :: rest) l
      = ((sr_shmmod_validate_connect lib conn ds rest
            { l with first_root := l.first_root ++ (sr_ly_module_data_get lib m.ly_mod ds).2
                     valid_mod_count := connect_dep_count m l }).1,
         { m with mod_data := [] } :: (sr_shmmod_validate_connect lib conn ds rest
            { l with first_root := l.first_root ++ (sr_ly_module_data_get lib m.ly_mod ds).2
                     valid_mod_count := connect_dep_count m l }).2.1,
         (sr_shmmod_validate_connect lib conn ds rest
            { l with first_root := l.first_root ++ (sr_ly_module_data_get lib m.ly_mod ds).2
                     valid_mod_count := connect_dep_count m l }).2.2) := by
  simp only [sr_shmmod_validate_connect, hreq, if_false, hdep, if_true, hret, ne_eq,
    not_true_eq_false, connect_dep_count]

theorem validate_connect_other (lib : ly_lib) (conn : sr_conn_ctx_t) (ds : Nat)
    (m : sr_mod_info_mod_s) (rest : List sr_mod_info_mod_s) (l : validate_locals)
    (hreq : ¬ m.state &&& MOD_INFO_TYPE_MASK = MOD_INFO_REQ)
    (hdep : ¬ (m.state &&& MOD_INFO_TYPE_MASK = MOD_INFO_INV_DEP
      ∨ m.state &&& MOD_INFO_TYPE_MASK = MOD_INFO_DEP)) :
    sr_shmmod_validate_connect lib conn ds (m :: rest) l
      = ((sr_shmmod_validate_connect lib conn ds rest l).1,
         m :: (sr_shmmod_validate_connect lib conn ds rest l).2.1,
         (sr_shmmod_validate_connect lib conn ds rest l).2.2) := by
  simp only [sr_shmmod_validate_connect, hreq, if_false, hdep]

/-- The first loop of `sr_shmmod_validate` changes no state and no schema module of an
entry, and when it completes it has counted the entries of type REQ or INV_DEP. -/
theorem validate_connect_spec (lib : ly_lib) (conn : sr_conn_ctx_t) (ds : Nat)
    (mods : List sr_mod_info_mod_s) :
    ∀ l : validate_locals,
      sr_shmmod_validate_valid_mods (sr_shmmod_validate_connect lib conn ds mods l).2.1
        = sr_shmmod_validate_valid_mods mods ∧
      (sr_shmmod_validate_connect lib conn ds mods l).2.1.map (fun m => m.state)
        = mods.map (fun m => m.state) ∧
      ((sr_shmmod_validate_connect lib conn ds mods l).1 = SR_ERR_OK →
        (sr_shmmod_validate_connect lib conn ds mods l).2.2.valid_mod_count
          = l.valid_mod_count + (sr_shmmod_validate_valid_mods mods).length) := by
  induction mods with
  | nil => intro l; simp [sr_shmmod_validate_connect, sr_shmmod_validate_valid_mods]
  | cons m rest ih =>
    intro l
    by_cases hreq : m.state &&& MOD_INFO_TYPE_MASK = MOD_INFO_REQ
    · have hlen : (sr_shmmod_validate_valid_mods (m :: rest)).length
          = (sr_shmmod_validate_valid_mods rest).length + 1 := by
        simp only [sr_shmmod_validate_valid_mods, hreq, true_or, if_true, List.length_cons]
      by_cases hret : (sr_modinfo_add_instid_deps lib conn.shm (sr_mod_at conn.shm m.shm_mod)
          m.mod_data l.dep_set).1 = SR_ERR_OK
      · by_cases hd : m.mod_data = []
        · rw [validate_connect_req_nodata lib conn ds m rest l hreq hret hd]
          obtain ⟨i1, i2, i3⟩ := ih (connect_req_locals lib conn m l)
          refine ⟨?_, ?_, ?_⟩
          · simp only [sr_shmmod_validate_valid_mods, i1]
          · simp only [List.map_cons, i2]
          · intro h
            rw [i3 h, hlen]
            simp only [connect_req_locals]
            omega
        · rw [validate_connect_req_data lib conn ds m rest l hreq hret hd]
          obtain ⟨i1, i2, i3⟩ := ih
            { connect_req_locals lib conn m l with first_root := l.first_root ++ m.mod_data }
          refine ⟨?_, ?_, ?_⟩
          · simp only [sr_shmmod_validate_valid_mods, i1]
          · simp only [List.map_cons, i2]
          · intro h
            rw [i3 h, hlen]
            simp only [connect_req_locals]
            omega
      · rw [validate_connect_req_fail lib conn ds m rest l hreq hret]
        exact ⟨rfl, rfl, fun h => absurd h hret⟩
    · by_cases hdep : m.state &&& MOD_INFO_TYPE_MASK = MOD_INFO_INV_DEP
          ∨ m.state &&& MOD_INFO_TYPE_MASK = MOD_INFO_DEP
      · by_cases hret : (sr_ly_module_data_get lib m.ly_mod ds).1 = SR_ERR_OK
        · rw [validate_connect_dep_ok lib conn ds m rest l hreq hdep hret]
          obtain ⟨i1, i2, i3⟩ := ih
            { l with first_root := l.first_root ++ (sr_ly_module_data_get lib m.ly_mod ds).2
                     valid_mod_count := connect_dep_count m l }
          refine ⟨?_, ?_, ?_⟩
          · simp only [sr_shmmod_validate_valid_mods, i1]
          · simp only [List.map_cons, i2]
          · intro h
            rw [i3 h]
            by_cases hinv : m.state &&& MOD_INFO_TYPE_MASK = MOD_INFO_INV_DEP
            · simp only [sr_shmmod_validate_valid_mods, hinv, or_true, if_true,
                List.length_cons, connect_dep_count]
              omega
            · simp only [sr_shmmod_validate_valid_mods, hreq, hinv, or_self, if_false,
                connect_dep_count]
        · rw [validate_connect_dep_fail lib conn ds m rest l hreq hdep hret]
          refine ⟨?_, ?_, fun h => absurd h hret⟩
          · simp only [sr_shmmod_validate_valid_mods]
          · simp only [List.map_cons]
      · rw [validate_connect_other lib conn ds m rest l hreq hdep]
        obtain ⟨i1, i2, i3⟩ := ih l
        have hinv : ¬ m.state &&& MOD_INFO_TYPE_MASK = MOD_INFO_INV_DEP :=
          fun h => hdep (Or.inl h)
        refine ⟨?_, ?_, ?_⟩
        · simp only [sr_shmmod_validate_valid_mods, i1]
        · simp only [List.map_cons, i2]
        · intro h
          rw [i3 h]
          simp only [sr_shmmod_validate_valid_mods, hreq, hinv, or_self, if_false]

theorem validate_split_states (mods : List sr_mod_info_mod_s) :
    ∀ first_root : List lyd_node,
      (sr_shmmod_validate_split mods first_root).map (fun m => m.state)
        = mods.map (fun m => m.state) := by
  induction mods with
  | nil => intro fr; cases fr <;> rfl
  | cons m rest ih =>
    intro fr
    cases fr with
    | nil => simp only [sr_shmmod_validate_split, List.map_cons, ih]
    | cons n tl =>
      by_cases hn : n.module = m.ly_mod
      · simp only [sr_shmmod_validate_split, hn, ne_eq, not_true_eq_false, if_false,
          List.map_cons, ih]
      · simp only [sr_shmmod_validate_split, hn, ne_eq, not_false_eq_true, if_true,
          List.map_cons, ih]

/-- The calls of `lyd_validate_modules` that `sr_shmmod_validate` makes: none when one of the
first two loops fails, one otherwise. -/
theorem validate_calls (lib : ly_lib) (mi : sr_mod_info_s) (fd : Bool) :
    (sr_shmmod_validate lib mi fd).2.2
      = if (sr_shmmod_validate_loop1 lib mi).1 ≠ SR_ERR_OK then []
        else if (sr_shmmod_validate_loop2 lib mi).1 ≠ SR_ERR_OK then []
        else [sr_shmmod_validate_log lib mi fd] := by
  unfold sr_shmmod_validate
  split_ifs <;> rfl

/-- C13: the array that `sr_shmmod_validate` hands to `lyd_validate_modules` holds the schema
modules of exactly the entries whose type is REQ or INV_DEP, in the order of the
mod-info; none of these entries has the type DEP; the length of the array (the final
`j`) is the `valid_mod_count` that is passed with it, for every mod-info; and the call
is made whenever the function returns SR_ERR_OK. -/
theorem validate_valid_mods_req_inv_dep (lib : ly_lib) (mi : sr_mod_info_s) (fd : Bool) :
    (∀ c ∈ (sr_shmmod_validate lib mi fd).2.2,
      c.valid_mods = (mi.mods.filter validated_type).map (fun m => m.ly_mod) ∧
      c.valid_mods.length = c.valid_mod_count) ∧
    (∀ m ∈ mi.mods.filter validated_type,
      m.state &&& MOD_INFO_TYPE_MASK ≠ MOD_INFO_DEP) ∧
    ((sr_shmmod_validate lib mi fd).1 = SR_ERR_OK →
      (sr_shmmod_validate lib mi fd).2.2 = [sr_shmmod_validate_log lib mi fd]) := by
  obtain ⟨s1, _, s3⟩ := validate_connect_spec lib mi.conn mi.ds mi.mods
    { first_root := [], dep_set := [], valid_mod_count := 0 }
  refine ⟨?_, ?_, ?_⟩
  · intro c hc
    rw [validate_calls] at hc
    by_cases h1 : (sr_shmmod_validate_loop1 lib mi).1 = SR_ERR_OK
    · by_cases h2 : (sr_shmmod_validate_loop2 lib mi).1 = SR_ERR_OK
      · simp only [h1, h2, ne_eq, not_true_eq_false, if_false, List.mem_singleton] at hc
        subst hc
        have e1 : (sr_shmmod_validate_log lib mi fd).valid_mods
            = sr_shmmod_validate_valid_mods mi.mods := s1
        have e2 : (sr_shmmod_validate_log lib mi fd).valid_mod_count
            = 0 + (sr_shmmod_validate_valid_mods mi.mods).length := s3 h1
        rw [e1, e2, valid_mods_eq_filter]
        exact ⟨rfl, by omega⟩
      · simp [h1, h2] at hc
    · simp [h1] at hc
  · intro m hm
    have hv := (List.mem_filter.mp hm).2
    simp only [validated_type, decide_eq_true_eq] at hv
    rcases hv with h | h
    · rw [h]; decide
    · rw [h]; decide
  · intro h
    rw [validate_calls]
    by_cases h1 : (sr_shmmod_validate_loop1 lib mi).1 = SR_ERR_OK
    · by_cases h2 : (sr_shmmod_validate_loop2 lib mi).1 = SR_ERR_OK
      · simp [h1, h2]
      · exfalso
        unfold sr_shmmod_validate at h
        rw [if_neg (not_not.mpr h1), if_pos h2] at h
        exact h2 h
    · exfalso
      unfold sr_shmmod_validate at h
      rw [if_pos h1] at h
      exact h1 h

/-- C14: for both values of `finish_diff`, when `lyd_validate_modules` reports a failure
`sr_shmmod_validate` returns SR_ERR_VALIDATION_FAILED, the diff and the default-change flag
of the mod-info are as before the call, and no state bit of any entry has changed (so
MOD_INFO_CHANGED is set on no entry). -/
theorem validate_failure_changes_nothing (lib : ly_lib) (mi : sr_mod_info_s) (fd : Bool)
    (h : ∃ c ∈ (sr_shmmod_validate lib mi fd).2.2, c.ret ≠ 0) :
    (sr_shmmod_validate lib mi fd).1 = SR_ERR_VALIDATION_FAILED ∧
    (sr_shmmod_validate lib mi fd).2.1.diff = mi.diff ∧
    (sr_shmmod_validate lib mi fd).2.1.dflt_change = mi.dflt_change ∧
    (sr_shmmod_validate lib mi fd).2.1.mods.map (fun m => m.state)
      = mi.mods.map (fun m => m.state) := by
  obtain ⟨c, hc, hret⟩ := h
  rw [validate_calls] at hc
  obtain ⟨_, s2, _⟩ := validate_connect_spec lib mi.conn mi.ds mi.mods
    { first_root := [], dep_set := [], valid_mod_count := 0 }
  by_cases h1 : (sr_shmmod_validate_loop1 lib mi).1 = SR_ERR_OK
  · by_cases h2 : (sr_shmmod_validate_loop2 lib mi).1 = SR_ERR_OK
    · simp only [h1, h2, ne_eq, not_true_eq_false, if_false, List.mem_singleton] at hc
      subst hc
      have hv : (sr_shmmod_validate_call lib mi fd).1 ≠ 0 := hret
      have e : sr_shmmod_validate lib mi fd
          = (SR_ERR_VALIDATION_FAILED,
              { mi with
                  mods := sr_shmmod_validate_split (sr_shmmod_validate_loop1 lib mi).2.1
                    (sr_shmmod_validate_call lib mi fd).2.1 },
              [sr_shmmod_validate_log lib mi fd]) := by
        unfold sr_shmmod_validate
        rw [if_neg (not_not.mpr h1), if_neg (not_not.mpr h2), if_pos hv]
      rw [e]
      refine ⟨rfl, rfl, rfl, ?_⟩
      show (sr_shmmod_validate_split _ _).map _ = _
      rw [validate_split_states]
      exact s2
    · simp [h1, h2] at hc
  · simp [h1] at hc

/-- Witness of C13: on the example mod-info (entries of type DEP, REQ and INV_DEP) the call
is made with the schema modules of the second and the third entry. -/
theorem validate_valid_mods_req_inv_dep_witness :
    (sr_shmmod_validate ex_lib ex_edited true).1 = SR_ERR_OK ∧
    (sr_shmmod_validate ex_lib ex_edited true).2.2
      = [{ roots := [{ module := 2 }, { module := 1, value := 5 }, { module := 4 }],
           valid_mods := [1, 4], valid_mod_count := 2, val_diff := true, ret := 0 }] ∧
    (∀ c ∈ (sr_shmmod_validate ex_lib ex_edited true).2.2,
      c.valid_mods = (ex_edited.mods.filter validated_type).map (fun m => m.ly_mod) ∧
      c.valid_mods.length = c.valid_mod_count) :=
  ⟨by decide, by decide, (validate_valid_mods_req_inv_dep ex_lib ex_edited true).1⟩

/-- Witness of C14: the library rejects the forest of the example mod-info. -/
theorem validate_failure_changes_nothing_witness :
    (∃ c ∈ (sr_shmmod_validate ex_lib_invalid ex_edited true).2.2, c.ret ≠ 0) ∧
    ((sr_shmmod_validate ex_lib_invalid ex_edited true).1 = SR_ERR_VALIDATION_FAILED ∧
      (sr_shmmod_validate ex_lib_invalid ex_edited true).2.1.diff = ex_edited.diff ∧
      (sr_shmmod_validate ex_lib_invalid ex_edited true).2.1.dflt_change
        = ex_edited.dflt_change ∧
      (sr_shmmod_validate ex_lib_invalid ex_edited true).2.1.mods.map (fun m => m.state)
        = ex_edited.mods.map (fun m => m.state)) :=
  ⟨by decide, validate_failure_changes_nothing ex_lib_invalid ex_edited true (by decide)⟩

/-! ## Storing (`sr_shmmod_store`) -/

theorem store_mods_cons_skip (penv : Nat → PrintResp) (ds : Nat) (m : sr_mod_info_mod_s)
    (rest : List sr_mod_info_mod_s) (d : DataFiles) (h : ¬ m.state &&& MOD_INFO_CHANGED ≠ 0) :
    sr_shmmod_store_mods penv ds (m :: rest) d = sr_shmmod_store_mods penv ds rest d := by
  simp only [sr_shmmod_store_mods, h, if_false]

theorem store_mods_cons_fail (penv : Nat → PrintResp) (ds : Nat) (m : sr_mod_info_mod_s)
    (rest : List sr_mod_info_mod_s) (d : DataFiles) (h : m.state &&& MOD_INFO_CHANGED ≠ 0)
    (hp : (penv d.calls).ret ≠ 0) :
    sr_shmmod_store_mods penv ds (m :: rest) d
      = (SR_ERR_INTERNAL,
          { files := file_write m.ly_mod ds (penv d.calls).left d.files
            calls := d.calls + 1
            log := d.log ++ [store_call ds SR_ERR_INTERNAL m] }) := by
  simp [sr_shmmod_store_mods, h, sr_ly_module_data_set, hp, store_call]

theorem store_mods_cons_ok (penv : Nat → PrintResp) (ds : Nat) (m : sr_mod_info_mod_s)
    (rest : List sr_mod_info_mod_s) (d : DataFiles) (h : m.state &&& MOD_INFO_CHANGED ≠ 0)
    (hp : (penv d.calls).ret = 0) :
    sr_shmmod_store_mods penv ds (m :: rest) d
      = sr_shmmod_store_mods penv ds rest
          { files := file_write m.ly_mod ds (some m.mod_data) d.files
            calls := d.calls + 1
            log := d.log ++ [store_call ds SR_ERR_OK m] } := by
  simp [sr_shmmod_store_mods, h, sr_ly_module_data_set, hp, store_call]

/-- The two ways `sr_shmmod_store` ends: every entry with MOD_INFO_CHANGED is written, or the
entries with MOD_INFO_CHANGED before some entry `m` are written and the write of `m`
fails. -/
theorem store_mods_spec (penv : Nat → PrintResp) (ds : Nat) (mods : List sr_mod_info_mod_s) :
    ∀ d : DataFiles,
      ((sr_shmmod_store_mods penv ds mods d).1 = SR_ERR_OK ∧
        (sr_shmmod_store_mods penv ds mods d).2.log
          = d.log ++ (changed_mods mods).map (store_call ds SR_ERR_OK) ∧
        (sr_shmmod_store_mods penv ds mods d).2.files
          = files_after ds (changed_mods mods) d.files) ∨
      (∃ pre m post, changed_mods mods = pre ++ m :: post ∧
        (sr_shmmod_store_mods penv ds mods d).1 = SR_ERR_INTERNAL ∧
        (penv (d.calls + pre.length)).ret ≠ 0 ∧
        (sr_shmmod_store_mods penv ds mods d).2.log
          = d.log ++ (pre.map (store_call ds SR_ERR_OK) ++ [store_call ds SR_ERR_INTERNAL m]) ∧
        (sr_shmmod_store_mods penv ds mods d).2.files
          = file_write m.ly_mod ds (penv (d.calls + pre.length)).left
              (files_after ds pre d.files)) := by
  induction mods with
  | nil =>
    intro d
    left
    simp [sr_shmmod_store_mods, changed_mods, files_after]
  | cons m rest ih =>
    intro d
    by_cases h : m.state &&& MOD_INFO_CHANGED ≠ 0
    · have hc : changed_mods (m :: rest) = m :: changed_mods rest := by
        simp [changed_mods, List.filter_cons, h]
      by_cases hp : (penv d.calls).ret = 0
      · rw [store_mods_cons_ok penv ds m rest d h hp, hc]
        rcases ih { files := file_write m.ly_mod ds (some m.mod_data) d.files
                    calls := d.calls + 1
                    log := d.log ++ [store_call ds SR_ERR_OK m] } with ⟨a, b, c⟩ | ⟨pre, x, post, a, b, c, e, f⟩
        · left
          refine ⟨a, ?_, ?_⟩
          · rw [b]; simp
          · rw [c]; rfl
        · right
          refine ⟨m :: pre, x, post, ?_, b, ?_, ?_, ?_⟩
          · rw [a]; rfl
          · have : d.calls + (m :: pre).length = d.calls + 1 + pre.length := by
              simp only [List.length_cons]; omega
            rw [this]; exact c
          · rw [e]; simp
          · have : d.calls + (m :: pre).length = d.calls + 1 + pre.length := by
              simp only [List.length_cons]; omega
            rw [f, this]; rfl
      · rw [store_mods_cons_fail penv ds m rest d h hp, hc]
        right
        exact ⟨[], m, changed_mods rest, rfl, rfl, by simpa using hp, by simp, by simp [files_after]⟩
    · have hc : changed_mods (m :: rest) = changed_mods rest := by
        simp [changed_mods, List.filter_cons, h]
      rw [store_mods_cons_skip penv ds m rest d h, hc]
      exact ih d

theorem files_after_frame (ds name d1 : Nat) (ms : List sr_mod_info_mod_s) :
    ∀ files : Nat → Nat → Option (List lyd_node),
      (∀ m ∈ ms, ¬ (m.ly_mod = name ∧ ds = d1)) →
      files_after ds ms files name d1 = files name d1 := by
  induction ms with
  | nil => intro files _; rfl
  | cons m rest ih =>
    intro files h
    simp only [files_after]
    rw [ih _ (fun x hx => h x (List.mem_cons_of_mem _ hx))]
    have hm := h m (List.mem_cons_self _ _)
    have hm1 : ¬ (name = m.ly_mod ∧ d1 = ds) := fun e => hm ⟨e.1.symm, e.2.symm⟩
    simp only [file_write, hm1, if_false]

/-- C16, as stated, fails on the code: on the example mod-info the second write fails,
`sr_shmmod_store` returns an error, and the data file of the first module with
MOD_INFO_CHANGED already holds the new data instead of its value before the commit. -/
theorem store_all_or_nothing_counterexample :
    (sr_shmmod_store ex_penv_fail ex_changed ex_files).1 ≠ SR_ERR_OK ∧
    (sr_shmmod_store ex_penv_fail ex_changed ex_files).2.files 1 1
      = some [{ module := 1, value := 5 }] ∧
    ex_files.files 1 1 = some [] ∧
    (sr_shmmod_store ex_penv_fail ex_changed ex_files).2.files 1 1 ≠ ex_files.files 1 1 := by
  decide

/-- C16, amended: when `sr_shmmod_store` returns an error, the entries with MOD_INFO_CHANGED
split into the entries `pre` before the failing write, the entry `m` whose write failed
and the entries `post` after it; the data of the entries `pre` were written, in order,
the file of `m` holds what the failed write left, nothing was written for `post`, and
the file of every module and datastore outside `pre` and `m` has its value from before
the call. -/
theorem store_failure_keeps_earlier_writes (penv : Nat → PrintResp) (mi : sr_mod_info_s)
    (d : DataFiles) (h : (sr_shmmod_store penv mi d).1 ≠ SR_ERR_OK) :
    ∃ pre m post, changed_mods mi.mods = pre ++ m :: post ∧
      (sr_shmmod_store penv mi d).1 = SR_ERR_INTERNAL ∧
      (sr_shmmod_store penv mi d).2.log
        = d.log ++ (pre.map (store_call mi.ds SR_ERR_OK)
            ++ [store_call mi.ds SR_ERR_INTERNAL m]) ∧
      (sr_shmmod_store penv mi d).2.files
        = file_write m.ly_mod mi.ds (penv (d.calls + pre.length)).left
            (files_after mi.ds pre d.files) ∧
      (∀ name ds1, (∀ x ∈ pre ++ [m], ¬ (x.ly_mod = name ∧ mi.ds = ds1)) →
        (sr_shmmod_store penv mi d).2.files name ds1 = d.files name ds1) := by
  rcases store_mods_spec penv mi.ds mi.mods d with ⟨a, _, _⟩ | ⟨pre, m, post, a, b, _, e, f⟩
  · exact absurd a h
  · refine ⟨pre, m, post, a, b, e, f, ?_⟩
    intro name ds1 hno
    show (sr_shmmod_store_mods penv mi.ds mi.mods d).2.files name ds1 = _
    have hm1 : ¬ (name = m.ly_mod ∧ ds1 = mi.ds) := fun h =>
      hno m (by simp) ⟨h.1.symm, h.2.symm⟩
    rw [f]
    simp only [file_write, hm1, if_false]
    exact files_after_frame mi.ds name ds1 pre d.files (fun x hx => hno x (by simp [hx]))

/-- Witness of C16 as amended: the second write of the example fails. -/
theorem store_failure_keeps_earlier_writes_witness :
    (sr_shmmod_store ex_penv_fail ex_changed ex_files).1 ≠ SR_ERR_OK ∧
    ∃ pre m post, changed_mods ex_changed.mods = pre ++ m :: post ∧
      (sr_shmmod_store ex_penv_fail ex_changed ex_files).1 = SR_ERR_INTERNAL ∧
      (sr_shmmod_store ex_penv_fail ex_changed ex_files).2.log
        = ex_files.log ++ (pre.map (store_call ex_changed.ds SR_ERR_OK)
            ++ [store_call ex_changed.ds SR_ERR_INTERNAL m]) ∧
      (sr_shmmod_store ex_penv_fail ex_changed ex_files).2.files
        = file_write m.ly_mod ex_changed.ds (ex_penv_fail (ex_files.calls + pre.length)).left
            (files_after ex_changed.ds pre ex_files.files) ∧
      (∀ name ds1, (∀ x ∈ pre ++ [m], ¬ (x.ly_mod = name ∧ ex_changed.ds = ds1)) →
        (sr_shmmod_store ex_penv_fail ex_changed ex_files).2.files name ds1
          = ex_files.files name ds1) :=
  ⟨by decide, store_failure_keeps_earlier_writes ex_penv_fail ex_changed ex_files (by decide)⟩

/-! ## Subscription tables (`sr_shmmod_subscription`) -/

theorem sub_info_set_same (f : Nat → Nat → Nat) (off ds v : Nat) :
    sub_info_set f off ds v off ds = v := by
  simp [sub_info_set]

theorem sub_info_set_other (f : Nat → Nat → Nat) (off ds v o d : Nat)
    (h : ¬ (o = off ∧ d = ds)) : sub_info_set f off ds v o d = f o d := by
  simp only [sub_info_set, h, if_false]

theorem sub_table_eq_of_mem (shm shm1 : MainShm) (off ds n base base1 : Nat)
    (hn : shm.sub_count off ds = n) (hb : shm.subs off ds = base)
    (hb1 : shm1.subs off ds = base1)
    (hmem : ∀ k, k < n → shm1.mem (base1 + k * SUB_SIZE) = shm.mem (base + k * SUB_SIZE)) :
    (List.range n).map (fun k => shm1.mem (shm1.subs off ds + k * SUB_SIZE))
      = sub_table shm off ds := by
  unfold sub_table
  rw [hn, hb, hb1]
  apply List.map_congr_left
  intro k hk
  exact hmem k (List.mem_range.mp hk)

/-- A failing remap makes the branch `add` fail. -/
theorem subscription_add_remap_ok (junk : Nat → sr_mod_sub_t) (remap_ret : sr_error_t)
    (shm : MainShm) (off ds priority : Nat) (opts : Int)
    (hok : (sr_shmmod_subscription_add junk remap_ret shm off ds priority opts).1 = SR_ERR_OK) :
    remap_ret = SR_ERR_OK := by
  by_contra h
  simp [sr_shmmod_subscription_add, sr_shmmain_remap, h] at hok

/-- The branch `add` when the table ends at the end of the segment. -/
theorem subscription_add_at_end (junk : Nat → sr_mod_sub_t) (shm : MainShm)
    (off ds priority : Nat) (opts : Int)
    (hend : shm.subs off ds + shm.sub_count off ds * SUB_SIZE = shm.shm_size)
    (hfit : shm.shm_size + SUB_SIZE < 2 ^ 32) :
    sr_shmmod_subscription_add junk SR_ERR_OK shm off ds priority opts
      = (SR_ERR_OK,
          { shm_size := shm.shm_size + SUB_SIZE
            subs := shm.subs
            sub_count := sub_info_set shm.sub_count off ds (shm.sub_count off ds + 1)
            mem := shm_write_sub junk (shm.subs off ds + shm.sub_count off ds * SUB_SIZE)
              { priority := priority, opts := opts } shm.mem }) := by
  have hfit1 : shm.shm_size + SUB_SIZE < 4294967296 := by norm_num at hfit; exact hfit
  simp [sr_shmmod_subscription_add, sr_shmmain_remap, hend, Nat.mod_eq_of_lt hfit1]

/-- The branch `add` when the table does not end at the end of the segment. -/
theorem subscription_add_move (junk : Nat → sr_mod_sub_t) (shm : MainShm)
    (off ds priority : Nat) (opts : Int)
    (hend : ¬ shm.subs off ds + shm.sub_count off ds * SUB_SIZE = shm.shm_size)
    (hpos : 0 < shm.shm_size)
    (hfit : shm.shm_size + (shm.sub_count off ds + 1) * SUB_SIZE < 2 ^ 32) :
    sr_shmmod_subscription_add junk SR_ERR_OK shm off ds priority opts
      = (SR_ERR_OK,
          { shm_size := shm.shm_size + (shm.sub_count off ds + 1) * SUB_SIZE
            subs := sub_info_set shm.subs off ds shm.shm_size
            sub_count := sub_info_set shm.sub_count off ds (shm.sub_count off ds + 1)
            mem := shm_write_sub junk (shm.shm_size + shm.sub_count off ds * SUB_SIZE)
              { priority := priority, opts := opts }
              (shm_memcpy_subs junk shm.shm_size (shm.subs off ds) (shm.sub_count off ds)
                shm.mem) }) := by
  have hfit1 : shm.shm_size + (shm.sub_count off ds + 1) * SUB_SIZE < 4294967296 := by
    norm_num at hfit; exact hfit
  have h1 : shm.shm_size % 4294967296 = shm.shm_size := Nat.mod_eq_of_lt (by omega)
  have h2 : ¬ shm.shm_size = 0 := by omega
  simp [sr_shmmod_subscription_add, sr_shmmain_remap, hend, Nat.mod_eq_of_lt hfit1, h1, h2,
    sub_info_set_same]

/-- C17, the claim as stated fails: in a segment of `2 ^ 32 - 8` bytes whose table of the module
`m` ends at the end of the segment, the add returns SR_ERR_OK, but the size it computes does
not fit the 32 bits of `new_shm_size`: the segment size becomes 0 instead of growing by one
record, and the table does not end at the new end of the segment. -/
theorem subscription_add_size_wraps_counterexample :
    table_at_end ex_shm_wrap 300 1 ∧
    (sr_shmmod_subscription ex_junk SR_ERR_OK ex_conn ex_shm_wrap 1 1 9 4 true).1 = SR_ERR_OK ∧
    (sr_shmmod_subscription ex_junk SR_ERR_OK ex_conn ex_shm_wrap 1 1 9 4 true).2.shm_size = 0 ∧
    (sr_shmmod_subscription ex_junk SR_ERR_OK ex_conn ex_shm_wrap 1 1 9 4 true).2.shm_size
      ≠ ex_shm_wrap.shm_size + SUB_SIZE ∧
    ¬ table_at_end (sr_shmmod_subscription ex_junk SR_ERR_OK ex_conn ex_shm_wrap 1 1 9 4 true).2
      300 1 := by
  decide

/-- C17, amended: a successful `sr_shmmod_subscription(conn, mod, ds, priority, opts, add = 1)` on a
module with `n` subscriptions for `ds`, whose record lies inside the segment, when the size
the add computes for the segment is below `2 ^ 32` (it is stored in the `uint32_t`
`new_shm_size`): afterwards `sub_count` is `n + 1` and the table is the previous table, in the
same order, followed by the record `(priority, opts)`; if the table ended exactly at the end
of the segment, the segment has grown by one record and the head offset is unchanged;
otherwise the segment has grown by `n + 1` records and the head offset is the old size of
the segment; in both cases the table ends exactly at the new end of the segment. -/
theorem subscription_add_appends (junk : Nat → sr_mod_sub_t) (remap_ret : sr_error_t)
    (conn : sr_conn_ctx_t) (shm : MainShm) (mod_name ds priority : Nat) (opts : Int)
    (shm_mod : sr_mod_t) (hfind : sr_shmmain_find_module conn.shm mod_name = some shm_mod)
    (hmod : shm_mod.off < shm.shm_size)
    (hfit : sub_add_size shm shm_mod.off ds < 2 ^ 32)
    (hok : (sr_shmmod_subscription junk remap_ret conn shm mod_name ds priority opts true).1
      = SR_ERR_OK) :
    (sr_shmmod_subscription junk remap_ret conn shm mod_name ds priority opts true).2.sub_count
        shm_mod.off ds = shm.sub_count shm_mod.off ds + 1 ∧
    sub_table (sr_shmmod_subscription junk remap_ret conn shm mod_name ds priority opts true).2
        shm_mod.off ds
      = sub_table shm shm_mod.off ds ++ [{ priority := priority, opts := opts }] ∧
    (table_at_end shm shm_mod.off ds →
      (sr_shmmod_subscription junk remap_ret conn shm mod_name ds priority opts true).2.shm_size
          = shm.shm_size + SUB_SIZE ∧
      (sr_shmmod_subscription junk remap_ret conn shm mod_name ds priority opts true).2.subs
          shm_mod.off ds = shm.subs shm_mod.off ds) ∧
    (¬ table_at_end shm shm_mod.off ds →
      (sr_shmmod_subscription junk remap_ret conn shm mod_name ds priority opts true).2.shm_size
          = shm.shm_size + (shm.sub_count shm_mod.off ds + 1) * SUB_SIZE ∧
      (sr_shmmod_subscription junk remap_ret conn shm mod_name ds priority opts true).2.subs
          shm_mod.off ds = shm.shm_size) ∧
    table_at_end (sr_shmmod_subscription junk remap_ret conn shm mod_name ds priority opts true).2
      shm_mod.off ds := by
  have e : sr_shmmod_subscription junk remap_ret conn shm mod_name ds priority opts true
      = sr_shmmod_subscription_add junk remap_ret shm shm_mod.off ds priority opts := by
    simp only [sr_shmmod_subscription, hfind, if_true]
  rw [e] at hok ⊢
  have hpos : 0 < shm.shm_size := by omega
  have hr := subscription_add_remap_ok junk remap_ret shm shm_mod.off ds priority opts hok
  subst hr
  by_cases hend : shm.subs shm_mod.off ds + shm.sub_count shm_mod.off ds * SUB_SIZE = shm.shm_size
  · have hfit1 : shm.shm_size + SUB_SIZE < 2 ^ 32 := by
      rw [sub_add_size, if_pos hend] at hfit
      exact hfit
    rw [subscription_add_at_end junk shm shm_mod.off ds priority opts hend hfit1]
    refine ⟨sub_info_set_same _ _ _ _, ?_, fun _ => ⟨rfl, rfl⟩, fun h => absurd hend h, ?_⟩
    · simp only [sub_table, sub_info_set_same, List.range_succ, List.map_append, List.map_cons,
        List.map_nil]
      congr 1
      · apply List.map_congr_left
        intro k hk
        have hk1 := List.mem_range.mp hk
        simp only [shm_write_sub, SUB_SIZE]
        rw [if_neg (by omega), if_neg (by omega)]
      · simp [shm_write_sub]
    · simp only [table_at_end, sub_info_set_same]
      simp only [SUB_SIZE] at hend ⊢
      omega
  · rw [sub_add_size, if_neg hend] at hfit
    rw [subscription_add_move junk shm shm_mod.off ds priority opts hend hpos hfit]
    refine ⟨sub_info_set_same _ _ _ _, ?_, fun h => absurd h hend, fun _ => ⟨rfl, sub_info_set_same _ _ _ _⟩, ?_⟩
    · simp only [sub_table, sub_info_set_same, List.range_succ, List.map_append, List.map_cons,
        List.map_nil]
      congr 1
      · apply List.map_congr_left
        intro k hk
        have hk1 := List.mem_range.mp hk
        simp only [shm_write_sub, shm_memcpy_subs, SUB_SIZE]
        rw [if_neg (by omega), if_neg (by omega), if_pos (by omega), if_pos (by omega)]
        congr 1
        omega
      · simp [shm_write_sub]
    · simp only [table_at_end, sub_info_set_same]

/-- The index the search loop stops at is the first one whose record has the priority and
the options. -/
theorem subscription_find_spec (shm : MainShm) (off ds priority : Nat) (opts : Int) (i : Nat)
    (h : sr_shmmod_subscription_find shm off ds priority opts = some i) :
    i < shm.sub_count off ds ∧
    shm.mem (shm.subs off ds + i * SUB_SIZE) = { priority := priority, opts := opts } ∧
    ∀ j, j < i →
      shm.mem (shm.subs off ds + j * SUB_SIZE) ≠ { priority := priority, opts := opts } := by
  unfold sr_shmmod_subscription_find at h
  obtain ⟨hp, hm, hfirst⟩ := List.find?_range_eq_some.mp h
  have hm1 := List.mem_range.mp hm
  simp only [decide_eq_true_eq] at hp
  have hrec : ∀ k, ((shm.mem (shm.subs off ds + k * SUB_SIZE)).priority = priority
      ∧ (shm.mem (shm.subs off ds + k * SUB_SIZE)).opts = opts)
      ↔ shm.mem (shm.subs off ds + k * SUB_SIZE) = { priority := priority, opts := opts } := by
    intro k
    cases shm.mem (shm.subs off ds + k * SUB_SIZE) with
    | mk p o => simp
  refine ⟨hm1, (hrec i).mp hp, ?_⟩
  intro j hj heq
  have := hfirst j hj
  simp only [Bool.not_eq_true', decide_eq_false_iff_not] at this
  exact this ((hrec j).mpr heq)

/-- The result of a successful removal, given the index that the search loop found. -/
theorem subscription_del_ok (junk : Nat → sr_mod_sub_t) (remap_ret : sr_error_t)
    (shm : MainShm) (off ds priority : Nat) (opts : Int) (i : Nat)
    (hfind : sr_shmmod_subscription_find shm off ds priority opts = some i)
    (hfit : shm.shm_size < 2 ^ 32)
    (hok : (sr_shmmod_subscription_del junk remap_ret shm off ds priority opts).1 = SR_ERR_OK) :
    (sr_shmmod_subscription_del junk remap_ret shm off ds priority opts).2
      = { shm_size :=
            if shm.subs off ds + shm.sub_count off ds * SUB_SIZE = shm.shm_size then
              shm.shm_size - SUB_SIZE
            else shm.shm_size
          subs :=
            if shm.sub_count off ds - 1 = 0 then sub_info_set shm.subs off ds 0 else shm.subs
          sub_count := sub_info_set shm.sub_count off ds (shm.sub_count off ds - 1)
          mem := del_mem junk shm off ds i } := by
  have hfit1 : shm.shm_size < 4294967296 := by norm_num at hfit; exact hfit
  have hmod : (shm.shm_size - SUB_SIZE) % 4294967296 = shm.shm_size - SUB_SIZE :=
    Nat.mod_eq_of_lt (by omega)
  by_cases hi : i < shm.sub_count off ds - 1
  · by_cases hend : shm.subs off ds + shm.sub_count off ds * SUB_SIZE = shm.shm_size
    · by_cases hr : remap_ret = SR_ERR_OK
      · simp [sr_shmmod_subscription_del, hfind, hi, hend, sr_shmmain_remap, hr, hmod,
          sr_shmmod_subscription_dec, del_mem]
      · simp [sr_shmmod_subscription_del, hfind, hi, hend, sr_shmmain_remap, hr] at hok
    · simp [sr_shmmod_subscription_del, hfind, hi, hend, sr_shmmod_subscription_dec, del_mem]
  · by_cases hend : shm.subs off ds + shm.sub_count off ds * SUB_SIZE = shm.shm_size
    · by_cases hr : remap_ret = SR_ERR_OK
      · simp [sr_shmmod_subscription_del, hfind, hi, hend, sr_shmmain_remap, hr, hmod,
          sr_shmmod_subscription_dec, del_mem]
      · simp [sr_shmmod_subscription_del, hfind, hi, hend, sr_shmmain_remap, hr] at hok
    · simp [sr_shmmod_subscription_del, hfind, hi, hend, sr_shmmod_subscription_dec, del_mem]

theorem del_mem_other (junk : Nat → sr_mod_sub_t) (shm : MainShm) (off ds i j : Nat)
    (hj : j ≠ i) :
    del_mem junk shm off ds i (shm.subs off ds + j * SUB_SIZE)
      = shm.mem (shm.subs off ds + j * SUB_SIZE) := by
  unfold del_mem
  split_ifs with h
  · simp only [shm_memcpy_subs, SUB_SIZE]
    rw [if_neg (by omega), if_neg (by omega)]
  · rfl

theorem del_mem_slot (junk : Nat → sr_mod_sub_t) (shm : MainShm) (off ds i : Nat)
    (hi : i < shm.sub_count off ds - 1) :
    del_mem junk shm off ds i (shm.subs off ds + i * SUB_SIZE)
      = shm.mem (shm.subs off ds + (shm.sub_count off ds - 1) * SUB_SIZE) := by
  unfold del_mem
  rw [if_pos hi]
  simp only [shm_memcpy_subs, SUB_SIZE]
  rw [if_pos (by omega), if_pos (by omega)]
  congr 1
  omega

/-- C18: a successful `sr_shmmod_subscription(conn, mod, ds, priority, opts, add = 0)` on a module
with `n` subscriptions for `ds` (segment size below `2 ^ 32`): the search loop stops at the
first index `i` whose record has the priority and the options; when `i` is not the last
slot, slot `i` gets the content of the last slot; every other slot keeps its content
and its position; `sub_count` is `n - 1`, so the table is the old one with slot `i`
replaced by the last record and the last slot dropped; the segment has shrunk by exactly
one record when the table ended at the end of the segment and has its old size
otherwise; and the head offset is 0 when the count has reached 0 and unchanged otherwise. -/
theorem subscription_del_replaces_with_last (junk : Nat → sr_mod_sub_t) (remap_ret : sr_error_t)
    (conn : sr_conn_ctx_t) (shm : MainShm) (mod_name ds priority : Nat) (opts : Int)
    (shm_mod : sr_mod_t) (hfind : sr_shmmain_find_module conn.shm mod_name = some shm_mod)
    (hfit : shm.shm_size < 2 ^ 32)
    (hok : (sr_shmmod_subscription junk remap_ret conn shm mod_name ds priority opts false).1
      = SR_ERR_OK) :
    ∃ i, sr_shmmod_subscription_find shm shm_mod.off ds priority opts = some i ∧
      i < shm.sub_count shm_mod.off ds ∧
      shm.mem (shm.subs shm_mod.off ds + i * SUB_SIZE) = { priority := priority, opts := opts } ∧
      (∀ j, j < i → shm.mem (shm.subs shm_mod.off ds + j * SUB_SIZE)
        ≠ { priority := priority, opts := opts }) ∧
      (sr_shmmod_subscription junk remap_ret conn shm mod_name ds priority opts false).2.sub_count
          shm_mod.off ds = shm.sub_count shm_mod.off ds - 1 ∧
      (i < shm.sub_count shm_mod.off ds - 1 →
        (sr_shmmod_subscription junk remap_ret conn shm mod_name ds priority opts false).2.mem
            (shm.subs shm_mod.off ds + i * SUB_SIZE)
          = shm.mem (shm.subs shm_mod.off ds + (shm.sub_count shm_mod.off ds - 1) * SUB_SIZE)) ∧
      (∀ j, j ≠ i →
        (sr_shmmod_subscription junk remap_ret conn shm mod_name ds priority opts false).2.mem
            (shm.subs shm_mod.off ds + j * SUB_SIZE)
          = shm.mem (shm.subs shm_mod.off ds + j * SUB_SIZE)) ∧
      sub_table (sr_shmmod_subscription junk remap_ret conn shm mod_name ds priority opts false).2
          shm_mod.off ds
        = (List.range (shm.sub_count shm_mod.off ds - 1)).map (fun k =>
            if k = i then
              shm.mem (shm.subs shm_mod.off ds + (shm.sub_count shm_mod.off ds - 1) * SUB_SIZE)
            else shm.mem (shm.subs shm_mod.off ds + k * SUB_SIZE)) ∧
      (table_at_end shm shm_mod.off ds →
        (sr_shmmod_subscription junk remap_ret conn shm mod_name ds priority opts false).2.shm_size
          + SUB_SIZE = shm.shm_size) ∧
      (¬ table_at_end shm shm_mod.off ds →
        (sr_shmmod_subscription junk remap_ret conn shm mod_name ds priority opts false).2.shm_size
          = shm.shm_size) ∧
      (shm.sub_count shm_mod.off ds - 1 = 0 →
        (sr_shmmod_subscription junk remap_ret conn shm mod_name ds priority opts false).2.subs
          shm_mod.off ds = 0) ∧
      (shm.sub_count shm_mod.off ds - 1 ≠ 0 →
        (sr_shmmod_subscription junk remap_ret conn shm mod_name ds priority opts false).2.subs
          shm_mod.off ds = shm.subs shm_mod.off ds) := by
  have e : sr_shmmod_subscription junk remap_ret conn shm mod_name ds priority opts false
      = sr_shmmod_subscription_del junk remap_ret shm shm_mod.off ds priority opts := by
    simp only [sr_shmmod_subscription, hfind, Bool.false_eq_true, if_false]
  rw [e] at hok ⊢
  cases hf : sr_shmmod_subscription_find shm shm_mod.off ds priority opts with
  | none => simp [sr_shmmod_subscription_del, hf] at hok
  | some i =>
    obtain ⟨hi, hrec, hfirst⟩ := subscription_find_spec shm shm_mod.off ds priority opts i hf
    rw [subscription_del_ok junk remap_ret shm shm_mod.off ds priority opts i hf hfit hok]
    refine ⟨i, rfl, hi, hrec, hfirst, sub_info_set_same _ _ _ _, ?_, ?_, ?_, ?_, ?_, ?_, ?_⟩
    · intro hlt
      exact del_mem_slot junk shm shm_mod.off ds i hlt
    · intro j hj
      exact del_mem_other junk shm shm_mod.off ds i j hj
    · simp only [sub_table, sub_info_set_same]
      apply List.map_congr_left
      intro k hk
      have hk1 := List.mem_range.mp hk
      have hn0 : ¬ shm.sub_count shm_mod.off ds - 1 = 0 := by omega
      simp only [hn0, if_false]
      by_cases hki : k = i
      · subst hki
        rw [if_pos rfl]
        exact del_mem_slot junk shm shm_mod.off ds k hk1
      · rw [if_neg hki]
        exact del_mem_other junk shm shm_mod.off ds i k hki
    · intro hend
      have hend1 : shm.subs shm_mod.off ds + shm.sub_count shm_mod.off ds * SUB_SIZE
          = shm.shm_size := hend
      simp only [hend1, if_true]
      simp only [SUB_SIZE] at hend1 ⊢
      omega
    · intro hend
      have hend1 : ¬ shm.subs shm_mod.off ds + shm.sub_count shm_mod.off ds * SUB_SIZE
          = shm.shm_size := hend
      simp only [hend1, if_false]
    · intro h0
      simp only [h0, if_true, sub_info_set_same]
    · intro h0
      simp only [h0, if_false]

/-- A change of the table of `(off, ds)` and of the segment size keeps the tables well
placed when the new table is empty or inside the new segment and every other table is
inside the new segment and apart from the new table. -/
theorem subTablesOk_of_update (shm r : MainShm) (off ds : Nat) (hinv : SubTablesOk shm)
    (hcount : ∀ o d, ¬ (o = off ∧ d = ds) → r.sub_count o d = shm.sub_count o d)
    (hsubs : ∀ o d, ¬ (o = off ∧ d = ds) → r.subs o d = shm.subs o d)
    (hkey : r.sub_count off ds = 0 ∨
      (r.subs off ds < r.shm_size ∧ r.subs off ds + r.sub_count off ds * SUB_SIZE ≤ r.shm_size))
    (hothers : ∀ o d, ¬ (o = off ∧ d = ds) → shm.sub_count o d ≠ 0 →
      shm.subs o d + shm.sub_count o d * SUB_SIZE ≤ r.shm_size ∧
      (r.sub_count off ds = 0 ∨
        r.subs off ds + r.sub_count off ds * SUB_SIZE ≤ shm.subs o d ∨
        shm.subs o d + shm.sub_count o d * SUB_SIZE ≤ r.subs off ds)) :
    SubTablesOk r := by
  constructor
  · intro o d
    by_cases hk : o = off ∧ d = ds
    · obtain ⟨rfl, rfl⟩ := hk
      exact hkey
    · rw [hcount o d hk, hsubs o d hk]
      by_cases hc : shm.sub_count o d = 0
      · exact Or.inl hc
      · right
        have h1 := (hothers o d hk hc).1
        simp only [SUB_SIZE] at h1 ⊢
        omega
  · intro o1 d1 o2 d2 hne
    by_cases hk1 : o1 = off ∧ d1 = ds
    · by_cases hk2 : o2 = off ∧ d2 = ds
      · exfalso
        apply hne
        rw [hk1.1, hk1.2, hk2.1, hk2.2]
      · obtain ⟨rfl, rfl⟩ := hk1
        rw [hcount o2 d2 hk2, hsubs o2 d2 hk2]
        by_cases hc : shm.sub_count o2 d2 = 0
        · exact Or.inr (Or.inl hc)
        · rcases (hothers o2 d2 hk2 hc).2 with h | h | h
          · exact Or.inl h
          · exact Or.inr (Or.inr (Or.inl h))
          · exact Or.inr (Or.inr (Or.inr h))
    · by_cases hk2 : o2 = off ∧ d2 = ds
      · obtain ⟨rfl, rfl⟩ := hk2
        rw [hcount o1 d1 hk1, hsubs o1 d1 hk1]
        by_cases hc : shm.sub_count o1 d1 = 0
        · exact Or.inl hc
        · rcases (hothers o1 d1 hk1 hc).2 with h | h | h
          · exact Or.inr (Or.inl h)
          · exact Or.inr (Or.inr (Or.inr h))
          · exact Or.inr (Or.inr (Or.inl h))
      · rw [hcount o1 d1 hk1, hsubs o1 d1 hk1, hcount o2 d2 hk2, hsubs o2 d2 hk2]
        exact hinv.2 o1 d1 o2 d2 hne

/-- What the invariant says about a table other than the one of `(off, ds)`. -/
theorem subTablesOk_other (shm : MainShm) (off ds o d : Nat) (hinv : SubTablesOk shm)
    (hk : ¬ (o = off ∧ d = ds)) (hc : shm.sub_count o d ≠ 0) :
    (shm.subs o d < shm.shm_size ∧ shm.subs o d + shm.sub_count o d * SUB_SIZE ≤ shm.shm_size) ∧
    (shm.sub_count off ds = 0 ∨
      shm.subs off ds + shm.sub_count off ds * SUB_SIZE ≤ shm.subs o d ∨
      shm.subs o d + shm.sub_count o d * SUB_SIZE ≤ shm.subs off ds) := by
  constructor
  · rcases hinv.1 o d with h | h
    · exact absurd h hc
    · exact h
  · have hne : (off, ds) ≠ (o, d) := by
      intro h
      apply hk
      exact ⟨(congrArg Prod.fst h).symm, (congrArg Prod.snd h).symm⟩
    rcases hinv.2 off ds o d hne with h | h | h | h
    · exact Or.inl h
    · exact absurd h hc
    · exact Or.inr (Or.inl h)
    · exact Or.inr (Or.inr h)

/-- The tables of the segment `ex_shm_wrap` are well placed. -/
theorem ex_shm_wrap_tables_ok : SubTablesOk ex_shm_wrap := by
  constructor
  · intro o d
    simp only [ex_shm_wrap, SUB_SIZE]
    by_cases h1 : o = 300 ∧ d = 1
    · simp [h1]
    · simp [h1]
  · intro o1 d1 o2 d2 hne
    simp only [ex_shm_wrap, SUB_SIZE]
    by_cases h1 : o1 = 300 ∧ d1 = 1
    · by_cases h2 : o2 = 300 ∧ d2 = 1
      · exfalso; apply hne; rw [h1.1, h1.2, h2.1, h2.2]
      · simp [h2]
    · simp [h1]

/-- C19, the claim as stated fails: the tables of the segment `ex_shm_wrap` of `2 ^ 32 - 8` bytes
are well placed, the add of a subscription to the module `m` returns SR_ERR_OK, and
afterwards the segment size is 0 and the table of `m`, which has three records, lies
outside the segment. -/
theorem subscription_tables_inside_counterexample :
    SubTablesOk ex_shm_wrap ∧
    (sr_shmmod_subscription ex_junk SR_ERR_OK ex_conn ex_shm_wrap 1 1 9 4 true).1 = SR_ERR_OK ∧
    ¬ SubTablesOk (sr_shmmod_subscription ex_junk SR_ERR_OK ex_conn ex_shm_wrap 1 1 9 4 true).2 := by
  refine ⟨ex_shm_wrap_tables_ok, by decide, ?_⟩
  intro h
  have h1 := h.1 300 1
  revert h1
  decide

/-- C19, amended: if every subscription table is empty or lies inside the segment and the
tables of distinct (module, datastore) pairs do not overlap, the same holds after every
successful `sr_shmmod_subscription` that adds a subscription to a module whose record lies
inside the segment, when the size the add computes for the segment is below `2 ^ 32`, and
after every successful `sr_shmmod_subscription` that removes one, when the size of the
segment is below `2 ^ 32` (the sizes are stored in the `uint32_t` `new_shm_size`). -/
theorem subscription_keeps_tables_inside (junk : Nat → sr_mod_sub_t) (remap_ret : sr_error_t)
    (conn : sr_conn_ctx_t) (shm : MainShm) (mod_name ds priority : Nat) (opts : Int)
    (add : Bool) (shm_mod : sr_mod_t)
    (hfind : sr_shmmain_find_module conn.shm mod_name = some shm_mod)
    (hinv : SubTablesOk shm)
    (hadd : add = true →
      shm_mod.off < shm.shm_size ∧ sub_add_size shm shm_mod.off ds < 2 ^ 32)
    (hdel : add = false → shm.shm_size < 2 ^ 32)
    (hok : (sr_shmmod_subscription junk remap_ret conn shm mod_name ds priority opts add).1
      = SR_ERR_OK) :
    SubTablesOk (sr_shmmod_subscription junk remap_ret conn shm mod_name ds priority opts add).2 := by
  have hkeyinv := hinv.1 shm_mod.off ds
  cases add with
  | true =>
    have e : sr_shmmod_subscription junk remap_ret conn shm mod_name ds priority opts true
        = sr_shmmod_subscription_add junk remap_ret shm shm_mod.off ds priority opts := by
      simp only [sr_shmmod_subscription, hfind, if_true]
    rw [e] at hok ⊢
    obtain ⟨hmod, hfit⟩ := hadd rfl
    have hpos : 0 < shm.shm_size := by omega
    have hr := subscription_add_remap_ok junk remap_ret shm shm_mod.off ds priority opts hok
    subst hr
    by_cases hend : shm.subs shm_mod.off ds + shm.sub_count shm_mod.off ds * SUB_SIZE
        = shm.shm_size
    · have hfit1 : shm.shm_size + SUB_SIZE < 2 ^ 32 := by
        rw [sub_add_size, if_pos hend] at hfit
        exact hfit
      rw [subscription_add_at_end junk shm shm_mod.off ds priority opts hend hfit1]
      apply subTablesOk_of_update shm _ shm_mod.off ds hinv
      · intro o d hk; exact sub_info_set_other _ _ _ _ _ _ hk
      · intro o d _; rfl
      · right
        simp only [sub_info_set_same, SUB_SIZE] at hend ⊢
        omega
      · intro o d hk hc
        obtain ⟨h1, h2⟩ := subTablesOk_other shm shm_mod.off ds o d hinv hk hc
        simp only [sub_info_set_same, SUB_SIZE] at hend h1 h2 ⊢
        omega
    · rw [sub_add_size, if_neg hend] at hfit
      rw [subscription_add_move junk shm shm_mod.off ds priority opts hend hpos hfit]
      apply subTablesOk_of_update shm _ shm_mod.off ds hinv
      · intro o d hk; exact sub_info_set_other _ _ _ _ _ _ hk
      · intro o d hk; exact sub_info_set_other _ _ _ _ _ _ hk
      · right
        simp only [sub_info_set_same, SUB_SIZE]
        omega
      · intro o d hk hc
        obtain ⟨h1, h2⟩ := subTablesOk_other shm shm_mod.off ds o d hinv hk hc
        simp only [sub_info_set_same, SUB_SIZE] at h1 h2 ⊢
        omega
  | false =>
    have e : sr_shmmod_subscription junk remap_ret conn shm mod_name ds priority opts false
        = sr_shmmod_subscription_del junk remap_ret shm shm_mod.off ds priority opts := by
      simp only [sr_shmmod_subscription, hfind, Bool.false_eq_true, if_false]
    rw [e] at hok ⊢
    have hfit1 : shm.shm_size < 2 ^ 32 := hdel rfl
    cases hf : sr_shmmod_subscription_find shm shm_mod.off ds priority opts with
    | none => simp [sr_shmmod_subscription_del, hf] at hok
    | some i =>
      obtain ⟨hi, _, _⟩ := subscription_find_spec shm shm_mod.off ds priority opts i hf
      rw [subscription_del_ok junk remap_ret shm shm_mod.off ds priority opts i hf hfit1 hok]
      have hkin : shm.subs shm_mod.off ds < shm.shm_size ∧
          shm.subs shm_mod.off ds + shm.sub_count shm_mod.off ds * SUB_SIZE ≤ shm.shm_size := by
        rcases hkeyinv with h | h
        · omega
        · exact h
      apply subTablesOk_of_update shm _ shm_mod.off ds hinv
      · intro o d hk; exact sub_info_set_other _ _ _ _ _ _ hk
      · intro o d hk
        dsimp only
        by_cases h0 : shm.sub_count shm_mod.off ds - 1 = 0
        · rw [if_pos h0]
          exact sub_info_set_other _ _ _ _ _ _ hk
        · rw [if_neg h0]
      · by_cases h0 : shm.sub_count shm_mod.off ds - 1 = 0
        · left
          simp only [sub_info_set_same, h0]
        · right
          simp only [sub_info_set_same, h0, if_false]
          simp only [SUB_SIZE] at hkin ⊢
          split_ifs with hend
          · simp only [SUB_SIZE] at hend
            omega
          · omega
      · intro o d hk hc
        obtain ⟨h1, h2⟩ := subTablesOk_other shm shm_mod.off ds o d hinv hk hc
        simp only [sub_info_set_same]
        simp only [SUB_SIZE] at hkin h1 h2 ⊢
        by_cases h0 : shm.sub_count shm_mod.off ds - 1 = 0
        · simp only [h0, if_true, sub_info_set_same, true_or, and_true]
          split_ifs with hend
          · simp only [SUB_SIZE] at hend
            omega
          · omega
        · simp only [h0, if_false]
          split_ifs with hend
          · simp only [SUB_SIZE] at hend
            omega
          · omega

theorem ex_shm_tables_ok : SubTablesOk ex_shm := by
  constructor
  · intro o d
    simp only [ex_shm, SUB_SIZE]
    by_cases h1 : o = 300 ∧ d = 1
    · simp [h1]
    · by_cases h2 : o = 200 ∧ d = 1
      · simp [h1, h2]
      · simp [h1, h2]
  · intro o1 d1 o2 d2 hne
    simp only [ex_shm, SUB_SIZE]
    by_cases h1 : o1 = 300 ∧ d1 = 1
    · by_cases h2 : o2 = 300 ∧ d2 = 1
      · exfalso; apply hne; rw [h1.1, h1.2, h2.1, h2.2]
      · by_cases h3 : o2 = 200 ∧ d2 = 1
        · simp [h1, h3]
        · simp [h1, h2, h3]
    · by_cases h4 : o1 = 200 ∧ d1 = 1
      · by_cases h2 : o2 = 300 ∧ d2 = 1
        · simp [h4, h2]
        · by_cases h3 : o2 = 200 ∧ d2 = 1
          · exfalso; apply hne; rw [h4.1, h4.2, h3.1, h3.2]
          · simp [h2, h3]
      · simp [h1, h4]

/-- Witness of C17 as amended: a subscription is added to the module `m` of the example, whose table
ends at the end of the segment, and to the module `a`, whose table does not. -/
theorem subscription_add_appends_witness :
    (sub_table (sr_shmmod_subscription ex_junk SR_ERR_OK ex_conn ex_shm 1 1 9 4 true).2 300 1
        = [{ priority := 5, opts := 0 }, { priority := 7, opts := 1 },
           { priority := 9, opts := 4 }] ∧
      (sr_shmmod_subscription ex_junk SR_ERR_OK ex_conn ex_shm 1 1 9 4 true).2.shm_size = 1024 ∧
      (sr_shmmod_subscription ex_junk SR_ERR_OK ex_conn ex_shm 1 1 9 4 true).2.subs 300 1 = 1000) ∧
    (sub_table (sr_shmmod_subscription ex_junk SR_ERR_OK ex_conn ex_shm 2 1 9 4 true).2 200 1
        = [{ priority := 1, opts := 0 }, { priority := 2, opts := 0 },
           { priority := 9, opts := 4 }] ∧
      (sr_shmmod_subscription ex_junk SR_ERR_OK ex_conn ex_shm 2 1 9 4 true).2.shm_size = 1040 ∧
      (sr_shmmod_subscription ex_junk SR_ERR_OK ex_conn ex_shm 2 1 9 4 true).2.subs 200 1 = 1016) :=
  ⟨⟨(subscription_add_appends ex_junk SR_ERR_OK ex_conn ex_shm 1 1 9 4 ex_mod_m rfl
        (by decide) (by decide) (by decide)).2.1,
      ((subscription_add_appends ex_junk SR_ERR_OK ex_conn ex_shm 1 1 9 4 ex_mod_m rfl
        (by decide) (by decide) (by decide)).2.2.1 (by decide)).1,
      ((subscription_add_appends ex_junk SR_ERR_OK ex_conn ex_shm 1 1 9 4 ex_mod_m rfl
        (by decide) (by decide) (by decide)).2.2.1 (by decide)).2⟩,
    ⟨(subscription_add_appends ex_junk SR_ERR_OK ex_conn ex_shm 2 1 9 4 ex_mod_a rfl
        (by decide) (by decide) (by decide)).2.1,
      ((subscription_add_appends ex_junk SR_ERR_OK ex_conn ex_shm 2 1 9 4 ex_mod_a rfl
        (by decide) (by decide) (by decide)).2.2.2.1 (by decide)).1,
      ((subscription_add_appends ex_junk SR_ERR_OK ex_conn ex_shm 2 1 9 4 ex_mod_a rfl
        (by decide) (by decide) (by decide)).2.2.2.1 (by decide)).2⟩⟩

/-- Witness of C18: the first of the two subscriptions of the module `m` of the example is
removed; the last record takes its slot and the segment shrinks by one record. -/
theorem subscription_del_replaces_with_last_witness :
    (sr_shmmod_subscription ex_junk SR_ERR_OK ex_conn ex_shm 1 1 5 0 false).1 = SR_ERR_OK ∧
    sub_table (sr_shmmod_subscription ex_junk SR_ERR_OK ex_conn ex_shm 1 1 5 0 false).2 300 1
      = [{ priority := 7, opts := 1 }] ∧
    (sr_shmmod_subscription ex_junk SR_ERR_OK ex_conn ex_shm 1 1 5 0 false).2.shm_size = 1008 ∧
    ∃ i, sr_shmmod_subscription_find ex_shm ex_mod_m.off 1 5 0 = some i ∧
      i < ex_shm.sub_count ex_mod_m.off 1 :=
  ⟨by decide, by decide, by decide,
    (subscription_del_replaces_with_last ex_junk SR_ERR_OK ex_conn ex_shm 1 1 5 0 ex_mod_m rfl
      (by decide) (by decide)).imp (fun _ h => ⟨h.1, h.2.1⟩)⟩

/-- Witness of C19 as amended: the tables of the example segment are well placed, before and
after a subscription is added and after one is removed. -/
theorem subscription_keeps_tables_inside_witness :
    SubTablesOk ex_shm ∧
    SubTablesOk (sr_shmmod_subscription ex_junk SR_ERR_OK ex_conn ex_shm 2 1 9 4 true).2 ∧
    SubTablesOk (sr_shmmod_subscription ex_junk SR_ERR_OK ex_conn ex_shm 1 1 5 0 false).2 :=
  ⟨ex_shm_tables_ok,
    subscription_keeps_tables_inside ex_junk SR_ERR_OK ex_conn ex_shm 2 1 9 4 true ex_mod_a rfl
      ex_shm_tables_ok (by decide) (by decide) (by decide),
    subscription_keeps_tables_inside ex_junk SR_ERR_OK ex_conn ex_shm 1 1 5 0 false ex_mod_m rfl
      ex_shm_tables_ok (by decide) (by decide) (by decide)⟩

/-! ## RPC delivery (`sr_rpc_send_tree`) -/

theorem rpc_abort_spec {σ : Type} (seen : List (rpc_subscriber σ)) :
    ∀ (st : σ) (log : List rpc_call),
      ∃ aborts, (rpc_abort seen st log).2 = log ++ aborts ∧
        aborts.map (fun c => (c.priority, c.event)) = seen.map (rpc_seen SR_EV_ABORT) ∧
        ∀ c ∈ aborts, c.event = SR_EV_ABORT := by
  induction seen with
  | nil => intro st log; exact ⟨[], by simp [rpc_abort], rfl, by simp⟩
  | cons s rest ih =>
    intro st log
    obtain ⟨ab, h1, h2, h3⟩ := ih (s.callback SR_EV_ABORT st).2
      (log ++ [{ priority := s.priority, event := SR_EV_ABORT,
                 ret := (s.callback SR_EV_ABORT st).1 }])
    refine ⟨{ priority := s.priority, event := SR_EV_ABORT,
              ret := (s.callback SR_EV_ABORT st).1 } :: ab, ?_, ?_, ?_⟩
    · simp only [rpc_abort, h1, List.append_assoc, List.singleton_append]
    · simp only [List.map_cons, h2, rpc_seen]
    · intro c hc
      rcases List.mem_cons.mp hc with h | h
      · rw [h]
      · exact h3 c h

/-- The two ways the delivery loop ends: every callback returned SR_ERR_OK, or the callbacks
of the subscribers `pre` returned SR_ERR_OK, the callback of `s` failed, and the abort
event went to the subscribers seen before and to `pre`. -/
theorem rpc_deliver_spec {σ : Type} (rest : List (rpc_subscriber σ)) :
    ∀ (seen : List (rpc_subscriber σ)) (st : σ) (log : List rpc_call),
      ((rpc_deliver rest seen st log).1 = SR_ERR_OK ∧
        (rpc_deliver rest seen st log).2.2
          = log ++ rest.map rpc_ok_call) ∨
      (∃ pre s post err aborts, rest = pre ++ s :: post ∧ err ≠ SR_ERR_OK ∧
        (rpc_deliver rest seen st log).1 = SR_ERR_CALLBACK_FAILED ∧
        (rpc_deliver rest seen st log).2.2
          = log ++ (pre.map rpc_ok_call
              ++ ({ priority := s.priority, event := SR_EV_RPC, ret := err } :: aborts)) ∧
        aborts.map (fun c => (c.priority, c.event)) = (seen ++ pre).map (rpc_seen SR_EV_ABORT) ∧
        ∀ c ∈ aborts, c.event = SR_EV_ABORT) := by
  induction rest with
  | nil => intro seen st log; left; simp [rpc_deliver]
  | cons s rest ih =>
    intro seen st log
    by_cases hf : (s.callback SR_EV_RPC st).1 = SR_ERR_OK
    · have e : rpc_deliver (s :: rest) seen st log
          = rpc_deliver rest (seen ++ [s]) (s.callback SR_EV_RPC st).2
              (log ++ [{ priority := s.priority, event := SR_EV_RPC, ret := SR_ERR_OK }]) := by
        simp only [rpc_deliver, hf, ne_eq, not_true_eq_false, if_false]
      rw [e]
      rcases ih (seen ++ [s]) (s.callback SR_EV_RPC st).2
          (log ++ [{ priority := s.priority, event := SR_EV_RPC, ret := SR_ERR_OK }]) with
        ⟨a, b⟩ | ⟨pre, x, post, err, ab, h1, h2, h3, h4, h5, h6⟩
      · left
        refine ⟨a, ?_⟩
        rw [b]
        simp [rpc_ok_call]
      · right
        refine ⟨s :: pre, x, post, err, ab, ?_, h2, h3, ?_, ?_, h6⟩
        · rw [h1]; rfl
        · rw [h4]; simp [rpc_ok_call]
        · rw [h5]; simp
    · right
      obtain ⟨ab, h1, h2, h3⟩ := rpc_abort_spec seen (s.callback SR_EV_RPC st).2
        (log ++ [{ priority := s.priority, event := SR_EV_RPC,
                   ret := (s.callback SR_EV_RPC st).1 }])
      refine ⟨[], s, rest, (s.callback SR_EV_RPC st).1, ab, rfl, hf, ?_, ?_, ?_, h3⟩
      · simp only [rpc_deliver, hf, ne_eq, not_false_eq_true, if_true]
      · simp only [rpc_deliver, hf, ne_eq, not_false_eq_true, if_true, h1, List.map_nil,
          List.nil_append, List.append_assoc, List.singleton_append]
      · rw [h2]; simp

theorem rpc_order_perm {σ : Type} (subs : List (rpc_subscriber σ)) :
    (rpc_order subs).Perm subs :=
  List.perm_insertionSort _ subs

theorem rpc_order_descending {σ : Type} (subs : List (rpc_subscriber σ))
    (hd : (subs.map (fun s => s.priority)).Nodup) :
    ((rpc_order subs).map (fun s => s.priority)).Pairwise (fun a b => a > b) := by
  have hs : (rpc_order subs).Sorted (fun a b => a.priority ≥ b.priority) := by
    haveI : IsTotal (rpc_subscriber σ) (fun a b => a.priority ≥ b.priority) :=
      ⟨fun a b => Nat.le_total b.priority a.priority⟩
    haveI : IsTrans (rpc_subscriber σ) (fun a b => a.priority ≥ b.priority) :=
      ⟨fun a b c h1 h2 => Nat.le_trans h2 h1⟩
    exact List.sorted_insertionSort _ subs
  have hn : ((rpc_order subs).map (fun s => s.priority)).Nodup :=
    ((rpc_order_perm subs).map _).nodup_iff.mpr hd
  have hs1 : ((rpc_order subs).map (fun s => s.priority)).Pairwise (fun a b => a ≥ b) :=
    List.pairwise_map.mpr hs
  have := List.Pairwise.and hs1 hn
  exact this.imp (fun h => by omega)

/-- C20: for an RPC whose subscribers have distinct priorities, `sr_rpc_send_tree` calls the
callbacks in descending priority order. If no callback fails on the RPC event, the send
returns SR_ERR_OK after exactly one invocation of each of the `k` callbacks. If the `j`-th
invocation (of the callback with the `j`-th highest priority) returns an error, the send
returns SR_ERR_CALLBACK_FAILED, no callback of lower priority is invoked, and the `j - 1`
callbacks that succeeded are invoked once more with SR_EV_ABORT, higher priority first,
while the failing one is not: `2j - 1` invocations in total. -/
theorem rpc_send_priority_order {σ : Type} (subs : List (rpc_subscriber σ)) (st : σ)
    (hd : (subs.map (fun s => s.priority)).Nodup) :
    (rpc_order subs).Perm subs ∧
    ((rpc_order subs).map (fun s => s.priority)).Pairwise (fun a b => a > b) ∧
    ((∀ c ∈ (sr_rpc_send_tree subs st).2.2, c.event = SR_EV_RPC → c.ret = SR_ERR_OK) →
      (sr_rpc_send_tree subs st).1 = SR_ERR_OK ∧
      (sr_rpc_send_tree subs st).2.2.map (fun c => (c.priority, c.event))
        = (rpc_order subs).map (rpc_seen SR_EV_RPC) ∧
      (sr_rpc_send_tree subs st).2.2.length = subs.length) ∧
    (∀ j c, 1 ≤ j → j ≤ subs.length → (sr_rpc_send_tree subs st).2.2[j - 1]? = some c →
      c.event = SR_EV_RPC → c.ret ≠ SR_ERR_OK →
      (sr_rpc_send_tree subs st).1 = SR_ERR_CALLBACK_FAILED ∧
      (sr_rpc_send_tree subs st).2.2.map (fun c => (c.priority, c.event))
        = ((rpc_order subs).take j).map (rpc_seen SR_EV_RPC)
          ++ ((rpc_order subs).take (j - 1)).map (rpc_seen SR_EV_ABORT) ∧
      (sr_rpc_send_tree subs st).2.2.length = 2 * j - 1) := by
  refine ⟨rpc_order_perm subs, rpc_order_descending subs hd, ?_, ?_⟩
  · intro hall
    rcases rpc_deliver_spec (rpc_order subs) [] st [] with
      ⟨a, b⟩ | ⟨pre, s, post, err, ab, _, h2, _, h4, _, _⟩
    · refine ⟨a, ?_, ?_⟩
      · show (rpc_deliver (rpc_order subs) [] st []).2.2.map _ = _
        rw [b]
        simp [rpc_seen, rpc_ok_call, Function.comp_def]
      · show (rpc_deliver (rpc_order subs) [] st []).2.2.length = _
        rw [b]
        simp [(rpc_order_perm subs).length_eq]
    · exfalso
      have hmem : ({ priority := s.priority, event := SR_EV_RPC, ret := err } : rpc_call)
          ∈ (sr_rpc_send_tree subs st).2.2 := by
        show _ ∈ (rpc_deliver (rpc_order subs) [] st []).2.2
        rw [h4]
        simp
      exact h2 (hall _ hmem rfl)
  · intro j c hj1 _ hget hev hret
    have hget1 : (rpc_deliver (rpc_order subs) [] st []).2.2[j - 1]? = some c := hget
    rcases rpc_deliver_spec (rpc_order subs) [] st [] with
      ⟨_, b⟩ | ⟨pre, s, post, err, ab, h1, _, h3, h4, h5, h6⟩
    · exfalso
      rw [b] at hget1
      have hc : c ∈ (rpc_order subs).map rpc_ok_call := by
        have := List.getElem?_mem hget1
        simpa using this
      obtain ⟨x, _, rfl⟩ := List.mem_map.mp hc
      exact hret rfl
    · rw [h4, List.nil_append] at hget1
      have hlen : ab.length = pre.length := by
        have := congrArg List.length h5
        simpa using this
      have hjm : j - 1 = pre.length := by
        rcases Nat.lt_trichotomy (j - 1) pre.length with hlt | heq | hgt
        · exfalso
          rw [List.getElem?_append_left (by simpa using hlt)] at hget1
          have hc := List.getElem?_mem hget1
          obtain ⟨x, _, rfl⟩ := List.mem_map.mp hc
          exact hret rfl
        · exact heq
        · exfalso
          rw [List.getElem?_append_right (by simp; omega)] at hget1
          simp only [List.length_map] at hget1
          obtain ⟨n, hn⟩ : ∃ n, j - 1 - pre.length = n + 1 := ⟨j - 1 - pre.length - 1, by omega⟩
          rw [hn, List.getElem?_cons_succ] at hget1
          have hc := List.getElem?_mem hget1
          have := h6 c hc
          rw [hev] at this
          exact absurd this (by decide)
      have hj : j = pre.length + 1 := by omega
      refine ⟨h3, ?_, ?_⟩
      · show (rpc_deliver (rpc_order subs) [] st []).2.2.map _ = _
        rw [h4, h1, hj]
        have t1 : (pre ++ s :: post).take (pre.length + 1) = pre ++ [s] := by
          rw [List.take_append_eq_append_take]
          simp
        have t2 : (pre ++ s :: post).take (pre.length + 1 - 1) = pre := by
          simp
        rw [t1, t2]
        simp only [List.nil_append, List.map_append, List.map_cons, List.map_map, h5,
          List.map_nil]
        simp [rpc_seen, rpc_ok_call, Function.comp_def]
      · show (rpc_deliver (rpc_order subs) [] st []).2.2.length = _
        rw [h4]
        simp only [List.nil_append, List.length_append, List.length_map, List.length_cons, hlen]
        omega

/-- The model of the sender passes `test_multi_fail`: the four sends return
SR_ERR_CALLBACK_FAILED three times and then SR_ERR_OK, after 5, 3, 1 and 3 invocations, and
every assertion of the callbacks holds. -/
theorem multi_fail_test_passes :
    (multi_fail_send multi_fail_init).1 = SR_ERR_CALLBACK_FAILED ∧
    (multi_fail_send multi_fail_init).2.1.cb_called = 5 ∧
    (multi_fail_send (multi_fail_send multi_fail_init).2.1).1 = SR_ERR_CALLBACK_FAILED ∧
    (multi_fail_send (multi_fail_send multi_fail_init).2.1).2.1.cb_called = 3 ∧
    (multi_fail_send (multi_fail_send (multi_fail_send multi_fail_init).2.1).2.1).1
      = SR_ERR_CALLBACK_FAILED ∧
    (multi_fail_send (multi_fail_send (multi_fail_send multi_fail_init).2.1).2.1).2.1.cb_called
      = 1 ∧
    (multi_fail_send
      (multi_fail_send (multi_fail_send (multi_fail_send multi_fail_init).2.1).2.1).2.1).1
      = SR_ERR_OK ∧
    (multi_fail_send
      (multi_fail_send (multi_fail_send (multi_fail_send multi_fail_init).2.1).2.1).2.1).2.1.cb_called
      = 3 ∧
    (multi_fail_send
      (multi_fail_send (multi_fail_send (multi_fail_send multi_fail_init).2.1).2.1).2.1).2.1.asserts
      = true := by
  decide

/-- Witness of C20: the first send of `test_multi_fail`; the third callback invoked, the one
of priority 0, fails. -/
theorem rpc_send_priority_order_witness :
    (multi_fail_subs.map (fun s => s.priority)).Nodup ∧
    (sr_rpc_send_tree multi_fail_subs multi_fail_init).2.2[3 - 1]?
      = some { priority := 0, event := SR_EV_RPC, ret := SR_ERR_NOMEM } ∧
    ((sr_rpc_send_tree multi_fail_subs multi_fail_init).1 = SR_ERR_CALLBACK_FAILED ∧
      (sr_rpc_send_tree multi_fail_subs multi_fail_init).2.2.map (fun c => (c.priority, c.event))
        = [(2, SR_EV_RPC), (1, SR_EV_RPC), (0, SR_EV_RPC), (2, SR_EV_ABORT), (1, SR_EV_ABORT)] ∧
      (sr_rpc_send_tree multi_fail_subs multi_fail_init).2.2.length = 2 * 3 - 1) :=
  ⟨by decide, by decide,
    (rpc_send_priority_order multi_fail_subs multi_fail_init (by decide)).2.2.2 3
      { priority := 0, event := SR_EV_RPC, ret := SR_ERR_NOMEM }
      (by decide) (by decide) (by decide) rfl (by decide)⟩
/-! ## The CHANGED bits after validation -/

/-! ### The first loop and the splitting keep every field of an entry but its data -/

theorem validate_connect_map {α : Type} (g : sr_mod_info_mod_s → α)
    (hg : ∀ (m : sr_mod_info_mod_s) (d : List lyd_node), g { m with mod_data := d } = g m)
    (lib : ly_lib) (conn : sr_conn_ctx_t) (ds : Nat) (mods : List sr_mod_info_mod_s) :
    ∀ l : validate_locals,
      (sr_shmmod_validate_connect lib conn ds mods l).2.1.map g = mods.map g := by
  induction mods with
  | nil => intro l; simp [sr_shmmod_validate_connect]
  | cons m rest ih =>
    intro l
    by_cases hreq : m.state &&& MOD_INFO_TYPE_MASK = MOD_INFO_REQ
    · by_cases hret : (sr_modinfo_add_instid_deps lib conn.shm (sr_mod_at conn.shm m.shm_mod)
          m.mod_data l.dep_set).1 = SR_ERR_OK
      · by_cases hd : m.mod_data = []
        · rw [validate_connect_req_nodata lib conn ds m rest l hreq hret hd]
          simp only [List.map_cons, ih]
        · rw [validate_connect_req_data lib conn ds m rest l hreq hret hd]
          simp only [List.map_cons, ih, hg]
      · rw [validate_connect_req_fail lib conn ds m rest l hreq hret]
    · by_cases hdep : m.state &&& MOD_INFO_TYPE_MASK = MOD_INFO_INV_DEP
          ∨ m.state &&& MOD_INFO_TYPE_MASK = MOD_INFO_DEP
      · by_cases hret : (sr_ly_module_data_get lib m.ly_mod ds).1 = SR_ERR_OK
        · rw [validate_connect_dep_ok lib conn ds m rest l hreq hdep hret]
          simp only [List.map_cons, ih, hg]
        · rw [validate_connect_dep_fail lib conn ds m rest l hreq hdep hret]
          simp only [List.map_cons, hg]
      · rw [validate_connect_other lib conn ds m rest l hreq hdep]
        simp only [List.map_cons, ih]

theorem validate_split_map {α : Type} (g : sr_mod_info_mod_s → α)
    (hg : ∀ (m : sr_mod_info_mod_s) (d : List lyd_node), g { m with mod_data := d } = g m)
    (mods : List sr_mod_info_mod_s) :
    ∀ first_root : List lyd_node,
      (sr_shmmod_validate_split mods first_root).map g = mods.map g := by
  induction mods with
  | nil => intro fr; cases fr <;> rfl
  | cons m rest ih =>
    intro fr
    cases fr with
    | nil => simp only [sr_shmmod_validate_split, List.map_cons, ih]
    | cons n tl =>
      by_cases hn : n.module = m.ly_mod
      · simp only [sr_shmmod_validate_split, hn, ne_eq, not_true_eq_false, if_false,
          List.map_cons, ih, hg]
      · simp only [sr_shmmod_validate_split, hn, ne_eq, not_false_eq_true, if_true,
          List.map_cons, ih]

theorem validate_changed_data (diff : List lyd_node) (m : sr_mod_info_mod_s)
    (d : List lyd_node) :
    sr_shmmod_validate_changed diff { m with mod_data := d }
      = { sr_shmmod_validate_changed diff m with mod_data := d } := by
  unfold sr_shmmod_validate_changed
  dsimp only
  split_ifs <;> rfl

/-- The result of `sr_shmmod_validate` when it returns SR_ERR_OK. -/
theorem validate_ok_result (lib : ly_lib) (mi : sr_mod_info_s) (fd : Bool)
    (h : (sr_shmmod_validate lib mi fd).1 = SR_ERR_OK) :
    (fd = true ∧ (sr_shmmod_validate lib mi fd).2.1
      = { mi with
            mods := sr_shmmod_validate_split
              ((sr_shmmod_validate_loop1 lib mi).2.1.map
                (sr_shmmod_validate_changed (sr_shmmod_validate_merge lib mi fd).2.1))
              (sr_shmmod_validate_call lib mi fd).2.1
            diff := (sr_shmmod_validate_merge lib mi fd).2.1
            dflt_change := (sr_shmmod_validate_merge lib mi fd).2.2 }) ∨
    (fd = false ∧ (sr_shmmod_validate lib mi fd).2.1
      = { mi with
            mods := sr_shmmod_validate_split (sr_shmmod_validate_loop1 lib mi).2.1
              (sr_shmmod_validate_call lib mi fd).2.1 }) := by
  unfold sr_shmmod_validate at h ⊢
  by_cases h1 : (sr_shmmod_validate_loop1 lib mi).1 ≠ SR_ERR_OK
  · rw [if_pos h1] at h; exact absurd h h1
  · rw [if_neg h1] at h ⊢
    by_cases h2 : (sr_shmmod_validate_loop2 lib mi).1 ≠ SR_ERR_OK
    · rw [if_pos h2] at h; exact absurd h h2
    · rw [if_neg h2] at h ⊢
      by_cases h3 : (sr_shmmod_validate_call lib mi fd).1 ≠ 0
      · rw [if_pos h3] at h; simp at h
      · rw [if_neg h3] at h ⊢
        by_cases h4 : fd = true
        · rw [if_pos h4] at h ⊢
          by_cases h5 : (sr_shmmod_validate_merge lib mi fd).1 ≠ SR_ERR_OK
          · rw [if_pos h5] at h; exact absurd h h5
          · rw [if_neg h5]
            exact Or.inl ⟨h4, rfl⟩
        · rw [if_neg h4]
          exact Or.inr ⟨by simpa using h4, rfl⟩

/-- The entries of the mod-info that `sr_shmmod_validate` returns with SR_ERR_OK, up to their
data: with `finish_diff` they went through the loop "additional modules can be modified"
with the merged diff, without it they are the entries of the call. -/
theorem validate_ok_map {α : Type} (g : sr_mod_info_mod_s → α)
    (hg : ∀ (m : sr_mod_info_mod_s) (d : List lyd_node), g { m with mod_data := d } = g m)
    (lib : ly_lib) (mi : sr_mod_info_s) (fd : Bool)
    (h : (sr_shmmod_validate lib mi fd).1 = SR_ERR_OK) :
    (sr_shmmod_validate lib mi fd).2.1.mods.map g
      = if fd = true then
          mi.mods.map (fun m =>
            g (sr_shmmod_validate_changed (sr_shmmod_validate lib mi fd).2.1.diff m))
        else mi.mods.map g := by
  rcases validate_ok_result lib mi fd h with ⟨hfd, e⟩ | ⟨hfd, e⟩
  · rw [e, if_pos hfd]
    dsimp only
    rw [validate_split_map g hg, List.map_map]
    have := validate_connect_map
      (fun m => g (sr_shmmod_validate_changed (sr_shmmod_validate_merge lib mi fd).2.1 m))
      (fun m d => by dsimp only; rw [validate_changed_data]; exact hg _ d) lib mi.conn mi.ds mi.mods
      { first_root := [], dep_set := [], valid_mod_count := 0 }
    exact this
  · rw [e, if_neg (by simp [hfd])]
    dsimp only
    rw [validate_split_map g hg]
    exact validate_connect_map g hg lib mi.conn mi.ds mi.mods
      { first_root := [], dep_set := [], valid_mod_count := 0 }

theorem and_type_inv_dep {s : Nat} (h : s &&& MOD_INFO_TYPE_MASK = MOD_INFO_INV_DEP) :
    s &&& MOD_INFO_INV_DEP ≠ 0 := by
  have e : s &&& MOD_INFO_INV_DEP = (s &&& MOD_INFO_TYPE_MASK) &&& MOD_INFO_INV_DEP := by
    rw [Nat.land_assoc]; rfl
  rw [e, h]; decide

theorem and_type_dep {s : Nat} (h : s &&& MOD_INFO_TYPE_MASK = MOD_INFO_DEP) :
    s &&& MOD_INFO_INV_DEP = 0 := by
  have e : s &&& MOD_INFO_INV_DEP = (s &&& MOD_INFO_TYPE_MASK) &&& MOD_INFO_INV_DEP := by
    rw [Nat.land_assoc]; rfl
  rw [e, h]; decide

theorem or_changed_and (s : Nat) : (s ||| MOD_INFO_CHANGED) &&& MOD_INFO_CHANGED ≠ 0 := by
  intro h
  have := congrArg (fun n => n.testBit 4) h
  simp [Nat.testBit_and, Nat.testBit_or, MOD_INFO_CHANGED] at this
  have h16 : Nat.testBit 16 4 = true := by decide
  rw [h16] at this
  simp at this

/-- C23: after `sr_shmmod_validate` returns SR_ERR_OK the mod-info has the same entries in
the same order, with the same schema modules. With `finish_diff = 1` an entry of type
INV_DEP has MOD_INFO_CHANGED iff it had it before the call or a top-level node of the
merged `mod_info->diff` belongs to its module, and its state is otherwise the one it
had; the state of an entry of type DEP is the one it had, so it gains no
MOD_INFO_CHANGED. With `finish_diff = 0` the state of every entry is the one it had. -/
theorem validate_changed_inv_dep (lib : ly_lib) (mi : sr_mod_info_s) (fd : Bool)
    (h : (sr_shmmod_validate lib mi fd).1 = SR_ERR_OK) :
    (sr_shmmod_validate lib mi fd).2.1.mods.length = mi.mods.length ∧
    ∀ (i : Nat) (m m1 : sr_mod_info_mod_s), mi.mods[i]? = some m →
      (sr_shmmod_validate lib mi fd).2.1.mods[i]? = some m1 →
      m1.shm_mod = m.shm_mod ∧ m1.ly_mod = m.ly_mod ∧
      (fd = true → m.state &&& MOD_INFO_TYPE_MASK = MOD_INFO_INV_DEP →
        (m1.state &&& MOD_INFO_CHANGED ≠ 0 ↔
          (m.state &&& MOD_INFO_CHANGED ≠ 0 ∨
            ∃ n ∈ (sr_shmmod_validate lib mi fd).2.1.diff, n.module = m.ly_mod)) ∧
        (m1.state = m.state ∨ m1.state = m.state ||| MOD_INFO_CHANGED)) ∧
      (fd = true → m.state &&& MOD_INFO_TYPE_MASK = MOD_INFO_DEP → m1.state = m.state) ∧
      (fd = false → m1.state = m.state) := by
  have hk := validate_ok_map (fun m => (m.shm_mod, m.ly_mod, m.state)) (fun _ _ => rfl) lib mi fd h
  refine ⟨?_, ?_⟩
  · have := congrArg List.length hk
    by_cases hfd : fd = true
    · simpa [hfd] using this
    · simpa [hfd] using this
  · intro i m m1 hm hm1
    by_cases hfd : fd = true
    · rw [if_pos hfd] at hk
      have hi := congrArg (fun l => l[i]?) hk
      simp only [List.getElem?_map, hm, hm1, Option.map_some', Option.some.injEq,
        Prod.mk.injEq] at hi
      obtain ⟨e1, e2, e3⟩ := hi
      unfold sr_shmmod_validate_changed at e1 e2 e3
      refine ⟨?_, ?_, ?_, ?_, fun h => absurd hfd (by simp [h])⟩
      · rw [e1]; split_ifs <;> rfl
      · rw [e2]; split_ifs <;> rfl
      · intro _ hty
        have hb := and_type_inv_dep hty
        by_cases hn : ∃ n ∈ (sr_shmmod_validate lib mi fd).2.1.diff, n.module = m.ly_mod
        · have hany : (sr_shmmod_validate lib mi fd).2.1.diff.any
              (fun iter => iter.module == m.ly_mod) = true := by
            simpa using hn
          rw [if_pos ⟨hb, hany⟩] at e3
          dsimp only at e3
          rw [e3]
          exact ⟨⟨fun _ => Or.inr hn, fun _ => or_changed_and _⟩, Or.inr rfl⟩
        · have hany : ¬ ((sr_shmmod_validate lib mi fd).2.1.diff.any
              (fun iter => iter.module == m.ly_mod) = true) := by
            simpa using hn
          rw [if_neg (fun hc => hany hc.2)] at e3
          rw [e3]
          exact ⟨⟨fun hc => Or.inl hc, fun hc => hc.elim id (fun hc => absurd hc hn)⟩, Or.inl rfl⟩
      · intro _ hty
        have hb := and_type_dep hty
        rw [if_neg (fun hc => hc.1 hb)] at e3
        exact e3
    · rw [if_neg hfd] at hk
      have hi := congrArg (fun l => l[i]?) hk
      simp only [List.getElem?_map, hm, hm1, Option.map_some', Option.some.injEq,
        Prod.mk.injEq] at hi
      obtain ⟨e1, e2, e3⟩ := hi
      exact ⟨e1, e2, fun h => absurd h hfd, fun h => absurd h hfd, fun _ => e3⟩

/-- Witness of C23: validation of the example mod-info adds a change to the module of
the INV_DEP entry, which gains MOD_INFO_CHANGED; the DEP entry keeps its state. -/
theorem validate_changed_inv_dep_witness :
    (sr_shmmod_validate ex_lib_val_diff ex_edited true).1 = SR_ERR_OK ∧
    (sr_shmmod_validate ex_lib_val_diff ex_edited true).2.1.mods.map (fun m => m.state)
      = [ MOD_INFO_DEP, MOD_INFO_REQ ||| MOD_INFO_CHANGED,
          MOD_INFO_INV_DEP ||| MOD_INFO_CHANGED] ∧
    ((sr_shmmod_validate ex_lib_val_diff ex_edited true).2.1.mods.length = ex_edited.mods.length ∧
    ∀ (i : Nat) (m m1 : sr_mod_info_mod_s), ex_edited.mods[i]? = some m →
      (sr_shmmod_validate ex_lib_val_diff ex_edited true).2.1.mods[i]? = some m1 →
      m1.shm_mod = m.shm_mod ∧ m1.ly_mod = m.ly_mod ∧
      (true = true → m.state &&& MOD_INFO_TYPE_MASK = MOD_INFO_INV_DEP →
        (m1.state &&& MOD_INFO_CHANGED ≠ 0 ↔
          (m.state &&& MOD_INFO_CHANGED ≠ 0 ∨
            ∃ n ∈ (sr_shmmod_validate ex_lib_val_diff ex_edited true).2.1.diff,
              n.module = m.ly_mod)) ∧
        (m1.state = m.state ∨ m1.state = m.state ||| MOD_INFO_CHANGED)) ∧
      (true = true → m.state &&& MOD_INFO_TYPE_MASK = MOD_INFO_DEP → m1.state = m.state) ∧
      (true = false → m1.state = m.state)) :=
  ⟨by decide, by decide, validate_changed_inv_dep ex_lib_val_diff ex_edited true (by decide)⟩

/-! ## The dependency set of the instance-identifiers -/

theorem find_module_name {shm : List sr_mod_t} {name : Nat} {T : sr_mod_t}
    (h : sr_shmmain_find_module shm name = some T) : T.name = name := by
  have := List.find?_some h
  simpa using this

theorem ly_set_add_nodup {set : List Nat} (x : Nat) (h : set.Nodup) : (ly_set_add set x).Nodup := by
  unfold ly_set_add
  split_ifs with hx
  · exact h
  · exact List.Nodup.append h (List.nodup_singleton x) (by simpa using hx)

theorem ly_set_add_mem (set : List Nat) (x y : Nat) : y ∈ ly_set_add set x ↔ y ∈ set ∨ y = x := by
  unfold ly_set_add
  split_ifs with hx
  · constructor
    · exact Or.inl
    · rintro (h | rfl)
      · exact h
      · exact hx
  · simp

theorem foldl_set_add_nodup (l : List Nat) : ∀ set : List Nat, set.Nodup →
    (l.foldl ly_set_add set).Nodup := by
  induction l with
  | nil => intro set h; exact h
  | cons x rest ih => intro set h; exact ih _ (ly_set_add_nodup x h)

theorem foldl_set_add_mem (l : List Nat) : ∀ (set : List Nat) (y : Nat),
    y ∈ l.foldl ly_set_add set ↔ y ∈ set ∨ y ∈ l := by
  induction l with
  | nil => intro set y; simp
  | cons x rest ih =>
    intro set y
    rw [List.foldl_cons, ih, ly_set_add_mem]
    simp only [List.mem_cons]
    tauto

/-- The loop over the matched nodes: it fails iff a value names a module that the index
has not, and otherwise adds the module named by every value. -/
theorem add_instid_values_spec (lib : ly_lib) (sr_shm : List sr_mod_t) (set : List lyd_node) :
    ∀ dep_set : List Nat,
      ((∃ n ∈ set, sr_shmmain_find_module sr_shm (lib.sr_get_first_ns n.value) = none) →
        (sr_modinfo_add_instid_values lib sr_shm set dep_set).1 = SR_ERR_INTERNAL) ∧
      ((∀ n ∈ set, sr_shmmain_find_module sr_shm (lib.sr_get_first_ns n.value) ≠ none) →
        sr_modinfo_add_instid_values lib sr_shm set dep_set
          = (SR_ERR_OK, (set.map (fun n => lib.sr_get_first_ns n.value)).foldl ly_set_add dep_set)) ∧
      (dep_set.Nodup → (sr_modinfo_add_instid_values lib sr_shm set dep_set).2.Nodup) := by
  induction set with
  | nil => intro dep_set; simp [sr_modinfo_add_instid_values]
  | cons n rest ih =>
    intro dep_set
    cases hf : sr_shmmain_find_module sr_shm (lib.sr_get_first_ns n.value) with
    | none =>
      simp only [sr_modinfo_add_instid_values, hf]
      refine ⟨fun _ => trivial, fun h => absurd hf (h n (List.mem_cons_self _ _)), fun h => h⟩
    | some T =>
      have hn := find_module_name hf
      simp only [sr_modinfo_add_instid_values, hf, hn]
      obtain ⟨i1, i2, i3⟩ := ih (ly_set_add dep_set (lib.sr_get_first_ns n.value))
      refine ⟨?_, ?_, fun h => i3 (ly_set_add_nodup _ h)⟩
      · rintro ⟨n1, hn1, hx⟩
        rcases List.mem_cons.mp hn1 with rfl | hmem
        · rw [hf] at hx; exact absurd hx (by simp)
        · exact i1 ⟨n1, hmem, hx⟩
      · intro h
        rw [i2 (fun n1 hn1 => h n1 (List.mem_cons_of_mem _ hn1))]
        simp

/-- What the instance-identifier edge `d` does in the loop of `sr_modinfo_add_instid_deps`. -/
theorem add_instid_deps_loop_cons (lib : ly_lib) (sr_shm : List sr_mod_t)
    (mod_data : List lyd_node) (d : sr_mod_dep_t) (rest : List sr_mod_dep_t)
    (dep_set : List Nat) :
    (sr_modinfo_add_instid_deps_loop lib sr_shm mod_data (d :: rest) dep_set
        = sr_modinfo_add_instid_deps_loop lib sr_shm mod_data rest
            ((instid_edge_adds lib mod_data d).foldl ly_set_add dep_set) ∧
      (d.type = SR_DEP_INSTID → ∀ n ∈ instid_matches lib mod_data d,
        sr_shmmain_find_module sr_shm (lib.sr_get_first_ns n.value) ≠ none)) ∨
    ((sr_modinfo_add_instid_deps_loop lib sr_shm mod_data (d :: rest) dep_set).1
        = SR_ERR_INTERNAL ∧
      (dep_set.Nodup →
        (sr_modinfo_add_instid_deps_loop lib sr_shm mod_data (d :: rest) dep_set).2.Nodup)) := by
  by_cases hd : d.type = SR_DEP_INSTID
  · by_cases hdata : mod_data = []
    · left
      subst hdata
      have hm : instid_matches lib [] d = [] := by simp [instid_matches]
      refine ⟨?_, fun _ => by simp [hm]⟩
      by_cases hz : d.module = 0
      · simp [sr_modinfo_add_instid_deps_loop, instid_edge_adds, hd, hm, hz]
      · simp [sr_modinfo_add_instid_deps_loop, instid_edge_adds, hd, hm, hz]
    · cases hfp : lib.lyd_find_path mod_data d.xpath with
      | none =>
        right
        simp [sr_modinfo_add_instid_deps_loop, hd, hdata, hfp]
      | some set =>
        have hm : instid_matches lib mod_data d = set := by simp [instid_matches, hdata, hfp]
        by_cases hs : set = []
        · left
          refine ⟨?_, fun _ => by simp [hm, hs]⟩
          by_cases hz : d.module = 0
          · simp [sr_modinfo_add_instid_deps_loop, instid_edge_adds, hd, hm, hdata, hz, hfp, hs]
          · simp [sr_modinfo_add_instid_deps_loop, instid_edge_adds, hd, hm, hdata, hz, hfp, hs]
        · obtain ⟨v1, v2, v3⟩ := add_instid_values_spec lib sr_shm set dep_set
          by_cases hall : ∀ n ∈ set,
              sr_shmmain_find_module sr_shm (lib.sr_get_first_ns n.value) ≠ none
          · left
            refine ⟨?_, fun _ => by rw [hm]; exact hall⟩
            simp [sr_modinfo_add_instid_deps_loop, instid_edge_adds, hd, hm, hdata, hfp, hs,
              v2 hall]
          · right
            have hex : ∃ n ∈ set,
                sr_shmmain_find_module sr_shm (lib.sr_get_first_ns n.value) = none := by
              by_contra hc
              exact hall (fun n hn hx => hc ⟨n, hn, hx⟩)
            have e1 := v1 hex
            have e : sr_modinfo_add_instid_deps_loop lib sr_shm mod_data (d :: rest) dep_set
                = sr_modinfo_add_instid_values lib sr_shm set dep_set := by
              simp [sr_modinfo_add_instid_deps_loop, hd, hdata, hfp, hs, e1]
              exact Prod.ext e1.symm rfl
            rw [e]
            exact ⟨e1, v3⟩
  · left
    have hm : instid_edge_adds lib mod_data d = [] := by simp [instid_edge_adds, hd]
    refine ⟨?_, fun h => absurd h hd⟩
    simp [sr_modinfo_add_instid_deps_loop, hd, hm]

/-- The loop of `sr_modinfo_add_instid_deps` over the edges `deps`, started with the set
`dep_set`. -/
theorem add_instid_deps_loop_spec (lib : ly_lib) (sr_shm : List sr_mod_t)
    (mod_data : List lyd_node) (deps : List sr_mod_dep_t) :
    ∀ dep_set : List Nat,
      ((sr_modinfo_add_instid_deps_loop lib sr_shm mod_data deps dep_set).1 = SR_ERR_OK ∨
        (sr_modinfo_add_instid_deps_loop lib sr_shm mod_data deps dep_set).1 = SR_ERR_INTERNAL) ∧
      ((sr_modinfo_add_instid_deps_loop lib sr_shm mod_data deps dep_set).1 = SR_ERR_OK →
        (sr_modinfo_add_instid_deps_loop lib sr_shm mod_data deps dep_set).2
          = (deps.flatMap (instid_edge_adds lib mod_data)).foldl ly_set_add dep_set) ∧
      (dep_set.Nodup →
        (sr_modinfo_add_instid_deps_loop lib sr_shm mod_data deps dep_set).2.Nodup) ∧
      ((∃ d ∈ deps, d.type = SR_DEP_INSTID ∧ ∃ n ∈ instid_matches lib mod_data d,
          sr_shmmain_find_module sr_shm (lib.sr_get_first_ns n.value) = none) →
        (sr_modinfo_add_instid_deps_loop lib sr_shm mod_data deps dep_set).1
          = SR_ERR_INTERNAL) := by
  induction deps with
  | nil =>
    intro dep_set
    simp [sr_modinfo_add_instid_deps_loop]
  | cons d rest ih =>
    intro dep_set
    rcases add_instid_deps_loop_cons lib sr_shm mod_data d rest dep_set with ⟨e, hok⟩ | ⟨e, hnd⟩
    · rw [e]
      obtain ⟨i1, i2, i3, i4⟩ := ih ((instid_edge_adds lib mod_data d).foldl ly_set_add dep_set)
      refine ⟨i1, ?_, fun h => i3 (foldl_set_add_nodup _ _ h), ?_⟩
      · intro h
        rw [i2 h, List.flatMap_cons, List.foldl_append]
      · rintro ⟨d1, hd1, ht, n, hn, hx⟩
        rcases List.mem_cons.mp hd1 with rfl | hmem
        · exact absurd hx (hok ht n hn)
        · exact i4 ⟨d1, hmem, ht, n, hn, hx⟩
    · refine ⟨Or.inr e, fun h => ?_, hnd, fun _ => e⟩
      rw [e] at h
      exact absurd h (by decide)

/-- C24: the set that `sr_modinfo_add_instid_deps` returns with SR_ERR_OK is the set it was
given with the contributions of the edges added in order, each by `ly_set_add`: an
edge of another tag contributes nothing; an instance-identifier whose XPath matches no
node, or whose module has no data, contributes its recorded target when that is not
zero and nothing otherwise; one with matched nodes contributes the module named by the
first namespace of every matched value and not its recorded target. A set without
duplicates stays without duplicates, and a matched value that names a module absent
from the index makes the function return SR_ERR_INTERNAL. -/
theorem add_instid_deps_set (lib : ly_lib) (sr_shm : List sr_mod_t) (shm_mod : sr_mod_t)
    (mod_data : List lyd_node) (dep_set : List Nat) :
    ((sr_modinfo_add_instid_deps lib sr_shm shm_mod mod_data dep_set).1 = SR_ERR_OK →
      (sr_modinfo_add_instid_deps lib sr_shm shm_mod mod_data dep_set).2
        = (shm_mod.deps.flatMap (instid_edge_adds lib mod_data)).foldl ly_set_add dep_set ∧
      ∀ x, x ∈ (sr_modinfo_add_instid_deps lib sr_shm shm_mod mod_data dep_set).2 ↔
        (x ∈ dep_set ∨ ∃ d ∈ shm_mod.deps, x ∈ instid_edge_adds lib mod_data d)) ∧
    (dep_set.Nodup → (sr_modinfo_add_instid_deps lib sr_shm shm_mod mod_data dep_set).2.Nodup) ∧
    ((∃ d ∈ shm_mod.deps, d.type = SR_DEP_INSTID ∧ ∃ n ∈ instid_matches lib mod_data d,
        sr_shmmain_find_module sr_shm (lib.sr_get_first_ns n.value) = none) →
      (sr_modinfo_add_instid_deps lib sr_shm shm_mod mod_data dep_set).1 = SR_ERR_INTERNAL) ∧
    (∀ d, (d.type ≠ SR_DEP_INSTID → instid_edge_adds lib mod_data d = []) ∧
      (d.type = SR_DEP_INSTID → (mod_data = [] ∨ lib.lyd_find_path mod_data d.xpath = some []) →
        instid_edge_adds lib mod_data d = if d.module ≠ 0 then [d.module] else []) ∧
      (d.type = SR_DEP_INSTID → mod_data ≠ [] →
        ∀ set, set ≠ [] → lib.lyd_find_path mod_data d.xpath = some set →
          instid_edge_adds lib mod_data d = set.map (fun n => lib.sr_get_first_ns n.value))) := by
  obtain ⟨_, i2, i3, i4⟩ := add_instid_deps_loop_spec lib sr_shm mod_data shm_mod.deps dep_set
  refine ⟨fun h => ⟨i2 h, fun x => ?_⟩, i3, i4, fun d => ⟨?_, ?_, ?_⟩⟩
  · unfold sr_modinfo_add_instid_deps
    rw [i2 h, foldl_set_add_mem]
    simp only [List.mem_flatMap]
  · intro hd
    simp [instid_edge_adds, hd]
  · intro hd hm
    have : instid_matches lib mod_data d = [] := by
      rcases hm with hm | hm
      · simp [instid_matches, hm]
      · simp [instid_matches, hm]
    simp [instid_edge_adds, hd, this]
  · intro hd hdata set hs hfp
    have : instid_matches lib mod_data d = set := by simp [instid_matches, hdata, hfp]
    simp [instid_edge_adds, hd, this, hs]

/-- Witness of C24: the module `s` with data whose values name the modules 3 and 2, in a
set that holds the module 2 already; and the same module without data. -/
theorem add_instid_deps_set_witness :
    sr_modinfo_add_instid_deps ex_lib_instid ex_conn.shm ex_mod_s
      [{ module := 5, value := 3 }, { module := 5, value := 2 }] [2] = (SR_ERR_OK, [2, 3]) ∧
    sr_modinfo_add_instid_deps ex_lib_instid ex_conn.shm ex_mod_s [] [2] = (SR_ERR_OK, [2, 1]) ∧
    sr_modinfo_add_instid_deps ex_lib_instid ex_conn.shm ex_mod_s
      [{ module := 5, value := 9 }] [2] = (SR_ERR_INTERNAL, [2]) ∧
    (sr_modinfo_add_instid_deps ex_lib_instid ex_conn.shm ex_mod_s
      [{ module := 5, value := 3 }, { module := 5, value := 2 }] [2]).2.Nodup :=
  ⟨by decide, by decide, by decide,
    (add_instid_deps_set ex_lib_instid ex_conn.shm ex_mod_s
      [{ module := 5, value := 3 }, { module := 5, value := 2 }] [2]).2.1 (by decide)⟩

/-! ## The flag after a failed `sr_shmmod_multilock` -/

/-- C25: the claim that the flags are cleared after a failed `sr_shmmod_multilock(mod_info, 0,
1)` fails on the code. On the example mod-info the call takes the write lock of the REQ
entry, sets its flag, releases the write lock and is refused the read lock: it returns
SR_ERR_TIME_OUT with the flag set and without MOD_INFO_LOCK on that entry, so the
`sr_shmmod_multiunlock(mod_info, 1)` that follows skips the entry and the flag that the
call set is still 1. -/
theorem multilock_relock_failure_leaves_flag :
    ex_relock_failed.1 = SR_ERR_TIME_OUT ∧
    LockWorld.init.applying_changes 300 1 = false ∧
    ex_relock_failed.2.2.trace
      = [LockEv.lock 200 1 false SR_ERR_OK, LockEv.lock 300 1 true SR_ERR_OK,
         LockEv.set_applying 300 1 true, LockEv.unlock 300 1,
         LockEv.lock 300 1 false SR_ERR_TIME_OUT] ∧
    ex_relock_failed.2.1.mods.map (fun m => m.state)
      = [ MOD_INFO_DEP ||| MOD_INFO_LOCK, MOD_INFO_REQ, MOD_INFO_INV_DEP] ∧
    (sr_shmmod_multiunlock ex_relock_failed.2.1 true ex_relock_failed.2.2).trace
      = ex_relock_failed.2.2.trace ++ [LockEv.unlock 200 1] ∧
    (sr_shmmod_multiunlock ex_relock_failed.2.1 true ex_relock_failed.2.2).held = [] ∧
    (sr_shmmod_multiunlock ex_relock_failed.2.1 true ex_relock_failed.2.2).applying_changes 300 1
      = true := by
  decide

/-! ## Adding a subscription and removing it again -/

/-- The segment after a successful branch `add`: the records of the table keep their
content, the new record follows them, and the table ends at the end of the segment. -/
theorem subscription_add_spec (junk : Nat → sr_mod_sub_t) (remap_ret : sr_error_t)
    (shm : MainShm) (off ds priority : Nat) (opts : Int)
    (hpos : 0 < shm.shm_size) (hfit : sub_add_size shm off ds < 2 ^ 32)
    (hok : (sr_shmmod_subscription_add junk remap_ret shm off ds priority opts).1 = SR_ERR_OK) :
    (sr_shmmod_subscription_add junk remap_ret shm off ds priority opts).2.sub_count off ds
      = shm.sub_count off ds + 1 ∧
    (∀ k, k < shm.sub_count off ds →
      (sr_shmmod_subscription_add junk remap_ret shm off ds priority opts).2.mem
        ((sr_shmmod_subscription_add junk remap_ret shm off ds priority opts).2.subs off ds
          + k * SUB_SIZE) = shm.mem (shm.subs off ds + k * SUB_SIZE)) ∧
    (sr_shmmod_subscription_add junk remap_ret shm off ds priority opts).2.mem
        ((sr_shmmod_subscription_add junk remap_ret shm off ds priority opts).2.subs off ds
          + shm.sub_count off ds * SUB_SIZE) = { priority := priority, opts := opts } ∧
    table_at_end (sr_shmmod_subscription_add junk remap_ret shm off ds priority opts).2 off ds ∧
    (sr_shmmod_subscription_add junk remap_ret shm off ds priority opts).2.shm_size
      = sub_add_size shm off ds := by
  have hr := subscription_add_remap_ok junk remap_ret shm off ds priority opts hok
  subst hr
  by_cases hend : shm.subs off ds + shm.sub_count off ds * SUB_SIZE = shm.shm_size
  · have hsize : sub_add_size shm off ds = shm.shm_size + SUB_SIZE := by
      rw [sub_add_size, if_pos hend]
    rw [hsize] at hfit ⊢
    rw [subscription_add_at_end junk shm off ds priority opts hend hfit]
    refine ⟨sub_info_set_same _ _ _ _, ?_, ?_, ?_, rfl⟩
    · intro k hk
      simp only [shm_write_sub, SUB_SIZE]
      rw [if_neg (by omega), if_neg (by omega)]
    · simp [shm_write_sub]
    · simp only [table_at_end, sub_info_set_same]
      simp only [SUB_SIZE] at hend ⊢
      omega
  · have hsize : sub_add_size shm off ds
        = shm.shm_size + (shm.sub_count off ds + 1) * SUB_SIZE := by
      rw [sub_add_size, if_neg hend]
    rw [hsize] at hfit ⊢
    rw [subscription_add_move junk shm off ds priority opts hend hpos hfit]
    refine ⟨sub_info_set_same _ _ _ _, ?_, ?_, ?_, rfl⟩
    · intro k hk
      simp only [sub_info_set_same, shm_write_sub, shm_memcpy_subs, SUB_SIZE]
      rw [if_neg (by omega), if_neg (by omega), if_pos (by omega), if_pos (by omega)]
      congr 1
      omega
    · simp [shm_write_sub, sub_info_set_same]
    · simp only [table_at_end, sub_info_set_same]

/-- C28, the claim as stated fails: in the segment `ex_shm_wrap` of `2 ^ 32 - 8` bytes the table of
the module `m` ends at the end of the segment, so the add does not move it; the add and
the removal of the same record both return SR_ERR_OK and the table has its old records
again, but the size the add computed did not fit the 32 bits of `new_shm_size`: the
segment size is 0 after the add and still 0 after the removal, not the old size. -/
theorem subscription_roundtrip_size_counterexample :
    table_at_end ex_shm_wrap 300 1 ∧
    (sr_shmmod_subscription ex_junk SR_ERR_OK ex_conn ex_shm_wrap 1 1 9 4 true).1 = SR_ERR_OK ∧
    (sr_shmmod_subscription ex_junk SR_ERR_OK ex_conn
        (sr_shmmod_subscription ex_junk SR_ERR_OK ex_conn ex_shm_wrap 1 1 9 4 true).2
        1 1 9 4 false).1 = SR_ERR_OK ∧
    sub_table (sr_shmmod_subscription ex_junk SR_ERR_OK ex_conn
        (sr_shmmod_subscription ex_junk SR_ERR_OK ex_conn ex_shm_wrap 1 1 9 4 true).2
        1 1 9 4 false).2 300 1 = sub_table ex_shm_wrap 300 1 ∧
    (sr_shmmod_subscription ex_junk SR_ERR_OK ex_conn
        (sr_shmmod_subscription ex_junk SR_ERR_OK ex_conn ex_shm_wrap 1 1 9 4 true).2
        1 1 9 4 false).2.shm_size = 0 ∧
    (sr_shmmod_subscription ex_junk SR_ERR_OK ex_conn
        (sr_shmmod_subscription ex_junk SR_ERR_OK ex_conn ex_shm_wrap 1 1 9 4 true).2
        1 1 9 4 false).2.shm_size ≠ ex_shm_wrap.shm_size := by
  decide

/-- C28, amended: a successful `sr_shmmod_subscription` that adds `(priority, opts)` to a module
(whose record lies inside the segment), when the size the add computes for the segment is
below `2 ^ 32` (it is stored in the `uint32_t` `new_shm_size`), followed at once by a successful
call that removes `(priority, opts)` from the same module and datastore, gives back
`sub_count` and the exact sequence of records the table had before the add, also when the
table already held an equal record; the segment has its old size again when the table
ended at the end of the segment before the add (the add did not move it), and is larger
by the old records of the table otherwise. -/
theorem subscription_add_then_remove (junk : Nat → sr_mod_sub_t) (remap1 remap2 : sr_error_t)
    (conn : sr_conn_ctx_t) (shm : MainShm) (mod_name ds priority : Nat) (opts : Int)
    (shm_mod : sr_mod_t) (hfind : sr_shmmain_find_module conn.shm mod_name = some shm_mod)
    (hmod : shm_mod.off < shm.shm_size)
    (hfit : sub_add_size shm shm_mod.off ds < 2 ^ 32)
    (hok1 : (sr_shmmod_subscription junk remap1 conn shm mod_name ds priority opts true).1
      = SR_ERR_OK)
    (hok2 : (sr_shmmod_subscription junk remap2 conn
        (sr_shmmod_subscription junk remap1 conn shm mod_name ds priority opts true).2
        mod_name ds priority opts false).1 = SR_ERR_OK) :
    (sr_shmmod_subscription junk remap2 conn
        (sr_shmmod_subscription junk remap1 conn shm mod_name ds priority opts true).2
        mod_name ds priority opts false).2.sub_count shm_mod.off ds
      = shm.sub_count shm_mod.off ds ∧
    sub_table (sr_shmmod_subscription junk remap2 conn
        (sr_shmmod_subscription junk remap1 conn shm mod_name ds priority opts true).2
        mod_name ds priority opts false).2 shm_mod.off ds
      = sub_table shm shm_mod.off ds ∧
    (table_at_end shm shm_mod.off ds →
      (sr_shmmod_subscription junk remap2 conn
        (sr_shmmod_subscription junk remap1 conn shm mod_name ds priority opts true).2
        mod_name ds priority opts false).2.shm_size = shm.shm_size) ∧
    (¬ table_at_end shm shm_mod.off ds →
      (sr_shmmod_subscription junk remap2 conn
        (sr_shmmod_subscription junk remap1 conn shm mod_name ds priority opts true).2
        mod_name ds priority opts false).2.shm_size
        = shm.shm_size + shm.sub_count shm_mod.off ds * SUB_SIZE) := by
  have e1 : sr_shmmod_subscription junk remap1 conn shm mod_name ds priority opts true
      = sr_shmmod_subscription_add junk remap1 shm shm_mod.off ds priority opts := by
    simp only [sr_shmmod_subscription, hfind, if_true]
  rw [e1] at hok1 hok2 ⊢
  obtain ⟨hc, hk, hlast, hendA, hsz⟩ := subscription_add_spec junk remap1 shm shm_mod.off ds
    priority opts (by omega) hfit hok1
  generalize (sr_shmmod_subscription_add junk remap1 shm shm_mod.off ds priority opts).2 = S
    at hok2 hc hk hlast hendA hsz ⊢
  have e2 : sr_shmmod_subscription junk remap2 conn S mod_name ds priority opts false
      = sr_shmmod_subscription_del junk remap2 S shm_mod.off ds priority opts := by
    simp only [sr_shmmod_subscription, hfind, Bool.false_eq_true, if_false]
  rw [e2] at hok2 ⊢
  have hendA1 : S.subs shm_mod.off ds + S.sub_count shm_mod.off ds * SUB_SIZE = S.shm_size :=
    hendA
  have hfitS : S.shm_size < 2 ^ 32 := by
    rw [hsz]
    exact hfit
  cases hf : sr_shmmod_subscription_find S shm_mod.off ds priority opts with
  | none => simp [sr_shmmod_subscription_del, hf] at hok2
  | some i =>
    obtain ⟨hi, hrec, _⟩ := subscription_find_spec S shm_mod.off ds priority opts i hf
    rw [subscription_del_ok junk remap2 S shm_mod.off ds priority opts i hf hfitS hok2]
    have hn1 : S.sub_count shm_mod.off ds - 1 = shm.sub_count shm_mod.off ds := by omega
    refine ⟨?_, ?_, ?_, ?_⟩
    · simp only [sub_info_set_same]
      exact hn1
    · simp only [sub_table, sub_info_set_same, hn1]
      apply List.map_congr_left
      intro k hk1
      have hk2 := List.mem_range.mp hk1
      have hn0 : ¬ shm.sub_count shm_mod.off ds = 0 := by omega
      simp only [hn0, if_false]
      by_cases hki : k = i
      · subst hki
        rw [del_mem_slot junk S shm_mod.off ds k (by omega), hn1, hlast, ← hk k hk2, hrec]
      · rw [del_mem_other junk S shm_mod.off ds i k hki, hk k hk2]
    · intro hend
      have hend1 : shm.subs shm_mod.off ds + shm.sub_count shm_mod.off ds * SUB_SIZE
          = shm.shm_size := hend
      simp only [hendA1, if_true]
      rw [hsz, sub_add_size, if_pos hend1]
      simp only [SUB_SIZE]
      omega
    · intro hend
      have hend1 : ¬ shm.subs shm_mod.off ds + shm.sub_count shm_mod.off ds * SUB_SIZE
          = shm.shm_size := hend
      simp only [hendA1, if_true]
      rw [hsz, sub_add_size, if_neg hend1]
      simp only [SUB_SIZE]
      omega

/-- Witness of C28 as amended: the record (7, 1), which the table of the module `m` of the example
holds already, is added and removed again; and a record is added to and removed from
the table of the module `a`, which the add moves to the end of the segment. -/
theorem subscription_add_then_remove_witness :
    (sub_table (sr_shmmod_subscription ex_junk SR_ERR_OK ex_conn
        (sr_shmmod_subscription ex_junk SR_ERR_OK ex_conn ex_shm 1 1 7 1 true).2
        1 1 7 1 false).2 300 1
      = [{ priority := 5, opts := 0 }, { priority := 7, opts := 1 }] ∧
    (sr_shmmod_subscription ex_junk SR_ERR_OK ex_conn
        (sr_shmmod_subscription ex_junk SR_ERR_OK ex_conn ex_shm 1 1 7 1 true).2
        1 1 7 1 false).2.shm_size = 1016) ∧
    (sub_table (sr_shmmod_subscription ex_junk SR_ERR_OK ex_conn
        (sr_shmmod_subscription ex_junk SR_ERR_OK ex_conn ex_shm 2 1 9 4 true).2
        2 1 9 4 false).2 200 1
      = sub_table ex_shm 200 1 ∧
    (sr_shmmod_subscription ex_junk SR_ERR_OK ex_conn
        (sr_shmmod_subscription ex_junk SR_ERR_OK ex_conn ex_shm 2 1 9 4 true).2
        2 1 9 4 false).2.shm_size = 1032) :=
  ⟨⟨(subscription_add_then_remove ex_junk SR_ERR_OK SR_ERR_OK ex_conn ex_shm 1 1 7 1 ex_mod_m rfl
        (by decide) (by decide) (by decide) (by decide)).2.1,
      (subscription_add_then_remove ex_junk SR_ERR_OK SR_ERR_OK ex_conn ex_shm 1 1 7 1 ex_mod_m rfl
        (by decide) (by decide) (by decide) (by decide)).2.2.1 (by decide)⟩,
    ⟨(subscription_add_then_remove ex_junk SR_ERR_OK SR_ERR_OK ex_conn ex_shm 2 1 9 4 ex_mod_a rfl
        (by decide) (by decide) (by decide) (by decide)).2.1,
      (subscription_add_then_remove ex_junk SR_ERR_OK SR_ERR_OK ex_conn ex_shm 2 1 9 4 ex_mod_a rfl
        (by decide) (by decide) (by decide) (by decide)).2.2.2 (by decide)⟩⟩

/-! ## The table after a failed removal -/

/-- C29: the claim that an error return leaves the subscription table unchanged fails on the
code for a remap failure on removal. In the example segment the table of the module at
offset 300 lies at the end of the segment and holds the records (5, 0) and (7, 1);
removing (5, 0) copies the last record over the first slot and then asks for the
remap; when the remap fails the function returns its error with `sub_count` and the
segment size unchanged, but the table now holds (7, 1) twice. The two other error
returns (module not found, subscription not found) leave the table as it was. -/
theorem subscription_del_remap_failure_changes_table :
    sub_table ex_shm 300 1 = [{ priority := 5, opts := 0 }, { priority := 7, opts := 1 }] ∧
    (sr_shmmod_subscription ex_junk SR_ERR_NOMEM ex_conn ex_shm 1 1 5 0 false).1 = SR_ERR_NOMEM ∧
    (sr_shmmod_subscription ex_junk SR_ERR_NOMEM ex_conn ex_shm 1 1 5 0 false).2.shm_size
      = ex_shm.shm_size ∧
    (sr_shmmod_subscription ex_junk SR_ERR_NOMEM ex_conn ex_shm 1 1 5 0 false).2.sub_count 300 1
      = 2 ∧
    (sr_shmmod_subscription ex_junk SR_ERR_NOMEM ex_conn ex_shm 1 1 5 0 false).2.subs 300 1
      = 1000 ∧
    sub_table (sr_shmmod_subscription ex_junk SR_ERR_NOMEM ex_conn ex_shm 1 1 5 0 false).2 300 1
      = [{ priority := 7, opts := 1 }, { priority := 7, opts := 1 }] ∧
    (sr_shmmod_subscription ex_junk SR_ERR_OK ex_conn ex_shm 9 1 5 0 false).1 = SR_ERR_INTERNAL ∧
    (sr_shmmod_subscription ex_junk SR_ERR_OK ex_conn ex_shm 1 1 6 0 false).1 = SR_ERR_INTERNAL ∧
    sub_table (sr_shmmod_subscription ex_junk SR_ERR_OK ex_conn ex_shm 1 1 6 0 false).2 300 1
      = sub_table ex_shm 300 1 := by
  decide

/-! ## The entries that are stored after validation -/

/-- C27: the claim that every REQ or INV_DEP entry whose module has a node in the final diff
has MOD_INFO_CHANGED fails on the code for a REQ entry. The example edit names the
modules `m` and `r`; `sr_shmmod_create_diff` finds a diff for `m` only and returns
SR_ERR_OK, and `sr_shmmod_validate(mod_info, 1)` returns SR_ERR_OK with a validation diff that
changes the data of `r`. The merged `mod_info->diff` then holds a node of `r`, the entry of
`r` is of type REQ and holds the changed data, but it has no MOD_INFO_CHANGED (the loop
after the merge tests MOD_INFO_INV_DEP only), and `sr_shmmod_store` writes the data of `m`
and leaves the file of `r` as it was. -/
theorem validate_req_entry_not_marked_changed :
    sr_shmmod_collect_edit 3 ex_conn ex_edit2 1 ex_mod_info = some (SR_ERR_OK, ex_collected_two) ∧
    (sr_shmmod_create_diff ex_lib ex_edit_apply ex_edit2 ex_collected_two).1 = SR_ERR_OK ∧
    (sr_shmmod_create_diff ex_lib ex_edit_apply ex_edit2 ex_collected_two).2.mods.map
        (fun m => m.state)
      = [ MOD_INFO_DEP, MOD_INFO_REQ ||| MOD_INFO_CHANGED, MOD_INFO_REQ] ∧
    (sr_shmmod_validate ex_lib_autodel
      (sr_shmmod_create_diff ex_lib ex_edit_apply ex_edit2 ex_collected_two).2 true).1
      = SR_ERR_OK ∧
    ex_validated_two.diff = [{ module := 1, value := 5 }, { module := 4, value := 9 }] ∧
    ex_validated_two.mods
      = [{ shm_mod := 200, state := MOD_INFO_DEP, ly_mod := 2, mod_data := [{ module := 2 }] },
         { shm_mod := 300, state := MOD_INFO_REQ ||| MOD_INFO_CHANGED, ly_mod := 1,
           mod_data := [{ module := 1, value := 5 }] },
         { shm_mod := 400, state := MOD_INFO_REQ, ly_mod := 4,
           mod_data := [{ module := 4, value := 9 }] }] ∧
    (∃ m ∈ ex_validated_two.mods, m.state &&& MOD_INFO_TYPE_MASK = MOD_INFO_REQ ∧
      (∃ n ∈ ex_validated_two.diff, n.module = m.ly_mod) ∧ m.state &&& MOD_INFO_CHANGED = 0) ∧
    (sr_shmmod_store ex_penv ex_validated_two ex_files).1 = SR_ERR_OK ∧
    (sr_shmmod_store ex_penv ex_validated_two ex_files).2.log
      = [{ ds := 1, mod_name := 1, data := [{ module := 1, value := 5 }], ret := SR_ERR_OK }] ∧
    (sr_shmmod_store ex_penv ex_validated_two ex_files).2.files 4 1 = ex_files.files 4 1 := by
  decide

/-! ## The LOCK bits and the locks held -/

theorem held_on_append (o d : Nat) (a b : List (Nat × Nat × Bool)) :
    held_on o d (a ++ b) = held_on o d a ++ held_on o d b := by
  simp [held_on, List.filter_append]

theorem held_on_release_same (o d : Nat) (held : List (Nat × Nat × Bool)) :
    held_on o d (release_lock o d held) = (held_on o d held).tail := by
  induction held with
  | nil => rfl
  | cons h rest ih =>
    by_cases hh : h.1 = o ∧ h.2.1 = d
    · simp [release_lock, hh, held_on, List.filter_cons]
    · simp only [release_lock, hh, if_false]
      unfold held_on at ih ⊢
      simp only [List.filter_cons, hh, decide_False, Bool.false_eq_true, if_false, ih]

theorem held_on_cons_same (o d : Nat) (wr : Bool) (held : List (Nat × Nat × Bool)) :
    held_on o d ((o, d, wr) :: held) = (o, d, wr) :: held_on o d held := by
  simp [held_on, List.filter_cons]

theorem held_on_cons_other (o d o1 d1 : Nat) (wr : Bool) (held : List (Nat × Nat × Bool))
    (hne : ¬ (o1 = o ∧ d1 = d)) :
    held_on o d ((o1, d1, wr) :: held) = held_on o d held := by
  simp [held_on, List.filter_cons, hne]

theorem held_on_map_length (o d : Nat) (g : sr_mod_info_mod_s → Bool)
    (l : List sr_mod_info_mod_s) :
    (held_on o d (l.map (fun m => (m.shm_mod, d, g m)))).length
      = (l.map (fun m => m.shm_mod)).count o := by
  induction l with
  | nil => rfl
  | cons m rest ih =>
    by_cases hm : m.shm_mod = o
    · rw [List.map_cons, hm, held_on_cons_same, List.length_cons, List.map_cons, hm,
        List.count_cons_self, ← hm]
      rw [hm, ih]
    · rw [List.map_cons, held_on_cons_other o d m.shm_mod d _ _ (fun h => hm h.1), ih,
        List.map_cons, List.count_cons_of_ne (fun h => hm h.symm)]

theorem lock_bit_cleared (s : Nat) : (s ^^^ (s &&& MOD_INFO_LOCK)) &&& MOD_INFO_LOCK = 0 := by
  apply Nat.eq_of_testBit_eq
  intro i
  simp only [Nat.testBit_and, Nat.testBit_xor, Nat.zero_testBit]
  cases h1 : s.testBit i <;> cases h2 : MOD_INFO_LOCK.testBit i <;> simp

theorem lock_bit_of_touched {m : sr_mod_info_mod_s} (ht : relock_touched m = true) :
    m.state &&& MOD_INFO_LOCK ≠ 0 := by
  have ht1 : m.state &&& (MOD_INFO_REQ ||| MOD_INFO_LOCK) = (MOD_INFO_REQ ||| MOD_INFO_LOCK) := by
    simpa [relock_touched] using ht
  have e : m.state &&& MOD_INFO_LOCK
      = (m.state &&& (MOD_INFO_REQ ||| MOD_INFO_LOCK)) &&& MOD_INFO_LOCK := by
    rw [Nat.land_assoc]; rfl
  rw [e, ht1]; decide

/-- The loop of `sr_shmmod_multirelock` keeps the modules of the entries, changes no lock on
a module that no entry stands for, and keeps the LOCK bits in agreement with the locks
held, whatever it returns. -/
theorem multirelock_mods_lock_bits (env : Nat → LockResp) (ds : Nat) (upgrade : Bool)
    (mods : List sr_mod_info_mod_s) :
    ∀ w : LockWorld, (mods.map (fun m => m.shm_mod)).Nodup →
      (∀ o, o ∉ mods.map (fun m => m.shm_mod) →
        held_on o ds (sr_shmmod_multirelock_mods env ds upgrade mods w).2.2.held
          = held_on o ds w.held) ∧
      (LockBitsMatch ds mods w.held →
        LockBitsMatch ds (sr_shmmod_multirelock_mods env ds upgrade mods w).2.1
          (sr_shmmod_multirelock_mods env ds upgrade mods w).2.2.held) := by
  induction mods with
  | nil => intro w _; simp [sr_shmmod_multirelock_mods]
  | cons m rest ih =>
    intro w hnd
    rw [List.map_cons, List.nodup_cons] at hnd
    obtain ⟨hm, hnd1⟩ := hnd
    cases ht : relock_touched m with
    | false =>
      rw [multirelock_mods_cons_skip env ds upgrade m rest w ht]
      obtain ⟨i1, i2⟩ := ih w hnd1
      refine ⟨fun o ho => i1 o (fun h => ho (List.mem_cons_of_mem _ h)), fun hinv => ?_⟩
      intro x hx
      rcases List.mem_cons.mp hx with rfl | hx1
      · dsimp only
        rw [i1 _ hm]
        exact hinv x (List.mem_cons_self _ _)
      · exact i2 (fun y hy => hinv y (List.mem_cons_of_mem _ hy)) x hx1
    | true =>
      cases hf : w.applying_changes m.shm_mod ds with
      | false =>
        rw [multirelock_mods_cons_noflag env ds upgrade m rest w ht hf]
        exact ⟨fun o _ => rfl, fun hinv => hinv⟩
      | true =>
        have hother : ∀ o, o ≠ m.shm_mod →
            held_on o ds (release_lock m.shm_mod ds w.held) = held_on o ds w.held :=
          fun o ho => held_on_release_other o ds m.shm_mod ds w.held (fun h => ho h.1.symm)
        by_cases hl : lock_result (env w.calls) = SR_ERR_OK
        · rw [multirelock_mods_cons_ok env ds upgrade m rest w ht hf hl]
          have hheld : (sr_shmmod_lock env m.shm_mod ds upgrade
              (sr_shmmod_unlock m.shm_mod ds w)).2.held
              = (m.shm_mod, ds, upgrade) :: release_lock m.shm_mod ds w.held := by
            simp [sr_shmmod_lock, sr_shmmod_unlock, hl]
          obtain ⟨i1, i2⟩ := ih (sr_shmmod_lock env m.shm_mod ds upgrade
            (sr_shmmod_unlock m.shm_mod ds w)).2 hnd1
          rw [hheld] at i1 i2
          refine ⟨fun o ho => ?_, fun hinv => ?_⟩
          · have ho1 : o ≠ m.shm_mod := fun h => ho (by rw [h]; exact List.mem_cons_self _ _)
            dsimp only
            rw [i1 o (fun h => ho (List.mem_cons_of_mem _ h)),
              held_on_cons_other o ds m.shm_mod ds _ _ (fun h => ho1 h.1.symm), hother o ho1]
          · intro x hx
            rcases List.mem_cons.mp hx with rfl | hx1
            · dsimp only
              rw [i1 _ hm, held_on_cons_same, held_on_release_same]
              have h1 := (hinv x (List.mem_cons_self _ _)).1 (lock_bit_of_touched ht)
              refine ⟨fun _ => ?_, fun h0 => absurd h0 (lock_bit_of_touched ht)⟩
              rw [List.length_cons, List.length_tail, h1]
            · apply i2 _ x hx1
              intro y hy
              have hy1 : y.shm_mod ≠ m.shm_mod :=
                fun h => hm (by rw [← h]; exact List.mem_map_of_mem _ hy)
              rw [held_on_cons_other y.shm_mod ds m.shm_mod ds _ _ (fun h => hy1 h.1.symm),
                hother _ hy1]
              exact hinv y (List.mem_cons_of_mem _ hy)
        · rw [multirelock_mods_cons_fail env ds upgrade m rest w ht hf hl]
          have hheld : (sr_shmmod_lock env m.shm_mod ds upgrade
              (sr_shmmod_unlock m.shm_mod ds w)).2.held = release_lock m.shm_mod ds w.held := by
            simp [sr_shmmod_lock, sr_shmmod_unlock, hl]
          dsimp only
          rw [hheld]
          refine ⟨fun o ho => ?_, fun hinv => ?_⟩
          · exact hother o (fun h => ho (by rw [h]; exact List.mem_cons_self _ _))
          · intro x hx
            rcases List.mem_cons.mp hx with rfl | hx1
            · dsimp only
              rw [held_on_release_same]
              have h1 := (hinv m (List.mem_cons_self _ _)).1 (lock_bit_of_touched ht)
              refine ⟨fun h0 => absurd (lock_bit_cleared m.state) h0, fun _ => ?_⟩
              apply List.eq_nil_of_length_eq_zero
              rw [List.length_tail, h1]
            · have hx2 : x.shm_mod ≠ m.shm_mod :=
                fun h => hm (by rw [← h]; exact List.mem_map_of_mem _ hx1)
              rw [hother _ hx2]
              exact hinv x (List.mem_cons_of_mem _ hx1)

/-- The locks held on the module `o` after the loop of `sr_shmmod_multilock` locked the
entries `pre`, none of which was locked before. -/
theorem held_on_locked (o d : Nat) (g : sr_mod_info_mod_s → Bool)
    (pre : List sr_mod_info_mod_s) (held : List (Nat × Nat × Bool))
    (h0 : held_on o d held = []) :
    (held_on o d (pre.reverse.map (fun m => (m.shm_mod, d, g m)) ++ held)).length
      = (pre.map (fun m => m.shm_mod)).count o := by
  rw [held_on_append, h0, List.append_nil, held_on_map_length, List.map_reverse,
    List.count_reverse]

/-- The loop of `sr_shmmod_multilock`, started on entries without MOD_INFO_LOCK on whose
modules no lock is held, leaves the LOCK bits in agreement with the locks held,
whatever it returns. -/
theorem multilock_mods_lock_bits (env : Nat → LockResp) (sc ds : Nat) (wr appl : Bool)
    (mods : List sr_mod_info_mod_s) (w : LockWorld)
    (hnd : (mods.map (fun m => m.shm_mod)).Nodup)
    (h0 : ∀ m ∈ mods, m.state &&& MOD_INFO_LOCK = 0 ∧ held_on m.shm_mod ds w.held = []) :
    LockBitsMatch ds (sr_shmmod_multilock_mods env sc ds wr appl mods w).2.1
      (sr_shmmod_multilock_mods env sc ds wr appl mods w).2.2.held := by
  by_cases hok : (sr_shmmod_multilock_mods env sc ds wr appl mods w).1 = SR_ERR_OK
  · obtain ⟨e1, e2⟩ := multilock_mods_ok env sc ds wr appl mods w hok
    rw [e1, e2]
    intro x hx
    obtain ⟨m, hm, rfl⟩ := List.mem_map.mp hx
    have hc := held_on_locked m.shm_mod ds (multilock_final_wr wr appl) mods w.held (h0 m hm).2
    rw [List.count_eq_one_of_mem hnd (List.mem_map_of_mem _ hm)] at hc
    exact ⟨fun _ => hc, fun h => absurd h (lock_bit_set m.state)⟩
  · obtain ⟨pre, m, post, e0, e1, e2⟩ := multilock_mods_err env sc ds wr appl mods w hok
    rw [e1, e2]
    subst e0
    rw [List.map_append, List.nodup_append] at hnd
    obtain ⟨hnd1, _, hdis⟩ := hnd
    intro x hx
    rcases List.mem_append.mp hx with hx1 | hx1
    · obtain ⟨y, hy, rfl⟩ := List.mem_map.mp hx1
      have hc := held_on_locked y.shm_mod ds (multilock_final_wr wr appl) pre w.held
        (h0 y (List.mem_append_left _ hy)).2
      rw [List.count_eq_one_of_mem hnd1 (List.mem_map_of_mem _ hy)] at hc
      exact ⟨fun _ => hc, fun h => absurd h (lock_bit_set y.state)⟩
    · have hx2 := h0 x (List.mem_append_right _ hx1)
      have hnot : x.shm_mod ∉ pre.map (fun m => m.shm_mod) :=
        fun h => hdis h (List.mem_map_of_mem _ hx1)
      have hc := held_on_locked x.shm_mod ds (multilock_final_wr wr appl) pre w.held hx2.2
      rw [List.count_eq_zero_of_not_mem hnot] at hc
      exact ⟨fun h => absurd hx2.1 h, fun _ => List.eq_nil_of_length_eq_zero hc⟩

/-- C26, the claim as stated fails for `sr_shmmod_multilock`: on the example mod-info, locked by
a first `sr_shmmod_multilock` (every entry has MOD_INFO_LOCK and the transaction holds one
lock on each module), a second `sr_shmmod_multilock(mod_info, 0, 0)` returns SR_ERR_OK and the
transaction then holds two locks on the module of every entry. -/
theorem multilock_lock_bits_counterexample :
    LockBitsMatch 1 ex_locked.2.1.mods ex_locked.2.2.held ∧
    (sr_shmmod_multilock ex_env 10 ex_locked.2.1 false false ex_locked.2.2).1 = SR_ERR_OK ∧
    held_on 200 1 (sr_shmmod_multilock ex_env 10 ex_locked.2.1 false false ex_locked.2.2).2.2.held
      = [(200, 1, false), (200, 1, false)] ∧
    ¬ LockBitsMatch 1
      (sr_shmmod_multilock ex_env 10 ex_locked.2.1 false false ex_locked.2.2).2.1.mods
      (sr_shmmod_multilock ex_env 10 ex_locked.2.1 false false ex_locked.2.2).2.2.held := by
  decide

/-- C26, amended: for a mod-info whose entries stand for distinct modules,
`sr_shmmod_multirelock` started in any state in which the LOCK bits agree with the locks
held (an entry has MOD_INFO_LOCK iff the transaction holds exactly one lock on its
module, and it holds none on the module of an entry without it), and
`sr_shmmod_multilock` started in such a state in which no entry has MOD_INFO_LOCK, return
in a state in which the LOCK bits agree with the locks held, with SR_ERR_OK and with every
error. -/
theorem lock_bits_match_held (env : Nat → LockResp) (step_count : Nat) (mi : sr_mod_info_s)
    (wr applying_changes upgrade : Bool) (w : LockWorld)
    (hnd : (mi.mods.map (fun m => m.shm_mod)).Nodup)
    (hinv : LockBitsMatch mi.ds mi.mods w.held) :
    LockBitsMatch mi.ds (sr_shmmod_multirelock env mi upgrade w).2.1.mods
      (sr_shmmod_multirelock env mi upgrade w).2.2.held ∧
    ((∀ m ∈ mi.mods, m.state &&& MOD_INFO_LOCK = 0) →
      LockBitsMatch mi.ds
        (sr_shmmod_multilock env step_count mi wr applying_changes w).2.1.mods
        (sr_shmmod_multilock env step_count mi wr applying_changes w).2.2.held) :=
  ⟨(multirelock_mods_lock_bits env mi.ds upgrade mi.mods w hnd).2 hinv,
    fun h0 => multilock_mods_lock_bits env step_count mi.ds wr applying_changes mi.mods w hnd
      (fun m hm => ⟨h0 m hm, (hinv m hm).2 (h0 m hm)⟩)⟩

/-- Witness of C26: the example mod-info is relocked for writing after it was locked, and it
is locked in a system that refuses the read lock of the REQ entry; in both results the
LOCK bits agree with the locks held. -/
theorem lock_bits_match_held_witness :
    LockBitsMatch 1 (sr_shmmod_multirelock ex_env ex_locked.2.1 true ex_locked.2.2).2.1.mods
      (sr_shmmod_multirelock ex_env ex_locked.2.1 true ex_locked.2.2).2.2.held ∧
    (sr_shmmod_multilock ex_env_relock_fail 10 ex_collected false true LockWorld.init).1
      = SR_ERR_TIME_OUT ∧
    LockBitsMatch 1
      (sr_shmmod_multilock ex_env_relock_fail 10 ex_collected false true LockWorld.init).2.1.mods
      (sr_shmmod_multilock ex_env_relock_fail 10 ex_collected false true LockWorld.init).2.2.held :=
  ⟨(lock_bits_match_held ex_env 10 ex_locked.2.1 false false true ex_locked.2.2
      (by decide) (by decide)).1,
    by decide,
    (lock_bits_match_held ex_env_relock_fail 10 ex_collected false true true LockWorld.init
      (by decide) (by decide)).2 (by decide)⟩

/-! ## The instrumented builder computes what the builder computes -/

theorem drop_log_map (r : Option (sr_error_t × List sr_mod_info_mod_s × List (Nat × Nat)))
    (f : List (Nat × Nat) → List (Nat × Nat)) :
    drop_log (r.map (fun x => (x.1, x.2.1, f x.2.2))) = drop_log r := by
  cases r <;> rfl

theorem add_deps_log_erase
    (callL : sr_mod_t → Nat → Nat → List sr_mod_info_mod_s →
      Option (sr_error_t × List sr_mod_info_mod_s × List (Nat × Nat)))
    (call : sr_mod_t → Nat → Nat → List sr_mod_info_mod_s →
      Option (sr_error_t × List sr_mod_info_mod_s))
    (hc : ∀ X ly t mods, drop_log (callL X ly t mods) = call X ly t mods)
    (conn : sr_conn_ctx_t) (deps : List sr_mod_dep_t) :
    ∀ mods, drop_log (sr_modinfo_add_deps_log callL conn deps mods)
      = sr_modinfo_add_deps call conn deps mods := by
  induction deps with
  | nil => intro mods; rfl
  | cons d rest ih =>
    intro mods
    simp only [sr_modinfo_add_deps_log, sr_modinfo_add_deps]
    by_cases hd : d.type = SR_DEP_INSTID
    · simp only [hd, if_true]; exact ih mods
    · simp only [hd, if_false]
      cases sr_shmmain_find_module conn.shm d.module with
      | none => rfl
      | some T =>
        dsimp only
        cases ly_ctx_get_module conn.ly_ctx T.name with
        | none => rfl
        | some ly =>
          dsimp only
          rw [← hc T ly MOD_INFO_DEP mods]
          cases callL T ly MOD_INFO_DEP mods with
          | none => rfl
          | some r =>
            obtain ⟨ret, m1, lg⟩ := r
            simp only [drop_log, Option.map_some']
            by_cases hret : ret = SR_ERR_OK
            · simp only [hret, ne_eq, not_true_eq_false, if_false]
              rw [← ih m1]
              exact drop_log_map _ _
            · simp only [hret, ne_eq, not_false_eq_true, if_true, Option.map_some']

theorem add_inv_deps_mod_log_erase
    (callL : sr_mod_t → Nat → Nat → List sr_mod_info_mod_s →
      Option (sr_error_t × List sr_mod_info_mod_s × List (Nat × Nat)))
    (call : sr_mod_t → Nat → Nat → List sr_mod_info_mod_s →
      Option (sr_error_t × List sr_mod_info_mod_s))
    (hc : ∀ X ly t mods, drop_log (callL X ly t mods) = call X ly t mods)
    (conn : sr_conn_ctx_t) (M D : sr_mod_t) (deps : List sr_mod_dep_t) :
    ∀ mods, drop_log (sr_modinfo_add_inv_deps_mod_log callL conn M D deps mods)
      = sr_modinfo_add_inv_deps_mod call conn M D deps mods := by
  induction deps with
  | nil => intro mods; rfl
  | cons d rest ih =>
    intro mods
    simp only [sr_modinfo_add_inv_deps_mod_log, sr_modinfo_add_inv_deps_mod]
    by_cases hd : d.module = M.name
    · simp only [hd, if_true]
      cases ly_ctx_get_module conn.ly_ctx D.name with
      | none => rfl
      | some ly =>
        dsimp only
        rw [← hc D ly MOD_INFO_INV_DEP mods]
        cases callL D ly MOD_INFO_INV_DEP mods with
        | none => rfl
        | some r =>
          obtain ⟨ret, m1, lg⟩ := r
          simp only [drop_log, Option.map_some']
          by_cases hret : ret = SR_ERR_OK
          · simp only [hret, ne_eq, not_true_eq_false, if_false]
            rw [← ih m1]
            exact drop_log_map _ _
          · simp only [hret, ne_eq, not_false_eq_true, if_true, Option.map_some']
    · simp only [hd, if_false]; exact ih mods

theorem add_inv_deps_log_erase
    (callL : sr_mod_t → Nat → Nat → List sr_mod_info_mod_s →
      Option (sr_error_t × List sr_mod_info_mod_s × List (Nat × Nat)))
    (call : sr_mod_t → Nat → Nat → List sr_mod_info_mod_s →
      Option (sr_error_t × List sr_mod_info_mod_s))
    (hc : ∀ X ly t mods, drop_log (callL X ly t mods) = call X ly t mods)
    (conn : sr_conn_ctx_t) (M : sr_mod_t) (l : List sr_mod_t) :
    ∀ mods, drop_log (sr_modinfo_add_inv_deps_log callL conn M l mods)
      = sr_modinfo_add_inv_deps call conn M l mods := by
  induction l with
  | nil => intro mods; rfl
  | cons D rest ih =>
    intro mods
    simp only [sr_modinfo_add_inv_deps_log, sr_modinfo_add_inv_deps]
    rw [← add_inv_deps_mod_log_erase callL call hc conn M D D.deps mods]
    cases sr_modinfo_add_inv_deps_mod_log callL conn M D D.deps mods with
    | none => rfl
    | some r =>
      obtain ⟨ret, m1, lg⟩ := r
      simp only [drop_log, Option.map_some']
      by_cases hret : ret = SR_ERR_OK
      · simp only [hret, ne_eq, not_true_eq_false, if_false]
        rw [← ih m1]
        exact drop_log_map _ _
      · simp only [hret, ne_eq, not_false_eq_true, if_true, Option.map_some']

theorem add_closure_log_erase
    (callL : sr_mod_t → Nat → Nat → List sr_mod_info_mod_s →
      Option (sr_error_t × List sr_mod_info_mod_s × List (Nat × Nat)))
    (call : sr_mod_t → Nat → Nat → List sr_mod_info_mod_s →
      Option (sr_error_t × List sr_mod_info_mod_s))
    (hc : ∀ X ly t mods, drop_log (callL X ly t mods) = call X ly t mods)
    (conn : sr_conn_ctx_t) (X : sr_mod_t) (prev cur_i : Nat) (mods : List sr_mod_info_mod_s) :
    drop_log (sr_modinfo_add_closure_log callL conn X prev cur_i mods)
      = sr_modinfo_add_closure call conn X prev cur_i mods := by
  unfold sr_modinfo_add_closure_log sr_modinfo_add_closure
  by_cases h1 : sr_modinfo_state_at mods cur_i < MOD_INFO_INV_DEP
  · rw [if_pos h1, if_pos h1]; rfl
  · rw [if_neg h1, if_neg h1]
    have hdeps : drop_log (if prev < MOD_INFO_INV_DEP then
          sr_modinfo_add_deps_log callL conn X.deps mods
        else some (SR_ERR_OK, mods, []))
        = (if prev < MOD_INFO_INV_DEP then sr_modinfo_add_deps call conn X.deps mods
          else some (SR_ERR_OK, mods)) := by
      by_cases hp : prev < MOD_INFO_INV_DEP
      · rw [if_pos hp, if_pos hp]; exact add_deps_log_erase callL call hc conn X.deps mods
      · rw [if_neg hp, if_neg hp]; rfl
    rw [← hdeps]
    cases (if prev < MOD_INFO_INV_DEP then sr_modinfo_add_deps_log callL conn X.deps mods
        else some (SR_ERR_OK, mods, [])) with
    | none => rfl
    | some r =>
      obtain ⟨ret, m1, lg⟩ := r
      simp only [drop_log, Option.map_some']
      by_cases hret : ret = SR_ERR_OK
      · simp only [hret, ne_eq, not_true_eq_false, if_false]
        by_cases h2 : sr_modinfo_state_at m1 cur_i < MOD_INFO_REQ
        · simp only [h2, if_true, Option.map_some']
        · simp only [h2, if_false]
          by_cases h3 : prev < MOD_INFO_REQ
          · simp only [h3, if_true]
            rw [← add_inv_deps_log_erase callL call hc conn X conn.shm m1]
            exact drop_log_map _ _
          · simp only [h3, if_false, Option.map_some']
      · simp only [hret, ne_eq, not_false_eq_true, if_true, Option.map_some']

/-- The instrumented `sr_modinfo_add_mod_with_deps` returns what the function returns, with
the log. -/
theorem add_log_erase (conn : sr_conn_ctx_t) (fuel : Nat) :
    ∀ (X : sr_mod_t) (ly t : Nat) (mods : List sr_mod_info_mod_s),
      drop_log (sr_modinfo_add_mod_with_deps_log conn fuel X ly t mods)
        = sr_modinfo_add_mod_with_deps conn fuel X ly t mods := by
  induction fuel with
  | zero => intro X ly t mods; rfl
  | succ fuel ih =>
    intro X ly t mods
    simp only [sr_modinfo_add_mod_with_deps_log, sr_modinfo_add_mod_with_deps]
    cases sr_modinfo_find mods X.off with
    | none =>
      dsimp only
      rw [← add_closure_log_erase _ _ ih conn X 0 mods.length]
      exact drop_log_map _ _
    | some p =>
      obtain ⟨i, e⟩ := p
      dsimp only
      by_cases hlt : (e.state &&& MOD_INFO_TYPE_MASK) < t
      · simp only [hlt, if_true]
        rw [← add_closure_log_erase _ _ ih conn X e.state i]
        exact drop_log_map _ _
      · simp only [hlt, if_false]
        rfl

/-! ## What a call does to the vector, whatever it returns -/

theorem gstep_refl {t : Nat} {mods : List sr_mod_info_mod_s} (h : ModsTyped mods) :
    GStep t mods mods :=
  ⟨h, ext_refl mods, fun _ => le_refl _, fun _ => le_max_left _ _⟩

theorem gstep_trans {t : Nat} {a b c : List sr_mod_info_mod_s} (h1 : GStep t a b)
    (h2 : GStep t b c) : GStep t a c :=
  ⟨h2.typed, ext_trans h1.ext h2.ext, fun o => le_trans (h1.mono o) (h2.mono o),
    fun o => le_trans (h2.bound o) (max_le (h1.bound o) (le_max_right _ _))⟩

theorem gstep_weaken {t t1 : Nat} {a b : List sr_mod_info_mod_s} (h : GStep t a b)
    (ht : t ≤ t1) : GStep t1 a b :=
  ⟨h.typed, h.ext, h.mono, fun o => le_trans (h.bound o) (max_le_max (le_refl _) ht)⟩

theorem calls_on_nil (o : Nat) : calls_on o [] = 0 := rfl

theorem calls_on_append (o : Nat) (l1 l2 : List (Nat × Nat)) :
    calls_on o (l1 ++ l2) = calls_on o l1 + calls_on o l2 := by
  simp [calls_on, List.filter_append]

theorem calls_on_cons (o x t : Nat) (l : List (Nat × Nat)) :
    calls_on o ((x, t) :: l) = (if x = o then 1 else 0) + calls_on o l := by
  by_cases h : x = o
  · simp [calls_on, List.filter_cons, h]; omega
  · simp [calls_on, List.filter_cons, h]

theorem calls_refl (mods : List sr_mod_info_mod_s) : CallsBounded mods [] mods := by
  intro o
  simp [calls_on_nil]

theorem calls_trans {a b c : List sr_mod_info_mod_s} {l1 l2 : List (Nat × Nat)}
    (h1 : CallsBounded a l1 b) (h2 : CallsBounded b l2 c) : CallsBounded a (l1 ++ l2) c := by
  intro o
  have := h1 o
  have := h2 o
  rw [calls_on_append]
  omega

theorem type_rank_lt {a b : Nat}
    (ha : a = 0 ∨ a = MOD_INFO_DEP ∨ a = MOD_INFO_INV_DEP ∨ a = MOD_INFO_REQ)
    (hb : b = MOD_INFO_DEP ∨ b = MOD_INFO_INV_DEP ∨ b = MOD_INFO_REQ) (h : a < b) :
    type_rank a + 1 ≤ type_rank b := by
  rcases ha with rfl | rfl | rfl | rfl <;> rcases hb with rfl | rfl | rfl <;>
    first
    | (exfalso; revert h; decide)
    | decide

theorem type_rank_le_three {s : Nat}
    (hs : s = 0 ∨ s = MOD_INFO_DEP ∨ s = MOD_INFO_INV_DEP ∨ s = MOD_INFO_REQ) :
    type_rank s ≤ 3 := by
  rcases hs with rfl | rfl | rfl | rfl <;> decide

theorem add_deps_log_step
    (callL : sr_mod_t → Nat → Nat → List sr_mod_info_mod_s →
      Option (sr_error_t × List sr_mod_info_mod_s × List (Nat × Nat)))
    (conn : sr_conn_ctx_t)
    (hcall : ∀ T ly mods ret mods1 lg, ModsTyped mods →
      callL T ly MOD_INFO_DEP mods = some (ret, mods1, lg) →
      GStep MOD_INFO_DEP mods mods1 ∧ CallsBounded mods lg mods1)
    (deps : List sr_mod_dep_t) :
    ∀ mods ret mods1 lg, ModsTyped mods →
      sr_modinfo_add_deps_log callL conn deps mods = some (ret, mods1, lg) →
      GStep MOD_INFO_DEP mods mods1 ∧ CallsBounded mods lg mods1 := by
  induction deps with
  | nil =>
    intro mods ret mods1 lg h hr
    simp only [sr_modinfo_add_deps_log, Option.some.injEq, Prod.mk.injEq] at hr
    obtain ⟨_, rfl, rfl⟩ := hr
    exact ⟨gstep_refl h, calls_refl _⟩
  | cons d rest ih =>
    intro mods ret mods1 lg h hr
    simp only [sr_modinfo_add_deps_log] at hr
    by_cases hd : d.type = SR_DEP_INSTID
    · simp only [hd, if_true] at hr
      exact ih mods ret mods1 lg h hr
    · simp only [hd, if_false] at hr
      cases hfm : sr_shmmain_find_module conn.shm d.module with
      | none =>
        simp only [hfm, Option.some.injEq, Prod.mk.injEq] at hr
        obtain ⟨_, rfl, rfl⟩ := hr
        exact ⟨gstep_refl h, calls_refl _⟩
      | some T =>
        simp only [hfm] at hr
        cases hly : ly_ctx_get_module conn.ly_ctx T.name with
        | none =>
          simp only [hly, Option.some.injEq, Prod.mk.injEq] at hr
          obtain ⟨_, rfl, rfl⟩ := hr
          exact ⟨gstep_refl h, calls_refl _⟩
        | some ly =>
          simp only [hly] at hr
          cases hc : callL T ly MOD_INFO_DEP mods with
          | none => simp [hc] at hr
          | some r =>
            obtain ⟨ret1, m1, lg1⟩ := r
            obtain ⟨hg, hb⟩ := hcall T ly mods ret1 m1 lg1 h hc
            simp only [hc] at hr
            by_cases hret : ret1 = SR_ERR_OK
            · simp only [hret, ne_eq, not_true_eq_false, if_false] at hr
              cases hrest : sr_modinfo_add_deps_log callL conn rest m1 with
              | none => simp [hrest] at hr
              | some r2 =>
                obtain ⟨ret2, m2, lg2⟩ := r2
                simp only [hrest, Option.map_some', Option.some.injEq, Prod.mk.injEq] at hr
                obtain ⟨_, rfl, rfl⟩ := hr
                obtain ⟨hg2, hb2⟩ := ih m1 ret2 m2 lg2 hg.typed hrest
                exact ⟨gstep_trans hg hg2, calls_trans hb hb2⟩
            · simp only [hret, ne_eq, not_false_eq_true, if_true, Option.some.injEq,
                Prod.mk.injEq] at hr
              obtain ⟨_, rfl, rfl⟩ := hr
              exact ⟨hg, hb⟩

theorem add_inv_deps_mod_log_step
    (callL : sr_mod_t → Nat → Nat → List sr_mod_info_mod_s →
      Option (sr_error_t × List sr_mod_info_mod_s × List (Nat × Nat)))
    (conn : sr_conn_ctx_t) (M D : sr_mod_t)
    (hcall : ∀ T ly mods ret mods1 lg, ModsTyped mods →
      callL T ly MOD_INFO_INV_DEP mods = some (ret, mods1, lg) →
      GStep MOD_INFO_INV_DEP mods mods1 ∧ CallsBounded mods lg mods1)
    (deps : List sr_mod_dep_t) :
    ∀ mods ret mods1 lg, ModsTyped mods →
      sr_modinfo_add_inv_deps_mod_log callL conn M D deps mods = some (ret, mods1, lg) →
      GStep MOD_INFO_INV_DEP mods mods1 ∧ CallsBounded mods lg mods1 := by
  induction deps with
  | nil =>
    intro mods ret mods1 lg h hr
    simp only [sr_modinfo_add_inv_deps_mod_log, Option.some.injEq, Prod.mk.injEq] at hr
    obtain ⟨_, rfl, rfl⟩ := hr
    exact ⟨gstep_refl h, calls_refl _⟩
  | cons d rest ih =>
    intro mods ret mods1 lg h hr
    simp only [sr_modinfo_add_inv_deps_mod_log] at hr
    by_cases hd : d.module = M.name
    · simp only [hd, if_true] at hr
      cases hly : ly_ctx_get_module conn.ly_ctx D.name with
      | none =>
        simp only [hly, Option.some.injEq, Prod.mk.injEq] at hr
        obtain ⟨_, rfl, rfl⟩ := hr
        exact ⟨gstep_refl h, calls_refl _⟩
      | some ly =>
        simp only [hly] at hr
        cases hc : callL D ly MOD_INFO_INV_DEP mods with
        | none => simp [hc] at hr
        | some r =>
          obtain ⟨ret1, m1, lg1⟩ := r
          obtain ⟨hg, hb⟩ := hcall D ly mods ret1 m1 lg1 h hc
          simp only [hc] at hr
          by_cases hret : ret1 = SR_ERR_OK
          · simp only [hret, ne_eq, not_true_eq_false, if_false] at hr
            cases hrest : sr_modinfo_add_inv_deps_mod_log callL conn M D rest m1 with
            | none => simp [hrest] at hr
            | some r2 =>
              obtain ⟨ret2, m2, lg2⟩ := r2
              simp only [hrest, Option.map_some', Option.some.injEq, Prod.mk.injEq] at hr
              obtain ⟨_, rfl, rfl⟩ := hr
              obtain ⟨hg2, hb2⟩ := ih m1 ret2 m2 lg2 hg.typed hrest
              exact ⟨gstep_trans hg hg2, calls_trans hb hb2⟩
          · simp only [hret, ne_eq, not_false_eq_true, if_true, Option.some.injEq,
              Prod.mk.injEq] at hr
            obtain ⟨_, rfl, rfl⟩ := hr
            exact ⟨hg, hb⟩
    · simp only [hd, if_false] at hr
      exact ih mods ret mods1 lg h hr

theorem add_inv_deps_log_step
    (callL : sr_mod_t → Nat → Nat → List sr_mod_info_mod_s →
      Option (sr_error_t × List sr_mod_info_mod_s × List (Nat × Nat)))
    (conn : sr_conn_ctx_t) (M : sr_mod_t)
    (hcall : ∀ T ly mods ret mods1 lg, ModsTyped mods →
      callL T ly MOD_INFO_INV_DEP mods = some (ret, mods1, lg) →
      GStep MOD_INFO_INV_DEP mods mods1 ∧ CallsBounded mods lg mods1)
    (l : List sr_mod_t) :
    ∀ mods ret mods1 lg, ModsTyped mods →
      sr_modinfo_add_inv_deps_log callL conn M l mods = some (ret, mods1, lg) →
      GStep MOD_INFO_INV_DEP mods mods1 ∧ CallsBounded mods lg mods1 := by
  induction l with
  | nil =>
    intro mods ret mods1 lg h hr
    simp only [sr_modinfo_add_inv_deps_log, Option.some.injEq, Prod.mk.injEq] at hr
    obtain ⟨_, rfl, rfl⟩ := hr
    exact ⟨gstep_refl h, calls_refl _⟩
  | cons D rest ih =>
    intro mods ret mods1 lg h hr
    simp only [sr_modinfo_add_inv_deps_log] at hr
    cases hc : sr_modinfo_add_inv_deps_mod_log callL conn M D D.deps mods with
    | none => simp [hc] at hr
    | some r =>
      obtain ⟨ret1, m1, lg1⟩ := r
      obtain ⟨hg, hb⟩ := add_inv_deps_mod_log_step callL conn M D hcall D.deps mods ret1 m1 lg1
        h hc
      simp only [hc] at hr
      by_cases hret : ret1 = SR_ERR_OK
      · simp only [hret, ne_eq, not_true_eq_false, if_false] at hr
        cases hrest : sr_modinfo_add_inv_deps_log callL conn M rest m1 with
        | none => simp [hrest] at hr
        | some r2 =>
          obtain ⟨ret2, m2, lg2⟩ := r2
          simp only [hrest, Option.map_some', Option.some.injEq, Prod.mk.injEq] at hr
          obtain ⟨_, rfl, rfl⟩ := hr
          obtain ⟨hg2, hb2⟩ := ih m1 ret2 m2 lg2 hg.typed hrest
          exact ⟨gstep_trans hg hg2, calls_trans hb hb2⟩
      · simp only [hret, ne_eq, not_false_eq_true, if_true, Option.some.injEq,
          Prod.mk.injEq] at hr
        obtain ⟨_, rfl, rfl⟩ := hr
        exact ⟨hg, hb⟩

/-- The statements after the entry was added or raised, with the log: the type of the
entry at `cur_i` is `t`, and the calls made have a type of at most `t`. -/
theorem add_closure_log_step
    (callL : sr_mod_t → Nat → Nat → List sr_mod_info_mod_s →
      Option (sr_error_t × List sr_mod_info_mod_s × List (Nat × Nat)))
    (conn : sr_conn_ctx_t) (X : sr_mod_t) (t prev cur_i : Nat)
    (hcall : ∀ T ly t1 mods ret mods1 lg,
      (t1 = MOD_INFO_DEP ∨ t1 = MOD_INFO_INV_DEP ∨ t1 = MOD_INFO_REQ) → ModsTyped mods →
      callL T ly t1 mods = some (ret, mods1, lg) →
      GStep t1 mods mods1 ∧ CallsBounded mods lg mods1)
    (ht : t = MOD_INFO_DEP ∨ t = MOD_INFO_INV_DEP ∨ t = MOD_INFO_REQ)
    (m1 : List sr_mod_info_mod_s) (hty : ModsTyped m1) (e1 : sr_mod_info_mod_s)
    (he1 : m1[cur_i]? = some e1) (hk : e1.shm_mod = X.off)
    (hst : sr_modinfo_state_of m1 X.off = t)
    (ret : sr_error_t) (m3 : List sr_mod_info_mod_s) (lg : List (Nat × Nat))
    (hr : sr_modinfo_add_closure_log callL conn X prev cur_i m1 = some (ret, m3, lg)) :
    GStep t m1 m3 ∧ CallsBounded m1 lg m3 := by
  have hcur : sr_modinfo_state_at m1 cur_i = t := by
    rw [state_at_eq_state_of hty.1 he1, hk, hst]
  have htpos : MOD_INFO_DEP ≤ t := by
    rcases ht with h | h | h <;> rw [h] <;> decide
  unfold sr_modinfo_add_closure_log at hr
  rw [hcur] at hr
  by_cases h1 : t < MOD_INFO_INV_DEP
  · rw [if_pos h1] at hr
    simp only [Option.some.injEq, Prod.mk.injEq] at hr
    obtain ⟨_, rfl, rfl⟩ := hr
    exact ⟨gstep_refl hty, calls_refl _⟩
  · rw [if_neg h1] at hr
    have hdeps : ∀ r, (if prev < MOD_INFO_INV_DEP then
          sr_modinfo_add_deps_log callL conn X.deps m1
        else some (SR_ERR_OK, m1, [])) = some r →
        GStep MOD_INFO_DEP m1 r.2.1 ∧ CallsBounded m1 r.2.2 r.2.1 := by
      intro r hr1
      obtain ⟨ret1, m2, lg1⟩ := r
      by_cases hp : prev < MOD_INFO_INV_DEP
      · rw [if_pos hp] at hr1
        exact add_deps_log_step callL conn
          (fun T ly mods ret mods1 lg hm hc => hcall T ly _ mods ret mods1 lg (Or.inl rfl) hm hc)
          X.deps m1 ret1 m2 lg1 hty hr1
      · rw [if_neg hp] at hr1
        simp only [Option.some.injEq, Prod.mk.injEq] at hr1
        obtain ⟨_, rfl, rfl⟩ := hr1
        exact ⟨gstep_refl hty, calls_refl _⟩
    cases hd : (if prev < MOD_INFO_INV_DEP then sr_modinfo_add_deps_log callL conn X.deps m1
        else some (SR_ERR_OK, m1, [])) with
    | none => simp [hd] at hr
    | some r =>
      obtain ⟨hg, hb⟩ := hdeps r hd
      obtain ⟨ret1, m2, lg1⟩ := r
      simp only [hd] at hr
      dsimp only at hg hb
      have hg1 : GStep t m1 m2 := gstep_weaken hg htpos
      by_cases hret : ret1 = SR_ERR_OK
      · simp only [hret, ne_eq, not_true_eq_false, if_false] at hr
        have hcur2 : sr_modinfo_state_at m2 cur_i = t := by
          rw [state_at_of_ext hg.ext hg.typed he1, hk]
          apply le_antisymm
          · have := hg.bound X.off
            rw [hst] at this
            exact le_trans this (max_le (le_refl _) htpos)
          · have := hg.mono X.off
            rw [hst] at this
            exact this
        rw [hcur2] at hr
        by_cases h2 : t < MOD_INFO_REQ
        · rw [if_pos h2] at hr
          simp only [Option.some.injEq, Prod.mk.injEq] at hr
          obtain ⟨_, rfl, rfl⟩ := hr
          exact ⟨hg1, hb⟩
        · rw [if_neg h2] at hr
          have h4 : MOD_INFO_INV_DEP ≤ t := Nat.le_of_not_lt h1
          by_cases h3 : prev < MOD_INFO_REQ
          · rw [if_pos h3] at hr
            cases hinv : sr_modinfo_add_inv_deps_log callL conn X conn.shm m2 with
            | none => simp [hinv] at hr
            | some r2 =>
              obtain ⟨ret2, m4, lg2⟩ := r2
              simp only [hinv, Option.map_some', Option.some.injEq, Prod.mk.injEq] at hr
              obtain ⟨_, rfl, rfl⟩ := hr
              obtain ⟨hg2, hb2⟩ := add_inv_deps_log_step callL conn X
                (fun T ly mods ret mods1 lg hm hc =>
                  hcall T ly _ mods ret mods1 lg (Or.inr (Or.inl rfl)) hm hc)
                conn.shm m2 ret2 m4 lg2 hg.typed hinv
              exact ⟨gstep_trans hg1 (gstep_weaken hg2 h4), calls_trans hb hb2⟩
          · rw [if_neg h3] at hr
            simp only [Option.some.injEq, Prod.mk.injEq] at hr
            obtain ⟨_, rfl, rfl⟩ := hr
            exact ⟨hg1, hb⟩
      · simp only [hret, ne_eq, not_false_eq_true, if_true, Option.some.injEq,
          Prod.mk.injEq] at hr
        obtain ⟨_, rfl, rfl⟩ := hr
        exact ⟨hg1, hb⟩

/-- The head of the instrumented `sr_modinfo_add_mod_with_deps`: either the module has the
type already and the call returns at the check "already there", or the entry is added
or raised to the type `t`, the call is logged and the rest of the function runs. -/
theorem add_log_unfold (conn : sr_conn_ctx_t) (fuel : Nat) (X : sr_mod_t) (ly t : Nat)
    (mods : List sr_mod_info_mod_s) (h : ModsTyped mods)
    (ht : t = MOD_INFO_DEP ∨ t = MOD_INFO_INV_DEP ∨ t = MOD_INFO_REQ) :
    (t ≤ sr_modinfo_state_of mods X.off ∧
      sr_modinfo_add_mod_with_deps_log conn (fuel + 1) X ly t mods = some (SR_ERR_OK, mods, [])) ∨
    (sr_modinfo_state_of mods X.off < t ∧ ∃ cur_i mods1,
      sr_modinfo_add_mod_with_deps_log conn (fuel + 1) X ly t mods =
        (sr_modinfo_add_closure_log (sr_modinfo_add_mod_with_deps_log conn fuel) conn X
          (sr_modinfo_state_of mods X.off) cur_i mods1).map
          (fun r => (r.1, r.2.1, (X.off, t) :: r.2.2)) ∧
      ModsTyped mods1 ∧ ModsExt mods mods1 ∧
      (∀ o, sr_modinfo_state_of mods1 o = if o = X.off then t else sr_modinfo_state_of mods o) ∧
      ∃ e1 : sr_mod_info_mod_s, mods1[cur_i]? = some e1 ∧ e1.shm_mod = X.off) := by
  simp only [sr_modinfo_add_mod_with_deps_log]
  cases hf : sr_modinfo_find mods X.off with
  | some p =>
    obtain ⟨i, e⟩ := p
    obtain ⟨hi, hk⟩ := find_some_spec hf
    have hmem : e ∈ mods := List.mem_iff_getElem?.mpr ⟨i, hi⟩
    have hst : sr_modinfo_state_of mods X.off = e.state := by
      simp [sr_modinfo_state_of, hf]
    have hmask : e.state &&& MOD_INFO_TYPE_MASK = e.state := by
      rcases h.2 e hmem with h1 | h1 | h1 <;> rw [h1] <;> decide
    have hpos : ¬ e.state < MOD_INFO_DEP := by
      rcases h.2 e hmem with h1 | h1 | h1 <;> rw [h1] <;> decide
    simp only [hmask, hst]
    by_cases hlt : e.state < t
    · right
      have hf' : sr_modinfo_find mods e.shm_mod = some (i, e) := by rw [hk]; exact hf
      refine ⟨hlt, i, mods.set i { e with state := t }, ?_, typed_set h hi rfl ht, ext_set hi rfl,
        ?_, ?_⟩
      · simp [hlt, sr_modinfo_add_new, hpos]
      · intro o
        have := @state_of_set mods i e { e with state := t } hf' rfl o
        rw [this, hk]
      · obtain ⟨hl, _⟩ := List.getElem?_eq_some.mp hi
        exact ⟨{ e with state := t }, by simp [List.getElem?_set, hl], hk⟩
    · left
      exact ⟨Nat.le_of_not_lt hlt, by simp [hlt]⟩
  | none =>
    right
    have hst : sr_modinfo_state_of mods X.off = 0 := by simp [sr_modinfo_state_of, hf]
    have hn : sr_modinfo_find mods
        ({ shm_mod := X.off, state := t, ly_mod := ly } : sr_mod_info_mod_s).shm_mod = none := hf
    have htpos : 0 < t := by
      rcases ht with h1 | h1 | h1 <;> rw [h1] <;> decide
    refine ⟨by rw [hst]; exact htpos, mods.length,
      mods ++ [{ shm_mod := X.off, state := t, ly_mod := ly }], ?_, typed_append h hn ht,
      ext_append _ _, ?_, ?_⟩
    · simp [hst, sr_modinfo_add_new, show (0 < MOD_INFO_DEP) from by decide, set_append_uninit]
    · intro o
      rw [state_of_append hn]
    · exact ⟨{ shm_mod := X.off, state := t, ly_mod := ly }, by simp, rfl⟩

/-- Every call of the instrumented `sr_modinfo_add_mod_with_deps` on a typed vector, whatever
it returns: no type is lowered, none is raised above the type asked for, and every
logged call is paid for by a raised type. -/
theorem add_log_step (conn : sr_conn_ctx_t) (fuel : Nat) :
    ∀ (X : sr_mod_t) (ly t : Nat) (mods : List sr_mod_info_mod_s) (ret : sr_error_t)
      (mods1 : List sr_mod_info_mod_s) (lg : List (Nat × Nat)),
      (t = MOD_INFO_DEP ∨ t = MOD_INFO_INV_DEP ∨ t = MOD_INFO_REQ) → ModsTyped mods →
      sr_modinfo_add_mod_with_deps_log conn fuel X ly t mods = some (ret, mods1, lg) →
      GStep t mods mods1 ∧ CallsBounded mods lg mods1 ∧
        t ≤ sr_modinfo_state_of mods1 X.off := by
  induction fuel with
  | zero =>
    intro X ly t mods ret mods1 lg _ _ hr
    simp [sr_modinfo_add_mod_with_deps_log] at hr
  | succ fuel ih =>
    intro X ly t mods ret mods1 lg ht h hr
    rcases add_log_unfold conn fuel X ly t mods h ht with
      ⟨hle, heq⟩ | ⟨hlt, cur_i, m1, heq, hty, hext, hst, e1, he1, hk1⟩
    · rw [heq] at hr
      simp only [Option.some.injEq, Prod.mk.injEq] at hr
      obtain ⟨_, rfl, rfl⟩ := hr
      exact ⟨gstep_refl h, calls_refl _, hle⟩
    · rw [heq] at hr
      cases hc : sr_modinfo_add_closure_log (sr_modinfo_add_mod_with_deps_log conn fuel) conn X
          (sr_modinfo_state_of mods X.off) cur_i m1 with
      | none => simp [hc] at hr
      | some r =>
        obtain ⟨ret1, m3, lg1⟩ := r
        simp only [hc, Option.map_some', Option.some.injEq, Prod.mk.injEq] at hr
        obtain ⟨_, rfl, rfl⟩ := hr
        have hX1 : sr_modinfo_state_of m1 X.off = t := by rw [hst]; simp
        obtain ⟨hg, hb⟩ := add_closure_log_step _ conn X t _ cur_i
          (fun T ly t1 mods ret mods1 lg ht1 hm hc1 =>
            ⟨(ih T ly t1 mods ret mods1 lg ht1 hm hc1).1,
              (ih T ly t1 mods ret mods1 lg ht1 hm hc1).2.1⟩)
          ht m1 hty e1 he1 hk1 hX1 ret1 m3 lg1 hc
        have hg0 : GStep t mods m1 := by
          refine ⟨hty, hext, fun o => ?_, fun o => ?_⟩
          · rw [hst]
            by_cases ho : o = X.off
            · subst ho; simp; exact Nat.le_of_lt hlt
            · simp [ho]
          · rw [hst]
            by_cases ho : o = X.off
            · subst ho; simp
            · simp [ho]
        refine ⟨gstep_trans hg0 hg, fun o => ?_, by rw [← hX1]; exact hg.mono X.off⟩
        have hbo := hb o
        rw [calls_on_cons]
        by_cases ho : X.off = o
        · subst ho
          rw [if_pos rfl]
          rw [hX1] at hbo
          have := type_rank_lt (state_of_typed h X.off) ht hlt
          omega
        · rw [if_neg ho]
          rw [hst, if_neg (fun h => ho h.symm)] at hbo
          omega

/-- The result of `sr_modinfo_add_mod_with_deps` is the result of the instrumented function
with some log. -/
theorem add_log_of_result {conn : sr_conn_ctx_t} {fuel : Nat} {X : sr_mod_t} {ly t : Nat}
    {mods mods1 : List sr_mod_info_mod_s} {ret : sr_error_t}
    (hr : sr_modinfo_add_mod_with_deps conn fuel X ly t mods = some (ret, mods1)) :
    ∃ lg, sr_modinfo_add_mod_with_deps_log conn fuel X ly t mods = some (ret, mods1, lg) := by
  rw [← add_log_erase conn fuel X ly t mods] at hr
  cases hc : sr_modinfo_add_mod_with_deps_log conn fuel X ly t mods with
  | none => simp [hc, drop_log] at hr
  | some r =>
    obtain ⟨ret1, m1, lg⟩ := r
    simp only [hc, drop_log, Option.map_some', Option.some.injEq, Prod.mk.injEq] at hr
    obtain ⟨rfl, rfl⟩ := hr
    exact ⟨lg, rfl⟩

/-- Every call of `sr_modinfo_add_mod_with_deps` on a typed vector, whatever it returns: the
module has the type asked for or a higher one afterwards, and exactly the type asked
for when its type was lower before. -/
theorem add_gstep (conn : sr_conn_ctx_t) (fuel : Nat) (X : sr_mod_t) (ly t : Nat)
    (mods mods1 : List sr_mod_info_mod_s) (ret : sr_error_t)
    (ht : t = MOD_INFO_DEP ∨ t = MOD_INFO_INV_DEP ∨ t = MOD_INFO_REQ) (h : ModsTyped mods)
    (hr : sr_modinfo_add_mod_with_deps conn fuel X ly t mods = some (ret, mods1)) :
    GStep t mods mods1 ∧ t ≤ sr_modinfo_state_of mods1 X.off ∧
      (sr_modinfo_state_of mods X.off < t → sr_modinfo_state_of mods1 X.off = t) := by
  obtain ⟨lg, hl⟩ := add_log_of_result hr
  obtain ⟨hg, _, hle⟩ := add_log_step conn fuel X ly t mods ret mods1 lg ht h hl
  refine ⟨hg, hle, fun hlt => le_antisymm ?_ hle⟩
  exact le_trans (hg.bound X.off) (max_le (Nat.le_of_lt hlt) (le_refl _))

/-! ## The type of an entry that is added a second time -/

/-- C22, the claim as stated fails: the module `b` of the example index is present as DEP and
is added as REQ; the state of its entry is then REQ, not the union of DEP and REQ. -/
theorem add_state_union_counterexample :
    sr_modinfo_state_of ex_mods_dep ex_mod_b.off = MOD_INFO_DEP ∧
    sr_modinfo_add_mod_with_deps ex_conn 3 ex_mod_b 3 MOD_INFO_REQ ex_mods_dep
      = some (SR_ERR_OK, ex_mods_raised) ∧
    sr_modinfo_state_of ex_mods_raised ex_mod_b.off = MOD_INFO_REQ ∧
    MOD_INFO_REQ ≠ MOD_INFO_DEP ||| MOD_INFO_REQ := by
  decide

/-- C22, amended: when `sr_modinfo_add_mod_with_deps` is called with the type `t` for a module
that a typed vector holds with a lower type, then, whatever the call returns, the
vector has exactly one entry for the module and its state is `t` alone, which is not
the union of the previous state and `t`; the module record and the position of the
entry are the ones it had. -/
theorem add_replaces_lower_type (conn : sr_conn_ctx_t) (fuel : Nat) (X : sr_mod_t) (ly t : Nat)
    (mods mods1 : List sr_mod_info_mod_s) (ret : sr_error_t)
    (ht : t = MOD_INFO_DEP ∨ t = MOD_INFO_INV_DEP ∨ t = MOD_INFO_REQ) (h : ModsTyped mods)
    (hpos : 0 < sr_modinfo_state_of mods X.off) (hlt : sr_modinfo_state_of mods X.off < t)
    (hr : sr_modinfo_add_mod_with_deps conn fuel X ly t mods = some (ret, mods1)) :
    (∃ (i : Nat) (e e1 : sr_mod_info_mod_s), mods[i]? = some e ∧ mods1[i]? = some e1 ∧
      e.shm_mod = X.off ∧ e1.shm_mod = X.off ∧
      e.state = sr_modinfo_state_of mods X.off ∧ e1.state = t) ∧
    (∀ e1 ∈ mods1, e1.shm_mod = X.off → e1.state = t) ∧
    (mods1.map (fun e => e.shm_mod)).Nodup ∧
    t ≠ sr_modinfo_state_of mods X.off ||| t := by
  obtain ⟨hg, _, heq⟩ := add_gstep conn fuel X ly t mods mods1 ret ht h hr
  have hX := heq hlt
  refine ⟨?_, ?_, hg.typed.1, ?_⟩
  · obtain ⟨e, he, hk, hs⟩ := state_of_pos hpos
    obtain ⟨i, hi⟩ := List.mem_iff_getElem?.mp he
    obtain ⟨e1, hi1, hk1⟩ := hg.ext i e hi
    refine ⟨i, e, e1, hi, hi1, hk, hk1.trans hk, hs, ?_⟩
    have hm1 : e1 ∈ mods1 := List.mem_iff_getElem?.mpr ⟨i, hi1⟩
    rw [← state_of_mem hg.typed.1 hm1, hk1, hk, hX]
  · intro e1 he1 hk1
    rw [← state_of_mem hg.typed.1 he1, hk1, hX]
  · rcases state_of_typed h X.off with h0 | h0 | h0 | h0 <;> rw [h0] at hpos hlt ⊢ <;>
      rcases ht with rfl | rfl | rfl <;>
      first
      | (exfalso; revert hlt; decide)
      | (exfalso; revert hpos; decide)
      | decide

/-- Witness of the amended C22: the module `b`, present as DEP, is added as REQ. -/
theorem add_replaces_lower_type_witness :
    (∀ e1 ∈ ex_mods_raised, e1.shm_mod = ex_mod_b.off → e1.state = MOD_INFO_REQ) ∧
    MOD_INFO_REQ ≠ sr_modinfo_state_of ex_mods_dep ex_mod_b.off ||| MOD_INFO_REQ :=
  ⟨(add_replaces_lower_type ex_conn 3 ex_mod_b 3 MOD_INFO_REQ ex_mods_dep ex_mods_raised SR_ERR_OK
      (Or.inr (Or.inr rfl)) ⟨by decide, by decide⟩ (by decide) (by decide) (by decide)).2.1,
    (add_replaces_lower_type ex_conn 3 ex_mod_b 3 MOD_INFO_REQ ex_mods_dep ex_mods_raised SR_ERR_OK
      (Or.inr (Or.inr rfl)) ⟨by decide, by decide⟩ (by decide) (by decide) (by decide)).2.2.2⟩

/-! ## Termination of the mod-info builder -/

/-- C30: `sr_modinfo_add_mod_with_deps` returns on every module index, cyclic or not, for every
typed vector and each of the three types, within a recursion depth of three. A call
returns at the check "already there" with the vector unchanged when the module has the
type or a higher one; every other call gives a module that had no entry an entry of
the type asked for, or raises the type of its entry to the type asked for; no call
lowers the type of an entry, whatever it returns; and in the whole tree of calls at
most three calls on the same module pass the check. -/
theorem add_mod_with_deps_terminates (conn : sr_conn_ctx_t) (fuel : Nat) (X : sr_mod_t)
    (ly t : Nat) (mods : List sr_mod_info_mod_s)
    (ht : t = MOD_INFO_DEP ∨ t = MOD_INFO_INV_DEP ∨ t = MOD_INFO_REQ) (h : ModsTyped mods) :
    ∃ ret mods1 lg,
      sr_modinfo_add_mod_with_deps conn (fuel + 3) X ly t mods = some (ret, mods1) ∧
      sr_modinfo_add_mod_with_deps_log conn (fuel + 3) X ly t mods = some (ret, mods1, lg) ∧
      (t ≤ sr_modinfo_state_of mods X.off → ret = SR_ERR_OK ∧ mods1 = mods ∧ lg = []) ∧
      (sr_modinfo_state_of mods X.off < t →
        sr_modinfo_state_of mods1 X.off = t ∧ calls_on X.off lg ≠ 0) ∧
      ModsTyped mods1 ∧
      (∀ o, sr_modinfo_state_of mods o ≤ sr_modinfo_state_of mods1 o) ∧
      (∀ o, calls_on o lg + type_rank (sr_modinfo_state_of mods o)
        ≤ type_rank (sr_modinfo_state_of mods1 o)) ∧
      (∀ o, calls_on o lg ≤ 3) := by
  have htot : ∃ r, sr_modinfo_add_mod_with_deps conn (fuel + 3) X ly t mods = some r := by
    rcases ht with rfl | rfl | rfl
    · exact add_dep_total conn (fuel + 2) X ly mods h
    · exact add_inv_total conn (fuel + 1) X ly mods h
    · exact add_req_total conn fuel X ly mods h
  obtain ⟨⟨ret, mods1⟩, hr⟩ := htot
  obtain ⟨lg, hl⟩ := add_log_of_result hr
  obtain ⟨hg, hb, hle⟩ := add_log_step conn (fuel + 3) X ly t mods ret mods1 lg ht h hl
  refine ⟨ret, mods1, lg, hr, hl, ?_, ?_, hg.typed, hg.mono, hb, ?_⟩
  · intro hge
    rcases add_log_unfold conn (fuel + 2) X ly t mods h ht with ⟨_, heq⟩ | ⟨hlt, _⟩
    · rw [heq] at hl
      simp only [Option.some.injEq, Prod.mk.injEq] at hl
      exact ⟨hl.1.symm, hl.2.1.symm, hl.2.2.symm⟩
    · omega
  · intro hlt
    refine ⟨le_antisymm ?_ hle, ?_⟩
    · exact le_trans (hg.bound X.off) (max_le (Nat.le_of_lt hlt) (le_refl _))
    · rcases add_log_unfold conn (fuel + 2) X ly t mods h ht with ⟨hge, _⟩ | ⟨_, ci, m1, heq, _⟩
      · omega
      · rw [heq] at hl
        cases hc : sr_modinfo_add_closure_log (sr_modinfo_add_mod_with_deps_log conn (fuel + 2))
            conn X (sr_modinfo_state_of mods X.off) ci m1 with
        | none => simp [hc] at hl
        | some r =>
          simp only [hc, Option.map_some', Option.some.injEq, Prod.mk.injEq] at hl
          obtain ⟨_, _, rfl⟩ := hl
          rw [calls_on_cons, if_pos rfl]
          omega
  · intro o
    have := hb o
    have := type_rank_le_three (state_of_typed hg.typed o)
    omega

/-- Witness of C30: the module `c` of an index with a self-reference and a cycle is added
as REQ to the empty vector with a bound of three on the depth; the call and the
two calls on `e` pass the check, three calls on `c` return at it. -/
theorem add_mod_with_deps_terminates_witness :
    sr_modinfo_add_mod_with_deps_log ex_conn_cyclic 3 ex_mod_c 6 MOD_INFO_REQ []
      = some (SR_ERR_OK,
          [{ shm_mod := 600, state := MOD_INFO_REQ, ly_mod := 6 },
           { shm_mod := 700, state := MOD_INFO_INV_DEP, ly_mod := 7 }],
          [(600, MOD_INFO_REQ), (700, MOD_INFO_DEP), (700, MOD_INFO_INV_DEP)]) ∧
    ∃ ret mods1 lg,
      sr_modinfo_add_mod_with_deps ex_conn_cyclic 3 ex_mod_c 6 MOD_INFO_REQ []
        = some (ret, mods1) ∧
      sr_modinfo_add_mod_with_deps_log ex_conn_cyclic 3 ex_mod_c 6 MOD_INFO_REQ []
        = some (ret, mods1, lg) ∧
      (MOD_INFO_REQ ≤ sr_modinfo_state_of [] ex_mod_c.off →
        ret = SR_ERR_OK ∧ mods1 = [] ∧ lg = []) ∧
      (sr_modinfo_state_of [] ex_mod_c.off < MOD_INFO_REQ →
        sr_modinfo_state_of mods1 ex_mod_c.off = MOD_INFO_REQ ∧ calls_on ex_mod_c.off lg ≠ 0) ∧
      ModsTyped mods1 ∧
      (∀ o, sr_modinfo_state_of [] o ≤ sr_modinfo_state_of mods1 o) ∧
      (∀ o, calls_on o lg + type_rank (sr_modinfo_state_of [] o)
        ≤ type_rank (sr_modinfo_state_of mods1 o)) ∧
      (∀ o, calls_on o lg ≤ 3) :=
  ⟨by decide,
    add_mod_with_deps_terminates ex_conn_cyclic 0 ex_mod_c 6 MOD_INFO_REQ []
      (Or.inr (Or.inr rfl)) typed_nil⟩

/-! ## Every entry of the vector has a reason -/

theorem state_req_of_le {mods : List sr_mod_info_mod_s} (h : ModsTyped mods) {o : Nat}
    (hle : MOD_INFO_REQ ≤ sr_modinfo_state_of mods o) :
    sr_modinfo_state_of mods o = MOD_INFO_REQ := by
  rcases state_of_typed h o with h0 | h0 | h0 | h0
  · rw [h0] at hle; exact absurd hle (by decide)
  · rw [h0] at hle; exact absurd hle (by decide)
  · rw [h0] at hle; exact absurd hle (by decide)
  · exact h0

/-- A step that lowers no type keeps the reasons of the entries whose type it does not
change. -/
theorem just_step {conn : sr_conn_ctx_t} {P : sr_mod_t → Prop} {t : Nat}
    {mods mods1 : List sr_mod_info_mod_s} (hj : Justified conn P mods) (hg : GStep t mods mods1)
    (hnew : ∀ o, sr_modinfo_state_of mods1 o ≠ sr_modinfo_state_of mods o →
      JustAt conn P mods1 o) :
    Justified conn P mods1 := by
  intro o hpos
  by_cases hsame : sr_modinfo_state_of mods1 o = sr_modinfo_state_of mods o
  · rw [hsame] at hpos
    obtain ⟨M, hM, hoff, h1, h2, h3⟩ := hj o hpos
    refine ⟨M, hM, hoff, ?_, ?_, ?_⟩
    · intro hs; exact h1 (hsame ▸ hs)
    · intro hs
      obtain ⟨R, hR, hRs, hd⟩ := h2 (hsame ▸ hs)
      exact ⟨R, hR, state_req_of_le hg.typed (hRs ▸ hg.mono R.off), hd⟩
    · intro hs
      obtain ⟨S, hS, hSs, hd⟩ := h3 (hsame ▸ hs)
      exact ⟨S, hS, le_trans hSs (hg.mono S.off), hd⟩
  · exact hnew o hsame

/-- A step that lowers no type keeps the reason of a call. -/
theorem call_justified_step {conn : sr_conn_ctx_t} {P : sr_mod_t → Prop} {t t1 : Nat}
    {mods mods1 : List sr_mod_info_mod_s} {X : sr_mod_t}
    (hc : CallJustified conn P mods X t1) (hg : GStep t mods mods1) :
    CallJustified conn P mods1 X t1 := by
  obtain ⟨hX, h1, h2, h3⟩ := hc
  refine ⟨hX, h1, ?_, ?_⟩
  · intro ht
    obtain ⟨R, hR, hRs, hd⟩ := h2 ht
    exact ⟨R, hR, state_req_of_le hg.typed (hRs ▸ hg.mono R.off), hd⟩
  · intro ht
    obtain ⟨S, hS, hSs, hd⟩ := h3 ht
    exact ⟨S, hS, le_trans hSs (hg.mono S.off), hd⟩

theorem add_deps_just
    (call : sr_mod_t → Nat → Nat → List sr_mod_info_mod_s →
      Option (sr_error_t × List sr_mod_info_mod_s))
    (conn : sr_conn_ctx_t) (P : sr_mod_t → Prop) (X : sr_mod_t) (hX : X ∈ conn.shm)
    (hcall : ∀ T ly mods ret mods1, ModsTyped mods →
      call T ly MOD_INFO_DEP mods = some (ret, mods1) →
      GStep MOD_INFO_DEP mods mods1 ∧
        (Justified conn P mods → CallJustified conn P mods T MOD_INFO_DEP →
          Justified conn P mods1))
    (deps : List sr_mod_dep_t) :
    (∀ d ∈ deps, d ∈ X.deps) → ∀ mods ret mods1, ModsTyped mods → Justified conn P mods →
      MOD_INFO_INV_DEP ≤ sr_modinfo_state_of mods X.off →
      sr_modinfo_add_deps call conn deps mods = some (ret, mods1) →
      GStep MOD_INFO_DEP mods mods1 ∧ Justified conn P mods1 := by
  induction deps with
  | nil =>
    intro _ mods ret mods1 h hj _ hr
    simp only [sr_modinfo_add_deps, Option.some.injEq, Prod.mk.injEq] at hr
    obtain ⟨_, rfl⟩ := hr
    exact ⟨gstep_refl h, hj⟩
  | cons d rest ih =>
    intro hsub mods ret mods1 h hj hXs hr
    have hsub1 : ∀ d1 ∈ rest, d1 ∈ X.deps := fun d1 h1 => hsub d1 (List.mem_cons_of_mem _ h1)
    simp only [sr_modinfo_add_deps] at hr
    by_cases hd : d.type = SR_DEP_INSTID
    · simp only [hd, if_true] at hr
      exact ih hsub1 mods ret mods1 h hj hXs hr
    · simp only [hd, if_false] at hr
      cases hfm : sr_shmmain_find_module conn.shm d.module with
      | none =>
        simp only [hfm, Option.some.injEq, Prod.mk.injEq] at hr
        obtain ⟨_, rfl⟩ := hr
        exact ⟨gstep_refl h, hj⟩
      | some T =>
        simp only [hfm] at hr
        cases hly : ly_ctx_get_module conn.ly_ctx T.name with
        | none =>
          simp only [hly, Option.some.injEq, Prod.mk.injEq] at hr
          obtain ⟨_, rfl⟩ := hr
          exact ⟨gstep_refl h, hj⟩
        | some ly =>
          simp only [hly] at hr
          cases hc : call T ly MOD_INFO_DEP mods with
          | none => simp [hc] at hr
          | some r =>
            obtain ⟨ret1, m1⟩ := r
            obtain ⟨hg, hjn⟩ := hcall T ly mods ret1 m1 h hc
            have hcj : CallJustified conn P mods T MOD_INFO_DEP :=
              ⟨find_module_mem hfm, fun ht => absurd ht (by decide),
                fun ht => absurd ht (by decide),
                fun _ => ⟨X, hX, hXs, d, hsub d (List.mem_cons_self _ _), hd, hfm⟩⟩
            have hj1 := hjn hj hcj
            simp only [hc] at hr
            by_cases hret : ret1 = SR_ERR_OK
            · simp only [hret, ne_eq, not_true_eq_false, if_false] at hr
              obtain ⟨hg2, hj2⟩ := ih hsub1 m1 ret mods1 hg.typed hj1
                (le_trans hXs (hg.mono X.off)) hr
              exact ⟨gstep_trans hg hg2, hj2⟩
            · simp only [hret, ne_eq, not_false_eq_true, if_true, Option.some.injEq,
                Prod.mk.injEq] at hr
              obtain ⟨_, rfl⟩ := hr
              exact ⟨hg, hj1⟩

theorem add_inv_deps_mod_just
    (call : sr_mod_t → Nat → Nat → List sr_mod_info_mod_s →
      Option (sr_error_t × List sr_mod_info_mod_s))
    (conn : sr_conn_ctx_t) (P : sr_mod_t → Prop) (X D : sr_mod_t) (hX : X ∈ conn.shm)
    (hD : D ∈ conn.shm)
    (hcall : ∀ T ly mods ret mods1, ModsTyped mods →
      call T ly MOD_INFO_INV_DEP mods = some (ret, mods1) →
      GStep MOD_INFO_INV_DEP mods mods1 ∧
        (Justified conn P mods → CallJustified conn P mods T MOD_INFO_INV_DEP →
          Justified conn P mods1))
    (deps : List sr_mod_dep_t) :
    (∀ d ∈ deps, d ∈ D.deps) → ∀ mods ret mods1, ModsTyped mods → Justified conn P mods →
      sr_modinfo_state_of mods X.off = MOD_INFO_REQ →
      sr_modinfo_add_inv_deps_mod call conn X D deps mods = some (ret, mods1) →
      GStep MOD_INFO_INV_DEP mods mods1 ∧ Justified conn P mods1 := by
  induction deps with
  | nil =>
    intro _ mods ret mods1 h hj _ hr
    simp only [sr_modinfo_add_inv_deps_mod, Option.some.injEq, Prod.mk.injEq] at hr
    obtain ⟨_, rfl⟩ := hr
    exact ⟨gstep_refl h, hj⟩
  | cons d rest ih =>
    intro hsub mods ret mods1 h hj hXs hr
    have hsub1 : ∀ d1 ∈ rest, d1 ∈ D.deps := fun d1 h1 => hsub d1 (List.mem_cons_of_mem _ h1)
    simp only [sr_modinfo_add_inv_deps_mod] at hr
    by_cases hd : d.module = X.name
    · simp only [hd, if_true] at hr
      cases hly : ly_ctx_get_module conn.ly_ctx D.name with
      | none =>
        simp only [hly, Option.some.injEq, Prod.mk.injEq] at hr
        obtain ⟨_, rfl⟩ := hr
        exact ⟨gstep_refl h, hj⟩
      | some ly =>
        simp only [hly] at hr
        cases hc : call D ly MOD_INFO_INV_DEP mods with
        | none => simp [hc] at hr
        | some r =>
          obtain ⟨ret1, m1⟩ := r
          obtain ⟨hg, hjn⟩ := hcall D ly mods ret1 m1 h hc
          have hcj : CallJustified conn P mods D MOD_INFO_INV_DEP :=
            ⟨hD, fun ht => absurd ht (by decide),
              fun _ => ⟨X, hX, hXs, d, hsub d (List.mem_cons_self _ _), hd⟩,
              fun ht => absurd ht (by decide)⟩
          have hj1 := hjn hj hcj
          simp only [hc] at hr
          by_cases hret : ret1 = SR_ERR_OK
          · simp only [hret, ne_eq, not_true_eq_false, if_false] at hr
            obtain ⟨hg2, hj2⟩ := ih hsub1 m1 ret mods1 hg.typed hj1
              (state_req_of_le hg.typed (hXs ▸ hg.mono X.off)) hr
            exact ⟨gstep_trans hg hg2, hj2⟩
          · simp only [hret, ne_eq, not_false_eq_true, if_true, Option.some.injEq,
              Prod.mk.injEq] at hr
            obtain ⟨_, rfl⟩ := hr
            exact ⟨hg, hj1⟩
    · simp only [hd, if_false] at hr
      exact ih hsub1 mods ret mods1 h hj hXs hr

theorem add_inv_deps_just
    (call : sr_mod_t → Nat → Nat → List sr_mod_info_mod_s →
      Option (sr_error_t × List sr_mod_info_mod_s))
    (conn : sr_conn_ctx_t) (P : sr_mod_t → Prop) (X : sr_mod_t) (hX : X ∈ conn.shm)
    (hcall : ∀ T ly mods ret mods1, ModsTyped mods →
      call T ly MOD_INFO_INV_DEP mods = some (ret, mods1) →
      GStep MOD_INFO_INV_DEP mods mods1 ∧
        (Justified conn P mods → CallJustified conn P mods T MOD_INFO_INV_DEP →
          Justified conn P mods1))
    (l : List sr_mod_t) :
    (∀ D ∈ l, D ∈ conn.shm) → ∀ mods ret mods1, ModsTyped mods → Justified conn P mods →
      sr_modinfo_state_of mods X.off = MOD_INFO_REQ →
      sr_modinfo_add_inv_deps call conn X l mods = some (ret, mods1) →
      GStep MOD_INFO_INV_DEP mods mods1 ∧ Justified conn P mods1 := by
  induction l with
  | nil =>
    intro _ mods ret mods1 h hj _ hr
    simp only [sr_modinfo_add_inv_deps, Option.some.injEq, Prod.mk.injEq] at hr
    obtain ⟨_, rfl⟩ := hr
    exact ⟨gstep_refl h, hj⟩
  | cons D rest ih =>
    intro hsub mods ret mods1 h hj hXs hr
    have hsub1 : ∀ D1 ∈ rest, D1 ∈ conn.shm := fun D1 h1 => hsub D1 (List.mem_cons_of_mem _ h1)
    simp only [sr_modinfo_add_inv_deps] at hr
    cases hc : sr_modinfo_add_inv_deps_mod call conn X D D.deps mods with
    | none => simp [hc] at hr
    | some r =>
      obtain ⟨ret1, m1⟩ := r
      obtain ⟨hg, hj1⟩ := add_inv_deps_mod_just call conn P X D hX
        (hsub D (List.mem_cons_self _ _)) hcall D.deps (fun _ hd => hd) mods ret1 m1 h hj hXs hc
      simp only [hc] at hr
      by_cases hret : ret1 = SR_ERR_OK
      · simp only [hret, ne_eq, not_true_eq_false, if_false] at hr
        obtain ⟨hg2, hj2⟩ := ih hsub1 m1 ret mods1 hg.typed hj1
          (state_req_of_le hg.typed (hXs ▸ hg.mono X.off)) hr
        exact ⟨gstep_trans hg hg2, hj2⟩
      · simp only [hret, ne_eq, not_false_eq_true, if_true, Option.some.injEq,
          Prod.mk.injEq] at hr
        obtain ⟨_, rfl⟩ := hr
        exact ⟨hg, hj1⟩

/-- The statements after the entry was added or raised keep the reasons. -/
theorem add_closure_just
    (call : sr_mod_t → Nat → Nat → List sr_mod_info_mod_s →
      Option (sr_error_t × List sr_mod_info_mod_s))
    (conn : sr_conn_ctx_t) (P : sr_mod_t → Prop) (X : sr_mod_t) (hX : X ∈ conn.shm)
    (prev cur_i : Nat)
    (hcall : ∀ T ly t1 mods ret mods1,
      (t1 = MOD_INFO_DEP ∨ t1 = MOD_INFO_INV_DEP ∨ t1 = MOD_INFO_REQ) → ModsTyped mods →
      call T ly t1 mods = some (ret, mods1) →
      GStep t1 mods mods1 ∧
        (Justified conn P mods → CallJustified conn P mods T t1 → Justified conn P mods1))
    (m1 : List sr_mod_info_mod_s) (hty : ModsTyped m1) (hj : Justified conn P m1)
    (e1 : sr_mod_info_mod_s) (he1 : m1[cur_i]? = some e1) (hk : e1.shm_mod = X.off)
    (ret : sr_error_t) (m3 : List sr_mod_info_mod_s)
    (hr : sr_modinfo_add_closure call conn X prev cur_i m1 = some (ret, m3)) :
    Justified conn P m3 := by
  have hcur : sr_modinfo_state_at m1 cur_i = sr_modinfo_state_of m1 X.off := by
    rw [state_at_eq_state_of hty.1 he1, hk]
  unfold sr_modinfo_add_closure at hr
  rw [hcur] at hr
  by_cases h1 : sr_modinfo_state_of m1 X.off < MOD_INFO_INV_DEP
  · rw [if_pos h1] at hr
    simp only [Option.some.injEq, Prod.mk.injEq] at hr
    obtain ⟨_, rfl⟩ := hr
    exact hj
  · rw [if_neg h1] at hr
    have hdeps : ∀ r, (if prev < MOD_INFO_INV_DEP then sr_modinfo_add_deps call conn X.deps m1
        else some (SR_ERR_OK, m1)) = some r →
        GStep MOD_INFO_DEP m1 r.2 ∧ Justified conn P r.2 := by
      intro r hr1
      obtain ⟨ret1, m2⟩ := r
      by_cases hp : prev < MOD_INFO_INV_DEP
      · rw [if_pos hp] at hr1
        exact add_deps_just call conn P X hX
          (fun T ly mods ret mods1 hm hc => hcall T ly _ mods ret mods1 (Or.inl rfl) hm hc)
          X.deps (fun _ hd => hd) m1 ret1 m2 hty hj (Nat.le_of_not_lt h1) hr1
      · rw [if_neg hp] at hr1
        simp only [Option.some.injEq, Prod.mk.injEq] at hr1
        obtain ⟨_, rfl⟩ := hr1
        exact ⟨gstep_refl hty, hj⟩
    cases hd : (if prev < MOD_INFO_INV_DEP then sr_modinfo_add_deps call conn X.deps m1
        else some (SR_ERR_OK, m1)) with
    | none => simp [hd] at hr
    | some r =>
      obtain ⟨hg, hj2⟩ := hdeps r hd
      obtain ⟨ret1, m2⟩ := r
      simp only [hd] at hr
      dsimp only at hg hj2
      by_cases hret : ret1 = SR_ERR_OK
      · simp only [hret, ne_eq, not_true_eq_false, if_false] at hr
        have hcur2 : sr_modinfo_state_at m2 cur_i = sr_modinfo_state_of m2 X.off := by
          rw [state_at_of_ext hg.ext hg.typed he1, hk]
        rw [hcur2] at hr
        by_cases h2 : sr_modinfo_state_of m2 X.off < MOD_INFO_REQ
        · rw [if_pos h2] at hr
          simp only [Option.some.injEq, Prod.mk.injEq] at hr
          obtain ⟨_, rfl⟩ := hr
          exact hj2
        · rw [if_neg h2] at hr
          by_cases h3 : prev < MOD_INFO_REQ
          · rw [if_pos h3] at hr
            exact (add_inv_deps_just call conn P X hX
              (fun T ly mods ret mods1 hm hc =>
                hcall T ly _ mods ret mods1 (Or.inr (Or.inl rfl)) hm hc)
              conn.shm (fun _ hD => hD) m2 ret m3 hg.typed hj2
              (state_req_of_le hg.typed (Nat.le_of_not_lt h2)) hr).2
          · rw [if_neg h3] at hr
            simp only [Option.some.injEq, Prod.mk.injEq] at hr
            obtain ⟨_, rfl⟩ := hr
            exact hj2
      · simp only [hret, ne_eq, not_false_eq_true, if_true, Option.some.injEq,
          Prod.mk.injEq] at hr
        obtain ⟨_, rfl⟩ := hr
        exact hj2

/-- A call of `sr_modinfo_add_mod_with_deps` that has a reason keeps the reasons of the
entries, whatever it returns. -/
theorem add_just (conn : sr_conn_ctx_t) (P : sr_mod_t → Prop) (fuel : Nat) :
    ∀ (X : sr_mod_t) (ly t : Nat) (mods : List sr_mod_info_mod_s) (ret : sr_error_t)
      (mods1 : List sr_mod_info_mod_s),
      (t = MOD_INFO_DEP ∨ t = MOD_INFO_INV_DEP ∨ t = MOD_INFO_REQ) → ModsTyped mods →
      Justified conn P mods → CallJustified conn P mods X t →
      sr_modinfo_add_mod_with_deps conn fuel X ly t mods = some (ret, mods1) →
      Justified conn P mods1 := by
  induction fuel with
  | zero =>
    intro X ly t mods ret mods1 _ _ _ _ hr
    simp [sr_modinfo_add_mod_with_deps] at hr
  | succ fuel ih =>
    intro X ly t mods ret mods1 ht h hj hcj hr
    rcases add_unfold conn fuel X ly t mods h ht with
      ⟨_, heq⟩ | ⟨hlt, cur_i, m1, heq, hty, hext, hst, e1, he1, hk1⟩
    · rw [heq] at hr
      simp only [Option.some.injEq, Prod.mk.injEq] at hr
      obtain ⟨_, rfl⟩ := hr
      exact hj
    · rw [heq] at hr
      have hX1 : sr_modinfo_state_of m1 X.off = t := by rw [hst]; simp
      have hother : ∀ o, o ≠ X.off → sr_modinfo_state_of m1 o = sr_modinfo_state_of mods o := by
        intro o ho; rw [hst]; simp [ho]
      have hg0 : GStep t mods m1 := by
        refine ⟨hty, hext, fun o => ?_, fun o => ?_⟩
        · by_cases ho : o = X.off
          · subst ho; rw [hX1]; exact Nat.le_of_lt hlt
          · rw [hother o ho]
        · by_cases ho : o = X.off
          · subst ho; rw [hX1]; exact le_max_right _ _
          · rw [hother o ho]; exact le_max_left _ _
      obtain ⟨hX, hc1, hc2, hc3⟩ := hcj
      have hj1 : Justified conn P m1 := by
        apply just_step hj hg0
        intro o hne
        have ho : o = X.off := by
          by_contra hc
          exact hne (hother o hc)
        subst ho
        refine ⟨X, hX, rfl, ?_, ?_, ?_⟩
        · intro hs; exact hc1 (hX1.symm.trans hs)
        · intro hs
          have ht2 : t = MOD_INFO_INV_DEP := hX1.symm.trans hs
          obtain ⟨R, hR, hRs, hd⟩ := hc2 ht2
          refine ⟨R, hR, ?_, hd⟩
          rw [hother R.off ?_, hRs]
          intro hc
          rw [hc] at hRs
          rw [hRs, ht2] at hlt
          exact absurd hlt (by decide)
        · intro hs
          have ht2 : t = MOD_INFO_DEP := hX1.symm.trans hs
          obtain ⟨S, hS, hSs, hd⟩ := hc3 ht2
          refine ⟨S, hS, ?_, hd⟩
          rw [hother S.off ?_]
          · exact hSs
          intro hc
          rw [hc] at hSs
          rw [ht2] at hlt
          have : MOD_INFO_INV_DEP < MOD_INFO_DEP := lt_of_le_of_lt hSs hlt
          exact absurd this (by decide)
      exact add_closure_just _ conn P X hX _ cur_i
        (fun T ly t1 mods ret mods1 ht1 hm hc =>
          ⟨(add_gstep conn fuel T ly t1 mods mods1 ret ht1 hm hc).1,
            fun hjm hcjm => ih T ly t1 mods ret mods1 ht1 hm hjm hcjm hc⟩)
        m1 hty hj1 e1 he1 hk1 ret mods1 hr

/-- The loop over the root nodes of the edit keeps the reasons and leaves the module of
every root node it has seen with the type REQ. -/
theorem collect_edit_roots_just (conn : sr_conn_ctx_t) (fuel : Nat) (edit : List lyd_node)
    (rest : List lyd_node) :
    (∀ r ∈ rest, r ∈ edit) → ∀ (mod : Option Nat) (mods mods1 : List sr_mod_info_mod_s),
      ModsTyped mods → Justified conn (fun M => M ∈ edit_modules conn edit) mods →
      (∀ name M, mod = some name → sr_shmmain_find_module conn.shm name = some M →
        sr_modinfo_state_of mods M.off = MOD_INFO_REQ) →
      sr_shmmod_collect_edit_roots fuel conn rest mod mods = some (SR_ERR_OK, mods1) →
      ModsTyped mods1 ∧ Justified conn (fun M => M ∈ edit_modules conn edit) mods1 ∧
      (∀ o, sr_modinfo_state_of mods o ≤ sr_modinfo_state_of mods1 o) ∧
      ∀ r ∈ rest, ∀ M, sr_shmmain_find_module conn.shm r.module = some M →
        sr_modinfo_state_of mods1 M.off = MOD_INFO_REQ := by
  induction rest with
  | nil =>
    intro _ mod mods mods1 h hj _ hr
    simp only [sr_shmmod_collect_edit_roots, Option.some.injEq, Prod.mk.injEq, true_and] at hr
    subst hr
    exact ⟨h, hj, fun _ => le_refl _, by simp⟩
  | cons root rest ih =>
    intro hsub mod mods mods1 h hj hmod hr
    have hsub1 : ∀ r ∈ rest, r ∈ edit := fun r hr1 => hsub r (List.mem_cons_of_mem _ hr1)
    simp only [sr_shmmod_collect_edit_roots] at hr
    by_cases hsame : some root.module = mod
    · simp only [hsame, if_true] at hr
      obtain ⟨i1, i2, i3, i4⟩ := ih hsub1 mod mods mods1 h hj hmod hr
      refine ⟨i1, i2, i3, ?_⟩
      intro r hr1 M hM
      rcases List.mem_cons.mp hr1 with rfl | hmem
      · have := hmod r.module M hsame.symm hM
        exact state_req_of_le i1 (this ▸ i3 M.off)
      · exact i4 r hmem M hM
    · simp only [hsame, if_false] at hr
      cases hfm : sr_shmmain_find_module conn.shm root.module with
      | none => simp [hfm] at hr
      | some M =>
        simp only [hfm] at hr
        cases hc : sr_modinfo_add_mod_with_deps conn fuel M root.module MOD_INFO_REQ mods with
        | none => simp [hc] at hr
        | some r =>
          obtain ⟨ret, m1⟩ := r
          simp only [hc] at hr
          by_cases hret : ret = SR_ERR_OK
          · subst hret
            simp only [ne_eq, not_true_eq_false, if_false] at hr
            obtain ⟨hg, hle, _⟩ := add_gstep conn fuel M root.module MOD_INFO_REQ mods m1
              SR_ERR_OK (Or.inr (Or.inr rfl)) h hc
            have hM1 : sr_modinfo_state_of m1 M.off = MOD_INFO_REQ := state_req_of_le hg.typed hle
            have hPM : M ∈ edit_modules conn edit :=
              List.mem_filterMap.mpr ⟨root, hsub root (List.mem_cons_self _ _), hfm⟩
            have hj1 := add_just conn (fun M => M ∈ edit_modules conn edit) fuel M root.module
              MOD_INFO_REQ mods SR_ERR_OK m1 (Or.inr (Or.inr rfl)) h hj
              ⟨find_module_mem hfm, fun _ => hPM, fun ht => absurd ht (by decide),
                fun ht => absurd ht (by decide)⟩ hc
            obtain ⟨i1, i2, i3, i4⟩ := ih hsub1 (some root.module) m1 mods1 hg.typed hj1
              (by
                intro name M1 hn hM1f
                simp only [Option.some.injEq] at hn
                subst hn
                rw [hfm] at hM1f
                simp only [Option.some.injEq] at hM1f
                subst hM1f
                exact hM1) hr
            refine ⟨i1, i2, fun o => le_trans (hg.mono o) (i3 o), ?_⟩
            intro r hr1 M2 hM2
            rcases List.mem_cons.mp hr1 with rfl | hmem
            · rw [hfm] at hM2
              simp only [Option.some.injEq] at hM2
              subst hM2
              exact state_req_of_le i1 (hM1 ▸ i3 M.off)
            · exact i4 r hmem M2 hM2
          · simp [hret] at hr

/-- The facts about the vector that `sr_shmmod_collect_edit` has built before it sorts it. -/
theorem collect_edit_just {fuel : Nat} {conn : sr_conn_ctx_t} {edit : List lyd_node} {ds : Nat}
    {mod_info mod_info1 : sr_mod_info_s} (hd : ShmDistinct conn.shm) (h0 : mod_info.mods = [])
    (h : sr_shmmod_collect_edit fuel conn edit ds mod_info = some (SR_ERR_OK, mod_info1)) :
    ∃ mods1, mod_info1.mods = qsort_mods mods1 ∧ ModsTyped mods1 ∧
      DepsClosed conn mods1 ∧ InvClosed conn mods1 ∧
      Justified conn (fun M => M ∈ edit_modules conn edit) mods1 ∧
      ∀ M ∈ edit_modules conn edit, sr_modinfo_state_of mods1 M.off = MOD_INFO_REQ := by
  obtain ⟨mods1, hroots, heq⟩ := collect_edit_unfold h
  rw [h0] at hroots
  have hnil : ∀ o, sr_modinfo_state_of [] o = 0 := fun o => rfl
  obtain ⟨hty, hKJ⟩ := collect_edit_roots_spec conn fuel edit none [] mods1 typed_nil hroots
  obtain ⟨hK, hJ⟩ := hKJ hd
    (by
      intro M _ hM
      rw [hnil] at hM
      exact absurd hM (by decide))
    (by
      intro M _ hM
      rw [hnil] at hM
      exact absurd hM.symm (by decide))
  obtain ⟨_, hj, _, hreq⟩ := collect_edit_roots_just conn fuel edit edit (fun _ hr => hr) none []
    mods1 typed_nil
    (by
      intro o ho
      rw [hnil] at ho
      exact absurd ho (lt_irrefl 0))
    (by
      intro name M hn
      exact absurd hn (by simp)) hroots
  refine ⟨mods1, by rw [heq], hty, hK, hJ, hj, ?_⟩
  intro M hM
  obtain ⟨root, hr, hf⟩ := List.mem_filterMap.mp hM
  exact hreq root hr M hf

theorem refers_to_iff (D M : sr_mod_t) :
    refers_to D M = true ↔ ∃ d ∈ D.deps, d.module = M.name := by
  simp [refers_to, List.any_eq_true]

theorem has_schema_dep_iff (conn : sr_conn_ctx_t) (S T : sr_mod_t) :
    has_schema_dep conn S T = true ↔ schema_dep conn S T := by
  simp [has_schema_dep, schema_dep, List.any_eq_true]

theorem collected_high_iff (conn : sr_conn_ctx_t) (edit : List lyd_node) (S : sr_mod_t) :
    collected_high conn edit S = true ↔
      (S ∈ edit_modules conn edit ∨ ∃ R ∈ edit_modules conn edit, refers_to S R = true) := by
  simp [collected_high, List.any_eq_true]

theorem edit_modules_mem {conn : sr_conn_ctx_t} {edit : List lyd_node} {M : sr_mod_t}
    (h : M ∈ edit_modules conn edit) : M ∈ conn.shm := by
  obtain ⟨root, _, hf⟩ := List.mem_filterMap.mp h
  exact find_module_mem hf

/-- The type of every module of the index in a vector that is closed under the
dependencies and the inverse dependencies and in which every entry has a reason. -/
theorem state_eq_expected_type (conn : sr_conn_ctx_t) (edit : List lyd_node)
    (mods1 : List sr_mod_info_mod_s) (hd : ShmDistinct conn.shm) (hty : ModsTyped mods1)
    (hK : DepsClosed conn mods1) (hJ : InvClosed conn mods1)
    (hj : Justified conn (fun M => M ∈ edit_modules conn edit) mods1)
    (hreq : ∀ M ∈ edit_modules conn edit, sr_modinfo_state_of mods1 M.off = MOD_INFO_REQ) :
    ∀ M ∈ conn.shm, sr_modinfo_state_of mods1 M.off = expected_type conn edit M := by
  have L1 : ∀ M ∈ conn.shm, sr_modinfo_state_of mods1 M.off = MOD_INFO_REQ →
      M ∈ edit_modules conn edit := by
    intro M hM hs
    obtain ⟨M1, hM1, hoff, h1, _, _⟩ := hj M.off (by rw [hs]; decide)
    have := hd M1 hM1 M hM hoff
    subst this
    exact h1 hs
  have L2 : ∀ M ∈ conn.shm, sr_modinfo_state_of mods1 M.off = MOD_INFO_INV_DEP →
      ∃ R ∈ edit_modules conn edit, refers_to M R = true := by
    intro M hM hs
    obtain ⟨M1, hM1, hoff, _, h2, _⟩ := hj M.off (by rw [hs]; decide)
    have := hd M1 hM1 M hM hoff
    subst this
    obtain ⟨R, hR, hRs, hdep⟩ := h2 hs
    exact ⟨R, L1 R hR hRs, (refers_to_iff _ R).mpr hdep⟩
  have L5 : ∀ M ∈ conn.shm, (∃ R ∈ edit_modules conn edit, refers_to M R = true) →
      MOD_INFO_INV_DEP ≤ sr_modinfo_state_of mods1 M.off := by
    rintro M hM ⟨R, hR, href⟩
    exact hJ R (edit_modules_mem hR) (hreq R hR) M hM ((refers_to_iff M R).mp href)
  have Lhigh : ∀ S ∈ conn.shm, (collected_high conn edit S = true ↔
      MOD_INFO_INV_DEP ≤ sr_modinfo_state_of mods1 S.off) := by
    intro S hS
    rw [collected_high_iff]
    constructor
    · rintro (hP | href)
      · rw [hreq S hP]; decide
      · exact L5 S hS href
    · intro hle
      rcases state_of_typed hty S.off with h0 | h0 | h0 | h0
      · rw [h0] at hle; exact absurd hle (by decide)
      · rw [h0] at hle; exact absurd hle (by decide)
      · exact Or.inr (L2 S hS h0)
      · exact Or.inl (L1 S hS h0)
  have L3 : ∀ M ∈ conn.shm, sr_modinfo_state_of mods1 M.off = MOD_INFO_DEP →
      ∃ S ∈ conn.shm, collected_high conn edit S = true ∧ has_schema_dep conn S M = true := by
    intro M hM hs
    obtain ⟨M1, hM1, hoff, _, _, h3⟩ := hj M.off (by rw [hs]; decide)
    have := hd M1 hM1 M hM hoff
    subst this
    obtain ⟨S, hS, hSs, hdep⟩ := h3 hs
    exact ⟨S, hS, (Lhigh S hS).mpr hSs, (has_schema_dep_iff conn S _).mpr hdep⟩
  have L6 : ∀ M, (∃ S ∈ conn.shm, collected_high conn edit S = true ∧
      has_schema_dep conn S M = true) → MOD_INFO_DEP ≤ sr_modinfo_state_of mods1 M.off := by
    rintro M ⟨S, hS, hh, hdep⟩
    obtain ⟨d, hdm, hne, hf⟩ := (has_schema_dep_iff conn S M).mp hdep
    exact hK S hS ((Lhigh S hS).mp hh) d hdm hne M hf
  intro M hM
  unfold expected_type
  by_cases hP : M ∈ edit_modules conn edit
  · rw [if_pos hP]; exact hreq M hP
  · rw [if_neg hP]
    by_cases href : (edit_modules conn edit).any (fun R => refers_to M R) = true
    · rw [if_pos href]
      have hle := L5 M hM (by simpa [List.any_eq_true] using href)
      rcases state_of_typed hty M.off with h0 | h0 | h0 | h0
      · rw [h0] at hle; exact absurd hle (by decide)
      · rw [h0] at hle; exact absurd hle (by decide)
      · exact h0
      · exact absurd (L1 M hM h0) hP
    · rw [if_neg href]
      have href1 : ¬ ∃ R ∈ edit_modules conn edit, refers_to M R = true := by
        simpa [List.any_eq_true] using href
      by_cases hdep : conn.shm.any
          (fun S => collected_high conn edit S && has_schema_dep conn S M) = true
      · rw [if_pos hdep]
        have hle := L6 M (by simpa [List.any_eq_true] using hdep)
        rcases state_of_typed hty M.off with h0 | h0 | h0 | h0
        · rw [h0] at hle; exact absurd hle (by decide)
        · exact h0
        · exact absurd (L2 M hM h0) href1
        · exact absurd (L1 M hM h0) hP
      · rw [if_neg hdep]
        have hdep1 : ¬ ∃ S ∈ conn.shm, collected_high conn edit S = true ∧
            has_schema_dep conn S M = true := by
          simpa [List.any_eq_true] using hdep
        rcases state_of_typed hty M.off with h0 | h0 | h0 | h0
        · exact h0
        · exact absurd (L3 M hM h0) hdep1
        · exact absurd (L2 M hM h0) href1
        · exact absurd (L1 M hM h0) hP

/-- C21: when `sr_shmmod_collect_edit` returns SR_ERR_OK on a fresh mod-info (over an index whose
records lie at distinct offsets), with P the modules of the root nodes of the edit, the
mod-info holds exactly one entry for every module of the index to which the property
gives a type, in that type and with no other state bit: REQ for a module of P, INV_DEP
for a module outside P that has an edge of any tag to a module of P, DEP for a
remaining module that is the target of a non-instance-identifier edge of a module that
is REQ or INV_DEP; every entry stands for such a module, and a module of the index to
which the property gives no type has no entry. -/
theorem collect_edit_exact_content (fuel : Nat) (conn : sr_conn_ctx_t) (edit : List lyd_node)
    (ds : Nat) (mod_info mod_info1 : sr_mod_info_s) (hd : ShmDistinct conn.shm)
    (h0 : mod_info.mods = [])
    (h : sr_shmmod_collect_edit fuel conn edit ds mod_info = some (SR_ERR_OK, mod_info1)) :
    (∀ e ∈ mod_info1.mods, ∃ M ∈ conn.shm, M.off = e.shm_mod ∧
      e.state = expected_type conn edit M ∧ expected_type conn edit M ≠ 0) ∧
    (∀ M ∈ conn.shm, expected_type conn edit M ≠ 0 →
      ∃ e ∈ mod_info1.mods, e.shm_mod = M.off ∧ e.state = expected_type conn edit M) ∧
    (∀ M ∈ conn.shm, expected_type conn edit M = 0 →
      ¬ ∃ e ∈ mod_info1.mods, e.shm_mod = M.off) ∧
    (mod_info1.mods.map (fun e => e.shm_mod)).Nodup := by
  obtain ⟨mods1, heq, hty, hK, hJ, hj, hreq⟩ := collect_edit_just hd h0 h
  have hkey := state_eq_expected_type conn edit mods1 hd hty hK hJ hj hreq
  have hperm := qsort_mods_perm mods1
  rw [heq]
  have hentry : ∀ e ∈ qsort_mods mods1, ∃ M ∈ conn.shm, M.off = e.shm_mod ∧
      e.state = expected_type conn edit M ∧ expected_type conn edit M ≠ 0 := by
    intro e he
    have he1 : e ∈ mods1 := hperm.mem_iff.mp he
    have hs : sr_modinfo_state_of mods1 e.shm_mod = e.state := state_of_mem hty.1 he1
    have hpos : 0 < e.state := by
      rcases hty.2 e he1 with h1 | h1 | h1 <;> rw [h1] <;> decide
    obtain ⟨M, hM, hoff, _⟩ := hj e.shm_mod (by rw [hs]; exact hpos)
    have hk := hkey M hM
    rw [hoff, hs] at hk
    exact ⟨M, hM, hoff, hk, by rw [← hk]; exact Nat.pos_iff_ne_zero.mp hpos⟩
  refine ⟨hentry, ?_, ?_, ((qsort_mods_perm mods1).map _).nodup_iff.mpr hty.1⟩
  · intro M hM hne
    have hk := hkey M hM
    obtain ⟨e, he, hoff, hs⟩ := state_of_pos (by rw [hk]; exact Nat.pos_of_ne_zero hne)
    exact ⟨e, hperm.mem_iff.mpr he, hoff, by rw [hs, hk]⟩
  · rintro M hM hz ⟨e, he, hoff⟩
    obtain ⟨M1, hM1, hoff1, _, hne⟩ := hentry e he
    have := hd M1 hM1 M hM (hoff1.trans hoff)
    subst this
    exact hne hz

/-- Witness of C21 on the example index: the edit names the module `m`; `m` is REQ, `r`, which
has an instance-identifier edge to `m`, is INV_DEP, `a`, the target of the schema reference
of `m`, is DEP, and `b`, which only the DEP module `a` refers to, gets no type and has no
entry. -/
theorem collect_edit_exact_content_witness :
    ex_conn.shm.map (expected_type ex_conn ex_edit)
      = [ MOD_INFO_REQ, MOD_INFO_DEP, 0, MOD_INFO_INV_DEP] ∧
    ((∀ e ∈ ex_collected.mods, ∃ M ∈ ex_conn.shm, M.off = e.shm_mod ∧
      e.state = expected_type ex_conn ex_edit M ∧ expected_type ex_conn ex_edit M ≠ 0) ∧
    (∀ M ∈ ex_conn.shm, expected_type ex_conn ex_edit M ≠ 0 →
      ∃ e ∈ ex_collected.mods, e.shm_mod = M.off ∧ e.state = expected_type ex_conn ex_edit M) ∧
    (∀ M ∈ ex_conn.shm, expected_type ex_conn ex_edit M = 0 →
      ¬ ∃ e ∈ ex_collected.mods, e.shm_mod = M.off) ∧
    (ex_collected.mods.map (fun e => e.shm_mod)).Nodup) :=
  ⟨by decide,
    collect_edit_exact_content 3 ex_conn ex_edit 1 ex_mod_info ex_collected
      (by unfold ShmDistinct; decide) rfl (by decide)⟩

end Sysrepo
